import Mathlib

/-!
Receive-video session of the Media Transport Library.

A shallow embedding of `lib/src/st2110/st_rx_video_session.c`: the frame pool,
the reassembly slots, the slice tracker, the RFC 4175 frame handler, the
RFC 9134 (ST 2110-22) handler and the DMA completion drain, followed by the
theorems that settle the claims made about them.

Conventions of the embedding.

* Pointers into the session's arrays are indices: `slot->frame` is
  `Option Nat` (an index into `st20_frames`), `s->dma_slot` is `Option Nat`.
  The arrays `s->slots` and `s->st20_frames` are total functions on `Nat`.
* Machine integers are `Nat`/`Int`; where the source fixes a width
  (`uint16_t` header fields, the `uint32_t` offset, the `int` packet index)
  the reduction is written out.  Counters whose declaration lives in headers
  that are not part of the sources at hand are unbounded naturals.
* Calls into the application are recorded in `events` (newest first); the
  value an application callback returns is a function stored in the session.
* Real-time fields (`timestamp_first_pkt`, `timestamp_last_pkt`, `fpt`), the
  floating-point miss-packet estimate and the EBU accumulators are left out.
* An integer division by zero or a dereference of a null `slot->frame`
  is the outcome `rv_result.fault`.
-/

namespace RxVideo

set_option maxRecDepth 100000

/-! ## Constants -/

/-- Value of `EINVAL`. -/
def EINVAL_errno : Int := 22

/-- Value of the I/O error code returned (negated) by the handlers. -/
def EIO_errno : Int := 5

/-- Width of `uint16_t`. -/
def U16 : Nat := 65536

/-- Width of `uint32_t`. -/
def U32 : Nat := 4294967296

/-- Width of `size_t` and `uint64_t`. -/
def U64 : Nat := 18446744073709551616

/-- Bit `0x8000`: `ST20_LEN_USER_META` in `row_length`, `ST20_SECOND_FIELD` in
`row_number`, `ST20_SRD_OFFSET_CONTINUATION` in `row_offset`. -/
def BIT15 : Nat := 32768

/-- Value of `MTL_BAD_IOVA`, `((mtl_iova_t)-1)`. -/
def MTL_BAD_IOVA : Nat := U64 - 1

/-- Conversion of an unsigned 32-bit value to `int`. -/
def to_int32 (n : Nat) : Int :=
  if n % U32 < 2147483648 then ((n % U32 : Nat) : Int) else ((n % U32 : Nat) : Int) - 4294967296

/-- Conversion of an `int` to `uint32_t`. -/
def to_uint32 (i : Int) : Nat := (i % 4294967296).toNat

/-- Conversion of an `int` to `uint16_t`. -/
def to_uint16 (i : Int) : Nat := (i % 65536).toNat

/-- Conversion of an `int` to `size_t`. -/
def to_size_t (i : Int) : Nat := (i % 18446744073709551616).toNat

/-! ## Data model -/

/-- Frame status of `enum st_frame_status`. -/
inductive st_frame_status where
  | COMPLETE
  | RECONSTRUCTED
  | CORRUPTED
deriving DecidableEq, Repr

/-- Test `st_is_frame_complete`. -/
def st_is_frame_complete (status : st_frame_status) : Bool :=
  match status with
  | .COMPLETE => true
  | .RECONSTRUCTED => true
  | .CORRUPTED => false

/-- Frame meta handed to `notify_frame_ready` (`struct st20_rx_frame_meta`). -/
structure st20_rx_frame_meta where
  timestamp : Nat
  second_field : Bool
  frame_total_size : Nat
  uframe_total_size : Nat
  frame_recv_size : Nat
  user_meta_size : Nat
  user_meta : Option (List Nat)
  status : st_frame_status
deriving DecidableEq, Repr

/-- Frame meta handed to the ST 2110-22 `notify_frame_ready`
(`struct st22_rx_frame_meta`). -/
structure st22_rx_frame_meta where
  timestamp : Nat
  frame_total_size : Nat
  status : st_frame_status
deriving DecidableEq, Repr

/-- Slice meta handed to `notify_slice_ready`. -/
structure st20_rx_slice_meta where
  timestamp : Nat
  second_field : Bool
  frame_recv_size : Nat
  frame_recv_lines : Nat
deriving DecidableEq, Repr

/-- Pixel-group meta handed to `uframe_pg_callback`. -/
structure st20_rx_uframe_pg_meta where
  payload : List Nat
  row_length : Nat
  row_number : Nat
  row_offset : Nat
  pg_cnt : Nat
  timestamp : Nat
deriving DecidableEq, Repr

/-- One entry of a frame's huge-page table (`struct st_page_info`). -/
structure st_page_info where
  addr : Nat
  iova : Nat
  len : Nat
deriving DecidableEq, Repr

/-- One `rte_memcpy` (or DMA copy) into a frame buffer: destination offset
from `frame->addr` and the bytes written. -/
structure frame_copy where
  dst : Nat
  data : List Nat
  by_dma : Bool
deriving DecidableEq, Repr

/-- A frame of the pool (`struct st_frame_trans`).  The buffer at `addr` is
represented by the list of copies made into it, newest first. -/
structure st_frame_trans where
  idx : Nat
  refcnt : Int
  addr : Nat
  iova : Nat
  page_table : List st_page_info
  user_meta : List Nat
  user_meta_buffer_size : Nat
  user_meta_data_size : Nat
  copies : List frame_copy
deriving DecidableEq, Repr

/-- One contiguous byte range of the slice tracker. -/
structure st_rx_video_slot_slice where
  offset : Nat
  size : Nat
deriving DecidableEq, Repr

/-- Slice tracker of a slot (`struct st_rx_video_slot_slice_info`);
`slices` has `ST_VIDEO_RX_SLICE_NUM` entries, entry 0 is the main slice. -/
structure st_rx_video_slot_slice_info where
  slices : List st_rx_video_slot_slice
  ready_slices : Nat
  extra_slices : Nat
deriving DecidableEq, Repr

/-- A reassembly slot (`struct st_rx_video_slot_impl`). -/
structure st_rx_video_slot_impl where
  idx : Nat
  tmstamp : Nat
  seq_id_base : Nat
  seq_id_base_u32 : Nat
  seq_id_got : Bool
  frame : Option Nat
  frame_bitmap : List Int
  frame_recv_size : Nat
  pkt_lcore_frame_recv_size : Nat
  pkts_received : Nat
  pkts_redundant_received : Nat
  meta : st20_rx_frame_meta
  st22_meta : st22_rx_frame_meta
  second_field : Bool
  slice_info : Option st_rx_video_slot_slice_info
  st22_payload_length : Nat
  st22_box_hdr_length : Nat
deriving DecidableEq, Repr

/-- Modelled from the spec: the DMA lender (`struct mtl_dma_lender_dev`, whose
implementation is not part of the sources at hand).  The spec gives its
contract as `copy`, `borrow_mbuf`, `completed`, `empty` and `full`; the
in-flight descriptors are the borrowed mbufs, each tagged with the
`(offset, len)` the handler stored in it. -/
structure mtl_dma_lender_dev where
  nb_desc : Nat
  borrowed : List (Nat × Nat)
deriving DecidableEq, Repr

/-- Modelled from the spec: `empty(lender)`, true when no descriptor is in
flight. -/
def mt_dma_empty (d : mtl_dma_lender_dev) : Bool := d.borrowed.isEmpty

/-- Modelled from the spec: `full(lender)`, true when every descriptor is
in flight. -/
def mt_dma_full (d : mtl_dma_lender_dev) : Bool := decide (d.nb_desc ≤ d.borrowed.length)

/-- Modelled from the spec: `borrow_mbuf(lender, mbuf)` queues the mbuf until
its copy completes. -/
def mt_dma_borrow_mbuf (d : mtl_dma_lender_dev) (offset len : Nat) : mtl_dma_lender_dev :=
  { d with borrowed := d.borrowed ++ [(offset, len)] }

/-- A call into the application. -/
inductive rx_event where
  | notify_frame_ready (frame : Nat) (m : st20_rx_frame_meta) (dma_inflight : Nat)
  | st22_notify_frame_ready (frame : Nat) (m : st22_rx_frame_meta)
  | notify_slice_ready (frame : Nat) (m : st20_rx_slice_meta)
  | uframe_pg_callback (frame : Nat) (m : st20_rx_uframe_pg_meta)
deriving DecidableEq, Repr

/-- Header-split state of one port (`struct st_rx_video_hdr_split_info`); `frames` and
`cur_frame_addr` are addresses. -/
structure st_rx_video_hdr_split_info where
  mbuf_pool_ready : Bool
  frames : Nat
  frames_size : Nat
  mbufs_per_frame : Nat
  cur_frame_addr : Nat
  cur_frame_mbuf_idx : Nat
deriving DecidableEq, Repr

/-! ## Detector and timing analyser data -/

/-- Session type (`enum st20_type`). -/
inductive st20_type where
  | FRAME_LEVEL
  | RTP_LEVEL
  | SLICE_LEVEL
deriving DecidableEq, Repr

/-- The frame rates the detector can report (`enum st_fps`); `MAX` is `ST_FPS_MAX`, the
value of an undetected rate. -/
inductive st_fps where
  | P59_94
  | P50
  | P29_97
  | P25
  | P60
  | P30
  | MAX
deriving DecidableEq, Repr

/-- Packing mode (`enum st20_packing`); `MAX` is `ST20_PACKING_MAX`. -/
inductive st20_packing where
  | BPM
  | GPM
  | GPM_SL
  | MAX
deriving DecidableEq, Repr

/-- Status of the detector (`enum st20_detect_status`). -/
inductive st20_detect_status where
  | DISABLED
  | DETECTING
  | SUCCESS
  | FAIL
deriving DecidableEq, Repr

/-- What the detector found (`struct st20_detect_meta`). -/
structure st20_detect_meta where
  width : Nat
  height : Nat
  fps : st_fps
  packing : st20_packing
  interlaced : Bool
deriving DecidableEq, Repr

/-- The application's answer to `notify_detected` (`struct st20_detect_reply`). -/
structure st20_detect_reply where
  slice_lines : Nat
  uframe_size : Nat
deriving DecidableEq, Repr

/-- The detector (`struct st_rx_video_detector`): `rtp_tm` and `pkt_num` are the
three-entry arrays filled on the first three marker packets. -/
structure st_rx_video_detector where
  status : st20_detect_status
  bpm : Bool
  single_line : Bool
  frame_num : Nat
  rtp_tm : Nat → Nat
  pkt_num : Nat → Nat
  pkt_per_frame : Int
  meta : st20_detect_meta

/-- The function `s->pkt_handler` points to. -/
inductive rv_pkt_handler where
  | rv_handle_detect_pkt
  | rv_handle_detect_err
  | rv_handle_st22_pkt
  | rv_handle_hdr_split_pkt
  | rv_handle_frame_pkt
  | rv_handle_rtp_pkt
deriving DecidableEq, Repr

/-- Value of `INT_MIN`. -/
def INT_MIN : Int := -2147483648

/-- Value of `INT_MAX`. -/
def INT_MAX : Int := 2147483647

/-- The integer fields of the per-window measurements (`struct st_rx_video_ebu_stat`).
The sums, counts and averages, which only feed the log, and the per-packet
scratch values of `rv_ebu_on_packet` are left out. -/
structure st_rx_video_ebu_stat where
  frame_idx : Nat
  compliant : Bool
  compliant_narrow : Bool
  cinst_max : Int
  cinst_min : Int
  vrx_max : Int
  vrx_min : Int
  fpt_max : Int
  fpt_min : Int
  latency_max : Int
  latency_min : Int
  rtp_offset_max : Int
  rtp_offset_min : Int
  rtp_ts_delta_max : Int
  rtp_ts_delta_min : Int
  prev_rtp_ts : Nat
deriving DecidableEq, Repr

/-- Thresholds of the analyser (`struct st_rx_video_ebu_info`).  `tr_offset` is the
value `rv_ebu_fpt_result` receives, converted to `uint32_t`; `latency_max_ns` and
`rtp_offset_min` stand for the macros `ST_EBU_LATENCY_MAX_NS` and
`ST_EBU_RTP_OFFSET_MIN`, whose header is not part of the sources at hand. -/
structure st_rx_video_ebu_info where
  c_max_narrow_pass : Int
  c_max_wide_pass : Int
  vrx_full_narrow_pass : Int
  vrx_full_wide_pass : Int
  rtp_offset_max_pass : Int
  tr_offset : Nat
  dropped_results : Int
  init : Bool
  latency_max_ns : Int
  rtp_offset_min : Int
deriving DecidableEq, Repr

/-- Verdict counters (`struct st_rx_video_ebu_result`). -/
structure st_rx_video_ebu_result where
  ebu_result_num : Int
  cinst_pass_narrow : Nat
  cinst_pass_wide : Nat
  cinst_fail : Nat
  vrx_pass_narrow : Nat
  vrx_pass_wide : Nat
  vrx_fail : Nat
  fpt_pass : Nat
  fpt_fail : Nat
  latency_pass : Nat
  latency_fail : Nat
  rtp_offset_pass : Nat
  rtp_offset_fail : Nat
  rtp_ts_delta_pass : Nat
  rtp_ts_delta_fail : Nat
  compliance : Nat
  compliance_narrow : Nat
deriving DecidableEq, Repr

/-- The strings the verdict functions return (`ST_EBU_PASS_NARROW`, ...). -/
inductive st_ebu_verdict where
  | PASS_NARROW
  | PASS_WIDE
  | PASS_WIDE_WA
  | PASS
  | FAIL
deriving DecidableEq, Repr

/-- The measurements as `rv_ebu_clear_result` leaves them: everything zero, the
maxima at `INT_MIN`, the minima at `INT_MAX`, both compliance flags set. -/
def rv_ebu_clear_result : st_rx_video_ebu_stat :=
  { frame_idx := 0
    compliant := true
    compliant_narrow := true
    cinst_max := INT_MIN
    cinst_min := INT_MAX
    vrx_max := INT_MIN
    vrx_min := INT_MAX
    fpt_max := INT_MIN
    fpt_min := INT_MAX
    latency_max := INT_MIN
    latency_min := INT_MAX
    rtp_offset_max := INT_MIN
    rtp_offset_min := INT_MAX
    rtp_ts_delta_max := INT_MIN
    rtp_ts_delta_min := INT_MAX
    prev_rtp_ts := 0 }

/-- Zeroed thresholds, as in a session that was just allocated. -/
def st_rx_video_ebu_info_zero : st_rx_video_ebu_info :=
  { c_max_narrow_pass := 0, c_max_wide_pass := 0, vrx_full_narrow_pass := 0,
    vrx_full_wide_pass := 0, rtp_offset_max_pass := 0, tr_offset := 0, dropped_results := 0,
    init := false, latency_max_ns := 0, rtp_offset_min := 0 }

/-- Zeroed verdict counters, as in a session that was just allocated. -/
def st_rx_video_ebu_result_zero : st_rx_video_ebu_result :=
  { ebu_result_num := 0, cinst_pass_narrow := 0, cinst_pass_wide := 0, cinst_fail := 0,
    vrx_pass_narrow := 0, vrx_pass_wide := 0, vrx_fail := 0, fpt_pass := 0, fpt_fail := 0,
    latency_pass := 0, latency_fail := 0, rtp_offset_pass := 0, rtp_offset_fail := 0,
    rtp_ts_delta_pass := 0, rtp_ts_delta_fail := 0, compliance := 0, compliance_narrow := 0 }

/-- A zeroed detector with the detection switched off. -/
def st_rx_video_detector_zero : st_rx_video_detector :=
  { status := .DISABLED, bpm := false, single_line := false, frame_num := 0,
    rtp_tm := fun _ => 0, pkt_num := fun _ => 0, pkt_per_frame := 0,
    meta := { width := 0, height := 0, fps := .MAX, packing := .MAX, interlaced := false } }

/-- The fields of `struct st20_rx_ops` the receive path reads.  The flag bits
of `ops->flags` are one boolean each, and `sip_multicast i` is
`mt_is_multicast_ip(ops->sip_addr[i])`. -/
structure st20_rx_ops where
  num_port : Nat
  payload_type : Nat
  width : Nat
  height : Nat
  flag_receive_incomplete_frame : Bool
  notify_frame_ready : Nat → st20_rx_frame_meta → Int
  query_ext_frame : Option (st20_rx_frame_meta → Int × Nat × Nat)
  type : st20_type := .FRAME_LEVEL
  fps : st_fps := .P59_94
  packing : st20_packing := .BPM
  interlaced : Bool := false
  linesize : Nat := 0
  framebuff_cnt : Nat := 0
  flag_auto_detect : Bool := false
  flag_enable_rtcp : Bool := false
  flag_data_path_only : Bool := false
  flag_hdr_split : Bool := false
  sip_multicast : Nat → Bool := fun _ => false
  notify_detected : Option (st20_detect_meta → Int × st20_detect_reply) := none
  slice_lines : Nat := 0
  uframe_size : Nat := 0
  flag_simulate_pkt_loss : Bool := false

/-- The `stat_*` and `cbs_*` counters of the session. -/
structure rv_stats where
  stat_pkts_wrong_hdr_dropped : Nat
  stat_pkts_multi_segments_received : Nat
  stat_pkts_no_slot : Nat
  stat_pkts_user_meta : Nat
  stat_pkts_user_meta_err : Nat
  stat_pkts_offset_dropped : Nat
  stat_pkts_idx_oo_bitmap : Nat
  stat_pkts_redundant_dropped : Nat
  stat_pkts_idx_dropped : Nat
  stat_pkts_dma : Nat
  stat_pkts_received : Nat
  stat_pkts_slice_fail : Nat
  stat_pkts_slice_merged : Nat
  stat_slices_received : Nat
  stat_frames_received : Nat
  stat_frames_dropped : Nat
  stat_slot_get_frame_fail : Nat
  stat_slot_query_ext_fail : Nat
  dma_previous_busy_cnt : Nat
  cbs_incomplete_frame_cnt : Nat
  cbs_frame_slot_cnt : Nat
  port_user_stats_frames : Nat
  stat_pkts_not_bpm : Nat := 0
  stat_mismatch_hdr_split_frame : Nat := 0
  stat_pkts_copy_hdr_split : Nat := 0
  stat_pkts_wrong_payload_hdr_split : Nat := 0
deriving DecidableEq, Repr

/-- A received RFC 4175 packet (`struct rte_mbuf` holding a
`struct st20_rfc4175_rtp_hdr`), header fields in host byte order.  The
`extra_*` fields are the second SRD header, read only when the continuation
bit of `row_offset` is set; `payload` holds the bytes at the `payload`
pointer after the SRD headers; `next_data_len` is `mbuf->next->data_len`
when a second segment exists.  `dma_copy_ret` is the value `mt_dma_copy`
returns if the handler submits this packet to the DMA engine.  `payload_addr` is
the address of the byte after the RTP header and `next_payload_addr` the data
address of the second segment; only the header-split handler reads them.  `pkt_len`
is `mbuf->pkt_len`. -/
structure rte_mbuf where
  payload_type : Nat
  marker : Bool
  tmstamp : Nat
  seq_number : Nat
  seq_number_ext : Nat
  row_length : Nat
  row_number : Nat
  row_offset : Nat
  extra_row_length : Nat
  extra_row_number : Nat
  extra_row_offset : Nat
  payload : List Nat
  next_data_len : Option Nat
  dma_copy_ret : Int
  payload_addr : Nat := 0
  next_payload_addr : Nat := 0
  pkt_len : Nat := 0
deriving DecidableEq, Repr

/-- Modelled from the spec: the ring between the receive burst and the packet
co-thread (`struct rte_ring`, whose implementation is not part of the sources at
hand): the packets waiting, oldest first, and the number of packets it can
hold. -/
structure rte_ring where
  capacity : Nat
  objs : List rte_mbuf
deriving DecidableEq, Repr

/-- The session (`struct st_rx_video_session_impl`).

`dma_min_size` is `ST_RX_VIDEO_DMA_MIN_SIZE`, `bytes_in_pkt` is
`ST_PKT_MAX_ETHER_BYTES - sizeof(struct st_rfc4175_video_hdr)`, `st22_hdr_size` is
`sizeof(struct st22_rfc9134_video_hdr)`, `bpm_size` is `ST_VIDEO_BPM_SIZE` and
`pktmbuf_headroom` is `RTE_PKTMBUF_HEADROOM`: the headers defining them are not part
of the sources at hand, so they are parameters.
`app_held` is a ghost field: the frames handed to the application by a
notification and not yet given back.  `detected` logs the calls of
`ops->notify_detected` (newest first).  `rxq i` and `rtcp_rx i` tell whether
`s->rxq[i]` and `s->rtcp_rx[i]` are set.  `frame_time_sampling` is the value of the
`double` of that name converted to `int32_t`.  `port_user_stats_packets i`,
`port_user_stats_bytes i` and `port_user_stats_err_packets i` are the counters of
`s->port_user_stats[i]`.  `rand_values` holds the values the coming calls of `rand()`
return, and `sim_loss_hit r` tells whether `(float)r / (float)RAND_MAX` is below
`s->sim_loss_rate`. -/
structure st_rx_video_session_impl where
  ops : st20_rx_ops
  has_ebu : Bool
  st22_info : Option (Nat → st22_rx_frame_meta → Int)
  st22_flag_disable_boxes : Bool
  dma_min_size : Nat
  bytes_in_pkt : Nat
  st22_hdr_size : Nat
  st20_frame_size : Nat
  st20_fb_size : Nat
  st20_linesize : Nat
  st20_bytes_in_line : Nat
  st20_frame_bitmap_size : Nat
  st20_uframe_size : Nat
  st20_pg_size : Nat
  st20_pg_coverage : Nat
  slice_lines : Nat
  slice_size : Nat
  st20_frames_cnt : Nat
  st20_frames : Nat → st_frame_trans
  slots : Nat → st_rx_video_slot_impl
  slot_idx : Int
  slot_max : Nat
  dma_dev : Option mtl_dma_lender_dev
  dma_slot : Option Nat
  dma_copy : Bool
  st22_expect_frame_size : Nat
  st22_expect_size_per_frame : Nat
  stats : rv_stats
  events : List rx_event
  app_held : List Nat
  hdr_split_info : Nat → st_rx_video_hdr_split_info := fun _ =>
    { mbuf_pool_ready := false, frames := 0, frames_size := 0, mbufs_per_frame := 0,
      cur_frame_addr := 0, cur_frame_mbuf_idx := 0 }
  bpm_size : Nat := 1260
  pktmbuf_headroom : Nat := 128
  detector : st_rx_video_detector := st_rx_video_detector_zero
  pkt_handler : rv_pkt_handler := .rv_handle_frame_pkt
  is_hdr_split : Bool := false
  detected : List st20_detect_meta := []
  ebu : st_rx_video_ebu_stat := rv_ebu_clear_result
  ebu_info : st_rx_video_ebu_info := st_rx_video_ebu_info_zero
  ebu_result : st_rx_video_ebu_result := st_rx_video_ebu_result_zero
  frame_time_sampling : Int := 1501
  rxq : Nat → Bool := fun _ => false
  rtcp_rx : Nat → Bool := fun _ => false
  attached : Bool := false
  pkt_lcore_ring : Option rte_ring := none
  stat_pkts_enqueue_fallback : Nat := 0
  pri_nic_inflight_cnt : Nat := 0
  stat_bytes_received : Nat := 0
  port_user_stats_packets : Nat → Nat := fun _ => 0
  port_user_stats_bytes : Nat → Nat := fun _ => 0
  port_user_stats_err_packets : Nat → Nat := fun _ => 0
  burst_loss_cnt : Nat := 0
  burst_loss_max : Nat := 0
  stat_pkts_simulate_loss : Nat := 0
  rand_values : List Nat := []
  sim_loss_hit : Nat → Bool := fun _ => false

/-- Outcome of a handler: a return code with the new state, or a trap. -/
inductive rv_result where
  | ret (code : Int) (s : st_rx_video_session_impl)
  | fault (s : st_rx_video_session_impl)

/-- State carried by an outcome. -/
def rv_result.state (r : rv_result) : st_rx_video_session_impl :=
  match r with
  | .ret _ s => s
  | .fault s => s

/-- Return code of an outcome, if the handler returned. -/
def rv_result.code (r : rv_result) : Option Int :=
  match r with
  | .ret c _ => some c
  | .fault _ => none

/-- Bytes `[start, start + len)` read from packet memory; bytes past the end
of the recorded payload read as 0. -/
def mbuf_read (payload : List Nat) (start len : Nat) : List Nat :=
  (List.range len).map (fun k => payload.getD (start + k) 0)

/-! ## Frame pool -/

/-- Increment of `frame->refcnt` for frame `i`. -/
def frame_ref_inc (s : st_rx_video_session_impl) (i : Nat) : st_rx_video_session_impl :=
  let frame := s.st20_frames i
  { s with st20_frames := Function.update s.st20_frames i { frame with refcnt := frame.refcnt + 1 } }

/-- The function `rv_get_frame`: the first frame whose refcount is zero, with its refcount
incremented. -/
def rv_get_frame (s : st_rx_video_session_impl) : st_rx_video_session_impl × Option Nat :=
  match (List.range s.st20_frames_cnt).find? (fun i => (s.st20_frames i).refcnt == 0) with
  | some i => (frame_ref_inc s i, some i)
  | none => (s, none)

/-- The function `rv_put_frame`: decrement of the refcount. -/
def rv_put_frame (s : st_rx_video_session_impl) (f : Nat) : st_rx_video_session_impl :=
  let frame := s.st20_frames f
  { s with st20_frames := Function.update s.st20_frames f { frame with refcnt := frame.refcnt - 1 } }

/-- The function `st20_rx_put_framebuff`: the application gives back the frame buffer at
address `framebuff`; the first frame with that address is released.  The ghost
list `app_held` drops one occurrence of the frame. -/
def st20_rx_put_framebuff (s : st_rx_video_session_impl) (framebuff : Nat) :
    Int × st_rx_video_session_impl :=
  match (List.range s.st20_frames_cnt).find? (fun i => (s.st20_frames i).addr == framebuff) with
  | some i => (0, { rv_put_frame s i with app_held := s.app_held.erase i })
  | none => (- EIO_errno, s)

/-- Offset-to-IOVA translation `rv_frame_get_offset_iova`. -/
def rv_frame_get_offset_iova (frame_info : st_frame_trans) (offset : Nat) : Nat :=
  if frame_info.page_table.length = 0 then (frame_info.iova + offset) % U64
  else
    match frame_info.page_table.find?
        (fun page => decide (page.addr ≤ frame_info.addr + offset) &&
          decide (frame_info.addr + offset < page.addr + page.len)) with
    | some page => (page.iova + (frame_info.addr + offset - page.addr)) % U64
    | none => MTL_BAD_IOVA

/-- Test `rv_frame_payload_cross_page`; the subtractions are on `uint64_t`. -/
def rv_frame_payload_cross_page (frame_info : st_frame_trans) (offset len : Nat) : Bool :=
  if frame_info.page_table.length = 0 then false
  else
    decide ((rv_frame_get_offset_iova frame_info ((offset + len + U64 - 1) % U64) + U64
        - rv_frame_get_offset_iova frame_info offset) % U64 ≠ (len + U64 - 1) % U64)

/-! ## Slot accounting and frame notification -/

/-- The function `rv_slot_init_frame_size`. -/
def rv_slot_init_frame_size (slot : st_rx_video_slot_impl) : st_rx_video_slot_impl :=
  { slot with frame_recv_size := 0, pkt_lcore_frame_recv_size := 0 }

/-- The function `rv_slot_get_frame_size`: the sum of the two received-byte counters. -/
def rv_slot_get_frame_size (slot : st_rx_video_slot_impl) : Nat :=
  slot.frame_recv_size + slot.pkt_lcore_frame_recv_size

/-- The function `rv_slot_add_frame_size`. -/
def rv_slot_add_frame_size (slot : st_rx_video_slot_impl) (size : Nat) : st_rx_video_slot_impl :=
  { slot with frame_recv_size := slot.frame_recv_size + size }

/-- The function `rv_slot_pkt_lcore_add_frame_size`. -/
def rv_slot_pkt_lcore_add_frame_size (slot : st_rx_video_slot_impl) (size : Nat) :
    st_rx_video_slot_impl :=
  { slot with pkt_lcore_frame_recv_size := slot.pkt_lcore_frame_recv_size + size }

/-- Number of in-flight DMA descriptors of the session (0 without a DMA device). -/
def dma_inflight (s : st_rx_video_session_impl) : Nat :=
  match s.dma_dev with
  | some d => d.borrowed.length
  | none => 0

/-- Status computed by `rv_frame_notify` (lines 1130-1152 of the source): complete when
the received size reaches the frame size, downgraded to reconstructed on a
multi-port session that saw few redundant packets, corrupted otherwise. -/
def rv_frame_notify_status (s : st_rx_video_session_impl) (slot : st_rx_video_slot_impl) :
    st_frame_status :=
  if s.st20_frame_size ≤ rv_slot_get_frame_size slot then
    if 1 < s.ops.num_port then
      if slot.pkts_redundant_received + 16 < slot.pkts_received then .RECONSTRUCTED
      else .COMPLETE
    else .COMPLETE
  else .CORRUPTED

/-- Meta filled in by `rv_frame_notify` for slot `slot` holding frame `frame`. -/
def rv_frame_notify_meta (s : st_rx_video_session_impl) (slot : st_rx_video_slot_impl)
    (frame : st_frame_trans) : st20_rx_frame_meta :=
  { slot.meta with
    timestamp := slot.tmstamp
    second_field := slot.second_field
    frame_total_size := s.st20_frame_size
    uframe_total_size := s.st20_uframe_size
    frame_recv_size := rv_slot_get_frame_size slot
    user_meta_size := if frame.user_meta_data_size ≠ 0 then frame.user_meta_data_size else 0
    user_meta := if frame.user_meta_data_size ≠ 0 then some frame.user_meta else none
    status := rv_frame_notify_status s slot }

/-- The function `rv_frame_notify` for slot `i`, whose `slot->frame` is frame `f`.  The
floating-point miss-packet estimate of the corrupted branch (lines 1155-1158), which
divides `frame_recv_size` by `slot->pkts_received` and feeds `stat_frames_pks_missed` only,
is left out. -/
def rv_frame_notify (s : st_rx_video_session_impl) (i f : Nat) : st_rx_video_session_impl :=
  let slot := s.slots i
  let m := rv_frame_notify_meta s slot (s.st20_frames f)
  let slot1 := { slot with meta := m }
  if s.st20_frame_size ≤ m.frame_recv_size then
    let s1 := { s with
      slots := Function.update s.slots i slot1
      stats := { s.stats with
        stat_frames_received := s.stats.stat_frames_received + 1
        port_user_stats_frames := s.stats.port_user_stats_frames + 1 }
      events := rx_event.notify_frame_ready f m (dma_inflight s) :: s.events }
    if s.ops.notify_frame_ready f m < 0 then
      let s2 := rv_put_frame s1 f
      { s2 with slots := Function.update s2.slots i { slot1 with frame := none } }
    else
      { s1 with app_held := f :: s1.app_held }
  else
    let s1 := { s with
      slots := Function.update s.slots i slot1
      stats := { s.stats with
        stat_frames_dropped := s.stats.stat_frames_dropped + 1
        cbs_incomplete_frame_cnt := s.stats.cbs_incomplete_frame_cnt + 1 } }
    if s.ops.flag_receive_incomplete_frame then
      { s1 with
        events := rx_event.notify_frame_ready f m (dma_inflight s) :: s1.events
        app_held := f :: s1.app_held }
    else
      let s2 := rv_put_frame s1 f
      { s2 with slots := Function.update s2.slots i { slot1 with frame := none } }

/-- The function `rv_st22_frame_notify` for slot `i` holding frame `f`. -/
def rv_st22_frame_notify (s : st_rx_video_session_impl) (i f : Nat) (status : st_frame_status) :
    st_rx_video_session_impl :=
  let slot := s.slots i
  let m : st22_rx_frame_meta :=
    { timestamp := slot.tmstamp, frame_total_size := rv_slot_get_frame_size slot,
      status := status }
  let slot1 := { slot with st22_meta := m }
  let notify : Nat → st22_rx_frame_meta → Int :=
    match s.st22_info with
    | some cb => cb
    | none => fun _ _ => 0
  let s3 :=
    if st_is_frame_complete status then
      let s1 := { s with
        slots := Function.update s.slots i slot1
        stats := { s.stats with
          stat_frames_received := s.stats.stat_frames_received + 1
          port_user_stats_frames := s.stats.port_user_stats_frames + 1 }
        events := rx_event.st22_notify_frame_ready f m :: s.events }
      if notify f m < 0 then
        let s2 := rv_put_frame s1 f
        { s2 with slots := Function.update s2.slots i { slot1 with frame := none } }
      else
        { s1 with app_held := f :: s1.app_held }
    else
      let s1 := { s with
        slots := Function.update s.slots i slot1
        stats := { s.stats with
          stat_frames_dropped := s.stats.stat_frames_dropped + 1
          cbs_incomplete_frame_cnt := s.stats.cbs_incomplete_frame_cnt + 1 } }
      if s.ops.flag_receive_incomplete_frame then
        { s1 with
          events := rx_event.st22_notify_frame_ready f m :: s1.events
          app_held := f :: s1.app_held }
      else
        let s2 := rv_put_frame s1 f
        { s2 with slots := Function.update s2.slots i { slot1 with frame := none } }
  { s3 with st22_expect_frame_size := 0 }

/-! ## Bitmap -/

/-- Modelled from the spec: the per-slot packet bitmap is the set of indices
whose bit is set, and `mt_bitmap_test` (not part of the sources at hand)
reads one bit. -/
def mt_bitmap_test (bitmap : List Int) (idx : Int) : Bool := decide (idx ∈ bitmap)

/-- Modelled from the spec: `test_and_set(bitmap, pkt_idx)` returns whether the
bit was already set and sets it otherwise. -/
def mt_bitmap_test_and_set (bitmap : List Int) (idx : Int) : Bool × List Int :=
  if idx ∈ bitmap then (true, bitmap) else (false, idx :: bitmap)

/-- Effect of `memset(slot->frame_bitmap, 0, size)`: the bits of the first `size` bytes
are cleared. -/
def bitmap_clear (bitmap : List Int) (size : Nat) : List Int :=
  bitmap.filter (fun idx => !(decide (0 ≤ idx) && decide (idx < (size : Int) * 8)))

/-! ## Slot selection and recycling -/

/-- Effect of `memset(slot->slice_info, 0, sizeof(*slot->slice_info))`. -/
def slice_info_clear (info : st_rx_video_slot_slice_info) : st_rx_video_slot_slice_info :=
  { slices := info.slices.map (fun _ => { offset := 0, size := 0 })
    ready_slices := 0
    extra_slices := 0 }

/-- The scan at the head of `rv_slot_by_tmstamp`: the first of the `slot_max` active
slots whose timestamp equals `tmstamp`. -/
def rv_slot_match (s : st_rx_video_session_impl) (tmstamp : Nat) : Option Nat :=
  (List.range s.slot_max).find? (fun i => tmstamp == (s.slots i).tmstamp)

/-- Eviction of slot `slot_idx` in `rv_slot_by_tmstamp` (lines 1333-1340): a frame still
held by the slot is flushed through the notify function and the slot lets go of
it. -/
def rv_slot_evict (s : st_rx_video_session_impl) (slot_idx : Nat) : st_rx_video_session_impl :=
  match (s.slots slot_idx).frame with
  | some f =>
    let sn := if s.st22_info.isSome then rv_st22_frame_notify s slot_idx f .CORRUPTED
              else rv_frame_notify s slot_idx f
    { sn with slots := Function.update sn.slots slot_idx { sn.slots slot_idx with frame := none } }
  | none => s

/-- The recycling part of `rv_slot_by_tmstamp` (lines 1329-1396), taken on a miss when
no DMA copy is in flight.  `hdr_split_pd` is the payload address the header
split handler passes. -/
def rv_slot_recycle (s : st_rx_video_session_impl) (tmstamp : Nat)
    (hdr_split_pd : Option Nat) : st_rx_video_session_impl × Option Nat :=
  let slot_idx := (Int.tmod (s.slot_idx + 1) (s.slot_max : Int)).toNat
  let s1 := rv_slot_evict s slot_idx
  let slot1 :=
    { rv_slot_init_frame_size (s1.slots slot_idx) with
      tmstamp := tmstamp
      seq_id_got := false
      pkts_received := 0
      pkts_redundant_received := 0 }
  let s2 := { s1 with slots := Function.update s1.slots slot_idx slot1, slot_idx := (slot_idx : Int) }
  let got := rv_get_frame s2
  let s3 := got.1
  match got.2 with
  | none =>
    ({ s3 with stats := { s3.stats with
        stat_slot_get_frame_fail := s3.stats.stat_slot_get_frame_fail + 1 } }, none)
  | some fi =>
    let frame_info := s3.st20_frames fi
    let frame_info1 :=
      match hdr_split_pd with
      | some pd => { frame_info with addr := pd }
      | none => frame_info
    match s3.ops.query_ext_frame with
    | some query =>
      let m : st20_rx_frame_meta :=
        { slot1.meta with
          timestamp := slot1.tmstamp
          frame_total_size := s3.st20_frame_size
          uframe_total_size := s3.st20_uframe_size }
      let slot2 := { slot1 with meta := m }
      if (query m).1 < 0 then
        ({ s3 with
            slots := Function.update s3.slots slot_idx slot2
            st20_frames := Function.update s3.st20_frames fi
              { frame_info1 with refcnt := frame_info1.refcnt - 1 }
            stats := { s3.stats with
              stat_slot_query_ext_fail := s3.stats.stat_slot_query_ext_fail + 1 } }, none)
      else
        let frame_info2 :=
          { frame_info1 with
            addr := (query m).2.1
            iova := (query m).2.2
            user_meta_data_size := 0 }
        let slot3 :=
          { slot2 with
            frame := some fi
            frame_bitmap := bitmap_clear slot2.frame_bitmap s3.st20_frame_bitmap_size
            slice_info := slot2.slice_info.map slice_info_clear }
        ({ s3 with
            slots := Function.update s3.slots slot_idx slot3
            st20_frames := Function.update s3.st20_frames fi frame_info2
            dma_slot := some slot_idx
            stats := { s3.stats with cbs_frame_slot_cnt := s3.stats.cbs_frame_slot_cnt + 1 } },
          some slot_idx)
    | none =>
      let frame_info2 := { frame_info1 with user_meta_data_size := 0 }
      let slot3 :=
        { slot1 with
          frame := some fi
          frame_bitmap := bitmap_clear slot1.frame_bitmap s3.st20_frame_bitmap_size
          slice_info := slot1.slice_info.map slice_info_clear }
      ({ s3 with
          slots := Function.update s3.slots slot_idx slot3
          st20_frames := Function.update s3.st20_frames fi frame_info2
          dma_slot := some slot_idx
          stats := { s3.stats with cbs_frame_slot_cnt := s3.stats.cbs_frame_slot_cnt + 1 } },
        some slot_idx)

/-- Test `s->dma_dev && !mt_dma_empty(s->dma_dev)`. -/
def dma_busy (s : st_rx_video_session_impl) : Bool :=
  match s.dma_dev with
  | some d => !(mt_dma_empty d)
  | none => false

/-- The function `rv_slot_by_tmstamp`: the slot (index) for `tmstamp`, or none. -/
def rv_slot_by_tmstamp (s : st_rx_video_session_impl) (tmstamp : Nat)
    (hdr_split_pd : Option Nat) : st_rx_video_session_impl × Option Nat :=
  match rv_slot_match s tmstamp with
  | some i => (s, some i)
  | none =>
    if dma_busy s then
      ({ s with stats := { s.stats with
          dma_previous_busy_cnt := s.stats.dma_previous_busy_cnt + 1 } }, none)
    else rv_slot_recycle s tmstamp hdr_split_pd

/-- The function `rv_slot_full_frame` for slot `i` holding frame `f`. -/
def rv_slot_full_frame (s : st_rx_video_session_impl) (i f : Nat) : st_rx_video_session_impl :=
  let s1 := rv_frame_notify s i f
  let slot1 :=
    { rv_slot_init_frame_size (s1.slots i) with
      pkts_received := 0
      pkts_redundant_received := 0
      frame := none }
  { s1 with slots := Function.update s1.slots i slot1 }

/-- The function `rv_st22_slot_full_frame` for slot `i` holding frame `f`. -/
def rv_st22_slot_full_frame (s : st_rx_video_session_impl) (i f : Nat) :
    st_rx_video_session_impl :=
  let s1 := rv_st22_frame_notify s i f .COMPLETE
  let slot1 :=
    { rv_slot_init_frame_size (s1.slots i) with
      pkts_received := 0
      pkts_redundant_received := 0
      frame := none }
  { s1 with slots := Function.update s1.slots i slot1 }

/-! ## Slice tracker -/

/-- First loop of `rv_slice_add` (lines 1258-1273) over the extra slices `slices[1..]`:
fill the first null slice or append to a slice ending at `offset`.  The
boolean tells whether a null slice was filled (`extra_slices++`); `none`
means no slice could take the range. -/
def rv_slice_add_extra (slices : List st_rx_video_slot_slice) (offset size : Nat) :
    Option (List st_rx_video_slot_slice × Bool) :=
  match slices with
  | [] => none
  | slice :: rest =>
    if slice.size = 0 then some ({ offset := offset, size := size } :: rest, true)
    else if offset = slice.size + slice.offset then
      some ({ slice with size := slice.size + size } :: rest, false)
    else
      match rv_slice_add_extra rest offset size with
      | some (rest1, filled) => some (slice :: rest1, filled)
      | none => none

/-- One pass of the merge loop of `rv_slice_add` (lines 1285-1296) over the extra
slices: every slice starting at the current end of the main slice is
absorbed.  Returns the slices, the new main size and the number merged. -/
def rv_slice_merge_pass (slices : List st_rx_video_slot_slice) (main_size : Nat) :
    List st_rx_video_slot_slice × Nat × Nat :=
  match slices with
  | [] => ([], main_size, 0)
  | slice :: rest =>
    if slice.size ≠ 0 ∧ slice.offset = main_size then
      let r := rv_slice_merge_pass rest (main_size + slice.size)
      ({ offset := 0, size := 0 } :: r.1, r.2.1, r.2.2 + 1)
    else
      let r := rv_slice_merge_pass rest main_size
      (slice :: r.1, r.2.1, r.2.2)

/-- The `repeat_merge` loop of `rv_slice_add`: passes are repeated while one merged
something.  A merging pass nulls at least one slice, so `fuel` equal to the
number of extra slices plus one is enough. -/
def rv_slice_repeat_merge (fuel : Nat) (slices : List st_rx_video_slot_slice) (main_size : Nat) :
    List st_rx_video_slot_slice × Nat × Nat :=
  match fuel with
  | 0 => (slices, main_size, 0)
  | fuel1 + 1 =>
    let r := rv_slice_merge_pass slices main_size
    if r.2.2 = 0 then r
    else
      let r2 := rv_slice_repeat_merge fuel1 r.1 r.2.1
      (r2.1, r2.2.1, r.2.2 + r2.2.2)

/-- The function `rv_slice_notify`. -/
def rv_slice_notify (s : st_rx_video_session_impl) (i f : Nat)
    (slice_info : st_rx_video_slot_slice_info) : st_rx_video_session_impl :=
  let slot := s.slots i
  let m : st20_rx_slice_meta :=
    { timestamp := slot.tmstamp
      second_field := slot.second_field
      frame_recv_size := rv_slot_get_frame_size slot
      frame_recv_lines := slice_info.ready_slices * s.slice_lines }
  { s with
    events := rx_event.notify_slice_ready f m :: s.events
    stats := { s.stats with stat_slices_received := s.stats.stat_slices_received + 1 } }

/-- The function `rv_slice_add` on slot `i` whose tracker is `slice_info`; `offset`
and `size` are `uint32_t`.  The result is `none` when
`main_slice->size / s->slice_size` divides by zero or `rv_slice_notify` dereferences
a null `slot->frame`. -/
def rv_slice_add (s : st_rx_video_session_impl) (i : Nat)
    (slice_info : st_rx_video_slot_slice_info) (offset0 size0 : Nat) :
    Option st_rx_video_session_impl :=
  let offset := offset0 % U32
  let size := size0 % U32
  match slice_info.slices with
  | [] => some s
  | main_slice :: extras =>
    if offset ≠ main_slice.size then
      match rv_slice_add_extra extras offset size with
      | some (extras1, filled) =>
        let info1 :=
          { slice_info with
            slices := main_slice :: extras1
            extra_slices := if filled then slice_info.extra_slices + 1 else slice_info.extra_slices }
        some { s with slots := Function.update s.slots i { s.slots i with slice_info := some info1 } }
      | none =>
        some { s with stats := { s.stats with
          stat_pkts_slice_fail := s.stats.stat_pkts_slice_fail + 1 } }
    else
      let main_size1 := main_slice.size + size
      let r :=
        if slice_info.extra_slices ≠ 0 then
          rv_slice_repeat_merge (extras.length + 1) extras main_size1
        else (extras, main_size1, 0)
      let info1 :=
        { slice_info with
          slices := { main_slice with size := r.2.1 } :: r.1
          extra_slices := slice_info.extra_slices - r.2.2 }
      let s1 :=
        { s with
          slots := Function.update s.slots i { s.slots i with slice_info := some info1 }
          stats := { s.stats with
            stat_pkts_slice_merged := s.stats.stat_pkts_slice_merged + r.2.2 } }
      if s.slice_size = 0 then none
      else
        let ready_slices := r.2.1 / s.slice_size
        if info1.ready_slices < ready_slices then
          let info2 := { info1 with ready_slices := ready_slices }
          let s2 :=
            { s1 with slots := Function.update s1.slots i { s1.slots i with slice_info := some info2 } }
          match (s2.slots i).frame with
          | some f => some (rv_slice_notify s2 i f info2)
          | none => none
        else some s1

/-! ## RFC 4175 frame handler -/

/-- The function `rfc4175_rtp_seq_id`: `seq_number | (seq_number_ext << 16)`. -/
def rfc4175_rtp_seq_id (mbuf : rte_mbuf) : Nat :=
  mbuf.seq_number % U16 + (mbuf.seq_number_ext % U16) * 65536

/-- A plain `rte_memcpy` of `data` to `frame->addr + dst`. -/
def frame_memcpy (s : st_rx_video_session_impl) (f dst : Nat) (data : List Nat) :
    st_rx_video_session_impl :=
  let frame := s.st20_frames f
  let frame1 := { frame with copies := { dst := dst, data := data, by_dma := false } :: frame.copies }
  { s with st20_frames := Function.update s.st20_frames f frame1 }

/-- A copy of `data` to `frame->addr + dst` submitted to the DMA engine. -/
def frame_dma_copy (s : st_rx_video_session_impl) (f dst : Nat) (data : List Nat) :
    st_rx_video_session_impl :=
  let frame := s.st20_frames f
  let frame1 := { frame with copies := { dst := dst, data := data, by_dma := true } :: frame.copies }
  { s with st20_frames := Function.update s.st20_frames f frame1 }

/-- Total payload length of a packet: `line1_length`, plus the row length of
the extra SRD when the continuation bit is set (lines 1768-1769). -/
def rv_pkt_payload_length (mbuf : rte_mbuf) : Nat :=
  (mbuf.row_length % U16) % BIT15 +
    (if BIT15 ≤ mbuf.row_offset % U16 then mbuf.extra_row_length % U16 else 0)

/-- Destination offset of a packet (lines 1765-1767), a `uint32_t`. -/
def rv_pkt_offset (s : st_rx_video_session_impl) (mbuf : rte_mbuf) : Nat :=
  (((mbuf.row_number % U16) % BIT15) * (s.st20_linesize % U32) +
    ((mbuf.row_offset % U16) % BIT15) / s.st20_pg_coverage * s.st20_pg_size) % U32

/-- Right-hand side of the offset bound (line 1771), computed on `size_t`. -/
def rv_pkt_offset_limit (s : st_rx_video_session_impl) : Nat :=
  (s.st20_fb_size + s.st20_bytes_in_line + U64 - s.st20_linesize % U64) % U64

/-- Payload placement of `rv_handle_frame_pkt` (lines 1827-1890) into frame `f`: the user
frame callback, the two-line copy across line padding, the DMA copy or the
CPU copy.  The boolean is `dma_copy`. -/
def rv_pkt_place_payload (s : st_rx_video_session_impl) (mbuf : rte_mbuf) (f : Nat) :
    st_rx_video_session_impl × Bool :=
  let line1_number := (mbuf.row_number % U16) % BIT15
  let line1_offset := (mbuf.row_offset % U16) % BIT15
  let line1_length := (mbuf.row_length % U16) % BIT15
  let extra_rtp : Bool := decide (BIT15 ≤ mbuf.row_offset % U16)
  let tmstamp := mbuf.tmstamp % U32
  let offset := rv_pkt_offset s mbuf
  let payload_length := rv_pkt_payload_length mbuf
  let need_copy := !s.has_ebu
  let frame := s.st20_frames f
  if s.st20_uframe_size ≠ 0 then
    let pg1 : st20_rx_uframe_pg_meta :=
      { payload := mbuf_read mbuf.payload 0 line1_length
        row_length := line1_length
        row_number := line1_number
        row_offset := line1_offset
        pg_cnt := line1_length / s.st20_pg_size
        timestamp := tmstamp }
    let s1 := { s with events := rx_event.uframe_pg_callback f pg1 :: s.events }
    if extra_rtp then
      let pg2 : st20_rx_uframe_pg_meta :=
        { payload := mbuf_read mbuf.payload line1_length (mbuf.extra_row_length % U16)
          row_length := mbuf.extra_row_length % U16
          row_number := mbuf.extra_row_number % U16
          row_offset := mbuf.extra_row_offset % U16
          pg_cnt := (mbuf.extra_row_length % U16) / s.st20_pg_size
          timestamp := tmstamp }
      ({ s1 with events := rx_event.uframe_pg_callback f pg2 :: s1.events }, false)
    else (s1, false)
  else if need_copy then
    if extra_rtp && decide (s.st20_bytes_in_line < s.st20_linesize) then
      /- packet crosses line padding, copy two lines data -/
      let s1 := frame_memcpy s f offset (mbuf_read mbuf.payload 0 line1_length)
      (frame_memcpy s1 f ((line1_number + 1) * s.st20_linesize)
        (mbuf_read mbuf.payload line1_length (payload_length - line1_length)), false)
    else
      match s.dma_dev with
      | some dma_dev =>
        if decide (s.dma_min_size < payload_length) && !(mt_dma_full dma_dev) &&
            !(rv_frame_payload_cross_page frame offset payload_length) then
          if mbuf.dma_copy_ret < 0 then
            (frame_memcpy s f offset (mbuf_read mbuf.payload 0 payload_length), false)
          else
            let s1 := frame_dma_copy s f offset (mbuf_read mbuf.payload 0 payload_length)
            ({ s1 with
                dma_dev := some (mt_dma_borrow_mbuf dma_dev offset payload_length)
                stats := { s1.stats with stat_pkts_dma := s1.stats.stat_pkts_dma + 1 } }, true)
        else (frame_memcpy s f offset (mbuf_read mbuf.payload 0 payload_length), false)
      | none => (frame_memcpy s f offset (mbuf_read mbuf.payload 0 payload_length), false)
  else (s, false)

/-- Received-size and packet accounting of `rv_handle_frame_pkt` (lines 1892-1898) on
slot `i`. -/
def rv_pkt_account (s : st_rx_video_session_impl) (ctrl_thread : Bool) (i : Nat)
    (payload_length : Nat) : st_rx_video_session_impl :=
  let slot1 :=
    if ctrl_thread then rv_slot_pkt_lcore_add_frame_size (s.slots i) payload_length
    else rv_slot_add_frame_size (s.slots i) payload_length
  let slot2 := { slot1 with pkts_received := slot1.pkts_received + 1 }
  { s with
    slots := Function.update s.slots i slot2
    stats := { s.stats with stat_pkts_received := s.stats.stat_pkts_received + 1 } }

/-- The `end_frame` test of `rv_handle_frame_pkt` (lines 1906-1912) on slot `i`. -/
def rv_pkt_end_frame (s : st_rx_video_session_impl) (i : Nat) : Bool :=
  match s.dma_dev with
  | some dma_dev =>
    decide (s.st20_frame_size ≤ rv_slot_get_frame_size (s.slots i)) && mt_dma_empty dma_dev
  | none => decide (s.st20_frame_size ≤ rv_slot_get_frame_size (s.slots i))

/-- Slice update of `rv_handle_frame_pkt` (lines 1900-1903) on slot `i`: the tracker of a
slice-level session takes the range unless the packet went to the DMA engine.
The result is `none` when `rv_slice_add` traps. -/
def rv_pkt_slice (s : st_rx_video_session_impl) (dma_copy : Bool) (i offset payload_length : Nat) :
    Option st_rx_video_session_impl :=
  match (s.slots i).slice_info with
  | some slice_info =>
    if dma_copy then some s else rv_slice_add s i slice_info offset payload_length
  | none => some s

/-- End of `rv_handle_frame_pkt` (lines 1905-1922) on slot `i` holding frame `f`: a full
frame is notified, and `s->dma_copy` is raised when the packet went to the DMA
engine. -/
def rv_pkt_finish (s : st_rx_video_session_impl) (dma_copy : Bool) (i f : Nat) :
    st_rx_video_session_impl :=
  let s4 := if rv_pkt_end_frame s i then rv_slot_full_frame s i f else s
  if dma_copy then { s4 with dma_copy := true } else s4

/-- Payload placement and accounting of `rv_handle_frame_pkt` (lines 1827-1924) for
an accepted packet on slot `i` holding frame `f`. -/
def rv_handle_frame_pkt_place (s : st_rx_video_session_impl) (mbuf : rte_mbuf)
    (ctrl_thread : Bool) (i f : Nat) : rv_result :=
  let offset := rv_pkt_offset s mbuf
  let payload_length := rv_pkt_payload_length mbuf
  let placed := rv_pkt_place_payload s mbuf f
  let s2 := rv_pkt_account placed.1 ctrl_thread i payload_length
  match rv_pkt_slice s2 placed.2 i offset payload_length with
  | none => .fault s2
  | some s3 => .ret 0 (rv_pkt_finish s3 placed.2 i f)

/-- Packet index of the first accepted packet of a slot (lines 1804-1813), or `none`
when a division by zero traps. -/
def rv_first_pkt_idx (s : st_rx_video_session_impl) (mbuf : rte_mbuf) : Option Int :=
  let line1_number := (mbuf.row_number % U16) % BIT15
  let line1_offset := (mbuf.row_offset % U16) % BIT15
  let offset := rv_pkt_offset s mbuf
  let payload_length := rv_pkt_payload_length mbuf
  if payload_length = 0 then none
  else if offset % payload_length ≠ 0 then
    /- GPM_SL packing -/
    if s.bytes_in_pkt = 0 then none
    else
      let pkts_in_line := to_int32 (s.st20_bytes_in_line / s.bytes_in_pkt + 1)
      let pixel_in_pkt := to_int32 ((s.ops.width + to_uint32 pkts_in_line + U32 - 1) % U32
          / to_uint32 pkts_in_line)
      if pkts_in_line = 0 ∨ pixel_in_pkt = 0 then none
      else some (to_int32 (to_uint32 ((line1_number : Int) * pkts_in_line
          + Int.tdiv (line1_offset : Int) pixel_in_pkt)))
  else some (to_int32 (offset / payload_length))

/-- Packet index of a packet with extended sequence `seq_id_u32` on a slot whose base
is `seq_id_base_u32` (lines 1782-1785): both operands are `uint32_t`, the result is
stored in an `int`. -/
def rv_seq_pkt_idx (seq_id_u32 seq_id_base_u32 : Nat) : Int :=
  if seq_id_base_u32 ≤ seq_id_u32 then to_int32 (seq_id_u32 - seq_id_base_u32)
  else to_int32 (seq_id_u32 + (4294967295 - seq_id_base_u32) + 1)

/-- User-meta branch of `rv_handle_frame_pkt` (lines 1746-1758) for a packet whose
`row_length` has `ST20_LEN_USER_META` set, on a slot holding frame `f`. -/
def rv_pkt_user_meta (s : st_rx_video_session_impl) (mbuf : rte_mbuf) (f : Nat) : rv_result :=
  let line1_length := (mbuf.row_length % U16) % BIT15
  let frame := s.st20_frames f
  if line1_length ≤ frame.user_meta_buffer_size then
    .ret 0 { s with
      st20_frames := Function.update s.st20_frames f
        { frame with
          user_meta := mbuf_read mbuf.payload 0 line1_length ++ frame.user_meta.drop line1_length
          user_meta_data_size := line1_length }
      stats := { s.stats with stat_pkts_user_meta := s.stats.stat_pkts_user_meta + 1 } }
  else
    .ret (- EIO_errno) { s with stats := { s.stats with
      stat_pkts_user_meta_err := s.stats.stat_pkts_user_meta_err + 1 } }

/-- Sequence and duplicate checks of `rv_handle_frame_pkt` (lines 1780-1825) on slot `i`
holding frame `f`, followed by the payload placement of an accepted packet. -/
def rv_pkt_seq_check (s : st_rx_video_session_impl) (mbuf : rte_mbuf)
    (ctrl_thread : Bool) (i f : Nat) : rv_result :=
  let seq_id_u32 := rfc4175_rtp_seq_id mbuf
  let slot := s.slots i
  if slot.seq_id_got then
    /- check if the same pkt got already -/
    let pkt_idx : Int := rv_seq_pkt_idx seq_id_u32 slot.seq_id_base_u32
    if pkt_idx < 0 ∨ s.st20_frame_bitmap_size * 8 ≤ to_size_t pkt_idx then
      .ret (- EIO_errno) { s with stats := { s.stats with
        stat_pkts_idx_oo_bitmap := s.stats.stat_pkts_idx_oo_bitmap + 1 } }
    else if (mt_bitmap_test_and_set slot.frame_bitmap pkt_idx).1 then
      .ret 0 { s with
        slots := Function.update s.slots i
          { slot with pkts_redundant_received := slot.pkts_redundant_received + 1 }
        stats := { s.stats with
          stat_pkts_redundant_dropped := s.stats.stat_pkts_redundant_dropped + 1 } }
    else
      let slot1 := { slot with frame_bitmap := (mt_bitmap_test_and_set slot.frame_bitmap pkt_idx).2 }
      rv_handle_frame_pkt_place { s with slots := Function.update s.slots i slot1 }
        mbuf ctrl_thread i f
  else if ctrl_thread then
    /- the first pkt should always dispatch to control thread -/
    match rv_first_pkt_idx s mbuf with
    | none => .fault s
    | some pkt_idx =>
      let slot1 :=
        { slot with
          seq_id_base_u32 := to_uint32 ((seq_id_u32 : Int) - pkt_idx)
          seq_id_got := true
          frame_bitmap := (mt_bitmap_test_and_set slot.frame_bitmap pkt_idx).2 }
      rv_handle_frame_pkt_place { s with slots := Function.update s.slots i slot1 }
        mbuf ctrl_thread i f
  else
    .ret (- EIO_errno) { s with stats := { s.stats with
      stat_pkts_idx_dropped := s.stats.stat_pkts_idx_dropped + 1 } }

/-- The part of `rv_handle_frame_pkt` after the slot has been found (lines 1746-1925), on
slot `i` holding frame `f`: user meta, second-field flag, offset bound, then the
sequence checks. -/
def rv_handle_frame_pkt_slot (s : st_rx_video_session_impl) (mbuf : rte_mbuf)
    (ctrl_thread : Bool) (i f : Nat) : rv_result :=
  if BIT15 ≤ mbuf.row_length % U16 then rv_pkt_user_meta s mbuf f
  else
    let slot := { s.slots i with second_field := decide (BIT15 ≤ mbuf.row_number % U16) }
    let s1 := { s with slots := Function.update s.slots i slot }
    if rv_pkt_offset_limit s < rv_pkt_offset s mbuf + rv_pkt_payload_length mbuf then
      .ret (- EIO_errno) { s1 with stats := { s1.stats with
        stat_pkts_offset_dropped := s1.stats.stat_pkts_offset_dropped + 1 } }
    else rv_pkt_seq_check s1 mbuf ctrl_thread i f

/-- The function `rv_handle_frame_pkt`. -/
def rv_handle_frame_pkt (s : st_rx_video_session_impl) (mbuf : rte_mbuf) (_s_port : Nat)
    (ctrl_thread : Bool) : rv_result :=
  let tmstamp := mbuf.tmstamp % U32
  if mbuf.payload_type % 256 ≠ s.ops.payload_type then
    .ret (- EINVAL_errno) { s with stats := { s.stats with
      stat_pkts_wrong_hdr_dropped := s.stats.stat_pkts_wrong_hdr_dropped + 1 } }
  else if (match mbuf.next_data_len with
      | some data_len => decide (data_len ≠ 0)
      | none => false) then
    .ret (- EIO_errno) { s with stats := { s.stats with
      stat_pkts_multi_segments_received := s.stats.stat_pkts_multi_segments_received + 1 } }
  else
    /- find the target slot by tmstamp -/
    let r := rv_slot_by_tmstamp s tmstamp none
    let s1 := r.1
    let no_slot : rv_result :=
      .ret (- EIO_errno) { s1 with stats := { s1.stats with
        stat_pkts_no_slot := s1.stats.stat_pkts_no_slot + 1 } }
    match r.2 with
    | none => no_slot
    | some i =>
      match (s1.slots i).frame with
      | none => no_slot
      | some f => rv_handle_frame_pkt_slot s1 mbuf ctrl_thread i f

/-- Modelled from the spec: `mt_dma_drop_mbuf` releases the completed mbufs
and, on a slice-level session (`slice_cb`), hands each to
`rv_slice_dma_drop_mbuf`, which adds its `(offset, len)` to the tracker of
`s->dma_slot`. -/
def rv_dma_drop_mbufs (s : st_rx_video_session_impl) (slice_cb : Bool)
    (dropped : List (Nat × Nat)) : Option st_rx_video_session_impl :=
  match dropped with
  | [] => some s
  | (offset, len) :: rest =>
    if slice_cb then
      match s.dma_slot with
      | none => none
      | some i =>
        match (s.slots i).slice_info with
        | some slice_info =>
          match rv_slice_add s i slice_info offset len with
          | some s1 => rv_dma_drop_mbufs s1 slice_cb rest
          | none => none
        | none => none
    else rv_dma_drop_mbufs s slice_cb rest

/-- The function `rv_dma_dequeue`, called by the tasklet when the session has a DMA
device; `nb_dq` is the number of completed copies `mt_dma_completed` reports.
The comparison of the received size is made on an `int32_t` converted
back to `size_t`, as in the source. -/
def rv_dma_dequeue (s : st_rx_video_session_impl) (slice_cb : Bool) (nb_dq : Nat) : rv_result :=
  match s.dma_dev with
  | none => .fault s
  | some dma_dev =>
    let done := dma_dev.borrowed.take nb_dq
    let dev1 := { dma_dev with borrowed := dma_dev.borrowed.drop nb_dq }
    match rv_dma_drop_mbufs { s with dma_dev := some dev1 } slice_cb done with
    | none => .fault s
    | some s1 =>
      /- all dma action finished -/
      match s1.dma_slot with
      | some dma_slot =>
        if mt_dma_empty dev1 then
          let frame_recv_size := to_int32 (rv_slot_get_frame_size (s1.slots dma_slot))
          if s1.st20_frame_size ≤ to_size_t frame_recv_size then
            match (s1.slots dma_slot).frame with
            | some f => .ret 0 { rv_slot_full_frame s1 dma_slot f with dma_slot := none }
            | none => .fault s1
          else .ret 0 s1
        else .ret 0 s1
      | none => .ret 0 s1


/-! ## Session initialisation -/

/-- A zeroed frame meta. -/
def st20_rx_frame_meta_zero : st20_rx_frame_meta :=
  { timestamp := 0, second_field := false, frame_total_size := 0, uframe_total_size := 0,
    frame_recv_size := 0, user_meta_size := 0, user_meta := none, status := .COMPLETE }

/-- A slot as `rv_init_slot` leaves it (lines 1032-1057): no frame, zero counters,
timestamp 0, sequence base not captured, zeroed bitmap, and a zeroed slice
tracker of `slice_num` entries on a slice-level session. -/
def rv_init_slot_entry (i : Nat) (slice_num : Option Nat) : st_rx_video_slot_impl :=
  { idx := i
    tmstamp := 0
    seq_id_base := 0
    seq_id_base_u32 := 0
    seq_id_got := false
    frame := none
    frame_bitmap := []
    frame_recv_size := 0
    pkt_lcore_frame_recv_size := 0
    pkts_received := 0
    pkts_redundant_received := 0
    meta := st20_rx_frame_meta_zero
    st22_meta := { timestamp := 0, frame_total_size := 0, status := .COMPLETE }
    second_field := false
    slice_info := slice_num.map (fun n =>
      { slices := List.replicate n { offset := 0, size := 0 }, ready_slices := 0,
        extra_slices := 0 })
    st22_payload_length := 0
    st22_box_hdr_length := 0 }

/-- The function `rv_init_slot`: every slot reset, `slot_idx = -1`, and two slots when
RTCP is enabled, one otherwise. -/
def rv_init_slot (s : st_rx_video_session_impl) (flag_enable_rtcp : Bool)
    (slice_num : Option Nat) : st_rx_video_session_impl :=
  { s with
    slots := fun i => rv_init_slot_entry i slice_num
    slot_idx := -1
    slot_max := if flag_enable_rtcp then 2 else 1 }

/-- A frame as `rv_alloc_frames` leaves it: refcount 0, buffer at `addr`, and a user
meta buffer of `user_meta_buffer_size` zero bytes. -/
def rv_alloc_frame_entry (i addr user_meta_buffer_size : Nat) : st_frame_trans :=
  { idx := i
    refcnt := 0
    addr := addr
    iova := addr
    page_table := []
    user_meta := List.replicate user_meta_buffer_size 0
    user_meta_buffer_size := user_meta_buffer_size
    user_meta_data_size := 0
    copies := [] }

/-- All counters zero, as `rv_attach` sets them. -/
def rv_stats_zero : rv_stats :=
  { stat_pkts_wrong_hdr_dropped := 0, stat_pkts_multi_segments_received := 0,
    stat_pkts_no_slot := 0, stat_pkts_user_meta := 0, stat_pkts_user_meta_err := 0,
    stat_pkts_offset_dropped := 0, stat_pkts_idx_oo_bitmap := 0,
    stat_pkts_redundant_dropped := 0, stat_pkts_idx_dropped := 0, stat_pkts_dma := 0,
    stat_pkts_received := 0, stat_pkts_slice_fail := 0, stat_pkts_slice_merged := 0,
    stat_slices_received := 0, stat_frames_received := 0, stat_frames_dropped := 0,
    stat_slot_get_frame_fail := 0, stat_slot_query_ext_fail := 0, dma_previous_busy_cnt := 0,
    cbs_incomplete_frame_cnt := 0, cbs_frame_slot_cnt := 0, port_user_stats_frames := 0 }

/-- A freshly attached ST 2110-20 frame-level session for a `width` x `height`
picture with pixel group `pg_size`/`pg_coverage`, line size `linesize`,
`num_port` ports and `frames_cnt` frame buffers whose application callbacks
accept every frame: the derived sizes are those of `rv_attach` (lines 3111-3138), the
slots those of `rv_init_slot`, the frames those of `rv_alloc_frames`. -/
def rv_session_init (width height pg_size pg_coverage linesize num_port frames_cnt : Nat)
    (dma_dev : Option mtl_dma_lender_dev) : st_rx_video_session_impl :=
  let frame_size := width * height * pg_size / pg_coverage
  let s : st_rx_video_session_impl :=
    { ops :=
        { num_port := num_port, payload_type := 96, width := width, height := height,
          flag_receive_incomplete_frame := false,
          notify_frame_ready := fun _ _ => 0, query_ext_frame := none }
      has_ebu := false
      st22_info := none
      st22_flag_disable_boxes := false
      dma_min_size := 1024
      bytes_in_pkt := 1452
      st22_hdr_size := 58
      st20_frame_size := frame_size
      st20_fb_size := linesize * height
      st20_linesize := linesize
      st20_bytes_in_line := width * pg_size / pg_coverage
      st20_frame_bitmap_size := max (frame_size / 800 / 8) (height * 2 / 8)
      st20_uframe_size := 0
      st20_pg_size := pg_size
      st20_pg_coverage := pg_coverage
      slice_lines := height / 32
      slice_size := width * (height / 32) * pg_size / pg_coverage
      st20_frames_cnt := frames_cnt
      st20_frames := fun i => rv_alloc_frame_entry i (1000000000 * (i + 1)) 1448
      slots := fun i => rv_init_slot_entry i none
      slot_idx := -1
      slot_max := 1
      dma_dev := dma_dev
      dma_slot := none
      dma_copy := false
      st22_expect_frame_size := 0
      st22_expect_size_per_frame := 0
      stats := rv_stats_zero
      events := []
      app_held := [] }
  rv_init_slot s false none

/-! ## Example sessions and packets -/

/-- An example session whose DMA engine still has one copy in flight. -/
def session_dma_busy : st_rx_video_session_impl :=
  rv_session_init 1920 1080 5 2 4800 1 2 (some { nb_desc := 128, borrowed := [(0, 1200)] })

/-- An example RFC 4175 packet: payload type 96, timestamp 1500, sequence 0, line 0,
offset 0, 1200 bytes of payload. -/
def mbuf_example : rte_mbuf :=
  { payload_type := 96, marker := false, tmstamp := 1500, seq_number := 0, seq_number_ext := 0,
    row_length := 1200, row_number := 0, row_offset := 0, extra_row_length := 0,
    extra_row_number := 0, extra_row_offset := 0, payload := List.replicate 1200 7,
    next_data_len := none, dma_copy_ret := 0 }

/-- A 1080p session (YUV 4:2:2 10 bit, 4800 bytes per line) whose lines are padded
to 4864 bytes, so that the frame buffer holds 1080 * 4864 = 5253120 bytes. -/
def session_1080p_padded : st_rx_video_session_impl :=
  rv_session_init 1920 1080 5 2 4864 1 2 none

/-- A packet on the last line (1079) of a 1080p frame carrying two SRDs of 1200
bytes each: the continuation bit of `row_offset` is set. -/
def mbuf_last_line_two_srd : rte_mbuf :=
  { payload_type := 96, marker := true, tmstamp := 1500, seq_number := 4316, seq_number_ext := 0,
    row_length := 1200, row_number := 1079, row_offset := 32768, extra_row_length := 1200,
    extra_row_number := 1080, extra_row_offset := 0, payload := [],
    next_data_len := none, dma_copy_ret := 0 }

/-- A 1080p single-port session without line padding. -/
def session_1080p : st_rx_video_session_impl :=
  rv_session_init 1920 1080 5 2 4800 1 2 none

/-- A user-meta packet: bit `0x8000` of `row_length` set, 200 bytes of payload. -/
def mbuf_user_meta_200 : rte_mbuf :=
  { payload_type := 96, marker := false, tmstamp := 1500, seq_number := 0, seq_number_ext := 0,
    row_length := 32768 + 200, row_number := 0, row_offset := 0, extra_row_length := 0,
    extra_row_number := 0, extra_row_offset := 0, payload := List.replicate 200 9,
    next_data_len := none, dma_copy_ret := 0 }

/-- The session `session_1080p` after it has handled `mbuf_example` once. -/
def session_1080p_one_pkt : st_rx_video_session_impl :=
  (rv_handle_frame_pkt session_1080p mbuf_example 0 true).state

/-! ## Event properties -/

/-- The property of an event that claim C7 is about: a call of `notify_frame_ready` whose
status is not CORRUPTED (so COMPLETE or RECONSTRUCTED) was made with no DMA
descriptor in flight (the third component of the event is the number of
borrowed mbufs when the callback ran, so 0 means `mt_dma_empty`) and with a
received size that had reached the frame size.  Other events are not
constrained. -/
def notify_after_dma (e : rx_event) : Prop :=
  match e with
  | .notify_frame_ready _ m n =>
    m.status ≠ .CORRUPTED → n = 0 ∧ m.frame_total_size ≤ m.frame_recv_size
  | _ => True

/-- The event log of `s2` extends the one of `s1` by events that satisfy `good`. -/
def events_extend (good : rx_event → Prop) (s1 s2 : st_rx_video_session_impl) : Prop :=
  ∃ added, s2.events = added ++ s1.events ∧ ∀ e ∈ added, good e

/-! ## Quiet steps: definitions -/

/-- The event is not a call of `notify_frame_ready`. -/
def not_frame_ready (e : rx_event) : Prop :=
  match e with
  | .notify_frame_ready _ _ _ => False
  | _ => True

/-- No frame-level action between `s` and `s2`: the active slot count, every slot's
timestamp and frame, every refcount, the frames held by the application and
the frame size are the same, and the log grew by events other than
`notify_frame_ready`. -/
def rv_quiet (s s2 : st_rx_video_session_impl) : Prop :=
  s2.slot_max = s.slot_max ∧
  (∀ j, (s2.slots j).tmstamp = (s.slots j).tmstamp) ∧
  (∀ j, (s2.slots j).frame = (s.slots j).frame) ∧
  (∀ g, (s2.st20_frames g).refcnt = (s.st20_frames g).refcnt) ∧
  s2.app_held = s.app_held ∧
  s2.st20_frames_cnt = s.st20_frames_cnt ∧
  events_extend not_frame_ready s s2

/-! ## Replay after a full frame: definitions -/

/-- The frame with timestamp `tmstamp` is done: its slot still carries the timestamp
and no longer holds a frame. -/
def frame_done (s : st_rx_video_session_impl) (tmstamp : Nat) : Prop :=
  ∃ i, rv_slot_match s tmstamp = some i ∧ (s.slots i).frame = none

/-- The event is not a call of `notify_frame_ready` for timestamp `tmstamp`. -/
def notify_other_tmstamp (tmstamp : Nat) (e : rx_event) : Prop :=
  match e with
  | .notify_frame_ready _ m _ => m.timestamp ≠ tmstamp
  | _ => True

/-- The handler applied to packets in arrival order, each with the port it came
from and the thread flag, as the dispatch loop of `rv_handle_mbuf` (lines 2805-2822)
does; the return codes are collected and a trap ends the run. -/
def rv_handle_frame_pkts (s : st_rx_video_session_impl)
    (pkts : List (rte_mbuf × Nat × Bool)) : List Int × st_rx_video_session_impl :=
  match pkts with
  | [] => ([], s)
  | p :: rest =>
    match rv_handle_frame_pkt s p.1 p.2.1 p.2.2 with
    | .ret code s1 => (code :: (rv_handle_frame_pkts s1 rest).1, (rv_handle_frame_pkts s1 rest).2)
    | .fault s1 => ([], s1)

/-- The 1080p session in the middle of the frame with timestamp 1500: slot 0 holds
frame 0 and has received the packets 0..4318 (1200 bytes each) once; only
packet 4319 is missing. -/
def session_1080p_last_missing : st_rx_video_session_impl :=
  { session_1080p with
    slots := fun i =>
      if i = 0 then
        { rv_init_slot_entry 0 none with
          tmstamp := 1500
          seq_id_got := true
          seq_id_base_u32 := 0
          frame := some 0
          frame_bitmap := (List.range 4319).map (fun k => (k : Int))
          pkt_lcore_frame_recv_size := 4319 * 1200
          pkts_received := 4319 }
      else rv_init_slot_entry i none
    slot_idx := 0
    st20_frames := fun i =>
      if i = 0 then { rv_alloc_frame_entry 0 1000000000 1448 with refcnt := 1 }
      else rv_alloc_frame_entry i (1000000000 * (i + 1)) 1448 }

/-- The last packet of a 1080p frame: line 1079, pixel offset 1440, sequence 4319. -/
def mbuf_last_pkt : rte_mbuf :=
  { payload_type := 96, marker := true, tmstamp := 1500, seq_number := 4319, seq_number_ext := 0,
    row_length := 1200, row_number := 1079, row_offset := 1440, extra_row_length := 0,
    extra_row_number := 0, extra_row_offset := 0, payload := List.replicate 1200 7,
    next_data_len := none, dma_copy_ret := 0 }

/-! ## RFC 9134 (ST 2110-22) handler -/

/-- A received RFC 9134 packet (`struct rte_mbuf` holding a
`struct st22_rfc9134_rtp_hdr`), header fields in host byte order; `data_len` is
`mbuf->data_len` and `payload` the bytes after the header. -/
structure st22_mbuf where
  payload_type : Nat
  marker : Bool
  kmode : Bool
  tmstamp : Nat
  seq_number : Nat
  p_counter_lo : Nat
  p_counter_hi : Nat
  sep_counter_lo : Nat
  sep_counter_hi : Nat
  data_len : Nat
  payload : List Nat
deriving DecidableEq, Repr

/-- Packet counter of a packet (lines 2069-2072): `p_counter + sep_counter * 2048`
with `p_counter = p_counter_lo + (p_counter_hi << 8)` and
`sep_counter = sep_counter_lo + (sep_counter_hi << 5)`, both `uint16_t`. -/
def st22_pkt_counter (mbuf : st22_mbuf) : Nat :=
  (mbuf.p_counter_lo + mbuf.p_counter_hi * 256) % U16 +
    ((mbuf.sep_counter_lo + mbuf.sep_counter_hi * 32) % U16) * 2048

/-- Payload length of a packet (line 2065), a `uint16_t`:
`mbuf->data_len - sizeof(struct st22_rfc9134_video_hdr)`. -/
def st22_payload_length (s : st_rx_video_session_impl) (mbuf : st22_mbuf) : Nat :=
  (mbuf.data_len % U16 + U16 - s.st22_hdr_size % U16) % U16

/-- The 32-bit big-endian word at byte `at_` of the payload (`ntohl(box->lbox)`). -/
def st22_box_lbox (payload : List Nat) (at_ : Nat) : Nat :=
  (payload.getD at_ 0 % 256) * 16777216 + (payload.getD (at_ + 1) 0 % 256) * 65536 +
    (payload.getD (at_ + 2) 0 % 256) * 256 + payload.getD (at_ + 3) 0 % 256

/-- The four type bytes `box->tbox` of the box at byte `at_` of the payload. -/
def st22_box_tbox (payload : List Nat) (at_ : Nat) : List Nat :=
  [payload.getD (at_ + 4) 0, payload.getD (at_ + 5) 0, payload.getD (at_ + 6) 0,
    payload.getD (at_ + 7) 0]

/-- The function `rv_parse_st22_boxes`: the combined length of the `jpvs` and `colr` boxes at
the head of the payload, or `none` when the (32-bit) sum exceeds 512. -/
def rv_parse_st22_boxes (payload : List Nat) : Option Nat :=
  let jpvs_len := if st22_box_tbox payload 0 = [106, 112, 118, 115] then st22_box_lbox payload 0
    else 0
  let colr_len :=
    if st22_box_tbox payload jpvs_len = [99, 111, 108, 114] then st22_box_lbox payload jpvs_len
    else 0
  if 512 < (jpvs_len + colr_len) % U32 then none
  else some ((jpvs_len + colr_len) % U32)

/-- Packet index in the captured-base branch of `rv_handle_st22_pkt` (lines 2105-2108),
computed on `int` from two `uint16_t`. -/
def rv_st22_seq_pkt_idx (seq_id seq_id_base : Nat) : Int :=
  if seq_id_base ≤ seq_id then (seq_id : Int) - (seq_id_base : Int)
  else (seq_id : Int) + (65535 - (seq_id_base : Int)) + 1

/-- Destination offset of a packet (lines 2155-2162), a `uint32_t`. -/
def rv_st22_offset (slot : st_rx_video_slot_impl) (pkt_counter : Nat) : Nat :=
  if pkt_counter = 0 then 0
  else to_uint32 ((pkt_counter : Int) * (slot.st22_payload_length : Int)
    - (slot.st22_box_hdr_length : Int))

/-- Number of bytes copied from a packet (lines 2156-2159): the first packet loses the
box header, the subtraction being on `uint16_t`. -/
def rv_st22_copy_length (slot : st_rx_video_slot_impl) (pkt_counter payload_length : Nat) : Nat :=
  if pkt_counter = 0 then (payload_length + U16 - slot.st22_box_hdr_length % U16) % U16
  else payload_length

/-- Payload copy and accounting of `rv_handle_st22_pkt` (lines 2169-2172) on slot `i`
holding frame `f`: `payload_length` bytes starting `skip` bytes into the payload
go to `offset`. -/
def rv_st22_pkt_copy (s : st_rx_video_session_impl) (mbuf : st22_mbuf)
    (i f offset skip payload_length : Nat) : st_rx_video_session_impl :=
  let s1 := frame_memcpy s f offset (mbuf_read mbuf.payload skip payload_length)
  let slot1 := rv_slot_add_frame_size (s1.slots i) payload_length
  let slot2 := { slot1 with pkts_received := slot1.pkts_received + 1 }
  { s1 with
    slots := Function.update s1.slots i slot2
    stats := { s1.stats with stat_pkts_received := s1.stats.stat_pkts_received + 1 } }

/-- Update of the expected frame size in `rv_handle_st22_pkt` (lines 2174-2178): a marker
packet sets it to `offset + payload_length`, a `uint32_t` sum. -/
def rv_st22_expect_size (s : st_rx_video_session_impl) (marker : Bool)
    (offset payload_length : Nat) : st_rx_video_session_impl :=
  if marker then
    { s with
      st22_expect_frame_size := (offset + payload_length) % U32
      st22_expect_size_per_frame := (offset + payload_length) % U32 }
  else s

/-- Completion check of `rv_handle_st22_pkt` (lines 2180-2195) on slot `i` holding frame
`f`. -/
def rv_st22_pkt_finish (s : st_rx_video_session_impl) (i f : Nat) : rv_result :=
  if s.st22_expect_frame_size ≠ 0 ∧
      s.st22_expect_frame_size = rv_slot_get_frame_size (s.slots i) then
    .ret 0 (rv_st22_slot_full_frame s i f)
  else .ret 0 s

/-- Payload copy and completion check of `rv_handle_st22_pkt` (lines 2148-2195) on slot
`i`. -/
def rv_handle_st22_pkt_place (s : st_rx_video_session_impl) (mbuf : st22_mbuf) (i : Nat) :
    rv_result :=
  let slot := s.slots i
  let pkt_counter := st22_pkt_counter mbuf
  match slot.frame with
  | none =>
    .ret (- EIO_errno) { s with stats := { s.stats with
      stat_pkts_no_slot := s.stats.stat_pkts_no_slot + 1 } }
  | some f =>
    let offset := rv_st22_offset slot pkt_counter
    let payload_length := rv_st22_copy_length slot pkt_counter (st22_payload_length s mbuf)
    let skip := if pkt_counter = 0 then slot.st22_box_hdr_length else 0
    if s.st20_frame_size < (offset + payload_length) % U32 then
      .ret (- EIO_errno) { s with stats := { s.stats with
        stat_pkts_offset_dropped := s.stats.stat_pkts_offset_dropped + 1 } }
    else
      let s2 := rv_st22_pkt_copy s mbuf i f offset skip payload_length
      /- update the expect frame size -/
      let s3 := rv_st22_expect_size s2 mbuf.marker offset payload_length
      /- check if frame is full -/
      rv_st22_pkt_finish s3 i f

/-- Sequence checks of `rv_handle_st22_pkt` (lines 2099-2146) on slot `i`, followed by the
payload copy. -/
def rv_handle_st22_pkt_slot (s : st_rx_video_session_impl) (mbuf : st22_mbuf) (i : Nat) :
    rv_result :=
  let slot := s.slots i
  let seq_id := mbuf.seq_number % U16
  let payload_length := st22_payload_length s mbuf
  let pkt_counter := st22_pkt_counter mbuf
  if slot.seq_id_got then
    if !mbuf.marker && decide (payload_length ≠ slot.st22_payload_length) then
      .ret (- EIO_errno) { s with stats := { s.stats with
        stat_pkts_wrong_hdr_dropped := s.stats.stat_pkts_wrong_hdr_dropped + 1 } }
    else
      /- check if the same pks got already -/
      let pkt_idx := rv_st22_seq_pkt_idx seq_id slot.seq_id_base
      if pkt_idx < 0 ∨ s.st20_frame_bitmap_size * 8 ≤ to_size_t pkt_idx then
        .ret (- EIO_errno) { s with stats := { s.stats with
          stat_pkts_idx_oo_bitmap := s.stats.stat_pkts_idx_oo_bitmap + 1 } }
      else if (mt_bitmap_test_and_set slot.frame_bitmap pkt_idx).1 then
        .ret 0 { s with
          slots := Function.update s.slots i
            { slot with pkts_redundant_received := slot.pkts_redundant_received + 1 }
          stats := { s.stats with
            stat_pkts_redundant_dropped := s.stats.stat_pkts_redundant_dropped + 1 } }
      else
        let slot1 := { slot with frame_bitmap := (mt_bitmap_test_and_set slot.frame_bitmap pkt_idx).2 }
        rv_handle_st22_pkt_place { s with slots := Function.update s.slots i slot1 } mbuf i
  else
    /- first packet -/
    let boxes : Option Nat :=
      if pkt_counter = 0 then
        if s.st22_flag_disable_boxes then some 0 else rv_parse_st22_boxes mbuf.payload
      else some slot.st22_box_hdr_length
    match boxes with
    | none =>
      .ret (- EIO_errno) { s with stats := { s.stats with
        stat_pkts_idx_dropped := s.stats.stat_pkts_idx_dropped + 1 } }
    | some box_hdr_length =>
      let slot1 :=
        { slot with
          st22_box_hdr_length := box_hdr_length
          seq_id_base := to_uint16 ((seq_id : Int) - (pkt_counter : Int))
          st22_payload_length := payload_length
          seq_id_got := true
          frame_bitmap := (mt_bitmap_test_and_set slot.frame_bitmap (pkt_counter : Int)).2 }
      rv_handle_st22_pkt_place { s with slots := Function.update s.slots i slot1 } mbuf i

/-- The function `rv_handle_st22_pkt`. -/
def rv_handle_st22_pkt (s : st_rx_video_session_impl) (mbuf : st22_mbuf) (_s_port : Nat)
    (_ctrl_thread : Bool) : rv_result :=
  if mbuf.payload_type % 256 ≠ s.ops.payload_type then
    .ret (- EINVAL_errno) { s with stats := { s.stats with
      stat_pkts_wrong_hdr_dropped := s.stats.stat_pkts_wrong_hdr_dropped + 1 } }
  else if mbuf.kmode then
    .ret (- EINVAL_errno) { s with stats := { s.stats with
      stat_pkts_wrong_hdr_dropped := s.stats.stat_pkts_wrong_hdr_dropped + 1 } }
  else
    /- find the target slot by tmstamp -/
    let r := rv_slot_by_tmstamp s (mbuf.tmstamp % U32) none
    match r.2 with
    | none =>
      .ret (- EIO_errno) { r.1 with stats := { r.1.stats with
        stat_pkts_no_slot := r.1.stats.stat_pkts_no_slot + 1 } }
    | some i => rv_handle_st22_pkt_slot r.1 mbuf i

/-! ## Header-split handler -/

/-- Sequence check of `rv_handle_hdr_split_pkt` (lines 2247-2281) on slot `i`: the packet
index, or the result to return. -/
def rv_hdr_split_seq_check (s : st_rx_video_session_impl) (mbuf : rte_mbuf) (i : Nat) :
    Except rv_result (st_rx_video_session_impl × Int) :=
  let slot := s.slots i
  let seq_id_u32 := rfc4175_rtp_seq_id mbuf
  let line1_number := (mbuf.row_number % U16) % BIT15
  let line1_offset := (mbuf.row_offset % U16) % BIT15
  if slot.seq_id_got then
    let pkt_idx : Int := rv_seq_pkt_idx seq_id_u32 slot.seq_id_base_u32
    if pkt_idx < 0 ∨ s.st20_frame_bitmap_size * 8 ≤ to_size_t pkt_idx then
      .error (.ret (- EIO_errno) { s with stats := { s.stats with
        stat_pkts_idx_oo_bitmap := s.stats.stat_pkts_idx_oo_bitmap + 1 } })
    else if (mt_bitmap_test_and_set slot.frame_bitmap pkt_idx).1 then
      .error (.ret 0 { s with
        slots := Function.update s.slots i
          { slot with pkts_redundant_received := slot.pkts_redundant_received + 1 }
        stats := { s.stats with
          stat_pkts_redundant_dropped := s.stats.stat_pkts_redundant_dropped + 1 } })
    else
      let slot1 := { slot with frame_bitmap := (mt_bitmap_test_and_set slot.frame_bitmap pkt_idx).2 }
      .ok ({ s with slots := Function.update s.slots i slot1 }, pkt_idx)
  else if line1_number = 0 ∧ line1_offset = 0 then
    /- first packet -/
    let slot1 :=
      { slot with
        seq_id_base_u32 := seq_id_u32
        seq_id_got := true
        frame_bitmap := (mt_bitmap_test_and_set slot.frame_bitmap 0).2 }
    .ok ({ s with slots := Function.update s.slots i slot1 }, 0)
  else
    .error (.ret (- EIO_errno) { s with stats := { s.stats with
      stat_pkts_idx_dropped := s.stats.stat_pkts_idx_dropped + 1 } })

/-- Payload address check of `rv_handle_hdr_split_pkt` (lines 2303-2332): records the frame
base on packet 0, otherwise compares the address with the expected one.  The
boolean is `need_copy`; `none` stands for the trap of a division by zero. -/
def rv_hdr_split_addr_check (s : st_rx_video_session_impl) (mbuf : rte_mbuf) (s_port : Nat)
    (payload : Nat) (pkt_idx : Int) : Option (Except rv_result (st_rx_video_session_impl × Bool)) :=
  let hdr_split := s.hdr_split_info s_port
  if pkt_idx = 0 then
    if s.bpm_size = 0 ∨ hdr_split.mbufs_per_frame = 0 then none
    else
      let cur_frame_mbuf_idx := to_uint32 (Int.tdiv
        ((payload : Int) - (s.pktmbuf_headroom : Int) - (hdr_split.frames : Int)) (s.bpm_size : Int))
      let hdr_split1 :=
        { hdr_split with cur_frame_addr := payload, cur_frame_mbuf_idx := cur_frame_mbuf_idx }
      let mismatch : Nat := if cur_frame_mbuf_idx % hdr_split.mbufs_per_frame ≠ 0 then 1 else 0
      some (.ok ({ s with
        hdr_split_info := Function.update s.hdr_split_info s_port hdr_split1
        stats := { s.stats with
          stat_mismatch_hdr_split_frame := s.stats.stat_mismatch_hdr_split_frame + mismatch } },
        false))
  else
    let expect_payload : Int := (hdr_split.cur_frame_addr : Int) + pkt_idx * (s.bpm_size : Int)
    if expect_payload ≠ (payload : Int) then
      if mbuf.marker ∧ expect_payload < ((hdr_split.frames + hdr_split.frames_size : Nat) : Int) then
        some (.ok ({ s with stats := { s.stats with
          stat_pkts_copy_hdr_split := s.stats.stat_pkts_copy_hdr_split + 1 } }, true))
      else
        some (.error (.ret (- EIO_errno) { s with stats := { s.stats with
          stat_pkts_wrong_payload_hdr_split :=
            s.stats.stat_pkts_wrong_payload_hdr_split + 1 } }))
    else some (.ok (s, false))

/-- Accounting and completion check of `rv_handle_hdr_split_pkt` (lines 2334-2357) on slot `i`
holding frame `f`. -/
def rv_hdr_split_finish (s : st_rx_video_session_impl) (mbuf : rte_mbuf) (need_copy : Bool)
    (i f offset payload_length : Nat) : rv_result :=
  let s1 := if need_copy then
      frame_memcpy s f offset (mbuf_read mbuf.payload 0 payload_length)
    else s
  let slot1 := rv_slot_add_frame_size (s1.slots i) payload_length
  let slot2 := { slot1 with pkts_received := slot1.pkts_received + 1 }
  let s2 :=
    { s1 with
      slots := Function.update s1.slots i slot2
      stats := { s1.stats with stat_pkts_received := s1.stats.stat_pkts_received + 1 } }
  match rv_pkt_slice s2 false i offset payload_length with
  | none => .fault s2
  | some s3 =>
    if s3.st20_frame_size ≤ rv_slot_get_frame_size (s3.slots i) then
      .ret 0 (rv_slot_full_frame s3 i f)
    else .ret 0 s3

/-- Destination offset of a header-split packet (lines 2283-2284), a `uint32_t`. -/
def rv_hdr_split_offset (s : st_rx_video_session_impl) (mbuf : rte_mbuf) : Nat :=
  let line1_number := (mbuf.row_number % U16) % BIT15
  let line1_offset := (mbuf.row_offset % U16) % BIT15
  ((line1_number * (s.ops.width % U32) + line1_offset) % U32
    / s.st20_pg_coverage * s.st20_pg_size) % U32

/-- Payload length of a header-split packet (lines 2285-2286), a `size_t`. -/
def rv_hdr_split_payload_length (mbuf : rte_mbuf) : Nat :=
  mbuf.row_length % U16 +
    (if BIT15 ≤ mbuf.row_offset % U16 then mbuf.extra_row_length % U16 else 0)

/-- Payload address of a header-split packet (lines 2207-2215 and 2233-2235): the data of the
next segment when there is one with data, otherwise the bytes after the RTP
header and the extra row header. -/
def rv_hdr_split_payload (mbuf : rte_mbuf) : Nat :=
  let extra_rtp : Bool := decide (BIT15 ≤ mbuf.row_offset % U16)
  if (match mbuf.next_data_len with
      | some data_len => decide (data_len ≠ 0)
      | none => false) then mbuf.next_payload_addr
  else if extra_rtp then mbuf.payload_addr + 6 else mbuf.payload_addr

/-- The part of `rv_handle_hdr_split_pkt` after the slot has been found (lines 2243-2357), on
slot `i` holding frame `f`; `payload` is the payload address. -/
def rv_handle_hdr_split_pkt_slot (s : st_rx_video_session_impl) (mbuf : rte_mbuf)
    (s_port payload i f : Nat) : rv_result :=
  let slot := { s.slots i with second_field := decide (BIT15 ≤ mbuf.row_number % U16) }
  let s1 := { s with slots := Function.update s.slots i slot }
  match rv_hdr_split_seq_check s1 mbuf i with
  | .error r => r
  | .ok (s2, pkt_idx) =>
    /- calculate offset -/
    let offset := rv_hdr_split_offset s mbuf
    let payload_length := rv_hdr_split_payload_length mbuf
    if s.st20_frame_size < offset + payload_length then
      .ret (- EIO_errno) { s2 with stats := { s2.stats with
        stat_pkts_offset_dropped := s2.stats.stat_pkts_offset_dropped + 1 } }
    else if payload_length ≠ s.bpm_size ∧ ¬ mbuf.marker then
      .ret (- EIO_errno) { s2 with stats := { s2.stats with
        stat_pkts_not_bpm := s2.stats.stat_pkts_not_bpm + 1 } }
    else
      match rv_hdr_split_addr_check s2 mbuf s_port payload pkt_idx with
      | none => .fault s2
      | some (.error r) => r
      | some (.ok (s3, need_copy)) => rv_hdr_split_finish s3 mbuf need_copy i f offset payload_length

/-- The function `rv_handle_hdr_split_pkt`. -/
def rv_handle_hdr_split_pkt (s : st_rx_video_session_impl) (mbuf : rte_mbuf) (s_port : Nat)
    (_ctrl_thread : Bool) : rv_result :=
  if mbuf.payload_type % 256 ≠ s.ops.payload_type then
    .ret (- EINVAL_errno) { s with stats := { s.stats with
      stat_pkts_wrong_hdr_dropped := s.stats.stat_pkts_wrong_hdr_dropped + 1 } }
  else if !(s.hdr_split_info s_port).mbuf_pool_ready then
    .ret (- EINVAL_errno) { s with stats := { s.stats with
      stat_pkts_no_slot := s.stats.stat_pkts_no_slot + 1 } }
  else
    let payload : Nat := rv_hdr_split_payload mbuf
    /- find the target slot by tmstamp -/
    let r := rv_slot_by_tmstamp s (mbuf.tmstamp % U32) (some payload)
    let no_slot : rv_result :=
      .ret (- EIO_errno) { r.1 with stats := { r.1.stats with
        stat_pkts_no_slot := r.1.stats.stat_pkts_no_slot + 1 } }
    match r.2 with
    | none => no_slot
    | some i =>
      match (r.1.slots i).frame with
      | none => no_slot
      | some f => rv_handle_hdr_split_pkt_slot r.1 mbuf s_port payload i f

/-! ## Frame ownership: definitions -/

/-- Ownership invariant of the frame pool: a frame held by a slot has refcount 1 and
is not held by the application, no two slots hold the same frame, and the
frames held by the application are distinct and have refcount 1. -/
def rv_frame_inv (s : st_rx_video_session_impl) : Prop :=
  (∀ i f, (s.slots i).frame = some f → (s.st20_frames f).refcnt = 1 ∧ f ∉ s.app_held) ∧
  (∀ i j f, (s.slots i).frame = some f → (s.slots j).frame = some f → i = j) ∧
  (∀ f, f ∈ s.app_held → (s.st20_frames f).refcnt = 1) ∧
  s.app_held.Nodup

/-- Ownership moves of `rv_frame_notify` followed by the release of the slot: slot `i` lets
go of frame `f`, which either goes to the application or back to the pool. -/
def rv_frame_handed_over (s s2 : st_rx_video_session_impl) (i f : Nat) : Prop :=
  (∀ j, (s2.slots j).frame = if j = i then none else (s.slots j).frame) ∧
  ((s2.app_held = f :: s.app_held ∧
      ∀ g, (s2.st20_frames g).refcnt = (s.st20_frames g).refcnt) ∨
   (s2.app_held = s.app_held ∧
      ∀ g, (s2.st20_frames g).refcnt =
        if g = f then (s.st20_frames f).refcnt - 1 else (s.st20_frames g).refcnt))

/-- The states reachable from `s0` by packet handling and by the application giving
back frames: slot lookup, the three packet handlers, the two full-frame
functions on a slot that holds a frame, the DMA dequeue, and
`st20_rx_put_framebuff` on a buffer address whose frame the application holds (it
was notified of it and has not given it back since). -/
inductive rv_reachable (s0 : st_rx_video_session_impl) : st_rx_video_session_impl → Prop where
  | init : rv_reachable s0 s0
  | slot_by_tmstamp (s : st_rx_video_session_impl) (tmstamp : Nat) (hdr_split_pd : Option Nat) :
      rv_reachable s0 s → rv_reachable s0 (rv_slot_by_tmstamp s tmstamp hdr_split_pd).1
  | frame_pkt (s : st_rx_video_session_impl) (mbuf : rte_mbuf) (s_port : Nat)
      (ctrl_thread : Bool) :
      rv_reachable s0 s → rv_reachable s0 (rv_handle_frame_pkt s mbuf s_port ctrl_thread).state
  | st22_pkt (s : st_rx_video_session_impl) (mbuf : st22_mbuf) (s_port : Nat)
      (ctrl_thread : Bool) :
      rv_reachable s0 s → rv_reachable s0 (rv_handle_st22_pkt s mbuf s_port ctrl_thread).state
  | hdr_split_pkt (s : st_rx_video_session_impl) (mbuf : rte_mbuf) (s_port : Nat)
      (ctrl_thread : Bool) :
      rv_reachable s0 s →
      rv_reachable s0 (rv_handle_hdr_split_pkt s mbuf s_port ctrl_thread).state
  | slot_full_frame (s : st_rx_video_session_impl) (i f : Nat) :
      rv_reachable s0 s → (s.slots i).frame = some f →
      rv_reachable s0 (rv_slot_full_frame s i f)
  | st22_slot_full_frame (s : st_rx_video_session_impl) (i f : Nat) :
      rv_reachable s0 s → (s.slots i).frame = some f →
      rv_reachable s0 (rv_st22_slot_full_frame s i f)
  | dma_dequeue (s : st_rx_video_session_impl) (slice_cb : Bool) (nb_dq : Nat) :
      rv_reachable s0 s → rv_reachable s0 (rv_dma_dequeue s slice_cb nb_dq).state
  | put_framebuff (s : st_rx_video_session_impl) (framebuff j : Nat) :
      rv_reachable s0 s →
      (List.range s.st20_frames_cnt).find?
        (fun i => (s.st20_frames i).addr == framebuff) = some j →
      j ∈ s.app_held →
      rv_reachable s0 (st20_rx_put_framebuff s framebuff).2

/-! ## Two-port frame with loss on one port: definitions -/

/-- A two-port 1080p session (YUV 4:2:2 10 bit, 4800 bytes per line, no line
padding, no DMA device): `frame_size = 1920 * 1080 * 5 / 2 = 5184000`. -/
def session_1080p_two_port : st_rx_video_session_impl :=
  rv_session_init 1920 1080 5 2 4800 2 2 none

/-- Packet `k` (0..4319) of a 1080p frame sent in block packing mode: 1200 payload
bytes, four packets per line, extended sequence number `seq_base + k`. -/
def pkt_1080p (tmstamp seq_base k : Nat) : rte_mbuf :=
  { payload_type := 96, marker := decide (k = 4319), tmstamp := tmstamp,
    seq_number := (seq_base + k) % 65536, seq_number_ext := (seq_base + k) / 65536 % 65536,
    row_length := 1200, row_number := k / 4, row_offset := k % 4 * 480,
    extra_row_length := 0, extra_row_number := 0, extra_row_offset := 0,
    payload := List.replicate 1200 0, next_data_len := none, dma_copy_ret := 0 }

/-- The packets of one 1080p frame in arrival order: each arrival is a packet index
and the port it came in on; the session has no packet lcore, so the dispatch loop
passes `ctrl_thread = true`. -/
def pkts_1080p (tmstamp seq_base : Nat) (arrivals : List (Nat × Nat)) :
    List (rte_mbuf × Nat × Bool) :=
  arrivals.map (fun a => (pkt_1080p tmstamp seq_base a.1, a.2, true))

/-- The configuration of `session_1080p_two_port`, as far as the frame handler reads
it. -/
def session_is_1080p_two_port (s : st_rx_video_session_impl) : Prop :=
  s.ops = session_1080p_two_port.ops ∧ s.has_ebu = false ∧ s.st22_info = none ∧
  s.st20_uframe_size = 0 ∧ s.dma_dev = none ∧ s.st20_frame_size = 5184000 ∧
  s.st20_fb_size = 5184000 ∧ s.st20_linesize = 4800 ∧ s.st20_bytes_in_line = 4800 ∧
  s.st20_frame_bitmap_size = 810 ∧ s.st20_pg_size = 5 ∧ s.st20_pg_coverage = 2 ∧
  s.slot_max = 1

/-- Slot 0 of a two-port 1080p session is in the middle of the frame with timestamp
`tmstamp`: it holds frame `f`, its sequence base is `seq_base`, the packets
with index in `seen` have been accepted (1200 bytes each), `redundant` duplicates
have been counted, and nothing has been notified yet. -/
def frame_in_progress (s : st_rx_video_session_impl) (tmstamp seq_base f : Nat)
    (seen : List Nat) (redundant : Nat) : Prop :=
  session_is_1080p_two_port s ∧
  (s.slots 0).tmstamp = tmstamp ∧ (s.slots 0).frame = some f ∧
  (s.slots 0).seq_id_got = true ∧ (s.slots 0).seq_id_base_u32 = seq_base ∧
  (s.slots 0).slice_info = none ∧
  (s.slots 0).frame_bitmap = seen.map Int.ofNat ∧
  (s.slots 0).pkts_received = seen.length ∧
  rv_slot_get_frame_size (s.slots 0) = 1200 * seen.length ∧
  (s.slots 0).pkts_redundant_received = redundant ∧
  s.events = []

/-- Arrivals of one frame when the packets in `lost` are dropped on port 0: port 0
delivers every other index, port 1 delivers every index. -/
def arrivals_port0_loss (lost : List Nat) : List (Nat × Nat) :=
  ((List.range 4320).filter (fun k => k ∉ lost)).map (fun k => (k, 0)) ++
    (List.range 4320).map (fun k => (k, 1))

/-! ## ST 2110-22 frame with boxes: definitions -/

/-- A freshly attached ST 2110-22 session with `framebuff_max_size` bytes per frame
buffer: the frame size and the bitmap size are derived from it as `rv_attach` does
for `st22_ops` (lines 3126-3138), and `rv_init_st22` installs an application
callback that accepts every frame. -/
def session_st22 (framebuff_max_size : Nat) : st_rx_video_session_impl :=
  let s := rv_session_init 1920 1080 5 2 4800 1 2 none
  { s with
    st22_info := some (fun _ _ => 0)
    st20_frame_size := framebuff_max_size
    st20_fb_size := framebuff_max_size
    st20_frame_bitmap_size := max (framebuff_max_size / 800 / 8) (1080 * 2 / 8) }

/-- The boxes `jpvs` (length 16) and `colr` (length 20) at the head of the first
packet of a frame, with zeroed bodies: 36 bytes. -/
def st22_boxes_16_20 : List Nat :=
  [0, 0, 0, 16, 106, 112, 118, 115, 0, 0, 0, 0, 0, 0, 0, 0,
   0, 0, 0, 20, 99, 111, 108, 114, 0, 0, 0, 0, 0, 0, 0, 0, 0, 0, 0, 0]

/-- Payload length of packet `j` of a frame whose last packet is `n`: `L` for the
marker packet, `P` for the others. -/
def st22_pkt_len (n P L j : Nat) : Nat := if j = n then L else P

/-- Packet `j` of an ST 2110-22 frame of `n + 1` packets: packet counter `j`, sequence
number `seq_base + j`, the marker on packet `n`, `st22_pkt_len` payload bytes after
the 58 header bytes; packet 0 starts with the two boxes, and the codestream
bytes are `codestream j`. -/
def st22_pkt (tmstamp seq_base n P L : Nat) (codestream : Nat → List Nat) (j : Nat) :
    st22_mbuf :=
  { payload_type := 96, marker := decide (j = n), kmode := false, tmstamp := tmstamp,
    seq_number := (seq_base + j) % 65536,
    p_counter_lo := j % 256, p_counter_hi := j / 256 % 8,
    sep_counter_lo := j / 2048 % 32, sep_counter_hi := 0,
    data_len := 58 + st22_pkt_len n P L j,
    payload := if j = 0 then st22_boxes_16_20 ++ codestream 0 else codestream j }

/-- The packets with the indices `order`, in that order, each with the port it came
from and the thread flag. -/
def st22_pkts (tmstamp seq_base n P L : Nat) (codestream : Nat → List Nat)
    (order : List Nat) : List (st22_mbuf × Nat × Bool) :=
  order.map (fun j => (st22_pkt tmstamp seq_base n P L codestream j, 0, true))

/-- The ST 2110-22 handler applied to packets in arrival order, as the dispatch loop of
`rv_handle_mbuf` (lines 2805-2822) does; the return codes are collected and a trap
ends the run. -/
def rv_handle_st22_pkts (s : st_rx_video_session_impl)
    (pkts : List (st22_mbuf × Nat × Bool)) : List Int × st_rx_video_session_impl :=
  match pkts with
  | [] => ([], s)
  | p :: rest =>
    match rv_handle_st22_pkt s p.1 p.2.1 p.2.2 with
    | .ret code s1 =>
      (code :: (rv_handle_st22_pkts s1 rest).1, (rv_handle_st22_pkts s1 rest).2)
    | .fault s1 => ([], s1)

/-- Slot 0 is in the middle of an ST 2110-22 frame of `n + 1` packets (payload length
`P`, marker packet `n` of length `L`, 36 bytes of boxes) of which the packets
`rest` are still to come: the sequence base, the payload length and the box
length are captured, no bit of `rest` is set in the bitmap, the received size
is the frame's size less the payload of `rest`, the expected size is known once
the marker packet has been handled, and nothing has been notified. -/
def st22_frame_in_progress (s : st_rx_video_session_impl)
    (tmstamp seq_base n P L f : Nat) (rest : List Nat) : Prop :=
  s.ops.payload_type = 96 ∧ s.st22_hdr_size = 58 ∧ s.slot_max = 1 ∧
  s.st20_frame_size < U32 ∧
  n * P + L - 36 ≤ s.st20_frame_size ∧ n < s.st20_frame_bitmap_size * 8 ∧
  (s.slots 0).tmstamp = tmstamp ∧ (s.slots 0).frame = some f ∧
  (s.slots 0).seq_id_got = true ∧ (s.slots 0).seq_id_base = seq_base ∧
  (s.slots 0).st22_payload_length = P ∧ (s.slots 0).st22_box_hdr_length = 36 ∧
  (∀ j ∈ rest, (j : Int) ∉ (s.slots 0).frame_bitmap) ∧
  rv_slot_get_frame_size (s.slots 0) + (rest.map (st22_pkt_len n P L)).sum = n * P + L - 36 ∧
  s.st22_expect_frame_size = (if n ∈ rest then 0 else n * P + L - 36) ∧
  s.events = []

/-! ## Timing analyser: definitions -/

/-- The function `rv_ebu_cinst_result`: the verdict, the measurements and the counters after
the call.  The product `c_max_wide_pass * 16` is an `int` product in the source. -/
def rv_ebu_cinst_result (ebu : st_rx_video_ebu_stat) (ebu_info : st_rx_video_ebu_info)
    (ebu_result : st_rx_video_ebu_result) :
    st_ebu_verdict × st_rx_video_ebu_stat × st_rx_video_ebu_result :=
  if ebu.cinst_max ≤ ebu_info.c_max_narrow_pass then
    (.PASS_NARROW, ebu,
      { ebu_result with cinst_pass_narrow := ebu_result.cinst_pass_narrow + 1 })
  else if ebu.cinst_max ≤ ebu_info.c_max_wide_pass then
    (.PASS_WIDE, { ebu with compliant_narrow := false },
      { ebu_result with cinst_pass_wide := ebu_result.cinst_pass_wide + 1 })
  else if ebu.cinst_max ≤ ebu_info.c_max_wide_pass * 16 then
    /- WA, the RX time inaccurate -/
    (.PASS_WIDE_WA, { ebu with compliant_narrow := false },
      { ebu_result with cinst_pass_wide := ebu_result.cinst_pass_wide + 1 })
  else
    (.FAIL, { ebu with compliant := false },
      { ebu_result with cinst_fail := ebu_result.cinst_fail + 1 })

/-- The function `rv_ebu_vrx_result`. -/
def rv_ebu_vrx_result (ebu : st_rx_video_ebu_stat) (ebu_info : st_rx_video_ebu_info)
    (ebu_result : st_rx_video_ebu_result) :
    st_ebu_verdict × st_rx_video_ebu_stat × st_rx_video_ebu_result :=
  if 0 ≤ ebu.vrx_min ∧ ebu.vrx_max ≤ ebu_info.vrx_full_narrow_pass then
    (.PASS_NARROW, ebu, { ebu_result with vrx_pass_narrow := ebu_result.vrx_pass_narrow + 1 })
  else if 0 ≤ ebu.vrx_min ∧ ebu.vrx_max ≤ ebu_info.vrx_full_wide_pass then
    (.PASS_WIDE, { ebu with compliant_narrow := false },
      { ebu_result with vrx_pass_wide := ebu_result.vrx_pass_wide + 1 })
  else
    (.FAIL, { ebu with compliant := false },
      { ebu_result with vrx_fail := ebu_result.vrx_fail + 1 })

/-- The function `rv_ebu_latency_result`. -/
def rv_ebu_latency_result (ebu : st_rx_video_ebu_stat) (ebu_info : st_rx_video_ebu_info)
    (ebu_result : st_rx_video_ebu_result) :
    st_ebu_verdict × st_rx_video_ebu_stat × st_rx_video_ebu_result :=
  if ebu.latency_min < 0 ∨ ebu_info.latency_max_ns < ebu.latency_max then
    (.FAIL, { ebu with compliant := false },
      { ebu_result with latency_fail := ebu_result.latency_fail + 1 })
  else
    (.PASS, ebu, { ebu_result with latency_pass := ebu_result.latency_pass + 1 })

/-- The function `rv_ebu_rtp_offset_result`. -/
def rv_ebu_rtp_offset_result (ebu : st_rx_video_ebu_stat) (ebu_info : st_rx_video_ebu_info)
    (ebu_result : st_rx_video_ebu_result) :
    st_ebu_verdict × st_rx_video_ebu_stat × st_rx_video_ebu_result :=
  if ebu.rtp_offset_min < ebu_info.rtp_offset_min ∨
      ebu_info.rtp_offset_max_pass < ebu.rtp_offset_max then
    (.FAIL, { ebu with compliant := false },
      { ebu_result with rtp_offset_fail := ebu_result.rtp_offset_fail + 1 })
  else
    (.PASS, ebu, { ebu_result with rtp_offset_pass := ebu_result.rtp_offset_pass + 1 })

/-- The function `rv_ebu_rtp_ts_delta_result`; `rtd` is `s->frame_time_sampling` as an
`int32_t`. -/
def rv_ebu_rtp_ts_delta_result (rtd : Int) (ebu : st_rx_video_ebu_stat)
    (ebu_result : st_rx_video_ebu_result) :
    st_ebu_verdict × st_rx_video_ebu_stat × st_rx_video_ebu_result :=
  if ebu.rtp_ts_delta_min < rtd ∨ rtd + 1 < ebu.rtp_ts_delta_max then
    (.FAIL, { ebu with compliant := false },
      { ebu_result with rtp_ts_delta_fail := ebu_result.rtp_ts_delta_fail + 1 })
  else
    (.PASS, ebu, { ebu_result with rtp_ts_delta_pass := ebu_result.rtp_ts_delta_pass + 1 })

/-- The function `rv_ebu_fpt_result`: the `int` maximum is compared with the `uint32_t`
offset as an unsigned value, and `tr_offset * 2` is a `uint32_t` product. -/
def rv_ebu_fpt_result (ebu : st_rx_video_ebu_stat) (tr_offset : Nat)
    (ebu_result : st_rx_video_ebu_result) :
    st_ebu_verdict × st_rx_video_ebu_stat × st_rx_video_ebu_result :=
  if to_uint32 ebu.fpt_max ≤ tr_offset % U32 then
    (.PASS, ebu, { ebu_result with fpt_pass := ebu_result.fpt_pass + 1 })
  else if to_uint32 ebu.fpt_max ≤ (tr_offset % U32 * 2) % U32 then
    /- WA as no HW RX time -/
    (.PASS_WIDE_WA, ebu, { ebu_result with fpt_pass := ebu_result.fpt_pass + 1 })
  else
    (.FAIL, { ebu with compliant := false },
      { ebu_result with fpt_fail := ebu_result.fpt_fail + 1 })

/-- The function `rv_ebu_result`: the six verdicts in the order of the log lines (Cinst,
VRX, FPT, latency, RTP offset, RTP timestamp delta), then the compliance
counters.  The verdict functions are arguments of the `info` log calls; the
model takes them as evaluated. -/
def rv_ebu_result (s : st_rx_video_session_impl) : st_rx_video_session_impl :=
  let r1 := rv_ebu_cinst_result s.ebu s.ebu_info s.ebu_result
  let r2 := rv_ebu_vrx_result r1.2.1 s.ebu_info r1.2.2
  let r3 := rv_ebu_fpt_result r2.2.1 s.ebu_info.tr_offset r2.2.2
  let r4 := rv_ebu_latency_result r3.2.1 s.ebu_info r3.2.2
  let r5 := rv_ebu_rtp_offset_result r4.2.1 s.ebu_info r4.2.2
  let r6 := rv_ebu_rtp_ts_delta_result s.frame_time_sampling r5.2.1 r5.2.2
  let ebu := r6.2.1
  let ebu_result := r6.2.2
  let ebu_result1 :=
    if ebu.compliant then
      { ebu_result with
        compliance := ebu_result.compliance + 1
        compliance_narrow :=
          if ebu.compliant_narrow then ebu_result.compliance_narrow + 1
          else ebu_result.compliance_narrow }
    else ebu_result
  { s with ebu := ebu, ebu_result := ebu_result1 }

/-- Window bookkeeping of `rv_ebu_on_frame` (lines 246-266): every 300 frames the result
counter grows; the window is judged by `rv_ebu_result` when no result is to be
dropped any more, otherwise the drop counter is checked; the measurements are
cleared. -/
def rv_ebu_on_frame_window (s : st_rx_video_session_impl) : st_rx_video_session_impl :=
  let s1 := { s with ebu := { s.ebu with frame_idx := s.ebu.frame_idx + 1 } }
  if s1.ebu.frame_idx % (60 * 5) = 0 then
    let s2 := { s1 with
      ebu_result := { s1.ebu_result with ebu_result_num := s1.ebu_result.ebu_result_num + 1 } }
    let s3 :=
      if s2.ebu_info.dropped_results = 0 then rv_ebu_result s2
      else if s2.ebu_info.dropped_results < s2.ebu_result.ebu_result_num then
        { s2 with
          ebu_info := { s2.ebu_info with dropped_results := 0 }
          ebu_result := { s2.ebu_result with ebu_result_num := 0 } }
      else s2
    { s3 with ebu := rv_ebu_clear_result }
  else s1

/-- The function `rv_ebu_on_frame`.  The values `fpt_delta`, `latency` and `diff_rtp_ts` are
the `double` values the source computes from the packet time, as they are
stored in the `int` minima and maxima. -/
def rv_ebu_on_frame (s : st_rx_video_session_impl) (rtp_tmstamp : Nat)
    (fpt_delta latency diff_rtp_ts : Int) : st_rx_video_session_impl :=
  let s1 := rv_ebu_on_frame_window s
  let ebu := s1.ebu
  /- calculate fpt, latency, rtp offset -/
  let ebu1 :=
    { ebu with
      fpt_min := min fpt_delta ebu.fpt_min
      fpt_max := max fpt_delta ebu.fpt_max
      latency_min := min latency ebu.latency_min
      latency_max := max latency ebu.latency_max
      rtp_offset_min := min diff_rtp_ts ebu.rtp_offset_min
      rtp_offset_max := max diff_rtp_ts ebu.rtp_offset_max }
  /- calculate rtp ts delta -/
  let ebu2 :=
    if ebu1.prev_rtp_ts ≠ 0 then
      let rtp_ts_delta := to_int32 (rtp_tmstamp % U32 + U32 - ebu1.prev_rtp_ts % U32)
      { ebu1 with
        rtp_ts_delta_min := min rtp_ts_delta ebu1.rtp_ts_delta_min
        rtp_ts_delta_max := max rtp_ts_delta ebu1.rtp_ts_delta_max }
    else ebu1
  { s1 with ebu := { ebu2 with prev_rtp_ts := rtp_tmstamp % U32 } }

/-- The function `rv_ebu_init`.  `fps_timing_ret` is the return value of `st_get_fps_timing`, and
`c_narrow`, `c_wide`, `vrx_narrow`, `vrx_wide`, `rtp_offset_max`, `tr_offset` are the
floating-point quotients of lines 393-406 as they are stored in the integer
fields. -/
def rv_ebu_init (s : st_rx_video_session_impl) (fps_timing_ret : Int)
    (c_narrow c_wide vrx_narrow vrx_wide rtp_offset_max : Int) (tr_offset : Nat) :
    Int × st_rx_video_session_impl :=
  let s1 := { s with ebu := rv_ebu_clear_result }
  if fps_timing_ret < 0 then (fps_timing_ret, s1)
  else if s1.detector.pkt_per_frame = 0 then (- EINVAL_errno, s1)
  else
    (0, { s1 with
      ebu_info :=
        { s1.ebu_info with
          c_max_narrow_pass := max 4 c_narrow
          c_max_wide_pass := max 16 c_wide
          vrx_full_narrow_pass := max 8 vrx_narrow
          vrx_full_wide_pass := max 720 vrx_wide
          rtp_offset_max_pass := rtp_offset_max
          tr_offset := tr_offset
          dropped_results := 4 /- we drop the first 4 results -/
          init := true } })

/-- The frames of a stream handed to `rv_ebu_on_frame` one after the other; each entry is
the RTP timestamp and the three measured values of one frame. -/
def rv_ebu_on_frames (s : st_rx_video_session_impl)
    (frames : List (Nat × Int × Int × Int)) : st_rx_video_session_impl :=
  match frames with
  | [] => s
  | x :: rest => rv_ebu_on_frames (rv_ebu_on_frame s x.1 x.2.1 x.2.2.1 x.2.2.2) rest

/-! ## Detector: definitions -/

/-- The ST 2110-22 options of `rv_attach` (`struct st22_rx_ops`), as far as the session
reads them. -/
structure st22_rx_ops where
  framebuff_max_size : Nat
  flag_disable_boxes : Bool
  notify_frame_ready : Nat → st22_rx_frame_meta → Int

/-- Modelled from the spec: the library instance (`struct mtl_main_impl`) as the
session sees it.  The outcomes of the calls below are fields, because their
sources are not at hand or, for `mt_rxq_get` (in `mt_queue.c`, where a failed get puts
back what it took and returns `NULL`) and the allocations of `rv_init_sw`, depend on
allocators and queue managers whose sources are not: `port_map_ret` of `mt_build_port_map`, `pgroup_ret` with `pg_size` and
`pg_coverage` of `st20_get_pgroup`, `fps_timing_ret` with `frame_time_sampling` of
`st_get_fps_timing`, `init_sw_ret` of the allocations of `rv_init_sw`, `rxq_get_ok i` of
`mt_rxq_get` on port `i`, `mcast_join_ret i` of `mt_mcast_join`, `rtcp_uhdr_ret i` of
`rv_init_rtcp_uhdr`, `rtcp_create_ok i` of `mt_rtcp_rx_create` and `session_malloc_ok` of the
`mt_rte_zmalloc_socket` call of `rv_mgr_attach`; `has_ebu` is `mt_has_ebu`,
`has_dpdk_hdr_split` the build flag `ST_HAS_DPDK_HDR_SPLIT`, `pmd_is_kernel i` is
`mt_pmd_is_kernel` on port `i`.  The resources handed out are kept in lists of
port numbers: `rxq_held` the receive queues not yet put back, `mcast_joined` the
multicast groups joined and not left, `rtcp_created` the RTCP receivers created
and not freed. -/
structure mtl_main_impl where
  port_map_ret : Int
  pgroup_ret : Int
  pg_size : Nat
  pg_coverage : Nat
  fps_timing_ret : Int
  frame_time_sampling : Int
  init_sw_ret : Int
  has_ebu : Bool
  has_dpdk_hdr_split : Bool
  pmd_is_kernel : Nat → Bool
  rxq_get_ok : Nat → Bool
  mcast_join_ret : Nat → Int
  rtcp_uhdr_ret : Nat → Int
  rtcp_create_ok : Nat → Bool
  session_malloc_ok : Bool
  rxq_held : List Nat
  mcast_joined : List Nat
  rtcp_created : List Nat

/-- Modelled from the spec: `st20_is_frame_type` of `st20_api.h`, true for the frame and
the slice level. -/
def st20_is_frame_type (type : st20_type) : Bool :=
  match type with
  | .FRAME_LEVEL => true
  | .SLICE_LEVEL => true
  | .RTP_LEVEL => false

/-- The function `rv_detector_init`. -/
def rv_detector_init (s : st_rx_video_session_impl) : Int × st_rx_video_session_impl :=
  (0, { s with
    detector :=
      { s.detector with
        status := .DETECTING
        bpm := true
        frame_num := 0
        single_line := true
        pkt_per_frame := 0
        meta := { width := 0, height := 0, fps := .MAX, packing := .MAX, interlaced := false } } })

/-- The function `rv_detector_calculate_dimension`. -/
def rv_detector_calculate_dimension (detector : st_rx_video_detector) (max_line_num : Int) :
    st_rx_video_detector :=
  let dim (height width : Nat) : st_rx_video_detector :=
    { detector with meta := { detector.meta with height := height, width := width } }
  if detector.meta.interlaced then
    if max_line_num = 539 then dim 1080 1920
    else if max_line_num = 239 then dim 480 640
    else if max_line_num = 359 then dim 720 1280
    else if max_line_num = 1079 then dim 2160 3840
    else if max_line_num = 2159 then dim 4320 7680
    else detector
  else
    if max_line_num = 1079 then dim 1080 1920
    else if max_line_num = 479 then dim 480 640
    else if max_line_num = 719 then dim 720 1280
    else if max_line_num = 2159 then dim 2160 3840
    else if max_line_num = 4319 then dim 4320 7680
    else detector

/-- Difference `rtp_tm[j] - rtp_tm[i]` of two `uint32_t` entries stored in an `int`
(lines 512-513). -/
def rv_detector_rtp_tm_delta (detector : st_rx_video_detector) (i j : Nat) : Int :=
  to_int32 (detector.rtp_tm j % U32 + U32 - detector.rtp_tm i % U32)

/-- The function `rv_detector_calculate_fps`. -/
def rv_detector_calculate_fps (detector : st_rx_video_detector) : st_rx_video_detector :=
  let d0 := rv_detector_rtp_tm_delta detector 0 1
  let d1 := rv_detector_rtp_tm_delta detector 1 2
  let set (fps : st_fps) : st_rx_video_detector :=
    { detector with meta := { detector.meta with fps := fps } }
  if (d0 - d1).natAbs ≤ 1 then
    if d0 = 1500 then set .P60
    else if d0 = 1501 ∨ d0 = 1502 then set .P59_94
    else if d0 = 3000 then set .P30
    else if d0 = 3003 then set .P29_97
    else if d0 = 3600 then set .P25
    else if d0 = 1800 then set .P50
    else detector
  else detector

/-- The function `rv_detector_calculate_n_packet`; the entries of `pkt_num` are `int`. -/
def rv_detector_calculate_n_packet (detector : st_rx_video_detector) : st_rx_video_detector :=
  let total0 : Int := (detector.pkt_num 1 : Int) - detector.pkt_num 0
  let total1 : Int := (detector.pkt_num 2 : Int) - detector.pkt_num 1
  if total0 = total1 then { detector with pkt_per_frame := total0 } else detector

/-- The function `rv_detector_calculate_packing`. -/
def rv_detector_calculate_packing (detector : st_rx_video_detector) : st_rx_video_detector :=
  let set (packing : st20_packing) : st_rx_video_detector :=
    { detector with meta := { detector.meta with packing := packing } }
  if detector.bpm then set .BPM
  else if detector.single_line then set .GPM_SL
  else set .GPM

/-- The function `rv_init_pkt_handler`. -/
def rv_init_pkt_handler (s : st_rx_video_session_impl) : Int × st_rx_video_session_impl :=
  if st20_is_frame_type s.ops.type then
    let detect_status := s.detector.status
    if detect_status = .DETECTING then
      (0, { s with pkt_handler := .rv_handle_detect_pkt })
    else if detect_status ≠ .SUCCESS ∧ detect_status ≠ .DISABLED then
      (0, { s with pkt_handler := .rv_handle_detect_err })
    else if s.st22_info.isSome then
      (0, { s with pkt_handler := .rv_handle_st22_pkt })
    else if s.is_hdr_split then
      (0, { s with pkt_handler := .rv_handle_hdr_split_pkt })
    else
      (0, { s with pkt_handler := .rv_handle_frame_pkt })
  else
    (0, { s with pkt_handler := .rv_handle_rtp_pkt })

/-- The function `rv_detect_change_status`. -/
def rv_detect_change_status (s : st_rx_video_session_impl) (new_status : st20_detect_status) :
    st_rx_video_session_impl :=
  if s.detector.status = new_status then s
  else (rv_init_pkt_handler { s with detector := { s.detector with status := new_status } }).2

/-- The function `rv_init_sw`, summarised: the allocations (DMA device, ST 2110-22 info,
frames or RTP ring, slots, packet lcore) succeed or fail as `impl.init_sw_ret`
tells; a failure has released them again.  On success with ST 2110-22
options the session has its `st22_info`.  No step of it writes the derived
sizes, the detector or the packet handler. -/
def rv_init_sw (impl : mtl_main_impl) (s : st_rx_video_session_impl)
    (st22_ops : Option st22_rx_ops) : Int × st_rx_video_session_impl :=
  if impl.init_sw_ret < 0 then (impl.init_sw_ret, s)
  else
    match st22_ops with
    | some o => (0, { s with st22_info := some o.notify_frame_ready })
    | none => (0, s)

/-- The function `rv_uinit_sw`: it frees what `rv_init_sw` allocated, and with it the
`st22_info`. -/
def rv_uinit_sw (s : st_rx_video_session_impl) : st_rx_video_session_impl :=
  { s with st22_info := none }

/-- Marker branch of `rv_handle_detect_pkt` (lines 2663-2674): the first three markers
are recorded, a later one triggers the calculation. -/
def rv_detect_on_marker (s : st_rx_video_session_impl) (tmstamp : Nat) (line1_number : Nat) :
    st_rx_video_session_impl :=
  let detector := s.detector
  if detector.frame_num < 3 then
    { s with
      detector :=
        { detector with
          rtp_tm := Function.update detector.rtp_tm detector.frame_num tmstamp
          pkt_num := Function.update detector.pkt_num detector.frame_num
            s.stats.stat_pkts_received
          frame_num := detector.frame_num + 1 } }
  else
    let d1 := rv_detector_calculate_dimension detector line1_number
    let d2 := rv_detector_calculate_fps d1
    let d3 := rv_detector_calculate_n_packet d2
    let d4 := rv_detector_calculate_packing d3
    { s with detector := { d4 with frame_num := 0 } }

/-- Derived sizes of `rv_handle_detect_pkt` after a detection (lines 2700-2724), from the
slice lines on; the code is `-EINVAL` for a refused line size (the fields written
before the test keep their new values), and the result is `none` when the
division by the pixel group coverage traps.  The operands of the products
are `uint32_t`. -/
def rv_detect_derive (s : st_rx_video_session_impl) :
    Option (Int × st_rx_video_session_impl) :=
  let ops := s.ops
  if s.st20_pg_coverage % U32 = 0 then none
  else
    let slice_lines := if s.slice_lines = 0 then ops.height % U32 / 32 else s.slice_lines
    let slice_size :=
      (ops.width * slice_lines * s.st20_pg_size) % U32 / (s.st20_pg_coverage % U32)
    let frame_size0 :=
      (ops.width * ops.height * s.st20_pg_size) % U32 / (s.st20_pg_coverage % U32)
    let frame_size := if ops.interlaced then frame_size0 / 2 else frame_size0
    let bytes_in_line := (ops.width * s.st20_pg_size) % U32 / (s.st20_pg_coverage % U32)
    let s1 :=
      { s with
        slice_lines := slice_lines
        slice_size := slice_size
        st20_frames_cnt := ops.framebuff_cnt
        st20_frame_size := frame_size
        st20_bytes_in_line := bytes_in_line
        st20_linesize := if bytes_in_line < ops.linesize then ops.linesize else bytes_in_line }
    if ¬ bytes_in_line < ops.linesize ∧ ops.linesize ≠ 0 then some (- EINVAL_errno, s1)
    else
      let fb_size0 := s1.st20_linesize * ops.height
      let fb_size := if ops.interlaced then fb_size0 / 2 else fb_size0
      /- at least 1000 byte for each packet -/
      let bitmap_size0 := frame_size / 1000 / 8
      /- one line at line 2 packets for all the format -/
      let bitmap_size :=
        if bitmap_size0 < (ops.height * 2) % U32 / 8 then (ops.height * 2) % U32 / 8
        else bitmap_size0
      some (0, { s1 with st20_fb_size := fb_size, st20_frame_bitmap_size := bitmap_size })

/-- Copy of the detected format to the options (lines 2682-2686). -/
def rv_detect_copy_meta (s : st_rx_video_session_impl) : st_rx_video_session_impl :=
  let meta := s.detector.meta
  { s with
    ops := { s.ops with
      width := meta.width
      height := meta.height
      fps := meta.fps
      packing := meta.packing
      interlaced := meta.interlaced } }

/-- The call of `ops->notify_detected` (lines 2687-2699), logged in `detected`: a negative return value
fails the detection and is returned; otherwise the reply gives `slice_lines` and the
user frame size. -/
def rv_detect_notify (s : st_rx_video_session_impl) :
    Except (Int × st_rx_video_session_impl) st_rx_video_session_impl :=
  match s.ops.notify_detected with
  | some notify_detected =>
    let r := notify_detected s.detector.meta
    let s2 := { s with detected := s.detector.meta :: s.detected }
    if r.1 < 0 then .error (r.1, rv_detect_change_status s2 .FAIL)
    else .ok { s2 with slice_lines := r.2.slice_lines, st20_uframe_size := r.2.uframe_size }
  | none => .ok s

/-- End of the detected branch (lines 2700-2735): the sizes are derived, `rv_init_sw` runs and
the status becomes SUCCESS; then the packet is counted. -/
def rv_detect_init (impl : mtl_main_impl) (s : st_rx_video_session_impl) : rv_result :=
  match rv_detect_derive s with
  | none => .fault s
  | some (code, s4) =>
    if code < 0 then .ret code s4
    else
      let r := rv_init_sw impl s4 none
      if r.1 < 0 then .ret r.1 (rv_detect_change_status r.2 .FAIL)
      else
        let s5 := rv_detect_change_status r.2 .SUCCESS
        .ret 0 { s5 with stats := { s5.stats with
          stat_pkts_received := s5.stats.stat_pkts_received + 1 } }

/-- The detected branch of `rv_handle_detect_pkt` (lines 2681-2735): the meta is copied
to the options, the application is told, the sizes are derived, `rv_init_sw` runs
and the status becomes SUCCESS. -/
def rv_detect_detected (impl : mtl_main_impl) (s : st_rx_video_session_impl) : rv_result :=
  match rv_detect_notify (rv_detect_copy_meta s) with
  | .error e => .ret e.1 e.2
  | .ok s3 => rv_detect_init impl s3

/-- Field bit of `rv_handle_detect_pkt` (line 2645): a line number with `ST20_SECOND_FIELD` marks the stream as
interlaced. -/
def rv_detect_field (s : st_rx_video_session_impl) (mbuf : rte_mbuf) :
    st_rx_video_session_impl :=
  if BIT15 ≤ mbuf.row_number % U16 then
    { s with detector := { s.detector with meta := { s.detector.meta with interlaced := true } } }
  else s

/-- Payload length of `rv_handle_detect_pkt` (lines 2653-2654), a `uint32_t`: the row length of the first
SRD, plus the one of the extra SRD when the continuation bit is set. -/
def rv_detect_payload_length (mbuf : rte_mbuf) : Nat :=
  (mbuf.row_length % U16 +
    (if BIT15 ≤ mbuf.row_offset % U16 then mbuf.extra_row_length % U16 else 0)) % U32

/-- Packing flags of `rv_handle_detect_pkt` (lines 2664-2667): an extra SRD clears `single_line`, a payload
length that is not a multiple of 180 clears `bpm`. -/
def rv_detect_packing_flags (s : st_rx_video_session_impl) (mbuf : rte_mbuf) :
    st_rx_video_session_impl :=
  /- detect continuous bit -/
  let s1 :=
    if BIT15 ≤ mbuf.row_offset % U16 then
      { s with detector := { s.detector with single_line := false } }
    else s
  /- detect bpm -/
  if rv_detect_payload_length mbuf % 180 ≠ 0 then
    { s1 with detector := { s1.detector with bpm := false } }
  else s1

/-- End of `rv_handle_detect_pkt` (lines 2743-2744): the packet is counted and 0 is returned. -/
def rv_detect_received (s : st_rx_video_session_impl) : rv_result :=
  .ret 0 { s with stats := { s.stats with
    stat_pkts_received := s.stats.stat_pkts_received + 1 } }

/-- The function `rv_handle_detect_pkt`. -/
def rv_handle_detect_pkt (impl : mtl_main_impl) (s : st_rx_video_session_impl) (mbuf : rte_mbuf)
    (_s_port : Nat) (_ctrl_thread : Bool) : rv_result :=
  let line1_number := (mbuf.row_number % U16) % BIT15
  let tmstamp := mbuf.tmstamp % U32
  /- detect field bit -/
  let s0 := rv_detect_field s mbuf
  if mbuf.payload_type % 256 ≠ s0.ops.payload_type then
    .ret (- EINVAL_errno) { s0 with stats := { s0.stats with
      stat_pkts_wrong_hdr_dropped := s0.stats.stat_pkts_wrong_hdr_dropped + 1 } }
  else
    let s2 := rv_detect_packing_flags s0 mbuf
    /- on frame/field marker bit -/
    if mbuf.marker then
      let s3 := rv_detect_on_marker s2 tmstamp line1_number
      if s3.detector.meta.fps ≠ .MAX ∧ s3.detector.meta.packing ≠ .MAX then
        if s3.detector.meta.height = 0 then
          rv_detect_received (rv_detect_change_status s3 .FAIL)
        else rv_detect_detected impl s3
      else rv_detect_received s3
    else rv_detect_received s2

/-- The function `rv_handle_detect_err`: the handler of a session whose detection failed
(lines 2612-2618) drops the packet. -/
def rv_handle_detect_err (s : st_rx_video_session_impl) (_mbuf : rte_mbuf) (_s_port : Nat)
    (_ctrl_thread : Bool) : rv_result :=
  .ret 0 s

/-- The detect handler applied to packets in arrival order; the return codes are
collected and a trap ends the run. -/
def rv_handle_detect_pkts (impl : mtl_main_impl) (s : st_rx_video_session_impl)
    (pkts : List rte_mbuf) : List Int × st_rx_video_session_impl :=
  match pkts with
  | [] => ([], s)
  | p :: rest =>
    match rv_handle_detect_pkt impl s p 0 true with
    | .ret code s1 =>
      (code :: (rv_handle_detect_pkts impl s1 rest).1, (rv_handle_detect_pkts impl s1 rest).2)
    | .fault s1 => ([], s1)

/-! ## Attach: definitions -/

/-- Value of `ENOTSUP`. -/
def ENOTSUP_errno : Int := 95

/-- Value of `ST_SCH_MAX_RX_VIDEO_SESSIONS` (`st_main.h`). -/
def ST_SCH_MAX_RX_VIDEO_SESSIONS : Nat := 60

/-- The session table of a scheduler (`struct st_rx_video_sessions_mgr`). -/
structure st_rx_video_sessions_mgr where
  sessions : Nat → Option st_rx_video_session_impl
  max_idx : Nat

/-- The loop of `rv_uinit_hw` over the ports `ports`: every queue the session holds is put
back. -/
def rv_uinit_hw_ports (impl : mtl_main_impl) (s : st_rx_video_session_impl)
    (ports : List Nat) : mtl_main_impl × st_rx_video_session_impl :=
  match ports with
  | [] => (impl, s)
  | i :: rest =>
    if s.rxq i then
      rv_uinit_hw_ports { impl with rxq_held := impl.rxq_held.erase i }
        { s with rxq := Function.update s.rxq i false } rest
    else rv_uinit_hw_ports impl s rest

/-- The function `rv_uinit_hw`. -/
def rv_uinit_hw (impl : mtl_main_impl) (s : st_rx_video_session_impl) :
    mtl_main_impl × st_rx_video_session_impl :=
  rv_uinit_hw_ports impl s (List.range s.ops.num_port)

/-- The loop of `rv_init_hw` over the ports `ports`. -/
def rv_init_hw_ports (impl : mtl_main_impl) (s : st_rx_video_session_impl)
    (ports : List Nat) : Int × mtl_main_impl × st_rx_video_session_impl :=
  match ports with
  | [] => (0, impl, s)
  | i :: rest =>
    if s.is_hdr_split ∧ ¬ impl.has_dpdk_hdr_split then
      (- ENOTSUP_errno, rv_uinit_hw impl s)
    else if impl.rxq_get_ok i then
      rv_init_hw_ports { impl with rxq_held := i :: impl.rxq_held }
        { s with rxq := Function.update s.rxq i true } rest
    else (- EIO_errno, rv_uinit_hw impl s)

/-- The function `rv_init_hw`. -/
def rv_init_hw (impl : mtl_main_impl) (s : st_rx_video_session_impl) :
    Int × mtl_main_impl × st_rx_video_session_impl :=
  rv_init_hw_ports impl s (List.range s.ops.num_port)

/-- The loop of `rv_uinit_mcast` over the ports `ports`: the group of every multicast port
is left. -/
def rv_uinit_mcast_ports (impl : mtl_main_impl) (s : st_rx_video_session_impl)
    (ports : List Nat) : mtl_main_impl :=
  match ports with
  | [] => impl
  | i :: rest =>
    if s.ops.sip_multicast i then
      rv_uinit_mcast_ports { impl with mcast_joined := impl.mcast_joined.erase i } s rest
    else rv_uinit_mcast_ports impl s rest

/-- The function `rv_uinit_mcast`. -/
def rv_uinit_mcast (impl : mtl_main_impl) (s : st_rx_video_session_impl) : mtl_main_impl :=
  rv_uinit_mcast_ports impl s (List.range s.ops.num_port)

/-- The loop of `rv_init_mcast` over the ports `ports`. -/
def rv_init_mcast_ports (impl : mtl_main_impl) (s : st_rx_video_session_impl)
    (ports : List Nat) : Int × mtl_main_impl :=
  match ports with
  | [] => (0, impl)
  | i :: rest =>
    if ¬ s.ops.sip_multicast i then rv_init_mcast_ports impl s rest
    else if impl.pmd_is_kernel i ∧ s.ops.flag_data_path_only then (0, impl)
    else if impl.mcast_join_ret i < 0 then (impl.mcast_join_ret i, impl)
    else rv_init_mcast_ports { impl with mcast_joined := i :: impl.mcast_joined } s rest

/-- The function `rv_init_mcast`. -/
def rv_init_mcast (impl : mtl_main_impl) (s : st_rx_video_session_impl) : Int × mtl_main_impl :=
  rv_init_mcast_ports impl s (List.range s.ops.num_port)

/-- The loop of `rv_init_rtcp` over the ports `ports`. -/
def rv_init_rtcp_ports (impl : mtl_main_impl) (s : st_rx_video_session_impl)
    (ports : List Nat) : Int × mtl_main_impl × st_rx_video_session_impl :=
  match ports with
  | [] => (0, impl, s)
  | i :: rest =>
    if impl.rtcp_uhdr_ret i < 0 then (impl.rtcp_uhdr_ret i, impl, s)
    else if impl.rtcp_create_ok i then
      rv_init_rtcp_ports { impl with rtcp_created := i :: impl.rtcp_created }
        { s with rtcp_rx := Function.update s.rtcp_rx i true } rest
    else (- EIO_errno, impl, { s with rtcp_rx := Function.update s.rtcp_rx i false })

/-- The function `rv_init_rtcp`. -/
def rv_init_rtcp (impl : mtl_main_impl) (s : st_rx_video_session_impl) :
    Int × mtl_main_impl × st_rx_video_session_impl :=
  rv_init_rtcp_ports impl s (List.range s.ops.num_port)

/-- The loop of `rv_uinit_rtcp` over the ports `ports`. -/
def rv_uinit_rtcp_ports (impl : mtl_main_impl) (s : st_rx_video_session_impl)
    (ports : List Nat) : mtl_main_impl × st_rx_video_session_impl :=
  match ports with
  | [] => (impl, s)
  | i :: rest =>
    if s.rtcp_rx i then
      rv_uinit_rtcp_ports { impl with rtcp_created := impl.rtcp_created.erase i }
        { s with rtcp_rx := Function.update s.rtcp_rx i false } rest
    else rv_uinit_rtcp_ports impl s rest

/-- The function `rv_uinit_rtcp`. -/
def rv_uinit_rtcp (impl : mtl_main_impl) (s : st_rx_video_session_impl) :
    mtl_main_impl × st_rx_video_session_impl :=
  rv_uinit_rtcp_ports impl s (List.range s.ops.num_port)

/-- First part of `rv_attach` (lines 3088-3176): the lookups, the derived sizes and the
reset of the counters.  The result is `none` when the division by the pixel
group coverage traps, else the return code (negative when the function
returns here) and the session.  The operands of the products are `uint32_t`. -/
def rv_attach_derive (impl : mtl_main_impl) (s : st_rx_video_session_impl) (ops : st20_rx_ops)
    (st22_ops : Option st22_rx_ops) : Option (Int × st_rx_video_session_impl) :=
  if impl.port_map_ret < 0 then some (impl.port_map_ret, s)
  else if impl.pgroup_ret < 0 then some (impl.pgroup_ret, s)
  else
    let s1 := { s with st20_pg_size := impl.pg_size, st20_pg_coverage := impl.pg_coverage }
    if impl.fps_timing_ret < 0 then some (impl.fps_timing_ret, s1)
    else if s1.st20_pg_coverage % U32 = 0 then none
    else
      let bytes_in_line := (ops.width * s1.st20_pg_size) % U32 / (s1.st20_pg_coverage % U32)
      let s2 :=
        { s1 with
          is_hdr_split :=
            if st20_is_frame_type ops.type ∧ ops.flag_hdr_split then true else s1.is_hdr_split
          has_ebu := impl.has_ebu
          frame_time_sampling := impl.frame_time_sampling
          st20_bytes_in_line := bytes_in_line
          st20_linesize := if bytes_in_line < ops.linesize then ops.linesize else bytes_in_line }
      if ¬ bytes_in_line < ops.linesize ∧ ops.linesize ≠ 0 then some (- EINVAL_errno, s2)
      else
        let fb_size0 := s2.st20_linesize * ops.height
        let fb_size1 := if ops.interlaced then fb_size0 / 2 else fb_size0
        let slice_lines := if ops.slice_lines = 0 then ops.height % U32 / 32 else ops.slice_lines
        let slice_size :=
          (ops.width * slice_lines * s2.st20_pg_size) % U32 / (s2.st20_pg_coverage % U32)
        let frame_size0 :=
          match st22_ops with
          | some o => o.framebuff_max_size
          | none => (ops.width * ops.height * s2.st20_pg_size) % U32 / (s2.st20_pg_coverage % U32)
        let fb_size :=
          match st22_ops with
          | some o => o.framebuff_max_size
          | none => fb_size1
        let frame_size := if ops.interlaced then frame_size0 / 2 else frame_size0
        /- at least 800 byte for each packet -/
        let bitmap_size0 := frame_size / 800 / 8
        /- one line at line 2 packets for all the format -/
        let bitmap_size :=
          if bitmap_size0 < (ops.height * 2) % U32 / 8 then (ops.height * 2) % U32 / 8
          else bitmap_size0
        some (0, { s2 with
          st20_fb_size := fb_size
          slice_lines := slice_lines
          slice_size := slice_size
          st20_frames_cnt := ops.framebuff_cnt
          st20_frame_size := frame_size
          st22_flag_disable_boxes :=
            match st22_ops with
            | some o => o.flag_disable_boxes
            | none => s2.st22_flag_disable_boxes
          st20_uframe_size := ops.uframe_size
          st20_frame_bitmap_size := bitmap_size
          ops := ops
          stats :=
            { s2.stats with
              stat_pkts_idx_dropped := 0
              stat_pkts_idx_oo_bitmap := 0
              stat_pkts_no_slot := 0
              stat_pkts_offset_dropped := 0
              stat_pkts_redundant_dropped := 0
              stat_pkts_wrong_hdr_dropped := 0
              stat_pkts_received := 0
              stat_pkts_dma := 0
              stat_frames_dropped := 0
              stat_frames_received := 0
              cbs_incomplete_frame_cnt := 0
              cbs_frame_slot_cnt := 0
              dma_previous_busy_cnt := 0 }
          dma_slot := none
          dma_dev := none
          st22_expect_frame_size := 0 })

/-- Second part of `rv_attach` (lines 3179-3235): hardware, detector or software, multicast,
RTCP and the packet handler, each failure with the roll-back calls of the
source. -/
def rv_attach_init (impl : mtl_main_impl) (s : st_rx_video_session_impl)
    (st22_ops : Option st22_rx_ops) : Int × mtl_main_impl × st_rx_video_session_impl :=
  let hw := rv_init_hw impl s
  if hw.1 < 0 then (- EIO_errno, hw.2)
  else
    let impl1 := hw.2.1
    let s1 := hw.2.2
    let sw : Int × st_rx_video_session_impl :=
      if st20_is_frame_type s1.ops.type ∧ st22_ops.isNone ∧
          (s1.ops.flag_auto_detect ∨ impl1.has_ebu) then
        /- init sw after detected -/
        rv_detector_init s1
      else rv_init_sw impl1 s1 st22_ops
    if sw.1 < 0 then (- EIO_errno, rv_uinit_hw impl1 sw.2)
    else
      let s2 := sw.2
      let mcast := rv_init_mcast impl1 s2
      if mcast.1 < 0 then (- EIO_errno, rv_uinit_hw mcast.2 (rv_uinit_sw s2))
      else
        let impl2 := mcast.2
        let rtcp : Int × mtl_main_impl × st_rx_video_session_impl :=
          if s2.ops.flag_enable_rtcp then rv_init_rtcp impl2 s2 else (0, impl2, s2)
        if rtcp.1 < 0 then
          (rtcp.1, rv_uinit_hw (rv_uinit_mcast rtcp.2.1 rtcp.2.2) (rv_uinit_sw rtcp.2.2))
        else
          let handler := rv_init_pkt_handler rtcp.2.2
          if handler.1 < 0 then (- EIO_errno, rv_uinit_hw rtcp.2.1 (rv_uinit_sw handler.2))
          else (0, rtcp.2.1, { handler.2 with attached := true })

/-- The function `rv_attach`; `none` is a trap. -/
def rv_attach (impl : mtl_main_impl) (s : st_rx_video_session_impl) (ops : st20_rx_ops)
    (st22_ops : Option st22_rx_ops) :
    Option (Int × mtl_main_impl × st_rx_video_session_impl) :=
  match rv_attach_derive impl s ops st22_ops with
  | none => none
  | some (code, s1) =>
    if code < 0 then some (code, impl, s1) else some (rv_attach_init impl s1 st22_ops)

/-- A zeroed session, as `mt_rte_zmalloc_socket` returns it.  The compile-time constants
kept as fields have their values. -/
def st_rx_video_session_zero : st_rx_video_session_impl :=
  { ops :=
      { num_port := 0, payload_type := 0, width := 0, height := 0,
        flag_receive_incomplete_frame := false,
        notify_frame_ready := fun _ _ => 0, query_ext_frame := none }
    has_ebu := false
    st22_info := none
    st22_flag_disable_boxes := false
    dma_min_size := 1024
    bytes_in_pkt := 1452
    st22_hdr_size := 58
    st20_frame_size := 0
    st20_fb_size := 0
    st20_linesize := 0
    st20_bytes_in_line := 0
    st20_frame_bitmap_size := 0
    st20_uframe_size := 0
    st20_pg_size := 0
    st20_pg_coverage := 0
    slice_lines := 0
    slice_size := 0
    st20_frames_cnt := 0
    st20_frames := fun i => rv_alloc_frame_entry i 0 0
    slots := fun i => rv_init_slot_entry i none
    slot_idx := 0
    slot_max := 0
    dma_dev := none
    dma_slot := none
    dma_copy := false
    st22_expect_frame_size := 0
    st22_expect_size_per_frame := 0
    stats := rv_stats_zero
    events := []
    app_held := []
    frame_time_sampling := 0 }

/-- The function `rv_mgr_attach`: the first empty entry of the table takes the new
session; the result is the library instance, the table and the entry with
its session, or no session.  `rx_video_session_get_empty` is true for an entry
without a session (modelled from the spec).  A trap of `rv_attach` is `none`. -/
def rv_mgr_attach (impl : mtl_main_impl) (mgr : st_rx_video_sessions_mgr) (ops : st20_rx_ops)
    (st22_ops : Option st22_rx_ops) :
    Option (mtl_main_impl × st_rx_video_sessions_mgr × Option st_rx_video_session_impl) :=
  /- find one empty slot in the mgr -/
  match (List.range ST_SCH_MAX_RX_VIDEO_SESSIONS).find? (fun i => (mgr.sessions i).isNone) with
  | none => some (impl, mgr, none)
  | some i =>
    if ¬ impl.session_malloc_ok then some (impl, mgr, none)
    else
      match rv_attach impl st_rx_video_session_zero ops st22_ops with
      | none => none
      | some (ret, impl1, s) =>
        if ret < 0 then some (impl1, mgr, none)
        else
          some (impl1,
            { mgr with
              sessions := Function.update mgr.sessions i (some s)
              max_idx := max mgr.max_idx (i + 1) },
            some s)

/-! ## Timing analyser windows: definitions -/

/-- Number of Cinst verdicts recorded: every run of `rv_ebu_result` adds one. -/
def ebu_cinst_verdicts (r : st_rx_video_ebu_result) : Nat :=
  r.cinst_pass_narrow + r.cinst_pass_wide + r.cinst_fail

/-- State of the analyser `n` frames after `rv_ebu_init`, for `n < 1800`, where `r0` are the
counters at that time: the frame index is `n % 300`; up to frame 1499 four
results are still to be dropped and the result counter is `n / 300`; from
frame 1500 on nothing is to be dropped and the result counter is 0 again; no
verdict counter has moved. -/
def ebu_window_inv (r0 : st_rx_video_ebu_result) (n : Nat) (s : st_rx_video_session_impl) :
    Prop :=
  s.ebu.frame_idx = n % 300 ∧
  (n < 1500 → s.ebu_info.dropped_results = 4 ∧
    s.ebu_result = { r0 with ebu_result_num := ((n / 300 : Nat) : Int) }) ∧
  (1500 ≤ n → s.ebu_info.dropped_results = 0 ∧
    s.ebu_result = { r0 with ebu_result_num := 0 })

/-- The 1080p session of a library instance with the timing analyser, after the
detector has counted 4320 packets per frame. -/
def session_1080p_ebu : st_rx_video_session_impl :=
  { session_1080p with
    has_ebu := true
    detector := { st_rx_video_detector_zero with pkt_per_frame := 4320 } }

/-- The session `session_1080p_ebu` after `rv_ebu_init` with the thresholds 4, 16, 8, 720, 0 and
a `tr_offset` of 8000. -/
def session_1080p_ebu_started : st_rx_video_session_impl :=
  (rv_ebu_init session_1080p_ebu 0 4 16 8 720 0 8000).2

/-! ## Bitmap window and counters at concrete inputs: definitions -/

/-- A packet of the last line (1079) of a 1080p frame at pixel offset 0 with 600 bytes
of payload, as a sender that packs 600 bytes per packet makes it. -/
def mbuf_line_1079_600 : rte_mbuf :=
  { payload_type := 96, marker := false, tmstamp := 1500, seq_number := 8632, seq_number_ext := 0,
    row_length := 600, row_number := 1079, row_offset := 0, extra_row_length := 0,
    extra_row_number := 0, extra_row_offset := 0, payload := List.replicate 600 7,
    next_data_len := none, dma_copy_ret := 0 }

/-- A second copy of `mbuf_example`, as the redundant port delivers it. -/
def session_1080p_duplicate : st_rx_video_session_impl :=
  (rv_handle_frame_pkt session_1080p_one_pkt mbuf_example 1 true).state

/-- A session for a picture of 2 x 4 pixels (pixel group 5 bytes for 2 pixels): lines
of 5 bytes, a frame of 20 bytes, a bitmap of one byte. -/
def session_2x4 : st_rx_video_session_impl :=
  rv_session_init 2 4 5 2 5 1 2 none

/-- Packet `k` of a stream of 7-byte packets, all for line 0, offset 0, of the frame
with timestamp 1500. -/
def mbuf_7_bytes (k : Nat) : rte_mbuf :=
  { payload_type := 96, marker := false, tmstamp := 1500, seq_number := k, seq_number_ext := 0,
    row_length := 7, row_number := 0, row_offset := 0, extra_row_length := 0,
    extra_row_number := 0, extra_row_offset := 0, payload := List.replicate 7 1,
    next_data_len := none, dma_copy_ret := 0 }

/-- The frame sizes of the `notify_frame_ready` calls in a log, newest first: the frame size
and the received size of each meta. -/
def notified_sizes (events : List rx_event) : List (Nat × Nat) :=
  events.filterMap (fun e =>
    match e with
    | .notify_frame_ready _ m _ => some (m.frame_total_size, m.frame_recv_size)
    | _ => none)

/-! ## Slot counters: definitions -/

/-- Number of bits set inside the window `[0, n * 8)` of a bitmap of `n` bytes. -/
def window_bits (n : Nat) (bitmap : List Int) : Nat :=
  (bitmap.filter (fun idx => decide (0 ≤ idx) && decide (idx < (n : Int) * 8))).length

/-- The fields of a slot that only the slot lookup and the sequence check write:
timestamp, sequence base, its flag and the bitmap are the same in `a` and `b`. -/
def slot_fixed (a b : st_rx_video_slot_impl) : Prop :=
  b.tmstamp = a.tmstamp ∧ b.seq_id_base_u32 = a.seq_id_base_u32 ∧
  b.seq_id_got = a.seq_id_got ∧ b.frame_bitmap = a.frame_bitmap

/-- The packet and byte counters of a slot are the same in `a` and `b`. -/
def slot_counts (a b : st_rx_video_slot_impl) : Prop :=
  b.pkts_received = a.pkts_received ∧ b.frame_recv_size = a.frame_recv_size ∧
  b.pkt_lcore_frame_recv_size = a.pkt_lcore_frame_recv_size

/-- The sizes of the session and the presence of a DMA device are the same in `s`
and `s2`. -/
def rv_consts (s s2 : st_rx_video_session_impl) : Prop :=
  s2.st20_frame_size = s.st20_frame_size ∧
  s2.st20_frame_bitmap_size = s.st20_frame_bitmap_size ∧
  s2.dma_dev.isSome = s.dma_dev.isSome

/-- Between `s` and `s2` no slot changed its timestamp, sequence base, bitmap, counters
or frame. -/
def rv_kept (s s2 : st_rx_video_session_impl) : Prop :=
  rv_consts s s2 ∧
  ∀ j, slot_fixed (s.slots j) (s2.slots j) ∧ slot_counts (s.slots j) (s2.slots j) ∧
    (s2.slots j).frame = (s.slots j).frame

/-- As `rv_kept`, but slot `i` may have let go of its frame. -/
def rv_kept_but_frame (s s2 : st_rx_video_session_impl) (i : Nat) : Prop :=
  rv_consts s s2 ∧
  ∀ j, slot_fixed (s.slots j) (s2.slots j) ∧ slot_counts (s.slots j) (s2.slots j) ∧
    (j ≠ i → (s2.slots j).frame = (s.slots j).frame)

/-- Counter invariant of one slot, for a bitmap of `n` bytes and a frame of `frame_size`
bytes: the bitmap has no index twice; a slot that holds a frame has as many
packets received as bits set inside the window, or one more (the first packet
of the frame, whose index is not tested against the window); before the
first packet both are 0; and without DMA device (`dma = false`) the received size
is 0 or, on a slot holding a frame, below the frame size. -/
def slot_cnt_inv (n frame_size : Nat) (dma : Bool) (slot : st_rx_video_slot_impl) : Prop :=
  slot.frame_bitmap.Nodup ∧
  (slot.frame ≠ none →
    (slot.seq_id_got = false →
      slot.pkts_received = 0 ∧ window_bits n slot.frame_bitmap = 0) ∧
    window_bits n slot.frame_bitmap ≤ slot.pkts_received ∧
    slot.pkts_received ≤ window_bits n slot.frame_bitmap + 1) ∧
  (dma = false →
    rv_slot_get_frame_size slot = 0 ∨
    (slot.frame ≠ none ∧ rv_slot_get_frame_size slot < frame_size))

/-- The counter invariant of a session with a bitmap of `n` bytes, a frame of `frame_size` bytes
and (`dma`) a DMA device or none: it holds for every slot. -/
def rv_cnt_inv (n frame_size : Nat) (dma : Bool) (s : st_rx_video_session_impl) : Prop :=
  s.st20_frame_bitmap_size = n ∧ s.st20_frame_size = frame_size ∧ s.dma_dev.isSome = dma ∧
  ∀ i, slot_cnt_inv n frame_size dma (s.slots i)

/-! ## Sequence base: definitions -/

/-- The second packet of the frame of `mbuf_example`: sequence number 1, pixel offset 480. -/
def mbuf_example_second : rte_mbuf :=
  { mbuf_example with seq_number := 1, row_offset := 480 }

/-! ## Attach: kept sizes and example configurations -/

/-- The sizes derived by `rv_attach`, the pixel group and the options are the same in `s`
and `s2`. -/
def rv_sizes_kept (s s2 : st_rx_video_session_impl) : Prop :=
  s2.st20_frame_size = s.st20_frame_size ∧ s2.st20_bytes_in_line = s.st20_bytes_in_line ∧
  s2.st20_linesize = s.st20_linesize ∧ s2.st20_frame_bitmap_size = s.st20_frame_bitmap_size ∧
  s2.ops = s.ops

/-- A library instance on which every lookup and allocation succeeds, with the pixel
group of YUV 4:2:2 10 bit (5 bytes for 2 pixels) and no resource handed out. -/
def impl_all_ok : mtl_main_impl :=
  { port_map_ret := 0, pgroup_ret := 0, pg_size := 5, pg_coverage := 2, fps_timing_ret := 0,
    frame_time_sampling := 1501, init_sw_ret := 0, has_ebu := false, has_dpdk_hdr_split := false,
    pmd_is_kernel := fun _ => false, rxq_get_ok := fun _ => true, mcast_join_ret := fun _ => 0,
    rtcp_uhdr_ret := fun _ => 0, rtcp_create_ok := fun _ => true, session_malloc_ok := true,
    rxq_held := [], mcast_joined := [], rtcp_created := [] }

/-- Options of a 1080p frame-level session on one port. -/
def ops_1080p : st20_rx_ops :=
  { num_port := 1, payload_type := 96, width := 1920, height := 1080,
    flag_receive_incomplete_frame := false, notify_frame_ready := fun _ _ => 0,
    query_ext_frame := none, framebuff_cnt := 2 }

/-- An empty session table. -/
def mgr_empty : st_rx_video_sessions_mgr :=
  { sessions := fun _ => none, max_idx := 0 }

/-- Options of a 1080p session whose user line size equals the 4800 bytes of a line. -/
def ops_1080p_linesize_4800 : st20_rx_ops :=
  { ops_1080p with linesize := 4800 }

/-! ## Attach roll-back and detected sizes: definitions -/

/-- Options of a 1080p session on two ports, both with a multicast address. -/
def ops_two_mcast_ports : st20_rx_ops :=
  { ops_1080p with num_port := 2, sip_multicast := fun _ => true }

/-- A library instance on which joining the multicast group fails on port 1 only. -/
def impl_mcast_fail_port1 : mtl_main_impl :=
  { impl_all_ok with mcast_join_ret := fun i => if i = 1 then -1 else 0 }

/-- Options of a 1080p session on two unicast ports with RTCP enabled. -/
def ops_two_rtcp_ports : st20_rx_ops :=
  { ops_1080p with num_port := 2, flag_enable_rtcp := true }

/-- A library instance on which the RTCP receiver cannot be created on port 1. -/
def impl_rtcp_fail_port1 : mtl_main_impl :=
  { impl_all_ok with rtcp_create_ok := fun i => decide (i ≠ 1) }

/-- What an attach attempt leaves behind: whether a session was returned, `max_idx`, whether
entry 0 of the table is still empty, and the receive queues, multicast groups
and RTCP receivers still handed out. -/
def rv_mgr_attach_outcome
    (r : Option (mtl_main_impl × st_rx_video_sessions_mgr × Option st_rx_video_session_impl)) :
    Option (Bool × Nat × Bool × List Nat × List Nat × List Nat) :=
  r.map (fun x => (x.2.2.isSome, x.2.1.max_idx, (x.2.1.sessions 0).isNone, x.1.rxq_held,
    x.1.mcast_joined, x.1.rtcp_created))

/-- Options of a 1280 x 720 frame-level session on one port. -/
def ops_720p : st20_rx_ops :=
  { ops_1080p with width := 1280, height := 720 }

/-- Options of a session that leaves the format to the detector: no width and height,
`ST20_RX_FLAG_AUTO_DETECT` set, and a `notify_detected` callback that accepts what is found. -/
def ops_auto_detect : st20_rx_ops :=
  { ops_1080p with
    width := 0
    height := 0
    flag_auto_detect := true
    notify_detected := some (fun _ => (0, { slice_lines := 0, uframe_size := 0 })) }

/-- The session `rv_attach` makes of `ops_auto_detect`: the detector is armed and the packet handler
is `rv_handle_detect_pkt`. -/
def session_auto_detect : st_rx_video_session_impl :=
  match rv_attach impl_all_ok st_rx_video_session_zero ops_auto_detect none with
  | some r => r.2.2
  | none => st_rx_video_session_zero

/-- A packet of a 720p stream: 1260 bytes (7 * 180) of line `line`, with RTP timestamp
`tmstamp`. -/
def mbuf_720p (tmstamp seq line : Nat) (marker : Bool) : rte_mbuf :=
  { payload_type := 96, marker := marker, tmstamp := tmstamp, seq_number := seq,
    seq_number_ext := 0, row_length := 1260, row_number := line, row_offset := 0,
    extra_row_length := 0, extra_row_number := 0, extra_row_offset := 0, payload := [],
    next_data_len := none, dma_copy_ret := 0 }

/-- Three frames of a 720p59.94 stream, each cut down to a first packet and the
marker packet on line 719; the RTP timestamps step by 1501 and 1502. -/
def stream_720p_three_frames : List rte_mbuf :=
  [mbuf_720p 1000 0 0 false, mbuf_720p 1000 1 719 true,
   mbuf_720p 2501 2 0 false, mbuf_720p 2501 3 719 true,
   mbuf_720p 4003 4 0 false, mbuf_720p 4003 5 719 true]

/-- The fourth frame of the stream. -/
def stream_720p_fourth_frame : List rte_mbuf :=
  [mbuf_720p 5504 6 0 false, mbuf_720p 5504 7 719 true]

/-! ## Format detection: definitions -/

/-- What the detector reports for a 720p59.94 progressive stream in block packing. -/
def detect_meta_720p59 : st20_detect_meta :=
  { width := 1280, height := 720, fps := .P59_94, packing := .BPM, interlaced := false }

/-- A packet the detector takes for a progressive block-packed stream: the payload
type of the session, no second-field bit in the line number, and a payload
length (both SRDs) that is a multiple of 180. -/
def detect_pkt_ok (payload_type : Nat) (p : rte_mbuf) : Prop :=
  p.payload_type % 256 = payload_type ∧ p.row_number % U16 < BIT15 ∧
  rv_detect_payload_length p % 180 = 0

/-- The detector is armed and has seen `k` marker packets: it is detecting, the packet
handler is `rv_handle_detect_pkt`, every payload so far was a multiple of 180 bytes, nothing
has been found and `notify_detected` has not been called. -/
def rv_detecting (s : st_rx_video_session_impl) (k : Nat) : Prop :=
  s.detector.status = .DETECTING ∧ s.pkt_handler = .rv_handle_detect_pkt ∧
  s.detector.bpm = true ∧
  s.detector.meta =
    { width := 0, height := 0, fps := .MAX, packing := .MAX, interlaced := false } ∧
  s.detector.frame_num = k ∧ s.detected = []

/-- The options, the pixel group and the handler selection inputs are the same in `s`
and `s2`. -/
def rv_detect_env (s s2 : st_rx_video_session_impl) : Prop :=
  s2.ops = s.ops ∧ s2.st20_pg_size = s.st20_pg_size ∧ s2.st20_pg_coverage = s.st20_pg_coverage ∧
  s2.st22_info = s.st22_info ∧ s2.is_hdr_split = s.is_hdr_split

/-- The detect handler returns 0 on every packet of `pkts`, starting in `s` and ending
in `s2`. -/
def rv_detect_run (impl : mtl_main_impl) (s : st_rx_video_session_impl) (pkts : List rte_mbuf)
    (s2 : st_rx_video_session_impl) : Prop :=
  rv_handle_detect_pkts impl s pkts = (List.replicate pkts.length 0, s2)

/-- Step from the RTP timestamp of packet `a` to the one of packet `b`, as `rv_detector_calculate_fps` computes
it from the recorded `uint32_t` values: the difference stored in an `int`. -/
def rtp_tmstamp_step (a b : rte_mbuf) : Int :=
  to_int32 (b.tmstamp % U32 % U32 + U32 - a.tmstamp % U32 % U32)

/-! ## Packet dispatch and slice tracker: definitions -/

/-- Modelled from the spec: `rte_ring_sp_enqueue_bulk` puts all of `objs` on the ring or, when
they do not fit, none of them, and returns the number it took. -/
def rte_ring_sp_enqueue_bulk (r : rte_ring) (objs : List rte_mbuf) : rte_ring × Nat :=
  if r.objs.length + objs.length ≤ r.capacity then
    ({ r with objs := r.objs ++ objs }, objs.length)
  else (r, 0)

/-- The function `rv_simulate_pkt_loss`: whether the packet is dropped.  The two calls of `rand()`
take the next values of `rand_values` (0 when none is left); the result is `none`
when `rand() % s->burst_loss_max` divides by zero. -/
def rv_simulate_pkt_loss (s : st_rx_video_session_impl) :
    Option (Bool × st_rx_video_session_impl) :=
  if s.burst_loss_cnt = 0 then
    /- create a burst of pkt loss at fixed rate -/
    let s1 := { s with rand_values := s.rand_values.tail }
    if s.sim_loss_hit (s.rand_values.headD 0) then
      if s.burst_loss_max = 0 then none
      else
        /- burst_loss_cnt at least 1 to prevent underflow -/
        let burst_loss_cnt := s1.rand_values.headD 0 % s.burst_loss_max + 1
        /- continue drop pkt in current burst -/
        some (true, { s1 with
          rand_values := s1.rand_values.tail
          burst_loss_cnt := burst_loss_cnt - 1
          stat_pkts_simulate_loss := s1.stat_pkts_simulate_loss + 1 })
    else some (false, s1)
  else
    /- continue drop pkt in current burst -/
    some (true, { s with
      burst_loss_cnt := s.burst_loss_cnt - 1
      stat_pkts_simulate_loss := s.stat_pkts_simulate_loss + 1 })

/-- Port counters of `rv_handle_mbuf` after one handler call (lines 2816-2822) for packet `mbuf`;
`ret` is the sum of the handler's return values so far, this call included. -/
def rv_handle_mbuf_count (s : st_rx_video_session_impl) (s_port : Nat) (ret : Int)
    (mbuf : rte_mbuf) : st_rx_video_session_impl :=
  if ret < 0 then
    { s with
      port_user_stats_err_packets := Function.update s.port_user_stats_err_packets s_port
        (s.port_user_stats_err_packets s_port + 1) }
  else
    { s with
      stat_bytes_received := s.stat_bytes_received + mbuf.pkt_len
      port_user_stats_packets := Function.update s.port_user_stats_packets s_port
        (s.port_user_stats_packets s_port + 1)
      port_user_stats_bytes := Function.update s.port_user_stats_bytes s_port
        (s.port_user_stats_bytes s_port + mbuf.pkt_len) }

/-- The dispatch loop of `rv_handle_mbuf` (lines 2805-2822) over the packets `mbuf`, with `ret` the
sum of the return values so far.  `pkt_handler` is the call through the pointer
`s->pkt_handler`; a trap of the handler ends the loop.  The call of
`mt_rtcp_rx_parse_rtp_packet` writes the RTCP receiver only and is left out. -/
def rv_handle_mbuf_loop
    (pkt_handler : st_rx_video_session_impl → rte_mbuf → Nat → Bool → rv_result)
    (s_port : Nat) (ctl_thread : Bool) (s : st_rx_video_session_impl) (ret : Int)
    (mbuf : List rte_mbuf) : rv_result :=
  match mbuf with
  | [] => .ret ret s
  | m :: rest =>
    match (if s.ops.flag_simulate_pkt_loss then rv_simulate_pkt_loss s else some (false, s)) with
    | none => .fault s
    | some (true, s1) => rv_handle_mbuf_loop pkt_handler s_port ctl_thread s1 ret rest
    | some (false, s1) =>
      match pkt_handler s1 m s_port ctl_thread with
      | .fault s2 => .fault s2
      | .ret handler_ret s2 =>
        rv_handle_mbuf_loop pkt_handler s_port ctl_thread
          (rv_handle_mbuf_count s2 s_port (ret + handler_ret) m) (ret + handler_ret) rest

/-- The function `rv_handle_mbuf` for the burst `mbuf` received on port `s_port`: with a packet
ring the burst goes to the ring, and only what the ring did not take is
dispatched here, with `ctl_thread` false; without a ring every packet is
dispatched with `ctl_thread` true. -/
def rv_handle_mbuf
    (pkt_handler : st_rx_video_session_impl → rte_mbuf → Nat → Bool → rv_result)
    (s : st_rx_video_session_impl) (s_port : Nat) (mbuf : List rte_mbuf) : rv_result :=
  if !s.attached then .ret (- EIO_errno) s
  else
    let ctl_thread := s.pkt_lcore_ring.isNone
    let s1 : st_rx_video_session_impl × Nat :=
      match s.pkt_lcore_ring with
      | some ring =>
        /- first pass to the pkt ring if it has pkt handling lcore -/
        let r := rte_ring_sp_enqueue_bulk ring mbuf
        let nb := mbuf.length - r.2
        ({ s with
            pkt_lcore_ring := some r.1
            stat_pkts_enqueue_fallback := s.stat_pkts_enqueue_fallback + nb }, nb)
      | none => (s, mbuf.length)
    if s1.2 = 0 then .ret 0 s1.1
    else
      /- now dispatch the pkts to handler -/
      rv_handle_mbuf_loop pkt_handler s_port ctl_thread
        { s1.1 with pri_nic_inflight_cnt := s1.1.pri_nic_inflight_cnt + 1 } 0
        (mbuf.take s1.2)

/-- One turn of the loop of `rv_pkt_lcore_func` (lines 2393-2399): the oldest packet of the ring, if
there is one, is handed to `rv_handle_frame_pkt` for port `MTL_SESSION_PORT_P` with `ctrl_thread`
true, and the handler's return value is dropped.  A session without a ring
traps. -/
def rv_pkt_lcore_func_iter (s : st_rx_video_session_impl) : rv_result :=
  match s.pkt_lcore_ring with
  | none => .fault s
  | some ring =>
    match ring.objs with
    | [] => .ret 0 s
    | pkt :: rest =>
      match rv_handle_frame_pkt { s with pkt_lcore_ring := some { ring with objs := rest } }
          pkt 0 true with
      | .ret _ s1 => .ret 0 s1
      | .fault s1 => .fault s1

/-- The calls `rv_slice_add(s, slot, offset, size)` on slot `i` for the ranges `(offset, size)` of
`ranges`, in order; `none` when a call traps. -/
def rv_slice_add_run (s : st_rx_video_session_impl) (i : Nat) (ranges : List (Nat × Nat)) :
    Option st_rx_video_session_impl :=
  match ranges with
  | [] => some s
  | r :: rest =>
    match (s.slots i).slice_info with
    | none => none
    | some slice_info =>
      match rv_slice_add s i slice_info r.1 r.2 with
      | none => none
      | some s1 => rv_slice_add_run s1 i rest

/-- Byte `b` of the frame lies in one of the ranges `(offset, size)`. -/
def slice_covered (ranges : List (Nat × Nat)) (b : Nat) : Bool :=
  ranges.any (fun r => decide (r.1 ≤ b) && decide (b < r.1 + r.2))

/-- The longest initial part of the frame covered by the ranges is `[0, m)`: every byte
below `m` is covered and byte `m` is not. -/
def slice_longest_covered (ranges : List (Nat × Nat)) (m : Nat) : Prop :=
  (∀ b, b < m → slice_covered ranges b = true) ∧ slice_covered ranges m = false

/-- Size of the main slice of slot `i` (0 without a tracker). -/
def rv_slice_main_size (s : st_rx_video_session_impl) (i : Nat) : Nat :=
  match (s.slots i).slice_info with
  | some slice_info => (slice_info.slices.headD { offset := 0, size := 0 }).size
  | none => 0

/-- The `ready_slices` of the tracker of slot `i` (0 without a tracker). -/
def rv_slice_ready_slices (s : st_rx_video_session_impl) (i : Nat) : Nat :=
  match (s.slots i).slice_info with
  | some slice_info => slice_info.ready_slices
  | none => 0

/-- The tracker of slot `i` is freshly cleared: every slice is null and both counters
are zero, as the `memset` of `rv_slot_by_tmstamp` leaves it. -/
def rv_slice_fresh (s : st_rx_video_session_impl) (i : Nat) : Prop :=
  ∃ slice_info, (s.slots i).slice_info = some slice_info ∧
    slice_info_clear slice_info = slice_info ∧ slice_info.slices ≠ []

/-- Number of extra slices in use. -/
def slice_used (slices : List st_rx_video_slot_slice) : Nat :=
  slices.countP (fun e => decide (e.size ≠ 0))

/-- Number of the slices `[offset, offset + size)` that hold byte `b`. -/
def slice_count (slices : List st_rx_video_slot_slice) (b : Nat) : Nat :=
  slices.countP (fun e => decide (e.offset ≤ b) && decide (b < e.offset + e.size))

/-- Number of the ranges `(offset, size)` that hold byte `b`. -/
def range_count (ranges : List (Nat × Nat)) (b : Nat) : Nat :=
  ranges.countP (fun r => decide (r.1 ≤ b) && decide (b < r.1 + r.2))

/-- State of a tracker that has taken the ranges `ranges`: every byte lies in as many slices
(the main slice being `[0, size)`) as ranges, no extra slice in use starts where the
main slice ends, `extra_slices` counts the extra slices in use and
`ready_slices` is the main size over the slice size. -/
def slice_tracker_inv (slice_size : Nat) (ranges : List (Nat × Nat))
    (slice_info : st_rx_video_slot_slice_info) : Prop :=
  ∃ main_slice extras, slice_info.slices = main_slice :: extras ∧
    (∀ b, (if b < main_slice.size then 1 else 0) + slice_count extras b =
      range_count ranges b) ∧
    (∀ e ∈ extras, e.size ≠ 0 → e.offset ≠ main_slice.size) ∧
    slice_info.extra_slices = slice_used extras ∧
    slice_info.ready_slices = main_slice.size / slice_size

/-! ## ST 2110-22 boxes of a late first packet: definitions -/

/-- The box header length of every slot is the same in `s` and `s2`. -/
def st22_box_kept (s s2 : st_rx_video_session_impl) : Prop :=
  ∀ j, (s2.slots j).st22_box_hdr_length = (s.slots j).st22_box_hdr_length

/-- Codestream bytes of packet `j` of the example frame: 64 bytes in packet 0 (behind the 36
bytes of boxes), 100 in the others, each byte `j + 1`. -/
def st22_codestream_example (j : Nat) : List Nat :=
  List.replicate (if j = 0 then 64 else 100) (j + 1)

/-- Packet `j` of the example frame: three packets of 100 payload bytes, timestamp 1500,
sequence numbers from 0. -/
def st22_pkt_example (j : Nat) : st22_mbuf :=
  st22_pkt 1500 0 2 100 100 st22_codestream_example j

/-- The fresh ST 2110-22 session (frames of 100000 bytes) after packet 1 of the example frame
has arrived first. -/
def session_st22_second_pkt_first : st_rx_video_session_impl :=
  (rv_handle_st22_pkt (session_st22 100000) (st22_pkt_example 1) 0 true).state

/-! ## Detector packet count: definitions -/

/-- Four frames of a 720p59.94 stream whose senders put two packets in the first two frames
and three in the third: the marker packets are on line 719 and the RTP timestamps
step by 1501 and 1502. -/
def stream_720p_uneven_frames : List rte_mbuf :=
  [mbuf_720p 1000 0 0 false, mbuf_720p 1000 1 719 true,
   mbuf_720p 2501 2 0 false, mbuf_720p 2501 3 719 true,
   mbuf_720p 4003 4 0 false, mbuf_720p 4003 5 360 false, mbuf_720p 4003 6 719 true,
   mbuf_720p 5504 7 0 false, mbuf_720p 5504 8 719 true]

/-- The detecting session after the three frames of `stream_720p_three_frames` and the first packet of the
fourth frame: the samples are 1, 3 and 5 packets. -/
def session_detect_even_frames : st_rx_video_session_impl :=
  (rv_handle_detect_pkts impl_all_ok session_auto_detect
    (stream_720p_three_frames ++ [mbuf_720p 5504 6 0 false])).2

/-- The detecting session after all packets of `stream_720p_uneven_frames` but the fourth marker: the
samples are 1, 3 and 6 packets. -/
def session_detect_uneven_frames : st_rx_video_session_impl :=
  (rv_handle_detect_pkts impl_all_ok session_auto_detect (stream_720p_uneven_frames.take 8)).2

/-! ## Packet co-thread: definitions -/

/-- The attached 1080p session with a packet ring (511 places) on which `mbuf_example`, the first
packet of the frame with timestamp 1500, is waiting for the co-thread. -/
def session_1080p_ring_one : st_rx_video_session_impl :=
  { session_1080p with
    attached := true
    pkt_lcore_ring := some { capacity := 511, objs := [mbuf_example] } }

/-- The attached 1080p session whose packet ring has no place left. -/
def session_1080p_ring_full : st_rx_video_session_impl :=
  { session_1080p with
    attached := true
    pkt_lcore_ring := some { capacity := 0, objs := [] } }

/-! ## Slice tracker: definitions -/

/-- The 1080p session with frame 0 on slot 0 and a cleared tracker of eight slices. -/
def session_1080p_slices : st_rx_video_session_impl :=
  { session_1080p with
    slots := Function.update session_1080p.slots 0
      { session_1080p.slots 0 with
        frame := some 0
        slice_info := some
          { slices := List.replicate 8 { offset := 0, size := 0 }
            ready_slices := 0
            extra_slices := 0 } } }

/-- Four disjoint ranges of the frame, out of order: the second slice first. -/
def slice_ranges_example : List (Nat × Nat) :=
  [(158400, 158400), (0, 158400), (475200, 1200), (316800, 158400)]

/-! ## Zero payload length: definitions -/

/-- A packet without payload: line 0, offset 0, `row_length` 0, no second SRD. -/
def mbuf_zero_length : rte_mbuf :=
  { payload_type := 96, marker := false, tmstamp := 1500, seq_number := 0, seq_number_ext := 0,
    row_length := 0, row_number := 0, row_offset := 0, extra_row_length := 0,
    extra_row_number := 0, extra_row_offset := 0, payload := [],
    next_data_len := none, dma_copy_ret := 0 }

/-! ## Corrupted frame without packets: definitions -/

/-- The 1080p session after its first packet, the user-meta packet `mbuf_user_meta_200` of
timestamp 1500: slot 0 holds frame 0 and has counted no packet. -/
def session_1080p_user_meta_only : st_rx_video_session_impl :=
  (rv_handle_frame_pkt session_1080p mbuf_user_meta_200 0 true).state

/-- A packet of timestamp 1500 on line 2000, beyond the 1080 lines of the frame. -/
def mbuf_line_2000 : rte_mbuf :=
  { mbuf_example with row_number := 2000 }

/-- The 1080p session after its first packet, `mbuf_line_2000`, was dropped by the offset
test: slot 0 holds frame 0 and has counted no packet. -/
def session_1080p_rejected_only : st_rx_video_session_impl :=
  (rv_handle_frame_pkt session_1080p mbuf_line_2000 0 true).state

/-- The first packet of the next frame: `mbuf_example` with timestamp 3001. -/
def mbuf_next_frame : rte_mbuf :=
  { mbuf_example with tmstamp := 3001 }

/-! ## ST 2110-22 box longer than the payload: definitions -/

/-- A first packet (packet counter 0) of an ST 2110-22 frame with 8 payload bytes: the header of a
`jpvs` box whose length field says 100. -/
def mbuf_st22_box_100 : st22_mbuf :=
  { payload_type := 96, marker := false, kmode := false, tmstamp := 1500, seq_number := 0,
    p_counter_lo := 0, p_counter_hi := 0, sep_counter_lo := 0, sep_counter_hi := 0,
    data_len := 66, payload := [0, 0, 0, 100, 106, 112, 118, 115] }

/-! ## Port counters of a burst: definitions -/

/-- The fresh 1080p session once `rv_attach` has marked it attached. -/
def session_1080p_attached : st_rx_video_session_impl :=
  { session_1080p with attached := true }

/-- The packet `mbuf_example` as it comes from the wire: 1262 bytes with the headers. -/
def mbuf_example_wire : rte_mbuf :=
  { mbuf_example with pkt_len := 1262 }

/-- A packet of another stream: payload type 97 instead of 96. -/
def mbuf_wrong_payload_type : rte_mbuf :=
  { mbuf_example_wire with payload_type := 97 }

/-! ## Lookup without a free frame: definitions -/

/-- A packet with RTP timestamp 0: `mbuf_example` with that timestamp and sequence number
`seq`. -/
def mbuf_tmstamp_zero (seq : Nat) : rte_mbuf :=
  { mbuf_example with tmstamp := 0, seq_number := seq }

/-! ## Bitmap count: definitions -/

/-- The ST 2110-22 session (frames of 100000 bytes) after packet 0 of the example frame and a
second copy of it. -/
def session_st22_duplicate : st_rx_video_session_impl :=
  (rv_handle_st22_pkts (session_st22 100000)
    [(st22_pkt_example 0, 0, true), (st22_pkt_example 0, 1, true)]).2

/-- The ST 2110-22 session with frames of 150 bytes after packet 1 of the example frame (100
payload bytes for offset 100) has arrived first. -/
def session_st22_offset_dropped : st_rx_video_session_impl :=
  (rv_handle_st22_pkt (session_st22 150) (st22_pkt_example 1) 0 true).state

/-- The 1080p session after `mbuf_line_1079_600` has arrived as first packet of its frame. -/
def session_1080p_first_past_bitmap : st_rx_video_session_impl :=
  (rv_handle_frame_pkt session_1080p mbuf_line_1079_600 0 true).state

/-- The session `session_2x4` after the three packets of 7 bytes that complete its frame of 20
bytes. -/
def session_2x4_frame_done : st_rx_video_session_impl :=
  (rv_handle_frame_pkts session_2x4
    [(mbuf_7_bytes 0, 0, true), (mbuf_7_bytes 1, 0, true), (mbuf_7_bytes 2, 0, true)]).2

/-- Bitmap invariant of one slot, for a bitmap of `n` bytes: no index is in the bitmap twice;
on a slot that holds a frame, before the first packet of the frame no packet
is counted and no bit inside the bitmap is set, and `pkts_received` is the number of
bits set inside the bitmap, or one more, and then an index outside the
bitmap has been written. -/
def slot_bits_inv (n : Nat) (slot : st_rx_video_slot_impl) : Prop :=
  slot.frame_bitmap.Nodup ∧
  (slot.frame ≠ none →
    (slot.seq_id_got = false →
      slot.pkts_received = 0 ∧ window_bits n slot.frame_bitmap = 0) ∧
    (slot.pkts_received = window_bits n slot.frame_bitmap ∨
      (slot.pkts_received = window_bits n slot.frame_bitmap + 1 ∧
        ∃ idx ∈ slot.frame_bitmap, ¬ (0 ≤ idx ∧ idx < (n : Int) * 8))))

/-- The bitmap invariant of a session with a bitmap of `n` bytes: it holds for every slot. -/
def rv_bits_inv (n : Nat) (s : st_rx_video_session_impl) : Prop :=
  s.st20_frame_bitmap_size = n ∧ ∀ i, slot_bits_inv n (s.slots i)

/-- State of a slot right after its bit was set and before the packet is counted: one
more packet counted gives the invariant of a slot past its first packet. -/
def slot_bits_pending (n : Nat) (slot : st_rx_video_slot_impl) : Prop :=
  slot.frame_bitmap.Nodup ∧ slot.seq_id_got = true ∧
  (slot.pkts_received + 1 = window_bits n slot.frame_bitmap ∨
    (slot.pkts_received = window_bits n slot.frame_bitmap ∧
      ∃ idx ∈ slot.frame_bitmap, ¬ (0 ≤ idx ∧ idx < (n : Int) * 8)))

/-! # Theorems -/

/-! ## Frame classification -/

/-- Claim C3.  The function `rv_frame_notify` classifies the slot it flushes by the
received size and the redundancy counters: the status it stores in the slot's
meta is CORRUPTED exactly when `frame_recv_size + pkt_lcore_frame_recv_size` is
below the frame size; otherwise it is RECONSTRUCTED exactly when the session
has more than one port and `pkts_redundant_received + 16 < pkts_received`;
otherwise it is COMPLETE.  Every call of `notify_frame_ready` the function makes
carries that status, and a session with at most one port never stores
RECONSTRUCTED. -/
theorem rv_frame_notify_classification (s : st_rx_video_session_impl) (i f : Nat) :
    let slot := s.slots i
    let received := slot.frame_recv_size + slot.pkt_lcore_frame_recv_size
    let status := ((rv_frame_notify s i f).slots i).meta.status
    (status = .CORRUPTED ↔ received < s.st20_frame_size) ∧
    (status = .RECONSTRUCTED ↔ s.st20_frame_size ≤ received ∧ 1 < s.ops.num_port ∧
        slot.pkts_redundant_received + 16 < slot.pkts_received) ∧
    (status = .COMPLETE ↔ s.st20_frame_size ≤ received ∧
        ¬ (1 < s.ops.num_port ∧ slot.pkts_redundant_received + 16 < slot.pkts_received)) ∧
    (s.ops.num_port ≤ 1 → status ≠ .RECONSTRUCTED) ∧
    (∀ g m n, rx_event.notify_frame_ready g m n ∈ (rv_frame_notify s i f).events →
        rx_event.notify_frame_ready g m n ∉ s.events → m.status = status) := by
  have hst : ((rv_frame_notify s i f).slots i).meta.status = rv_frame_notify_status s (s.slots i) := by
    unfold rv_frame_notify
    simp only [rv_frame_notify_meta, rv_put_frame]
    split_ifs <;> simp
  have hev : ∀ g m n, rx_event.notify_frame_ready g m n ∈ (rv_frame_notify s i f).events →
      rx_event.notify_frame_ready g m n ∉ s.events →
      m.status = rv_frame_notify_status s (s.slots i) := by
    intro g m n hin hnot
    unfold rv_frame_notify at hin
    simp only [rv_frame_notify_meta, rv_put_frame] at hin
    split_ifs at hin <;> simp at hin <;>
      first
        | exact absurd hin hnot
        | (rcases hin with h | h
           · rw [h.2.1]
           · exact absurd h hnot)
  simp only [hst]
  refine ⟨?_, ?_, ?_, ?_, hev⟩
  · unfold rv_frame_notify_status rv_slot_get_frame_size
    split_ifs <;> simp <;> omega
  · unfold rv_frame_notify_status rv_slot_get_frame_size
    split_ifs <;> simp <;> omega
  · unfold rv_frame_notify_status rv_slot_get_frame_size
    split_ifs <;> simp <;> omega
  · intro h
    unfold rv_frame_notify_status
    split_ifs
    · omega
    · simp
    · simp
    · simp

/-! ## Slot lookup -/

/-- The scan of `rv_slot_by_tmstamp` misses exactly when no active slot carries the
timestamp. -/
theorem rv_slot_match_eq_none (s : st_rx_video_session_impl) (tmstamp : Nat) :
    rv_slot_match s tmstamp = none ↔ ∀ i, i < s.slot_max → (s.slots i).tmstamp ≠ tmstamp := by
  unfold rv_slot_match
  rw [List.find?_eq_none]
  constructor
  · intro h i hi heq
    exact h i (List.mem_range.mpr hi) (by simp [heq])
  · intro h i hi hbeq
    have := h i (List.mem_range.mp hi)
    simp at hbeq
    exact this hbeq.symm

/-- A slot found by the scan is active and carries the timestamp. -/
theorem rv_slot_match_some (s : st_rx_video_session_impl) (tmstamp i : Nat)
    (h : rv_slot_match s tmstamp = some i) :
    i < s.slot_max ∧ (s.slots i).tmstamp = tmstamp ∧
      ∀ j, j < i → (s.slots j).tmstamp ≠ tmstamp := by
  unfold rv_slot_match at h
  rw [List.find?_range_eq_some] at h
  obtain ⟨h1, h2, h3⟩ := h
  refine ⟨List.mem_range.mp h2, ?_, ?_⟩
  · have h1b : tmstamp = (s.slots i).tmstamp := by simpa using h1
    exact h1b.symm
  · intro j hj heq
    have := h3 j hj
    simp [heq] at this

/-- Claim C8.  When `rv_slot_by_tmstamp` is called with a timestamp that no active slot
carries while a DMA device is attached and its queue is not empty, it returns
no slot and changes nothing but `dma_previous_busy_cnt`, which grows by one: the
slots, `slot_idx`, the frames (so every refcount) and the event log are the same.
The frame handler called with such a packet (right payload type, one segment)
returns `-EIO` and its only other change is `stat_pkts_no_slot` grown by one. -/
theorem rv_slot_by_tmstamp_dma_in_flight (s : st_rx_video_session_impl) (tmstamp : Nat)
    (hdr_split_pd : Option Nat) (d : mtl_dma_lender_dev)
    (hmiss : ∀ i, i < s.slot_max → (s.slots i).tmstamp ≠ tmstamp)
    (hdev : s.dma_dev = some d) (hbusy : mt_dma_empty d = false) :
    rv_slot_by_tmstamp s tmstamp hdr_split_pd =
        ({ s with stats := { s.stats with
            dma_previous_busy_cnt := s.stats.dma_previous_busy_cnt + 1 } }, none) ∧
    ∀ (mbuf : rte_mbuf) (s_port : Nat) (ctrl_thread : Bool),
      mbuf.payload_type % 256 = s.ops.payload_type →
      (mbuf.next_data_len = none ∨ mbuf.next_data_len = some 0) →
      mbuf.tmstamp % U32 = tmstamp →
      rv_handle_frame_pkt s mbuf s_port ctrl_thread =
        .ret (- EIO_errno) { s with stats := { s.stats with
            dma_previous_busy_cnt := s.stats.dma_previous_busy_cnt + 1
            stat_pkts_no_slot := s.stats.stat_pkts_no_slot + 1 } } := by
  have hlookup : rv_slot_by_tmstamp s tmstamp none =
      ({ s with stats := { s.stats with
          dma_previous_busy_cnt := s.stats.dma_previous_busy_cnt + 1 } }, none) := by
    unfold rv_slot_by_tmstamp
    rw [(rv_slot_match_eq_none s tmstamp).mpr hmiss]
    simp [dma_busy, hdev, hbusy]
  constructor
  · unfold rv_slot_by_tmstamp
    rw [(rv_slot_match_eq_none s tmstamp).mpr hmiss]
    simp [dma_busy, hdev, hbusy]
  · intro mbuf s_port ctrl_thread hpt hseg hts
    rcases hseg with hseg | hseg <;>
      simp [rv_handle_frame_pkt, hts, hlookup, hpt, hseg]

/-- Witness of C8 on `session_dma_busy` and a packet with the unseen timestamp 1500. -/
theorem rv_slot_by_tmstamp_dma_in_flight_witness :
    (rv_slot_by_tmstamp session_dma_busy 1500 none).2 = none ∧
    (rv_handle_frame_pkt session_dma_busy mbuf_example 0 true).code = some (-5) := by
  have h := rv_slot_by_tmstamp_dma_in_flight session_dma_busy 1500 none
    { nb_desc := 128, borrowed := [(0, 1200)] }
    (by intro i hi; have : i = 0 := by simpa [session_dma_busy, rv_session_init, rv_init_slot] using hi
        subst this; decide)
    rfl rfl
  refine ⟨by rw [h.1], ?_⟩
  rw [h.2 mbuf_example 0 true (by decide) (Or.inl rfl) (by decide)]
  rfl


/-! ## Meta of a notification -/

/-- The meta `rv_frame_notify` leaves in the slot. -/
theorem rv_frame_notify_slot_meta (s : st_rx_video_session_impl) (i f : Nat) :
    ((rv_frame_notify s i f).slots i).meta =
      rv_frame_notify_meta s (s.slots i) (s.st20_frames f) := by
  unfold rv_frame_notify
  simp only [rv_put_frame]
  split_ifs <;> simp

/-- An event added by `rv_frame_notify` is the notification of the slot's frame with
the meta computed from the slot. -/
theorem rv_frame_notify_new_event (s : st_rx_video_session_impl) (i f : Nat) (e : rx_event)
    (hin : e ∈ (rv_frame_notify s i f).events) (hnot : e ∉ s.events) :
    e = rx_event.notify_frame_ready f (rv_frame_notify_meta s (s.slots i) (s.st20_frames f))
      (dma_inflight s) := by
  unfold rv_frame_notify at hin
  simp only [rv_put_frame] at hin
  split_ifs at hin <;> simp at hin <;>
    first
      | exact absurd hin hnot
      | (rcases hin with h | h
         · exact h
         · exact absurd h hnot)

/-- The notified user-meta size is the frame's `user_meta_data_size`. -/
theorem rv_frame_notify_meta_user_meta_size (s : st_rx_video_session_impl)
    (slot : st_rx_video_slot_impl) (frame : st_frame_trans) :
    (rv_frame_notify_meta s slot frame).user_meta_size = frame.user_meta_data_size := by
  unfold rv_frame_notify_meta
  by_cases h : frame.user_meta_data_size = 0 <;> simp [h]

/-- On a hit the slot lookup returns the matching slot and changes nothing. -/
theorem rv_slot_by_tmstamp_match (s : st_rx_video_session_impl) (tmstamp i : Nat)
    (pd : Option Nat) (h : rv_slot_match s tmstamp = some i) :
    rv_slot_by_tmstamp s tmstamp pd = (s, some i) := by
  unfold rv_slot_by_tmstamp
  rw [h]

/-! ## Payload placement bounds -/

/-- Claim C1, evaluated at the failing input.  On the 1080p session with lines
padded to 4864 bytes (frame buffer of 5253120 bytes), the packet of line 1079 with
two SRDs of 1200 bytes passes the offset bound, is accepted (return code 0) and
is copied in two parts: 1200 bytes at offset 5248256 and 1200 bytes at offset
1080 * 4864 = 5253120, the first byte past the frame buffer. -/
theorem rv_handle_frame_pkt_two_line_copy_past_buffer :
    session_1080p_padded.st20_fb_size = 5253120 ∧
    session_1080p_padded.st20_bytes_in_line ≤ session_1080p_padded.st20_linesize ∧
    rv_pkt_offset session_1080p_padded mbuf_last_line_two_srd +
      rv_pkt_payload_length mbuf_last_line_two_srd ≤ rv_pkt_offset_limit session_1080p_padded ∧
    (rv_handle_frame_pkt session_1080p_padded mbuf_last_line_two_srd 0 true).code = some 0 ∧
    ((rv_handle_frame_pkt session_1080p_padded mbuf_last_line_two_srd 0 true).state.st20_frames
        0).copies.map (fun c => (c.dst, c.data.length, c.by_dma)) =
      [(5253120, 1200, false), (5248256, 1200, false)] := by
  decide

/-! ## Redundant packets -/

/-- Claim C6.  A packet that reaches the duplicate test of `rv_handle_frame_pkt` (right
payload type, one segment, its timestamp matches slot `i` which holds a frame,
no user-meta bit, offset bound passed) on a slot whose sequence base is
captured, whose index is inside the bitmap window and whose bitmap bit is
already set, is answered with return code 0; `pkts_redundant_received` of the slot
and `stat_pkts_redundant_dropped` grow by exactly one, while `frame_recv_size`,
`pkt_lcore_frame_recv_size`, `pkts_received`, the bitmap, the slot's frame, every
other slot, all frames (so the frame buffer contents), `stat_pkts_received` and the
event log are unchanged. -/
theorem rv_handle_frame_pkt_redundant (s : st_rx_video_session_impl) (mbuf : rte_mbuf)
    (s_port : Nat) (ctrl_thread : Bool) (i f : Nat)
    (hpt : mbuf.payload_type % 256 = s.ops.payload_type)
    (hseg : mbuf.next_data_len = none ∨ mbuf.next_data_len = some 0)
    (hslot : rv_slot_match s (mbuf.tmstamp % U32) = some i)
    (hframe : (s.slots i).frame = some f)
    (hmeta : mbuf.row_length % U16 < BIT15)
    (hbound : rv_pkt_offset s mbuf + rv_pkt_payload_length mbuf ≤ rv_pkt_offset_limit s)
    (hgot : (s.slots i).seq_id_got = true)
    (hidx0 : 0 ≤ rv_seq_pkt_idx (rfc4175_rtp_seq_id mbuf) (s.slots i).seq_id_base_u32)
    (hidx1 : to_size_t (rv_seq_pkt_idx (rfc4175_rtp_seq_id mbuf) (s.slots i).seq_id_base_u32)
      < s.st20_frame_bitmap_size * 8)
    (hset : rv_seq_pkt_idx (rfc4175_rtp_seq_id mbuf) (s.slots i).seq_id_base_u32
      ∈ (s.slots i).frame_bitmap) :
    (rv_handle_frame_pkt s mbuf s_port ctrl_thread).code = some 0 ∧
    ((rv_handle_frame_pkt s mbuf s_port ctrl_thread).state.slots i).pkts_redundant_received =
      (s.slots i).pkts_redundant_received + 1 ∧
    (rv_handle_frame_pkt s mbuf s_port ctrl_thread).state.stats.stat_pkts_redundant_dropped =
      s.stats.stat_pkts_redundant_dropped + 1 ∧
    ((rv_handle_frame_pkt s mbuf s_port ctrl_thread).state.slots i).frame_recv_size =
      (s.slots i).frame_recv_size ∧
    ((rv_handle_frame_pkt s mbuf s_port ctrl_thread).state.slots i).pkt_lcore_frame_recv_size =
      (s.slots i).pkt_lcore_frame_recv_size ∧
    ((rv_handle_frame_pkt s mbuf s_port ctrl_thread).state.slots i).pkts_received =
      (s.slots i).pkts_received ∧
    ((rv_handle_frame_pkt s mbuf s_port ctrl_thread).state.slots i).frame_bitmap =
      (s.slots i).frame_bitmap ∧
    ((rv_handle_frame_pkt s mbuf s_port ctrl_thread).state.slots i).frame = (s.slots i).frame ∧
    (∀ j, j ≠ i → (rv_handle_frame_pkt s mbuf s_port ctrl_thread).state.slots j = s.slots j) ∧
    (rv_handle_frame_pkt s mbuf s_port ctrl_thread).state.st20_frames = s.st20_frames ∧
    (rv_handle_frame_pkt s mbuf s_port ctrl_thread).state.stats.stat_pkts_received =
      s.stats.stat_pkts_received ∧
    (rv_handle_frame_pkt s mbuf s_port ctrl_thread).state.events = s.events := by
  have hr : rv_handle_frame_pkt s mbuf s_port ctrl_thread =
      rv_handle_frame_pkt_slot s mbuf ctrl_thread i f := by
    rcases hseg with hseg | hseg <;>
      simp [rv_handle_frame_pkt, hpt, hseg, rv_slot_by_tmstamp_match s _ i none hslot, hframe]
  have hr2 : rv_handle_frame_pkt s mbuf s_port ctrl_thread = .ret 0 { s with
      slots := Function.update s.slots i
        { s.slots i with
          second_field := decide (BIT15 ≤ mbuf.row_number % U16)
          pkts_redundant_received := (s.slots i).pkts_redundant_received + 1 }
      stats := { s.stats with
        stat_pkts_redundant_dropped := s.stats.stat_pkts_redundant_dropped + 1 } } := by
    rw [hr]; unfold rv_handle_frame_pkt_slot rv_pkt_seq_check
    simp [Nat.not_le.mpr hmeta, Nat.not_lt.mpr hbound, hgot, Int.not_lt.mpr hidx0,
      Nat.not_le.mpr hidx1, mt_bitmap_test_and_set, hset]
  rw [hr2]
  refine ⟨rfl, by simp [rv_result.state], rfl, by simp [rv_result.state],
    by simp [rv_result.state], by simp [rv_result.state], by simp [rv_result.state],
    by simp [rv_result.state], ?_, rfl, rfl, rfl⟩
  intro j hj
  simp [rv_result.state, Function.update_noteq hj]

/-- Witness of C6: the packet `mbuf_example` handled a second time (on the redundant
port) by the session that has already accepted it. -/
theorem rv_handle_frame_pkt_redundant_witness :
    (rv_handle_frame_pkt session_1080p_one_pkt mbuf_example 1 true).code = some 0 ∧
    ((rv_handle_frame_pkt session_1080p_one_pkt mbuf_example 1 true).state.slots
      0).pkts_redundant_received = 1 := by
  have h := rv_handle_frame_pkt_redundant session_1080p_one_pkt mbuf_example 1 true 0 0
    (by decide) (Or.inl rfl) (by decide) (by decide) (by decide) (by decide) (by decide)
    (by decide) (by decide) (by decide)
  exact ⟨h.1, h.2.1⟩

/-! ## User meta -/

/-- Claim C9.  A packet whose `row_length` has bit `0x8000` set and that reaches its
slot (right payload type, one segment, the lookup returns slot `i` holding
frame `f`), with `L` the remaining 15 bits of the length: if `L` fits the frame's
user-meta buffer the handler returns 0, the first `L` bytes of the buffer are the
first `L` payload bytes, `user_meta_data_size` is `L`, and the slots (so
`pkts_received`, both received-byte counters and the bitmap), `stat_pkts_received`
and the event log are as the slot lookup left them; a notification of that slot
then reports `user_meta_size = L`.  If `L` exceeds the buffer the handler returns
`-EIO`, `stat_pkts_user_meta_err` grows by one and frames, slots and events are
unchanged. -/
theorem rv_handle_frame_pkt_user_meta (s : st_rx_video_session_impl) (mbuf : rte_mbuf)
    (s_port : Nat) (ctrl_thread : Bool) (i f : Nat)
    (hpt : mbuf.payload_type % 256 = s.ops.payload_type)
    (hseg : mbuf.next_data_len = none ∨ mbuf.next_data_len = some 0)
    (hslot : (rv_slot_by_tmstamp s (mbuf.tmstamp % U32) none).2 = some i)
    (hframe : (((rv_slot_by_tmstamp s (mbuf.tmstamp % U32) none).1).slots i).frame = some f)
    (hmeta : BIT15 ≤ mbuf.row_length % U16) :
    let s1 := (rv_slot_by_tmstamp s (mbuf.tmstamp % U32) none).1
    let L := mbuf.row_length % U16 % BIT15
    let r := rv_handle_frame_pkt s mbuf s_port ctrl_thread
    (L ≤ (s1.st20_frames f).user_meta_buffer_size →
      r.code = some 0 ∧
      (r.state.st20_frames f).user_meta_data_size = L ∧
      (r.state.st20_frames f).user_meta.take L = mbuf_read mbuf.payload 0 L ∧
      r.state.slots = s1.slots ∧
      r.state.stats.stat_pkts_received = s1.stats.stat_pkts_received ∧
      r.state.stats.stat_pkts_user_meta = s1.stats.stat_pkts_user_meta + 1 ∧
      r.state.events = s1.events ∧
      ((rv_frame_notify r.state i f).slots i).meta.user_meta_size = L ∧
      (∀ g m n, rx_event.notify_frame_ready g m n ∈ (rv_frame_notify r.state i f).events →
        rx_event.notify_frame_ready g m n ∉ r.state.events → m.user_meta_size = L)) ∧
    ((s1.st20_frames f).user_meta_buffer_size < L →
      r.code = some (- EIO_errno) ∧
      r.state.stats.stat_pkts_user_meta_err = s1.stats.stat_pkts_user_meta_err + 1 ∧
      r.state.st20_frames = s1.st20_frames ∧
      r.state.slots = s1.slots ∧
      r.state.events = s1.events) := by
  intro s1 L r
  have hr : r = rv_handle_frame_pkt_slot s1 mbuf ctrl_thread i f := by
    show rv_handle_frame_pkt s mbuf s_port ctrl_thread = _
    rcases hseg with hseg | hseg <;>
      simp [rv_handle_frame_pkt, hpt, hseg, hslot, hframe, s1]
  constructor
  · intro hL
    have hr2 : r = .ret 0 { s1 with
        st20_frames := Function.update s1.st20_frames f
          { s1.st20_frames f with
            user_meta := mbuf_read mbuf.payload 0 L ++ (s1.st20_frames f).user_meta.drop L
            user_meta_data_size := L }
        stats := { s1.stats with stat_pkts_user_meta := s1.stats.stat_pkts_user_meta + 1 } } := by
      rw [hr]; unfold rv_handle_frame_pkt_slot rv_pkt_user_meta
      simp [hmeta, hL, L]
    have hlen : (mbuf_read mbuf.payload 0 L).length = L := by simp [mbuf_read]
    have hsz : (r.state.st20_frames f).user_meta_data_size = L := by
      rw [hr2]; simp [rv_result.state]
    refine ⟨by rw [hr2]; rfl, hsz, ?_, by rw [hr2]; rfl, by rw [hr2]; rfl, by rw [hr2]; rfl,
      by rw [hr2]; rfl, ?_, ?_⟩
    · rw [hr2]; simp [rv_result.state, List.take_append_eq_append_take, hlen]
    · rw [rv_frame_notify_slot_meta, rv_frame_notify_meta_user_meta_size, hsz]
    · intro g m n hin hnot
      have h := rv_frame_notify_new_event _ _ _ _ hin hnot
      injection h with h1 h2 h3
      rw [h2, rv_frame_notify_meta_user_meta_size, hsz]
  · intro hL
    have hr2 : r = .ret (- EIO_errno) { s1 with stats := { s1.stats with
        stat_pkts_user_meta_err := s1.stats.stat_pkts_user_meta_err + 1 } } := by
      rw [hr]; unfold rv_handle_frame_pkt_slot rv_pkt_user_meta
      simp [hmeta, L, Nat.not_le.mpr hL]
    rw [hr2]
    exact ⟨rfl, rfl, rfl, rfl, rfl⟩

/-- Witness of C9: a user-meta packet with a 200-byte payload on a fresh 1080p
session is accepted and the notification of its slot reports 200. -/
theorem rv_handle_frame_pkt_user_meta_witness :
    (rv_handle_frame_pkt session_1080p mbuf_user_meta_200 0 true).code = some 0 ∧
    ((rv_frame_notify (rv_handle_frame_pkt session_1080p mbuf_user_meta_200 0 true).state 0
      0).slots 0).meta.user_meta_size = 200 := by
  have h := (rv_handle_frame_pkt_user_meta session_1080p mbuf_user_meta_200 0 true 0 0
    (by decide) (Or.inl rfl) (by decide) (by decide) (by decide)).1 (by decide)
  exact ⟨h.1, h.2.2.2.2.2.2.2.1⟩

/-! ## Notifications and the DMA queue -/

/-- Extension of the log by nothing. -/
theorem events_extend_refl (good : rx_event → Prop) (s : st_rx_video_session_impl) :
    events_extend good s s := ⟨[], rfl, by simp⟩

/-- An unchanged log is an extension. -/
theorem events_extend_of_eq (good : rx_event → Prop) (s1 s2 : st_rx_video_session_impl)
    (h : s2.events = s1.events) : events_extend good s1 s2 := ⟨[], by simpa using h, by simp⟩

/-- Extensions compose. -/
theorem events_extend_trans (good : rx_event → Prop) (s1 s2 s3 : st_rx_video_session_impl)
    (h12 : events_extend good s1 s2) (h23 : events_extend good s2 s3) :
    events_extend good s1 s3 := by
  obtain ⟨a, ha, hga⟩ := h12
  obtain ⟨b, hb, hgb⟩ := h23
  refine ⟨b ++ a, by rw [hb, ha, List.append_assoc], ?_⟩
  intro e he
  rcases List.mem_append.mp he with h | h
  · exact hgb e h
  · exact hga e h

/-- A status other than CORRUPTED means the received size reached the frame size. -/
theorem rv_frame_notify_meta_status_recv (s : st_rx_video_session_impl)
    (slot : st_rx_video_slot_impl) (frame : st_frame_trans)
    (h : (rv_frame_notify_meta s slot frame).status ≠ .CORRUPTED) :
    (rv_frame_notify_meta s slot frame).frame_total_size ≤
      (rv_frame_notify_meta s slot frame).frame_recv_size := by
  unfold rv_frame_notify_meta rv_frame_notify_status at *
  simp only at h ⊢
  split_ifs at h with h1 <;> first | exact h1 | exact absurd rfl h

/-- The function `rv_frame_notify` appends at most one event, the notification of the frame. -/
theorem rv_frame_notify_events (s : st_rx_video_session_impl) (i f : Nat) :
    (rv_frame_notify s i f).events = s.events ∨
    (rv_frame_notify s i f).events =
      rx_event.notify_frame_ready f (rv_frame_notify_meta s (s.slots i) (s.st20_frames f))
        (dma_inflight s) :: s.events := by
  unfold rv_frame_notify
  simp only [rv_put_frame]
  split_ifs <;> simp

/-- With no DMA descriptor in flight the notification made by `rv_frame_notify` is a good one. -/
theorem rv_frame_notify_events_extend (s : st_rx_video_session_impl) (i f : Nat)
    (hdma : dma_inflight s = 0) :
    events_extend notify_after_dma s (rv_frame_notify s i f) := by
  rcases rv_frame_notify_events s i f with h | h
  · exact events_extend_of_eq _ _ _ h
  · refine ⟨[_], by rw [h]; rfl, ?_⟩
    intro e he
    rw [List.mem_singleton] at he
    subst he
    intro hst
    exact ⟨hdma, rv_frame_notify_meta_status_recv _ _ _ hst⟩

/-- Same for `rv_slot_full_frame`. -/
theorem rv_slot_full_frame_events_extend (s : st_rx_video_session_impl) (i f : Nat)
    (hdma : dma_inflight s = 0) :
    events_extend notify_after_dma s (rv_slot_full_frame s i f) := by
  have h := rv_frame_notify_events_extend s i f hdma
  exact events_extend_trans _ _ _ _ h (events_extend_of_eq _ _ _ rfl)

/-- The function `rv_st22_frame_notify` appends at most one ST 2110-22 notification. -/
theorem rv_st22_frame_notify_events (s : st_rx_video_session_impl) (i f : Nat)
    (status : st_frame_status) :
    (rv_st22_frame_notify s i f status).events = s.events ∨
    ∃ m, (rv_st22_frame_notify s i f status).events =
      rx_event.st22_notify_frame_ready f m :: s.events := by
  unfold rv_st22_frame_notify
  simp only [rv_put_frame]
  split_ifs <;> simp

/-- ST 2110-22 notifications are not constrained. -/
theorem rv_st22_frame_notify_events_extend (s : st_rx_video_session_impl) (i f : Nat)
    (status : st_frame_status) :
    events_extend notify_after_dma s (rv_st22_frame_notify s i f status) := by
  rcases rv_st22_frame_notify_events s i f status with h | ⟨m, h⟩
  · exact events_extend_of_eq _ _ _ h
  · refine ⟨[_], by rw [h]; rfl, ?_⟩
    intro e he
    rw [List.mem_singleton] at he
    subst he
    trivial

/-- The frame pool does not touch the log. -/
theorem rv_get_frame_events (s : st_rx_video_session_impl) :
    (rv_get_frame s).1.events = s.events := by
  unfold rv_get_frame
  split <;> simp [frame_ref_inc]

/-- Eviction with no DMA descriptor in flight extends the log by good events. -/
theorem rv_slot_evict_events_extend (s : st_rx_video_session_impl) (k : Nat)
    (hdma : dma_inflight s = 0) :
    events_extend notify_after_dma s (rv_slot_evict s k) := by
  unfold rv_slot_evict
  cases hfr : (s.slots k).frame with
  | none => exact events_extend_refl _ _
  | some f =>
    simp only []
    by_cases h22 : s.st22_info.isSome
    · simp only [h22, if_true]
      exact events_extend_trans _ _ _ _ (rv_st22_frame_notify_events_extend s k f _)
        (events_extend_of_eq _ _ _ rfl)
    · simp only [h22]
      exact events_extend_trans _ _ _ _ (rv_frame_notify_events_extend s k f hdma)
        (events_extend_of_eq _ _ _ rfl)

/-- After the eviction the recycling does not touch the log. -/
theorem rv_slot_recycle_events (s : st_rx_video_session_impl) (tmstamp : Nat)
    (pd : Option Nat) :
    (rv_slot_recycle s tmstamp pd).1.events =
      (rv_slot_evict s (Int.tmod (s.slot_idx + 1) (s.slot_max : Int)).toNat).events := by
  unfold rv_slot_recycle
  simp only []
  split
  · simp [rv_get_frame_events]
  · split
    · split_ifs <;> simp [rv_get_frame_events]
    · simp [rv_get_frame_events]

/-- When the DMA test of the slot lookup passes, no descriptor is in flight. -/
theorem dma_busy_false_inflight (s : st_rx_video_session_impl) (h : dma_busy s = false) :
    dma_inflight s = 0 := by
  unfold dma_busy at h
  unfold dma_inflight
  cases hd : s.dma_dev with
  | none => rfl
  | some d =>
    rw [hd] at h
    simp [mt_dma_empty] at h
    simp [h]

/-- The slot lookup extends the log by good events. -/
theorem rv_slot_by_tmstamp_events_extend (s : st_rx_video_session_impl) (tmstamp : Nat)
    (pd : Option Nat) :
    events_extend notify_after_dma s (rv_slot_by_tmstamp s tmstamp pd).1 := by
  unfold rv_slot_by_tmstamp
  split
  · exact events_extend_refl _ _
  · by_cases hb : dma_busy s = true
    · simp only [hb, if_true]
      exact events_extend_of_eq _ _ _ rfl
    · simp only [hb]
      have hb2 : dma_busy s = false := by simpa using hb
      exact events_extend_trans _ _ _ _
        (rv_slot_evict_events_extend s _ (dma_busy_false_inflight s hb2))
        (events_extend_of_eq _ _ _ (rv_slot_recycle_events s tmstamp pd))

/-- The slice tracker appends slice notifications only and keeps the DMA device. -/
theorem rv_slice_add_events_extend (s s2 : st_rx_video_session_impl) (i : Nat)
    (info : st_rx_video_slot_slice_info) (offset size : Nat)
    (h : rv_slice_add s i info offset size = some s2) :
    events_extend notify_after_dma s s2 ∧ s2.dma_dev = s.dma_dev ∧
      s2.st20_frame_size = s.st20_frame_size := by
  unfold rv_slice_add at h
  simp only [] at h
  cases hsl : info.slices with
  | nil =>
    rw [hsl] at h
    cases h; exact ⟨events_extend_refl _ _, rfl, rfl⟩
  | cons main_slice extras =>
    rw [hsl] at h
    simp only [] at h
    by_cases hoff : offset % U32 ≠ main_slice.size
    · rw [if_pos hoff] at h
      cases hx : rv_slice_add_extra extras (offset % U32) (size % U32) with
      | none =>
        rw [hx] at h
        cases h; exact ⟨events_extend_of_eq _ _ _ rfl, rfl, rfl⟩
      | some p =>
        rw [hx] at h
        cases h; exact ⟨events_extend_of_eq _ _ _ rfl, rfl, rfl⟩
    · rw [if_neg hoff] at h
      by_cases hz : s.slice_size = 0
      · rw [if_pos hz] at h; cases h
      · rw [if_neg hz] at h
        split_ifs at h
        all_goals first
          | (cases h; exact ⟨events_extend_of_eq _ _ _ rfl, rfl, rfl⟩)
          | (split at h
             · cases h
               refine ⟨⟨[_], rfl, ?_⟩, rfl, rfl⟩
               intro e he
               rw [List.mem_singleton] at he
               subst he
               trivial
             · cases h)

/-- Payload placement appends user-frame callbacks only. -/
theorem rv_pkt_place_payload_events_extend (s : st_rx_video_session_impl) (mbuf : rte_mbuf)
    (f : Nat) : events_extend notify_after_dma s (rv_pkt_place_payload s mbuf f).1 := by
  unfold rv_pkt_place_payload
  simp only []
  by_cases hu : s.st20_uframe_size ≠ 0
  · rw [if_pos hu]
    split_ifs
    · refine ⟨[_, _], rfl, ?_⟩
      intro e he
      simp only [List.mem_cons, List.mem_singleton, List.not_mem_nil, or_false] at he
      rcases he with he | he <;> subst he <;> trivial
    · refine ⟨[_], rfl, ?_⟩
      intro e he
      rw [List.mem_singleton] at he
      subst he
      trivial
  · rw [if_neg hu]
    by_cases hc : (!s.has_ebu) = true
    · rw [if_pos hc]
      by_cases h2 : (decide (BIT15 ≤ mbuf.row_offset % U16) &&
          decide (s.st20_bytes_in_line < s.st20_linesize)) = true
      · rw [if_pos h2]
        exact events_extend_of_eq _ _ _ rfl
      · rw [if_neg h2]
        cases hd : s.dma_dev with
        | none => exact events_extend_of_eq _ _ _ rfl
        | some d =>
          simp only []
          split_ifs <;> exact events_extend_of_eq _ _ _ rfl
    · rw [if_neg hc]
      exact events_extend_refl _ _

/-- The slice update appends slice notifications only. -/
theorem rv_pkt_slice_events_extend (s s3 : st_rx_video_session_impl) (dma_copy : Bool)
    (i offset len : Nat) (h : rv_pkt_slice s dma_copy i offset len = some s3) :
    events_extend notify_after_dma s s3 := by
  unfold rv_pkt_slice at h
  split at h
  · split_ifs at h
    · cases h; exact events_extend_refl _ _
    · exact (rv_slice_add_events_extend _ _ _ _ _ _ h).1
  · cases h; exact events_extend_refl _ _

/-- The full-frame check notifies only with the DMA queue empty. -/
theorem rv_pkt_finish_events_extend (s : st_rx_video_session_impl) (dma_copy : Bool)
    (i f : Nat) : events_extend notify_after_dma s (rv_pkt_finish s dma_copy i f) := by
  have h4 : events_extend notify_after_dma s
      (if rv_pkt_end_frame s i = true then rv_slot_full_frame s i f else s) := by
    by_cases he : rv_pkt_end_frame s i = true
    · rw [if_pos he]
      apply rv_slot_full_frame_events_extend
      unfold rv_pkt_end_frame at he
      unfold dma_inflight
      cases hd : s.dma_dev with
      | none => rfl
      | some d =>
        rw [hd] at he
        simp [mt_dma_empty] at he
        simp [he.2]
    · rw [if_neg he]
      exact events_extend_refl _ _
  unfold rv_pkt_finish
  cases dma_copy with
  | false => simpa using h4
  | true =>
    obtain ⟨added, h1, h2⟩ := h4
    exact ⟨added, by simpa using h1, h2⟩

/-- Placement and accounting extend the log by good events. -/
theorem rv_handle_frame_pkt_place_events_extend (s : st_rx_video_session_impl)
    (mbuf : rte_mbuf) (ctrl_thread : Bool) (i f : Nat) :
    events_extend notify_after_dma s (rv_handle_frame_pkt_place s mbuf ctrl_thread i f).state := by
  have h1 := rv_pkt_place_payload_events_extend s mbuf f
  have h2 : events_extend notify_after_dma s
      (rv_pkt_account (rv_pkt_place_payload s mbuf f).1 ctrl_thread i
        (rv_pkt_payload_length mbuf)) :=
    events_extend_trans _ _ _ _ h1 (events_extend_of_eq _ _ _ rfl)
  unfold rv_handle_frame_pkt_place
  simp only []
  cases hsl : rv_pkt_slice (rv_pkt_account (rv_pkt_place_payload s mbuf f).1 ctrl_thread i
        (rv_pkt_payload_length mbuf)) (rv_pkt_place_payload s mbuf f).2 i (rv_pkt_offset s mbuf)
        (rv_pkt_payload_length mbuf) with
  | none => exact h2
  | some s3 =>
    simp only [rv_result.state]
    exact events_extend_trans _ _ _ _
      (events_extend_trans _ _ _ _ h2 (rv_pkt_slice_events_extend _ _ _ _ _ _ hsl))
      (rv_pkt_finish_events_extend _ _ _ _)

/-- A returned state with the same log is an extension. -/
theorem events_extend_ret (good : rx_event → Prop) (s s2 : st_rx_video_session_impl)
    (c : Int) (h : s2.events = s.events) : events_extend good s (rv_result.ret c s2).state :=
  ⟨[], by simpa [rv_result.state] using h, by simp⟩

/-- The sequence checks extend the log by good events. -/
theorem rv_pkt_seq_check_events_extend (s : st_rx_video_session_impl)
    (mbuf : rte_mbuf) (ctrl_thread : Bool) (i f : Nat) :
    events_extend notify_after_dma s (rv_pkt_seq_check s mbuf ctrl_thread i f).state := by
  unfold rv_pkt_seq_check
  simp only []
  by_cases hgot : (s.slots i).seq_id_got = true
  · rw [if_pos hgot]
    split_ifs
    · exact events_extend_ret _ _ _ _ rfl
    · exact events_extend_ret _ _ _ _ rfl
    · refine events_extend_trans _ _ _ _ ?_ (rv_handle_frame_pkt_place_events_extend _ _ _ _ _)
      exact events_extend_of_eq _ _ _ rfl
  · rw [if_neg hgot]
    by_cases hc : ctrl_thread = true
    · rw [if_pos hc]
      cases hidx : rv_first_pkt_idx s mbuf with
      | none => exact events_extend_refl _ _
      | some pkt_idx =>
        simp only []
        refine events_extend_trans _ _ _ _ ?_ (rv_handle_frame_pkt_place_events_extend _ _ _ _ _)
        exact events_extend_of_eq _ _ _ rfl
    · rw [if_neg hc]
      exact events_extend_ret _ _ _ _ rfl

/-- The handler past the slot lookup extends the log by good events. -/
theorem rv_handle_frame_pkt_slot_events_extend (s : st_rx_video_session_impl)
    (mbuf : rte_mbuf) (ctrl_thread : Bool) (i f : Nat) :
    events_extend notify_after_dma s (rv_handle_frame_pkt_slot s mbuf ctrl_thread i f).state := by
  unfold rv_handle_frame_pkt_slot
  simp only []
  split_ifs
  · unfold rv_pkt_user_meta
    simp only []
    split_ifs
    · exact events_extend_ret _ _ _ _ rfl
    · exact events_extend_ret _ _ _ _ rfl
  · exact events_extend_ret _ _ _ _ rfl
  · refine events_extend_trans _ _ _ _ ?_ (rv_pkt_seq_check_events_extend _ _ _ _ _)
    exact events_extend_of_eq _ _ _ rfl

/-- The frame handler extends the log by good events. -/
theorem rv_handle_frame_pkt_events_extend (s : st_rx_video_session_impl)
    (mbuf : rte_mbuf) (s_port : Nat) (ctrl_thread : Bool) :
    events_extend notify_after_dma s (rv_handle_frame_pkt s mbuf s_port ctrl_thread).state := by
  unfold rv_handle_frame_pkt
  simp only []
  have hl := rv_slot_by_tmstamp_events_extend s (mbuf.tmstamp % U32) none
  split_ifs
  · exact events_extend_ret _ _ _ _ rfl
  · exact events_extend_ret _ _ _ _ rfl
  · split
    · exact events_extend_trans _ _ _ _ hl (events_extend_ret _ _ _ _ rfl)
    · split
      · exact events_extend_trans _ _ _ _ hl (events_extend_ret _ _ _ _ rfl)
      · exact events_extend_trans _ _ _ _ hl (rv_handle_frame_pkt_slot_events_extend _ _ _ _ _)

/-- Dropping completed mbufs appends slice notifications only and keeps the DMA device. -/
theorem rv_dma_drop_mbufs_events_extend (slice_cb : Bool) (dropped : List (Nat × Nat)) :
    ∀ (s s2 : st_rx_video_session_impl), rv_dma_drop_mbufs s slice_cb dropped = some s2 →
      events_extend notify_after_dma s s2 ∧ s2.dma_dev = s.dma_dev := by
  induction dropped with
  | nil =>
    intro s s2 h
    unfold rv_dma_drop_mbufs at h
    cases h
    exact ⟨events_extend_refl _ _, rfl⟩
  | cons p rest ih =>
    intro s s2 h
    obtain ⟨offset, len⟩ := p
    unfold rv_dma_drop_mbufs at h
    by_cases hcb : slice_cb = true
    · rw [if_pos hcb] at h
      cases hds : s.dma_slot with
      | none => rw [hds] at h; cases h
      | some i =>
        rw [hds] at h
        simp only [] at h
        cases hsi : (s.slots i).slice_info with
        | none => rw [hsi] at h; cases h
        | some info =>
          rw [hsi] at h
          simp only [] at h
          cases hadd : rv_slice_add s i info offset len with
          | none => rw [hadd] at h; cases h
          | some s1 =>
            rw [hadd] at h
            simp only [] at h
            have h1 := rv_slice_add_events_extend _ _ _ _ _ _ hadd
            have h2 := ih s1 s2 h
            exact ⟨events_extend_trans _ _ _ _ h1.1 h2.1, by rw [h2.2, h1.2.1]⟩
    · rw [if_neg hcb] at h
      exact ih s s2 h

/-- The completion drain extends the log by good events. -/
theorem rv_dma_dequeue_events_extend (s : st_rx_video_session_impl) (slice_cb : Bool)
    (nb_dq : Nat) :
    events_extend notify_after_dma s (rv_dma_dequeue s slice_cb nb_dq).state := by
  unfold rv_dma_dequeue
  cases hd : s.dma_dev with
  | none => exact events_extend_refl _ _
  | some dma_dev =>
    simp only []
    cases hdrop : rv_dma_drop_mbufs
        { s with dma_dev := some { dma_dev with borrowed := dma_dev.borrowed.drop nb_dq } }
        slice_cb (dma_dev.borrowed.take nb_dq) with
    | none => exact events_extend_refl _ _
    | some s1 =>
      simp only []
      have h1 := rv_dma_drop_mbufs_events_extend _ _ _ _ hdrop
      have h1a : events_extend notify_after_dma s s1 :=
        events_extend_trans _ _ _ _ (events_extend_of_eq _ _ _ rfl) h1.1
      cases hslot : s1.dma_slot with
      | none => exact h1a
      | some dma_slot =>
        simp only []
        split_ifs with he hsz
        · cases hfr : (s1.slots dma_slot).frame with
          | none => exact h1a
          | some f =>
            simp only []
            have hin : dma_inflight s1 = 0 := by
              unfold dma_inflight
              rw [h1.2]
              simp [mt_dma_empty] at he
              simp [he]
            refine events_extend_trans _ _ _ _ h1a ?_
            refine events_extend_trans _ _ _ _ (rv_slot_full_frame_events_extend s1 dma_slot f hin) ?_
            exact events_extend_ret _ _ _ _ rfl
        · exact h1a
        · exact h1a

/-- Claim C7.  Every call of `notify_frame_ready` with status COMPLETE or RECONSTRUCTED is
made with the DMA queue empty and the received size at least the frame size:
whatever the session state (with or without a DMA device), the events that the
slot lookup `rv_slot_by_tmstamp` (eviction flush), the frame handler
`rv_handle_frame_pkt` and the completion drain `rv_dma_dequeue` append to the log all
satisfy `notify_after_dma`. -/
theorem notify_frame_ready_after_dma_drained (s : st_rx_video_session_impl) :
    (∀ tmstamp pd, events_extend notify_after_dma s (rv_slot_by_tmstamp s tmstamp pd).1) ∧
    (∀ mbuf s_port ctrl_thread,
      events_extend notify_after_dma s (rv_handle_frame_pkt s mbuf s_port ctrl_thread).state) ∧
    (∀ slice_cb nb_dq,
      events_extend notify_after_dma s (rv_dma_dequeue s slice_cb nb_dq).state) :=
  ⟨fun tmstamp pd => rv_slot_by_tmstamp_events_extend s tmstamp pd,
   fun mbuf s_port ctrl_thread => rv_handle_frame_pkt_events_extend s mbuf s_port ctrl_thread,
   fun slice_cb nb_dq => rv_dma_dequeue_events_extend s slice_cb nb_dq⟩

/-! ## Quiet steps -/

theorem rv_quiet_refl (s : st_rx_video_session_impl) : rv_quiet s s :=
  ⟨rfl, fun _ => rfl, fun _ => rfl, fun _ => rfl, rfl, rfl, events_extend_refl _ _⟩

theorem rv_quiet_trans (s1 s2 s3 : st_rx_video_session_impl) (h12 : rv_quiet s1 s2)
    (h23 : rv_quiet s2 s3) : rv_quiet s1 s3 := by
  obtain ⟨a1, a2, a3, a4, a5, a6, a7⟩ := h12
  obtain ⟨b1, b2, b3, b4, b5, b6, b7⟩ := h23
  exact ⟨b1.trans a1, fun j => (b2 j).trans (a2 j), fun j => (b3 j).trans (a3 j),
    fun g => (b4 g).trans (a4 g), b5.trans a5, b6.trans a6, events_extend_trans _ _ _ _ a7 b7⟩

/-- A state that differs from `s` in the statistics only. -/
theorem rv_quiet_stats (s : st_rx_video_session_impl) (st : rv_stats) :
    rv_quiet s { s with stats := st } :=
  ⟨rfl, fun _ => rfl, fun _ => rfl, fun _ => rfl, rfl, rfl, events_extend_of_eq _ _ _ rfl⟩

/-- Updating one slot without touching its timestamp or frame is quiet. -/
theorem rv_quiet_slot_update (s : st_rx_video_session_impl) (i : Nat)
    (slot : st_rx_video_slot_impl) (st : rv_stats)
    (ht : slot.tmstamp = (s.slots i).tmstamp) (hf : slot.frame = (s.slots i).frame) :
    rv_quiet s { s with slots := Function.update s.slots i slot, stats := st } := by
  refine ⟨rfl, ?_, ?_, fun _ => rfl, rfl, rfl, events_extend_of_eq _ _ _ rfl⟩
  · intro j
    by_cases hj : j = i
    · subst hj; simp [ht]
    · simp [Function.update_noteq hj]
  · intro j
    by_cases hj : j = i
    · subst hj; simp [hf]
    · simp [Function.update_noteq hj]

/-- Updating one frame without touching its refcount is quiet. -/
theorem rv_quiet_frame_update (s : st_rx_video_session_impl) (f : Nat)
    (frame : st_frame_trans) (st : rv_stats)
    (hr : frame.refcnt = (s.st20_frames f).refcnt) :
    rv_quiet s { s with st20_frames := Function.update s.st20_frames f frame, stats := st } := by
  refine ⟨rfl, fun _ => rfl, fun _ => rfl, ?_, rfl, rfl, events_extend_of_eq _ _ _ rfl⟩
  intro g
  by_cases hg : g = f
  · subst hg; simp [hr]
  · simp [Function.update_noteq hg]

theorem rv_pkt_account_quiet (s : st_rx_video_session_impl) (ctrl_thread : Bool) (i len : Nat) :
    rv_quiet s (rv_pkt_account s ctrl_thread i len) := by
  unfold rv_pkt_account
  simp only []
  apply rv_quiet_slot_update
  · cases ctrl_thread <;> simp [rv_slot_pkt_lcore_add_frame_size, rv_slot_add_frame_size]
  · cases ctrl_thread <;> simp [rv_slot_pkt_lcore_add_frame_size, rv_slot_add_frame_size]

theorem frame_memcpy_quiet (s : st_rx_video_session_impl) (f dst : Nat) (data : List Nat) :
    rv_quiet s (frame_memcpy s f dst data) := by
  have h := rv_quiet_frame_update s f
    { s.st20_frames f with copies := { dst := dst, data := data, by_dma := false } ::
      (s.st20_frames f).copies } s.stats rfl
  exact h

theorem frame_dma_copy_quiet (s : st_rx_video_session_impl) (f dst : Nat) (data : List Nat) :
    rv_quiet s (frame_dma_copy s f dst data) := by
  have h := rv_quiet_frame_update s f
    { s.st20_frames f with copies := { dst := dst, data := data, by_dma := true } ::
      (s.st20_frames f).copies } s.stats rfl
  exact h

/-- Appending one event other than `notify_frame_ready` is quiet. -/
theorem rv_quiet_event (s : st_rx_video_session_impl) (e : rx_event) (st : rv_stats)
    (he : not_frame_ready e) :
    rv_quiet s { s with events := e :: s.events, stats := st } := by
  refine ⟨rfl, fun _ => rfl, fun _ => rfl, fun _ => rfl, rfl, rfl, ⟨[e], rfl, ?_⟩⟩
  intro e2 h2
  rw [List.mem_singleton] at h2
  subst h2
  exact he

theorem rv_pkt_place_payload_quiet (s : st_rx_video_session_impl) (mbuf : rte_mbuf)
    (f : Nat) : rv_quiet s (rv_pkt_place_payload s mbuf f).1 := by
  unfold rv_pkt_place_payload
  simp only []
  by_cases hu : s.st20_uframe_size ≠ 0
  · rw [if_pos hu]
    split_ifs
    · refine ⟨rfl, fun _ => rfl, fun _ => rfl, fun _ => rfl, rfl, rfl, ⟨[_, _], rfl, ?_⟩⟩
      intro e he
      simp only [List.mem_cons, List.mem_singleton, List.not_mem_nil, or_false] at he
      rcases he with he | he <;> subst he <;> trivial
    · exact rv_quiet_event s _ s.stats (by trivial)
  · rw [if_neg hu]
    by_cases hc : (!s.has_ebu) = true
    · rw [if_pos hc]
      by_cases h2 : (decide (BIT15 ≤ mbuf.row_offset % U16) &&
          decide (s.st20_bytes_in_line < s.st20_linesize)) = true
      · rw [if_pos h2]
        exact rv_quiet_trans _ _ _ (frame_memcpy_quiet _ _ _ _) (frame_memcpy_quiet _ _ _ _)
      · rw [if_neg h2]
        cases hd : s.dma_dev with
        | none => exact frame_memcpy_quiet _ _ _ _
        | some d =>
          simp only []
          split_ifs
          · exact frame_memcpy_quiet _ _ _ _
          · refine ⟨rfl, fun _ => rfl, fun _ => rfl, ?_, rfl, rfl, events_extend_of_eq _ _ _ rfl⟩
            intro g
            by_cases hg : g = f
            · subst hg; simp [frame_dma_copy]
            · simp [frame_dma_copy, Function.update_noteq hg]
          · exact frame_memcpy_quiet _ _ _ _
    · rw [if_neg hc]
      exact rv_quiet_refl _

theorem rv_slice_notify_quiet (s : st_rx_video_session_impl) (i f : Nat)
    (info : st_rx_video_slot_slice_info) : rv_quiet s (rv_slice_notify s i f info) := by
  unfold rv_slice_notify
  exact rv_quiet_event s _ _ (by trivial)

theorem rv_quiet_slice_info (s : st_rx_video_session_impl) (i : Nat)
    (info : Option st_rx_video_slot_slice_info) (st : rv_stats) :
    rv_quiet s { s with
      slots := Function.update s.slots i { s.slots i with slice_info := info }, stats := st } :=
  rv_quiet_slot_update s i _ st rfl rfl

theorem rv_slice_add_quiet (s s2 : st_rx_video_session_impl) (i : Nat)
    (info : st_rx_video_slot_slice_info) (offset size : Nat)
    (h : rv_slice_add s i info offset size = some s2) : rv_quiet s s2 := by
  unfold rv_slice_add at h
  simp only [] at h
  cases hsl : info.slices with
  | nil =>
    rw [hsl] at h
    cases h; exact rv_quiet_refl _
  | cons main_slice extras =>
    rw [hsl] at h
    simp only [] at h
    by_cases hoff : offset % U32 ≠ main_slice.size
    · rw [if_pos hoff] at h
      cases hx : rv_slice_add_extra extras (offset % U32) (size % U32) with
      | none =>
        rw [hx] at h
        cases h; exact rv_quiet_stats _ _
      | some p =>
        rw [hx] at h
        cases h
        exact rv_quiet_slice_info s i _ s.stats
    · rw [if_neg hoff] at h
      by_cases hz : s.slice_size = 0
      · rw [if_pos hz] at h; cases h
      · rw [if_neg hz] at h
        split_ifs at h
        all_goals first
          | (cases h; exact rv_quiet_slice_info s i _ _)
          | (split at h
             · cases h
               refine rv_quiet_trans _ _ _ ?_ (rv_slice_notify_quiet _ _ _ _)
               refine ⟨rfl, ?_, ?_, fun _ => rfl, rfl, rfl, events_extend_of_eq _ _ _ rfl⟩
               · intro j
                 by_cases hj : j = i
                 · subst hj; simp
                 · simp [Function.update_noteq hj]
               · intro j
                 by_cases hj : j = i
                 · subst hj; simp
                 · simp [Function.update_noteq hj]
             · cases h)

theorem rv_pkt_slice_quiet (s s3 : st_rx_video_session_impl) (dma_copy : Bool)
    (i offset len : Nat) (h : rv_pkt_slice s dma_copy i offset len = some s3) :
    rv_quiet s s3 := by
  unfold rv_pkt_slice at h
  split at h
  · split_ifs at h
    · cases h; exact rv_quiet_refl _
    · exact rv_slice_add_quiet _ _ _ _ _ _ h
  · cases h; exact rv_quiet_refl _

theorem rv_pkt_user_meta_quiet (s : st_rx_video_session_impl) (mbuf : rte_mbuf) (f : Nat) :
    rv_quiet s (rv_pkt_user_meta s mbuf f).state := by
  unfold rv_pkt_user_meta
  simp only []
  split_ifs
  · exact rv_quiet_frame_update s f _ _ rfl
  · exact rv_quiet_stats _ _

/-! ## Replay after a full frame -/

theorem events_extend_mono (good1 good2 : rx_event → Prop) (s s2 : st_rx_video_session_impl)
    (hg : ∀ e, good1 e → good2 e) (h : events_extend good1 s s2) : events_extend good2 s s2 := by
  obtain ⟨added, h1, h2⟩ := h
  exact ⟨added, h1, fun e he => hg e (h2 e he)⟩

theorem not_frame_ready_other_tmstamp (tmstamp : Nat) (e : rx_event) (h : not_frame_ready e) :
    notify_other_tmstamp tmstamp e := by
  cases e <;> first | exact h.elim | trivial

theorem rv_slot_match_congr (s s2 : st_rx_video_session_impl) (tmstamp : Nat)
    (hmax : s2.slot_max = s.slot_max) (ht : ∀ j, (s2.slots j).tmstamp = (s.slots j).tmstamp) :
    rv_slot_match s2 tmstamp = rv_slot_match s tmstamp := by
  unfold rv_slot_match
  rw [hmax]
  congr 1
  funext i
  rw [ht i]

theorem rv_slot_match_of_first (s : st_rx_video_session_impl) (tmstamp i : Nat)
    (hi : i < s.slot_max) (ht : (s.slots i).tmstamp = tmstamp)
    (hfirst : ∀ j, j < i → (s.slots j).tmstamp ≠ tmstamp) :
    rv_slot_match s tmstamp = some i := by
  unfold rv_slot_match
  rw [List.find?_range_eq_some]
  refine ⟨by simp [ht], List.mem_range.mpr hi, ?_⟩
  intro j hj
  have := hfirst j hj
  simp
  exact fun h => this h.symm

theorem rv_frame_notify_slots (s : st_rx_video_session_impl) (i f j : Nat) :
    ((rv_frame_notify s i f).slots j).tmstamp = (s.slots j).tmstamp ∧
    (rv_frame_notify s i f).slot_max = s.slot_max := by
  unfold rv_frame_notify
  simp only [rv_put_frame]
  by_cases hj : j = i
  · subst hj; split_ifs <;> simp
  · split_ifs <;> simp [Function.update_noteq hj]

theorem rv_slot_full_frame_done (s : st_rx_video_session_impl) (i f tmstamp : Nat)
    (h : rv_slot_match s tmstamp = some i) : frame_done (rv_slot_full_frame s i f) tmstamp := by
  refine ⟨i, ?_, ?_⟩
  · rw [← h]
    apply rv_slot_match_congr
    · exact (rv_frame_notify_slots s i f 0).2
    · intro j
      unfold rv_slot_full_frame
      simp only []
      by_cases hj : j = i
      · subst hj; simp [rv_slot_init_frame_size, (rv_frame_notify_slots s j f j).1]
      · simp [Function.update_noteq hj, (rv_frame_notify_slots s i f j).1]
  · unfold rv_slot_full_frame
    simp

theorem frame_done_dma_copy (s : st_rx_video_session_impl) (tmstamp : Nat) (b : Bool)
    (h : frame_done s tmstamp) : frame_done { s with dma_copy := b } tmstamp := h

theorem rv_pkt_finish_done_or_quiet (s : st_rx_video_session_impl) (dma_copy : Bool)
    (i f tmstamp : Nat) (h : rv_slot_match s tmstamp = some i) :
    frame_done (rv_pkt_finish s dma_copy i f) tmstamp ∨ rv_quiet s (rv_pkt_finish s dma_copy i f) := by
  unfold rv_pkt_finish
  simp only []
  by_cases he : rv_pkt_end_frame s i = true
  · left
    rw [if_pos he]
    have hd := rv_slot_full_frame_done s i f tmstamp h
    cases dma_copy with
    | false => simpa using hd
    | true => simpa using frame_done_dma_copy _ _ true hd
  · right
    rw [if_neg he]
    cases dma_copy with
    | false => simpa using rv_quiet_refl s
    | true =>
      simp only [if_true]
      exact ⟨rfl, fun _ => rfl, fun _ => rfl, fun _ => rfl, rfl, rfl, events_extend_of_eq _ _ _ rfl⟩

theorem rv_quiet_slot_match (s s2 : st_rx_video_session_impl) (tmstamp : Nat)
    (h : rv_quiet s s2) : rv_slot_match s2 tmstamp = rv_slot_match s tmstamp :=
  rv_slot_match_congr s s2 tmstamp h.1 h.2.1

theorem done_or_quiet_trans (s s2 s3 : st_rx_video_session_impl) (tmstamp : Nat)
    (h12 : rv_quiet s s2) (h23 : frame_done s3 tmstamp ∨ rv_quiet s2 s3) :
    frame_done s3 tmstamp ∨ rv_quiet s s3 := by
  rcases h23 with h | h
  · exact Or.inl h
  · exact Or.inr (rv_quiet_trans _ _ _ h12 h)

theorem rv_handle_frame_pkt_place_done_or_quiet (s : st_rx_video_session_impl)
    (mbuf : rte_mbuf) (ctrl_thread : Bool) (i f tmstamp : Nat)
    (h : rv_slot_match s tmstamp = some i) :
    frame_done (rv_handle_frame_pkt_place s mbuf ctrl_thread i f).state tmstamp ∨
      rv_quiet s (rv_handle_frame_pkt_place s mbuf ctrl_thread i f).state := by
  have h2 : rv_quiet s (rv_pkt_account (rv_pkt_place_payload s mbuf f).1 ctrl_thread i
        (rv_pkt_payload_length mbuf)) :=
    rv_quiet_trans _ _ _ (rv_pkt_place_payload_quiet s mbuf f) (rv_pkt_account_quiet _ _ _ _)
  unfold rv_handle_frame_pkt_place
  simp only []
  cases hsl : rv_pkt_slice (rv_pkt_account (rv_pkt_place_payload s mbuf f).1 ctrl_thread i
        (rv_pkt_payload_length mbuf)) (rv_pkt_place_payload s mbuf f).2 i (rv_pkt_offset s mbuf)
        (rv_pkt_payload_length mbuf) with
  | none => exact Or.inr h2
  | some s3 =>
    simp only [rv_result.state]
    have h3 := rv_quiet_trans _ _ _ h2 (rv_pkt_slice_quiet _ _ _ _ _ _ hsl)
    have hm : rv_slot_match s3 tmstamp = some i := by
      rw [rv_quiet_slot_match s s3 tmstamp h3, h]
    exact done_or_quiet_trans _ _ _ _ h3 (rv_pkt_finish_done_or_quiet s3 _ i f tmstamp hm)

theorem rv_pkt_seq_check_done_or_quiet (s : st_rx_video_session_impl)
    (mbuf : rte_mbuf) (ctrl_thread : Bool) (i f tmstamp : Nat)
    (h : rv_slot_match s tmstamp = some i) :
    frame_done (rv_pkt_seq_check s mbuf ctrl_thread i f).state tmstamp ∨
      rv_quiet s (rv_pkt_seq_check s mbuf ctrl_thread i f).state := by
  unfold rv_pkt_seq_check
  simp only []
  by_cases hgot : (s.slots i).seq_id_got = true
  · rw [if_pos hgot]
    split_ifs
    · exact Or.inr (rv_quiet_stats _ _)
    · exact Or.inr (rv_quiet_slot_update s i _ _ rfl rfl)
    · have hq := rv_quiet_slot_update s i
        { s.slots i with frame_bitmap := (mt_bitmap_test_and_set (s.slots i).frame_bitmap
            (rv_seq_pkt_idx (rfc4175_rtp_seq_id mbuf) (s.slots i).seq_id_base_u32)).2 }
        s.stats rfl rfl
      refine done_or_quiet_trans _ _ _ _ hq
        (rv_handle_frame_pkt_place_done_or_quiet _ mbuf ctrl_thread i f tmstamp ?_)
      rw [rv_quiet_slot_match _ _ tmstamp hq, h]
  · rw [if_neg hgot]
    by_cases hc : ctrl_thread = true
    · rw [if_pos hc]
      cases hidx : rv_first_pkt_idx s mbuf with
      | none => exact Or.inr (rv_quiet_refl _)
      | some pkt_idx =>
        simp only []
        have hq := rv_quiet_slot_update s i
          { s.slots i with
            seq_id_base_u32 := to_uint32 ((rfc4175_rtp_seq_id mbuf : Int) - pkt_idx)
            seq_id_got := true
            frame_bitmap := (mt_bitmap_test_and_set (s.slots i).frame_bitmap pkt_idx).2 }
          s.stats rfl rfl
        refine done_or_quiet_trans _ _ _ _ hq
          (rv_handle_frame_pkt_place_done_or_quiet _ mbuf ctrl_thread i f tmstamp ?_)
        rw [rv_quiet_slot_match _ _ tmstamp hq, h]
    · rw [if_neg hc]
      exact Or.inr (rv_quiet_stats _ _)

theorem rv_handle_frame_pkt_slot_done_or_quiet (s : st_rx_video_session_impl)
    (mbuf : rte_mbuf) (ctrl_thread : Bool) (i f tmstamp : Nat)
    (h : rv_slot_match s tmstamp = some i) :
    frame_done (rv_handle_frame_pkt_slot s mbuf ctrl_thread i f).state tmstamp ∨
      rv_quiet s (rv_handle_frame_pkt_slot s mbuf ctrl_thread i f).state := by
  unfold rv_handle_frame_pkt_slot
  simp only []
  split_ifs
  · exact Or.inr (rv_pkt_user_meta_quiet _ _ _)
  · exact Or.inr (rv_quiet_slot_update s i _ _ rfl rfl)
  · have hq := rv_quiet_slot_update s i
      { s.slots i with second_field := decide (BIT15 ≤ mbuf.row_number % U16) } s.stats rfl rfl
    refine done_or_quiet_trans _ _ _ _ hq
      (rv_pkt_seq_check_done_or_quiet _ mbuf ctrl_thread i f tmstamp ?_)
    rw [rv_quiet_slot_match _ _ tmstamp hq, h]

theorem rv_slot_recycle_idx_lt (a : Int) (m : Nat) (hm : 0 < m) :
    (Int.tmod a (m : Int)).toNat < m := by
  cases a with
  | ofNat n =>
    have : Int.tmod (Int.ofNat n) (m : Int) = ((n % m : Nat) : Int) := rfl
    rw [this]
    simpa using Nat.mod_lt n hm
  | negSucc n =>
    have : Int.tmod (Int.negSucc n) (m : Int) = -(((n + 1) % m : Nat) : Int) := rfl
    rw [this]
    have h0 : (-(((n + 1) % m : Nat) : Int)).toNat = 0 := by
      apply Int.toNat_eq_zero.mpr
      omega
    rw [h0]
    exact hm

theorem rv_st22_frame_notify_slots (s : st_rx_video_session_impl) (i f j : Nat)
    (status : st_frame_status) :
    ((rv_st22_frame_notify s i f status).slots j).tmstamp = (s.slots j).tmstamp ∧
    (rv_st22_frame_notify s i f status).slot_max = s.slot_max := by
  unfold rv_st22_frame_notify
  simp only [rv_put_frame]
  by_cases hj : j = i
  · subst hj; split_ifs <;> simp
  · split_ifs <;> simp [Function.update_noteq hj]

theorem rv_slot_evict_slots (s : st_rx_video_session_impl) (k j : Nat) :
    ((rv_slot_evict s k).slots j).tmstamp = (s.slots j).tmstamp ∧
    (rv_slot_evict s k).slot_max = s.slot_max := by
  unfold rv_slot_evict
  cases hfr : (s.slots k).frame with
  | none => exact ⟨rfl, rfl⟩
  | some f =>
    simp only []
    by_cases h22 : s.st22_info.isSome = true
    · simp only [h22, if_true]
      refine ⟨?_, (rv_st22_frame_notify_slots s k f 0 _).2⟩
      by_cases hj : j = k
      · subst hj; simp [(rv_st22_frame_notify_slots s j f j _).1]
      · simp [Function.update_noteq hj, (rv_st22_frame_notify_slots s k f j _).1]
    · simp only [h22]
      refine ⟨?_, (rv_frame_notify_slots s k f 0).2⟩
      by_cases hj : j = k
      · subst hj; simp [(rv_frame_notify_slots s j f j).1]
      · simp [Function.update_noteq hj, (rv_frame_notify_slots s k f j).1]

theorem rv_frame_notify_events_other (s : st_rx_video_session_impl) (k f tmstamp : Nat)
    (hk : (s.slots k).tmstamp ≠ tmstamp) :
    events_extend (notify_other_tmstamp tmstamp) s (rv_frame_notify s k f) := by
  rcases rv_frame_notify_events s k f with h | h
  · exact events_extend_of_eq _ _ _ h
  · refine ⟨[_], by rw [h]; rfl, ?_⟩
    intro e he
    rw [List.mem_singleton] at he
    subst he
    exact hk

theorem rv_st22_frame_notify_events_other (s : st_rx_video_session_impl) (k f tmstamp : Nat)
    (status : st_frame_status) :
    events_extend (notify_other_tmstamp tmstamp) s (rv_st22_frame_notify s k f status) := by
  rcases rv_st22_frame_notify_events s k f status with h | ⟨m, h⟩
  · exact events_extend_of_eq _ _ _ h
  · refine ⟨[_], by rw [h]; rfl, ?_⟩
    intro e he
    rw [List.mem_singleton] at he
    subst he
    trivial

theorem rv_slot_evict_events_other (s : st_rx_video_session_impl) (k tmstamp : Nat)
    (hk : (s.slots k).tmstamp ≠ tmstamp) :
    events_extend (notify_other_tmstamp tmstamp) s (rv_slot_evict s k) := by
  unfold rv_slot_evict
  cases hfr : (s.slots k).frame with
  | none => exact events_extend_refl _ _
  | some f =>
    simp only []
    by_cases h22 : s.st22_info.isSome
    · simp only [h22, if_true]
      exact events_extend_trans _ _ _ _ (rv_st22_frame_notify_events_other s k f tmstamp _)
        (events_extend_of_eq _ _ _ rfl)
    · simp only [h22]
      exact events_extend_trans _ _ _ _ (rv_frame_notify_events_other s k f tmstamp hk)
        (events_extend_of_eq _ _ _ rfl)

theorem rv_get_frame_slots (s : st_rx_video_session_impl) :
    (rv_get_frame s).1.slots = s.slots ∧ (rv_get_frame s).1.slot_max = s.slot_max := by
  unfold rv_get_frame
  split <;> simp [frame_ref_inc]

theorem rv_slot_recycle_slots (s : st_rx_video_session_impl) (tmstamp : Nat) (pd : Option Nat) :
    let k := (Int.tmod (s.slot_idx + 1) (s.slot_max : Int)).toNat
    (rv_slot_recycle s tmstamp pd).1.slot_max = s.slot_max ∧
    (∀ j, j ≠ k → (((rv_slot_recycle s tmstamp pd).1).slots j).tmstamp = (s.slots j).tmstamp) ∧
    (((rv_slot_recycle s tmstamp pd).1).slots k).tmstamp = tmstamp ∧
    (∀ i, (rv_slot_recycle s tmstamp pd).2 = some i → i = k) := by
  intro k
  have he := rv_slot_evict_slots s k
  unfold rv_slot_recycle
  simp only []
  split
  · refine ⟨?_, ?_, ?_, ?_⟩
    · simp [(rv_get_frame_slots _).2, (he 0).2]
    · intro j hj
      simp [(rv_get_frame_slots _).1, Function.update_noteq hj, (he j).1]
    · simp [(rv_get_frame_slots _).1, rv_slot_init_frame_size]
    · intro i hi; cases hi
  · split
    · split_ifs
      · refine ⟨?_, ?_, ?_, ?_⟩
        · simp [(rv_get_frame_slots _).2, (he 0).2]
        · intro j hj
          simp [(rv_get_frame_slots _).1, Function.update_noteq hj, (he j).1]
        · simp [(rv_get_frame_slots _).1, rv_slot_init_frame_size]
        · intro i hi; cases hi
      · refine ⟨?_, ?_, ?_, ?_⟩
        · simp [(rv_get_frame_slots _).2, (he 0).2]
        · intro j hj
          simp [(rv_get_frame_slots _).1, Function.update_noteq hj, (he j).1]
        · simp [(rv_get_frame_slots _).1, rv_slot_init_frame_size]
        · intro i hi; cases hi; rfl
    · refine ⟨?_, ?_, ?_, ?_⟩
      · simp [(rv_get_frame_slots _).2, (he 0).2]
      · intro j hj
        simp [(rv_get_frame_slots _).1, Function.update_noteq hj, (he j).1]
      · simp [(rv_get_frame_slots _).1, rv_slot_init_frame_size]
      · intro i hi; cases hi; rfl

theorem rv_slot_by_tmstamp_lookup (s : st_rx_video_session_impl) (tmstamp : Nat)
    (pd : Option Nat) (hmax : 0 < s.slot_max) :
    events_extend (notify_other_tmstamp tmstamp) s (rv_slot_by_tmstamp s tmstamp pd).1 ∧
    (∀ i, (rv_slot_by_tmstamp s tmstamp pd).2 = some i →
      rv_slot_match (rv_slot_by_tmstamp s tmstamp pd).1 tmstamp = some i) := by
  unfold rv_slot_by_tmstamp
  cases hm : rv_slot_match s tmstamp with
  | some i =>
    refine ⟨events_extend_refl _ _, ?_⟩
    intro j hj
    cases hj
    exact hm
  | none =>
    simp only []
    by_cases hb : dma_busy s = true
    · simp only [hb, if_true]
      exact ⟨events_extend_of_eq _ _ _ rfl, fun i hi => by cases hi⟩
    · have hb2 : dma_busy s = false := by simpa using hb
      simp only [hb2, Bool.false_eq_true, if_false]
      have hmiss := (rv_slot_match_eq_none s tmstamp).mp hm
      have hk := rv_slot_recycle_idx_lt (s.slot_idx + 1) s.slot_max hmax
      have hsl := rv_slot_recycle_slots s tmstamp pd
      simp only [] at hsl
      obtain ⟨h1, h2, h3, h4⟩ := hsl
      constructor
      · exact events_extend_trans _ _ _ _
          (rv_slot_evict_events_other s _ tmstamp (hmiss _ hk))
          (events_extend_of_eq _ _ _ (rv_slot_recycle_events s tmstamp pd))
      · intro i hi
        have hik := h4 i hi
        subst hik
        apply rv_slot_match_of_first
        · rw [h1]; exact hk
        · exact h3
        · intro j hj
          rw [h2 j (Nat.ne_of_lt hj)]
          exact hmiss j (Nat.lt_trans hj hk)

theorem rv_handle_frame_pkt_done_or_other (s : st_rx_video_session_impl) (mbuf : rte_mbuf)
    (s_port : Nat) (ctrl_thread : Bool) (hmax : 0 < s.slot_max) :
    frame_done (rv_handle_frame_pkt s mbuf s_port ctrl_thread).state (mbuf.tmstamp % U32) ∨
      events_extend (notify_other_tmstamp (mbuf.tmstamp % U32)) s
        (rv_handle_frame_pkt s mbuf s_port ctrl_thread).state := by
  have hl := rv_slot_by_tmstamp_lookup s (mbuf.tmstamp % U32) none hmax
  unfold rv_handle_frame_pkt
  simp only []
  split_ifs
  · exact Or.inr (events_extend_ret _ _ _ _ rfl)
  · exact Or.inr (events_extend_ret _ _ _ _ rfl)
  · split
    · exact Or.inr (events_extend_trans _ _ _ _ hl.1 (events_extend_ret _ _ _ _ rfl))
    · rename_i i hi
      split
      · exact Or.inr (events_extend_trans _ _ _ _ hl.1 (events_extend_ret _ _ _ _ rfl))
      · rename_i f hf
        rcases rv_handle_frame_pkt_slot_done_or_quiet _ mbuf ctrl_thread i f (mbuf.tmstamp % U32)
          (hl.2 i hi) with h | h
        · exact Or.inl h
        · exact Or.inr (events_extend_trans _ _ _ _ hl.1
            (events_extend_mono _ _ _ _ (not_frame_ready_other_tmstamp _) h.2.2.2.2.2.2))

theorem rv_handle_frame_pkt_frame_done (s : st_rx_video_session_impl) (mbuf : rte_mbuf)
    (s_port : Nat) (ctrl_thread : Bool) (h : frame_done s (mbuf.tmstamp % U32)) :
    ∃ code st, rv_handle_frame_pkt s mbuf s_port ctrl_thread = .ret code { s with stats := st } ∧
      code < 0 := by
  obtain ⟨i, hm, hf⟩ := h
  unfold rv_handle_frame_pkt
  simp only []
  split_ifs
  · exact ⟨_, _, rfl, by decide⟩
  · exact ⟨_, _, rfl, by decide⟩
  · rw [rv_slot_by_tmstamp_match s _ i none hm]
    simp only [hf]
    exact ⟨_, _, rfl, by decide⟩

theorem frame_done_stats (s : st_rx_video_session_impl) (tmstamp : Nat) (st : rv_stats)
    (h : frame_done s tmstamp) : frame_done { s with stats := st } tmstamp := h

theorem rv_handle_frame_pkts_frame_done (tmstamp : Nat)
    (pkts : List (rte_mbuf × Nat × Bool)) :
    ∀ (s : st_rx_video_session_impl), frame_done s tmstamp →
      (∀ p ∈ pkts, p.1.tmstamp % U32 = tmstamp) →
      (rv_handle_frame_pkts s pkts).1.length = pkts.length ∧
      (∀ c ∈ (rv_handle_frame_pkts s pkts).1, c < 0) ∧
      ∃ st, (rv_handle_frame_pkts s pkts).2 = { s with stats := st } := by
  induction pkts with
  | nil =>
    intro s _ _
    exact ⟨rfl, by simp [rv_handle_frame_pkts], s.stats, rfl⟩
  | cons p rest ih =>
    intro s hd hp
    have hp1 : p.1.tmstamp % U32 = tmstamp := hp p (List.mem_cons_self _ _)
    obtain ⟨code, st, hret, hneg⟩ := rv_handle_frame_pkt_frame_done s p.1 p.2.1 p.2.2
      (by rw [hp1]; exact hd)
    have ih1 := ih { s with stats := st } (frame_done_stats s tmstamp st hd)
      (fun q hq => hp q (List.mem_cons_of_mem _ hq))
    obtain ⟨hlen, hcodes, st2, hst2⟩ := ih1
    unfold rv_handle_frame_pkts
    rw [hret]
    simp only []
    refine ⟨by simp [hlen], ?_, st2, by rw [hst2]⟩
    intro c hc
    rcases List.mem_cons.mp hc with h | h
    · rw [h]; exact hneg
    · exact hcodes c h

/-- Claim C2.  Suppose the frame handler, called with a packet of timestamp `T`, has
notified a frame with that timestamp (the call appended a `notify_frame_ready`
event whose meta carries `T`: the frame was fully reassembled).  Then every
packet with timestamp `T` handled afterwards, on whatever port, before a
packet with another timestamp arrives, is dropped with a negative return
code, and the whole replay leaves the event log (no further
`notify_frame_ready`), the frames (no frame is acquired, no refcount moves) and
the slots unchanged.  Holds with or without a DMA device. -/
theorem replay_after_full_frame_not_notified (s : st_rx_video_session_impl) (mbuf : rte_mbuf)
    (s_port : Nat) (ctrl_thread : Bool) (replay : List (rte_mbuf × Nat × Bool))
    (hmax : 0 < s.slot_max)
    (hnotified : ∃ g m n,
      rx_event.notify_frame_ready g m n ∈
        (rv_handle_frame_pkt s mbuf s_port ctrl_thread).state.events ∧
      rx_event.notify_frame_ready g m n ∉ s.events ∧ m.timestamp = mbuf.tmstamp % U32)
    (hreplay : ∀ p ∈ replay, p.1.tmstamp % U32 = mbuf.tmstamp % U32) :
    (rv_handle_frame_pkts (rv_handle_frame_pkt s mbuf s_port ctrl_thread).state replay).1.length =
      replay.length ∧
    (∀ c ∈ (rv_handle_frame_pkts (rv_handle_frame_pkt s mbuf s_port ctrl_thread).state replay).1,
      c < 0) ∧
    (rv_handle_frame_pkts (rv_handle_frame_pkt s mbuf s_port ctrl_thread).state replay).2.events =
      (rv_handle_frame_pkt s mbuf s_port ctrl_thread).state.events ∧
    (rv_handle_frame_pkts (rv_handle_frame_pkt s mbuf s_port ctrl_thread).state replay).2.st20_frames =
      (rv_handle_frame_pkt s mbuf s_port ctrl_thread).state.st20_frames ∧
    (rv_handle_frame_pkts (rv_handle_frame_pkt s mbuf s_port ctrl_thread).state replay).2.slots =
      (rv_handle_frame_pkt s mbuf s_port ctrl_thread).state.slots := by
  have hdone : frame_done (rv_handle_frame_pkt s mbuf s_port ctrl_thread).state
      (mbuf.tmstamp % U32) := by
    rcases rv_handle_frame_pkt_done_or_other s mbuf s_port ctrl_thread hmax with h | h
    · exact h
    · exfalso
      obtain ⟨g, m, n, hin, hnot, hts⟩ := hnotified
      obtain ⟨added, ha, hgood⟩ := h
      rw [ha] at hin
      rcases List.mem_append.mp hin with h1 | h1
      · exact hgood _ h1 hts
      · exact hnot h1
  obtain ⟨hlen, hcodes, st, hst⟩ := rv_handle_frame_pkts_frame_done (mbuf.tmstamp % U32) replay
    _ hdone hreplay
  refine ⟨hlen, hcodes, ?_, ?_, ?_⟩ <;> rw [hst]

/-- Witness of C2: packet 4319 completes the 1080p frame of `session_1080p_last_missing`,
and two replayed packets of the same timestamp are both answered with -5. -/
theorem replay_after_full_frame_not_notified_witness :
    ((rv_handle_frame_pkts (rv_handle_frame_pkt session_1080p_last_missing mbuf_last_pkt 0
      true).state [(mbuf_last_pkt, 1, true), (mbuf_example, 1, true)]).1 = [-5, -5]) ∧
    (rv_handle_frame_pkts (rv_handle_frame_pkt session_1080p_last_missing mbuf_last_pkt 0
      true).state [(mbuf_last_pkt, 1, true), (mbuf_example, 1, true)]).2.events =
      (rv_handle_frame_pkt session_1080p_last_missing mbuf_last_pkt 0 true).state.events := by
  have h := replay_after_full_frame_not_notified session_1080p_last_missing mbuf_last_pkt 0 true
    [(mbuf_last_pkt, 1, true), (mbuf_example, 1, true)] (by decide)
    ⟨0, { timestamp := 1500, second_field := false, frame_total_size := 5184000,
          uframe_total_size := 0, frame_recv_size := 5184000, user_meta_size := 0,
          user_meta := none, status := .COMPLETE }, 0, by decide, by decide, by decide⟩
    (by decide)
  exact ⟨by decide, h.2.2.1⟩

/-! ## Frame ownership -/

theorem rv_frame_inv_quiet (s s2 : st_rx_video_session_impl) (hq : rv_quiet s s2)
    (h : rv_frame_inv s) : rv_frame_inv s2 := by
  obtain ⟨_, _, hf, hr, ha, _, _⟩ := hq
  obtain ⟨h1, h2, h3, h4⟩ := h
  refine ⟨?_, ?_, ?_, ?_⟩
  · intro i f hi
    rw [hf] at hi
    rw [hr, ha]
    exact h1 i f hi
  · intro i j f hi hj
    rw [hf] at hi hj
    exact h2 i j f hi hj
  · intro f hfa
    rw [ha] at hfa
    rw [hr]
    exact h3 f hfa
  · rw [ha]; exact h4

theorem rv_frame_inv_handed_over (s s2 : st_rx_video_session_impl) (i f : Nat)
    (hheld : (s.slots i).frame = some f) (hm : rv_frame_handed_over s s2 i f)
    (h : rv_frame_inv s) : rv_frame_inv s2 := by
  obtain ⟨h1, h2, h3, h4⟩ := h
  obtain ⟨hsl, hcase⟩ := hm
  have hfi := h1 i f hheld
  have hother : ∀ j g, (s2.slots j).frame = some g → (s.slots j).frame = some g ∧ j ≠ i := by
    intro j g hj
    rw [hsl j] at hj
    by_cases hji : j = i
    · rw [if_pos hji] at hj; cases hj
    · rw [if_neg hji] at hj; exact ⟨hj, hji⟩
  have hne : ∀ j g, (s2.slots j).frame = some g → g ≠ f := by
    intro j g hj hgf
    obtain ⟨hj1, hji⟩ := hother j g hj
    rw [hgf] at hj1
    exact hji (h2 j i f hj1 hheld)
  rcases hcase with ⟨happ, href⟩ | ⟨happ, href⟩
  · refine ⟨?_, ?_, ?_, ?_⟩
    · intro j g hj
      have hj1 := (hother j g hj).1
      rw [href, happ]
      refine ⟨(h1 j g hj1).1, ?_⟩
      intro hmem
      rcases List.mem_cons.mp hmem with hgf | hmem
      · exact hne j g hj hgf
      · exact (h1 j g hj1).2 hmem
    · intro j k g hj hk
      exact h2 j k g (hother j g hj).1 (hother k g hk).1
    · intro g hg
      rw [happ] at hg
      rw [href]
      rcases List.mem_cons.mp hg with hgf | hg
      · rw [hgf]; exact hfi.1
      · exact h3 g hg
    · rw [happ]
      exact List.nodup_cons.mpr ⟨hfi.2, h4⟩
  · refine ⟨?_, ?_, ?_, ?_⟩
    · intro j g hj
      have hj1 := (hother j g hj).1
      rw [href, happ, if_neg (hne j g hj)]
      exact h1 j g hj1
    · intro j k g hj hk
      exact h2 j k g (hother j g hj).1 (hother k g hk).1
    · intro g hg
      rw [happ] at hg
      rw [href]
      have hgf : g ≠ f := fun hgf => hfi.2 (hgf ▸ hg)
      rw [if_neg hgf]
      exact h3 g hg
    · rw [happ]; exact h4

theorem rv_frame_notify_owner (s : st_rx_video_session_impl) (i f : Nat) :
    (∀ j, j ≠ i → ((rv_frame_notify s i f).slots j).frame = (s.slots j).frame) ∧
    (((rv_frame_notify s i f).app_held = f :: s.app_held ∧
        ∀ g, ((rv_frame_notify s i f).st20_frames g).refcnt = (s.st20_frames g).refcnt) ∨
     ((rv_frame_notify s i f).app_held = s.app_held ∧
        ∀ g, ((rv_frame_notify s i f).st20_frames g).refcnt =
          if g = f then (s.st20_frames f).refcnt - 1 else (s.st20_frames g).refcnt)) := by
  unfold rv_frame_notify
  simp only [rv_put_frame]
  split_ifs
  · refine ⟨fun j hj => by simp [Function.update_noteq hj], Or.inr ⟨rfl, ?_⟩⟩
    intro g
    by_cases hg : g = f
    · subst hg; simp
    · simp [Function.update_noteq hg, hg]
  · exact ⟨fun j hj => by simp [Function.update_noteq hj], Or.inl ⟨rfl, fun _ => rfl⟩⟩
  · exact ⟨fun j hj => by simp [Function.update_noteq hj], Or.inl ⟨rfl, fun _ => rfl⟩⟩
  · refine ⟨fun j hj => by simp [Function.update_noteq hj], Or.inr ⟨rfl, ?_⟩⟩
    intro g
    by_cases hg : g = f
    · subst hg; simp
    · simp [Function.update_noteq hg, hg]

theorem rv_st22_frame_notify_owner (s : st_rx_video_session_impl) (i f : Nat)
    (status : st_frame_status) :
    (∀ j, j ≠ i → ((rv_st22_frame_notify s i f status).slots j).frame = (s.slots j).frame) ∧
    (((rv_st22_frame_notify s i f status).app_held = f :: s.app_held ∧
        ∀ g, ((rv_st22_frame_notify s i f status).st20_frames g).refcnt =
          (s.st20_frames g).refcnt) ∨
     ((rv_st22_frame_notify s i f status).app_held = s.app_held ∧
        ∀ g, ((rv_st22_frame_notify s i f status).st20_frames g).refcnt =
          if g = f then (s.st20_frames f).refcnt - 1 else (s.st20_frames g).refcnt)) := by
  unfold rv_st22_frame_notify
  simp only [rv_put_frame]
  split_ifs
  · refine ⟨fun j hj => by simp [Function.update_noteq hj], Or.inr ⟨rfl, ?_⟩⟩
    intro g
    by_cases hg : g = f
    · subst hg; simp
    · simp [Function.update_noteq hg, hg]
  · exact ⟨fun j hj => by simp [Function.update_noteq hj], Or.inl ⟨rfl, fun _ => rfl⟩⟩
  · exact ⟨fun j hj => by simp [Function.update_noteq hj], Or.inl ⟨rfl, fun _ => rfl⟩⟩
  · refine ⟨fun j hj => by simp [Function.update_noteq hj], Or.inr ⟨rfl, ?_⟩⟩
    intro g
    by_cases hg : g = f
    · subst hg; simp
    · simp [Function.update_noteq hg, hg]

theorem rv_slot_full_frame_handed_over (s : st_rx_video_session_impl) (i f : Nat) :
    rv_frame_handed_over s (rv_slot_full_frame s i f) i f := by
  obtain ⟨h1, h2⟩ := rv_frame_notify_owner s i f
  refine ⟨?_, ?_⟩
  · intro j
    unfold rv_slot_full_frame
    by_cases hj : j = i
    · subst hj; simp
    · simp [Function.update_noteq hj, hj, h1 j hj]
  · exact h2

theorem rv_st22_slot_full_frame_handed_over (s : st_rx_video_session_impl) (i f : Nat) :
    rv_frame_handed_over s (rv_st22_slot_full_frame s i f) i f := by
  obtain ⟨h1, h2⟩ := rv_st22_frame_notify_owner s i f .COMPLETE
  refine ⟨?_, ?_⟩
  · intro j
    unfold rv_st22_slot_full_frame
    by_cases hj : j = i
    · subst hj; simp
    · simp [Function.update_noteq hj, hj, h1 j hj]
  · exact h2

theorem rv_slot_evict_handed_over (s : st_rx_video_session_impl) (k f : Nat)
    (hheld : (s.slots k).frame = some f) :
    rv_frame_handed_over s (rv_slot_evict s k) k f := by
  unfold rv_slot_evict
  rw [hheld]
  simp only []
  by_cases h22 : s.st22_info.isSome
  · simp only [h22, if_true]
    obtain ⟨h1, h2⟩ := rv_st22_frame_notify_owner s k f .CORRUPTED
    refine ⟨?_, h2⟩
    intro j
    by_cases hj : j = k
    · subst hj; simp
    · simp [Function.update_noteq hj, hj, h1 j hj]
  · have h22b : s.st22_info.isSome = false := by simpa using h22
    simp only [h22b, Bool.false_eq_true, if_false]
    obtain ⟨h1, h2⟩ := rv_frame_notify_owner s k f
    refine ⟨?_, h2⟩
    intro j
    by_cases hj : j = k
    · subst hj; simp
    · simp [Function.update_noteq hj, hj, h1 j hj]

theorem rv_slot_evict_inv (s : st_rx_video_session_impl) (k : Nat) (h : rv_frame_inv s) :
    rv_frame_inv (rv_slot_evict s k) ∧ ((rv_slot_evict s k).slots k).frame = none := by
  cases hfr : (s.slots k).frame with
  | none =>
    have : rv_slot_evict s k = s := by unfold rv_slot_evict; rw [hfr]
    rw [this]
    exact ⟨h, hfr⟩
  | some f =>
    have hm := rv_slot_evict_handed_over s k f hfr
    exact ⟨rv_frame_inv_handed_over s _ k f hfr hm h, by simpa using hm.1 k⟩

theorem rv_frame_inv_congr (s s2 : st_rx_video_session_impl)
    (hf : ∀ j, (s2.slots j).frame = (s.slots j).frame)
    (hr : ∀ g, (s2.st20_frames g).refcnt = (s.st20_frames g).refcnt)
    (ha : s2.app_held = s.app_held) (h : rv_frame_inv s) : rv_frame_inv s2 := by
  obtain ⟨h1, h2, h3, h4⟩ := h
  refine ⟨?_, ?_, ?_, ?_⟩
  · intro i f hi
    rw [hf] at hi
    rw [hr, ha]
    exact h1 i f hi
  · intro i j f hi hj
    rw [hf] at hi hj
    exact h2 i j f hi hj
  · intro f hfa
    rw [ha] at hfa
    rw [hr]
    exact h3 f hfa
  · rw [ha]; exact h4

theorem rv_frame_inv_assign (s s2 : st_rx_video_session_impl) (k g : Nat)
    (h : rv_frame_inv s) (hg : (s.st20_frames g).refcnt = 0)
    (hsl : ∀ j, (s2.slots j).frame = if j = k then some g else (s.slots j).frame)
    (hr : ∀ x, (s2.st20_frames x).refcnt = if x = g then 1 else (s.st20_frames x).refcnt)
    (ha : s2.app_held = s.app_held) : rv_frame_inv s2 := by
  obtain ⟨h1, h2, h3, h4⟩ := h
  have hnoslot : ∀ j, (s.slots j).frame ≠ some g := by
    intro j hj
    have := (h1 j g hj).1
    rw [hg] at this
    exact absurd this (by decide)
  have hnoapp : g ∉ s.app_held := by
    intro hmem
    have := h3 g hmem
    rw [hg] at this
    exact absurd this (by decide)
  refine ⟨?_, ?_, ?_, ?_⟩
  · intro j x hj
    rw [hsl j] at hj
    by_cases hjk : j = k
    · rw [if_pos hjk] at hj
      cases hj
      rw [hr, if_pos rfl, ha]
      exact ⟨rfl, hnoapp⟩
    · rw [if_neg hjk] at hj
      have hxg : x ≠ g := fun hxg => hnoslot j (hxg ▸ hj)
      rw [hr, if_neg hxg, ha]
      exact h1 j x hj
  · intro i j x hi hj
    rw [hsl i] at hi
    rw [hsl j] at hj
    by_cases hik : i = k
    · rw [if_pos hik] at hi
      cases hi
      by_cases hjk : j = k
      · rw [hik, hjk]
      · rw [if_neg hjk] at hj
        exact absurd hj (hnoslot j)
    · rw [if_neg hik] at hi
      by_cases hjk : j = k
      · rw [if_pos hjk] at hj
        cases hj
        exact absurd hi (hnoslot i)
      · rw [if_neg hjk] at hj
        exact h2 i j x hi hj
  · intro x hx
    rw [ha] at hx
    have hxg : x ≠ g := fun hxg => hnoapp (hxg ▸ hx)
    rw [hr, if_neg hxg]
    exact h3 x hx
  · rw [ha]; exact h4

theorem rv_get_frame_spec (s : st_rx_video_session_impl) :
    ((rv_get_frame s).2 = none ∧ (rv_get_frame s).1 = s) ∨
    ∃ g, (rv_get_frame s).2 = some g ∧ (s.st20_frames g).refcnt = 0 ∧
      (rv_get_frame s).1 = frame_ref_inc s g := by
  unfold rv_get_frame
  cases hfind : (List.range s.st20_frames_cnt).find? (fun i => (s.st20_frames i).refcnt == 0) with
  | none => exact Or.inl ⟨rfl, rfl⟩
  | some g =>
    refine Or.inr ⟨g, rfl, ?_, rfl⟩
    have := List.find?_some hfind
    simpa using this

theorem rv_slot_recycle_inv (s : st_rx_video_session_impl) (tmstamp : Nat) (pd : Option Nat)
    (h : rv_frame_inv s) : rv_frame_inv (rv_slot_recycle s tmstamp pd).1 := by
  unfold rv_slot_recycle
  simp only []
  generalize hk : (Int.tmod (s.slot_idx + 1) (s.slot_max : Int)).toNat = k
  obtain ⟨he1, he2⟩ := rv_slot_evict_inv s k h
  generalize hs1 : rv_slot_evict s k = s1 at he1 he2
  -- the state before the frame is acquired
  generalize hs2 : ({ s1 with
      slots := Function.update s1.slots k
        { rv_slot_init_frame_size (s1.slots k) with
          tmstamp := tmstamp
          seq_id_got := false
          pkts_received := 0
          pkts_redundant_received := 0 }
      slot_idx := (k : Int) } : st_rx_video_session_impl) = s2
  have hinv2 : rv_frame_inv s2 := by
    refine rv_frame_inv_congr s1 s2 ?_ ?_ ?_ he1
    · intro j
      rw [← hs2]
      by_cases hj : j = k
      · subst hj; simp [rv_slot_init_frame_size]
      · simp [Function.update_noteq hj]
    · intro g; rw [← hs2]
    · rw [← hs2]
  have hk2 : (s2.slots k).frame = none := by
    rw [← hs2]; simp [rv_slot_init_frame_size, he2]
  have hslots2 : ∀ j, j ≠ k → s2.slots j = s1.slots j := by
    intro j hj; rw [← hs2]; simp [Function.update_noteq hj]
  rcases rv_get_frame_spec s2 with ⟨hn, hst⟩ | ⟨g, hg, href, hst⟩
  · rw [hn]
    simp only []
    rw [hst]
    exact rv_frame_inv_congr s2 _ (fun _ => rfl) (fun _ => rfl) rfl hinv2
  · rw [hg]
    simp only []
    rw [hst]
    have hfr : ∀ j, ((frame_ref_inc s2 g).slots j).frame = (s2.slots j).frame := fun _ => rfl
    split
    · split_ifs
      · -- query_ext_frame failed: the refcount goes back
        refine rv_frame_inv_congr s2 _ ?_ ?_ rfl hinv2
        · intro j
          by_cases hj : j = k
          · subst hj; simp [frame_ref_inc, hk2, rv_slot_init_frame_size, he2]
          · simp [frame_ref_inc, Function.update_noteq hj, hslots2 j hj]
        · intro x
          by_cases hx : x = g
          · subst hx; cases pd <;> simp [frame_ref_inc]
          · simp [frame_ref_inc, Function.update_noteq hx]
      · refine rv_frame_inv_assign s2 _ k g hinv2 href ?_ ?_ rfl
        · intro j
          by_cases hj : j = k
          · subst hj; simp [frame_ref_inc]
          · simp [frame_ref_inc, Function.update_noteq hj, hj, hslots2 j hj]
        · intro x
          by_cases hx : x = g
          · subst hx; cases pd <;> simp [frame_ref_inc, href]
          · simp [frame_ref_inc, Function.update_noteq hx, hx]
    · refine rv_frame_inv_assign s2 _ k g hinv2 href ?_ ?_ rfl
      · intro j
        by_cases hj : j = k
        · subst hj; simp [frame_ref_inc]
        · simp [frame_ref_inc, Function.update_noteq hj, hj, hslots2 j hj]
      · intro x
        by_cases hx : x = g
        · subst hx; cases pd <;> simp [frame_ref_inc, href]
        · simp [frame_ref_inc, Function.update_noteq hx, hx]

theorem rv_slot_by_tmstamp_inv (s : st_rx_video_session_impl) (tmstamp : Nat) (pd : Option Nat)
    (h : rv_frame_inv s) : rv_frame_inv (rv_slot_by_tmstamp s tmstamp pd).1 := by
  unfold rv_slot_by_tmstamp
  split
  · exact h
  · split_ifs
    · exact rv_frame_inv_quiet _ _ (rv_quiet_stats _ _) h
    · exact rv_slot_recycle_inv s tmstamp pd h

theorem rv_slot_full_frame_inv (s : st_rx_video_session_impl) (i f : Nat)
    (h : rv_frame_inv s) (hheld : (s.slots i).frame = some f) :
    rv_frame_inv (rv_slot_full_frame s i f) :=
  rv_frame_inv_handed_over s _ i f hheld (rv_slot_full_frame_handed_over s i f) h

theorem rv_st22_slot_full_frame_inv (s : st_rx_video_session_impl) (i f : Nat)
    (h : rv_frame_inv s) (hheld : (s.slots i).frame = some f) :
    rv_frame_inv (rv_st22_slot_full_frame s i f) :=
  rv_frame_inv_handed_over s _ i f hheld (rv_st22_slot_full_frame_handed_over s i f) h

theorem rv_quiet_dma_copy (s : st_rx_video_session_impl) (b : Bool) :
    rv_quiet s { s with dma_copy := b } :=
  ⟨rfl, fun _ => rfl, fun _ => rfl, fun _ => rfl, rfl, rfl, events_extend_of_eq _ _ _ rfl⟩

theorem rv_pkt_finish_inv (s : st_rx_video_session_impl) (dma_copy : Bool) (i f : Nat)
    (h : rv_frame_inv s) (hheld : (s.slots i).frame = some f) :
    rv_frame_inv (rv_pkt_finish s dma_copy i f) := by
  unfold rv_pkt_finish
  simp only []
  have h4 : rv_frame_inv (if rv_pkt_end_frame s i = true then rv_slot_full_frame s i f else s) := by
    split_ifs
    · exact rv_slot_full_frame_inv s i f h hheld
    · exact h
  cases dma_copy with
  | false => simpa using h4
  | true =>
    simp only [if_true]
    exact rv_frame_inv_quiet _ _ (rv_quiet_dma_copy _ true) h4

theorem rv_handle_frame_pkt_place_inv (s : st_rx_video_session_impl) (mbuf : rte_mbuf)
    (ctrl_thread : Bool) (i f : Nat) (h : rv_frame_inv s) (hheld : (s.slots i).frame = some f) :
    rv_frame_inv (rv_handle_frame_pkt_place s mbuf ctrl_thread i f).state := by
  have h2 : rv_quiet s (rv_pkt_account (rv_pkt_place_payload s mbuf f).1 ctrl_thread i
        (rv_pkt_payload_length mbuf)) :=
    rv_quiet_trans _ _ _ (rv_pkt_place_payload_quiet s mbuf f) (rv_pkt_account_quiet _ _ _ _)
  unfold rv_handle_frame_pkt_place
  simp only []
  cases hsl : rv_pkt_slice (rv_pkt_account (rv_pkt_place_payload s mbuf f).1 ctrl_thread i
        (rv_pkt_payload_length mbuf)) (rv_pkt_place_payload s mbuf f).2 i (rv_pkt_offset s mbuf)
        (rv_pkt_payload_length mbuf) with
  | none => exact rv_frame_inv_quiet _ _ h2 h
  | some s3 =>
    simp only [rv_result.state]
    have h3 := rv_quiet_trans _ _ _ h2 (rv_pkt_slice_quiet _ _ _ _ _ _ hsl)
    apply rv_pkt_finish_inv _ _ _ _ (rv_frame_inv_quiet _ _ h3 h)
    rw [h3.2.2.1 i, hheld]

theorem rv_pkt_seq_check_inv (s : st_rx_video_session_impl) (mbuf : rte_mbuf)
    (ctrl_thread : Bool) (i f : Nat) (h : rv_frame_inv s) (hheld : (s.slots i).frame = some f) :
    rv_frame_inv (rv_pkt_seq_check s mbuf ctrl_thread i f).state := by
  unfold rv_pkt_seq_check
  simp only []
  by_cases hgot : (s.slots i).seq_id_got = true
  · rw [if_pos hgot]
    split_ifs
    · exact rv_frame_inv_quiet _ _ (rv_quiet_stats _ _) h
    · exact rv_frame_inv_quiet _ _ (rv_quiet_slot_update s i _ _ rfl rfl) h
    · have hq := rv_quiet_slot_update s i
        { s.slots i with frame_bitmap := (mt_bitmap_test_and_set (s.slots i).frame_bitmap
            (rv_seq_pkt_idx (rfc4175_rtp_seq_id mbuf) (s.slots i).seq_id_base_u32)).2 }
        s.stats rfl rfl
      apply rv_handle_frame_pkt_place_inv _ _ _ _ _ (rv_frame_inv_quiet _ _ hq h)
      simp [hheld]
  · rw [if_neg hgot]
    by_cases hc : ctrl_thread = true
    · rw [if_pos hc]
      cases hidx : rv_first_pkt_idx s mbuf with
      | none => exact h
      | some pkt_idx =>
        simp only []
        have hq := rv_quiet_slot_update s i
          { s.slots i with
            seq_id_base_u32 := to_uint32 ((rfc4175_rtp_seq_id mbuf : Int) - pkt_idx)
            seq_id_got := true
            frame_bitmap := (mt_bitmap_test_and_set (s.slots i).frame_bitmap pkt_idx).2 }
          s.stats rfl rfl
        apply rv_handle_frame_pkt_place_inv _ _ _ _ _ (rv_frame_inv_quiet _ _ hq h)
        simp [hheld]
    · rw [if_neg hc]
      exact rv_frame_inv_quiet _ _ (rv_quiet_stats _ _) h

theorem rv_handle_frame_pkt_slot_inv (s : st_rx_video_session_impl) (mbuf : rte_mbuf)
    (ctrl_thread : Bool) (i f : Nat) (h : rv_frame_inv s) (hheld : (s.slots i).frame = some f) :
    rv_frame_inv (rv_handle_frame_pkt_slot s mbuf ctrl_thread i f).state := by
  unfold rv_handle_frame_pkt_slot
  simp only []
  split_ifs
  · exact rv_frame_inv_quiet _ _ (rv_pkt_user_meta_quiet _ _ _) h
  · exact rv_frame_inv_quiet _ _ (rv_quiet_slot_update s i _ _ rfl rfl) h
  · have hq := rv_quiet_slot_update s i
      { s.slots i with second_field := decide (BIT15 ≤ mbuf.row_number % U16) } s.stats rfl rfl
    apply rv_pkt_seq_check_inv _ _ _ _ _ (rv_frame_inv_quiet _ _ hq h)
    simp [hheld]

theorem rv_handle_frame_pkt_inv (s : st_rx_video_session_impl) (mbuf : rte_mbuf)
    (s_port : Nat) (ctrl_thread : Bool) (h : rv_frame_inv s) :
    rv_frame_inv (rv_handle_frame_pkt s mbuf s_port ctrl_thread).state := by
  have hl := rv_slot_by_tmstamp_inv s (mbuf.tmstamp % U32) none h
  unfold rv_handle_frame_pkt
  simp only []
  split_ifs
  · exact rv_frame_inv_quiet _ _ (rv_quiet_stats _ _) h
  · exact rv_frame_inv_quiet _ _ (rv_quiet_stats _ _) h
  · split
    · exact rv_frame_inv_quiet _ _ (rv_quiet_stats _ _) hl
    · rename_i i hi
      split
      · exact rv_frame_inv_quiet _ _ (rv_quiet_stats _ _) hl
      · rename_i f hf
        exact rv_handle_frame_pkt_slot_inv _ mbuf ctrl_thread i f hl hf

theorem rv_quiet_slot_frame (s s2 : st_rx_video_session_impl) (i f : Nat) (hq : rv_quiet s s2)
    (hheld : (s.slots i).frame = some f) : (s2.slots i).frame = some f := by
  rw [hq.2.2.1 i, hheld]

theorem rv_quiet_st22_expect (s : st_rx_video_session_impl) (a b : Nat) :
    rv_quiet s { s with st22_expect_frame_size := a, st22_expect_size_per_frame := b } :=
  ⟨rfl, fun _ => rfl, fun _ => rfl, fun _ => rfl, rfl, rfl, events_extend_of_eq _ _ _ rfl⟩

theorem rv_st22_pkt_copy_quiet (s : st_rx_video_session_impl) (mbuf : st22_mbuf)
    (i f offset skip payload_length : Nat) :
    rv_quiet s (rv_st22_pkt_copy s mbuf i f offset skip payload_length) := by
  unfold rv_st22_pkt_copy
  exact rv_quiet_trans _ _ _ (frame_memcpy_quiet s f offset _)
    (rv_quiet_slot_update _ i _ _ rfl rfl)

theorem rv_st22_expect_size_quiet (s : st_rx_video_session_impl) (marker : Bool)
    (offset payload_length : Nat) :
    rv_quiet s (rv_st22_expect_size s marker offset payload_length) := by
  unfold rv_st22_expect_size
  split_ifs
  · exact rv_quiet_st22_expect _ _ _
  · exact rv_quiet_refl _

theorem rv_st22_pkt_finish_inv (s : st_rx_video_session_impl) (i f : Nat)
    (h : rv_frame_inv s) (hheld : (s.slots i).frame = some f) :
    rv_frame_inv (rv_st22_pkt_finish s i f).state := by
  unfold rv_st22_pkt_finish
  split_ifs
  · exact rv_st22_slot_full_frame_inv s i f h hheld
  · exact h

theorem rv_handle_st22_pkt_place_inv (s : st_rx_video_session_impl) (mbuf : st22_mbuf)
    (i : Nat) (h : rv_frame_inv s) :
    rv_frame_inv (rv_handle_st22_pkt_place s mbuf i).state := by
  unfold rv_handle_st22_pkt_place
  simp only []
  cases hf : (s.slots i).frame with
  | none => exact rv_frame_inv_quiet _ _ (rv_quiet_stats _ _) h
  | some f =>
    simp only []
    by_cases h1 : s.st20_frame_size < (rv_st22_offset (s.slots i) (st22_pkt_counter mbuf) +
        rv_st22_copy_length (s.slots i) (st22_pkt_counter mbuf) (st22_payload_length s mbuf)) % U32
    · rw [if_pos h1]
      exact rv_frame_inv_quiet _ _ (rv_quiet_stats _ _) h
    · rw [if_neg h1]
      have hq := rv_quiet_trans _ _ _
        (rv_st22_pkt_copy_quiet s mbuf i f (rv_st22_offset (s.slots i) (st22_pkt_counter mbuf))
          (if st22_pkt_counter mbuf = 0 then (s.slots i).st22_box_hdr_length else 0)
          (rv_st22_copy_length (s.slots i) (st22_pkt_counter mbuf) (st22_payload_length s mbuf)))
        (rv_st22_expect_size_quiet _ mbuf.marker
          (rv_st22_offset (s.slots i) (st22_pkt_counter mbuf))
          (rv_st22_copy_length (s.slots i) (st22_pkt_counter mbuf) (st22_payload_length s mbuf)))
      exact rv_st22_pkt_finish_inv _ i f (rv_frame_inv_quiet _ _ hq h)
        (rv_quiet_slot_frame _ _ i f hq hf)

theorem rv_handle_st22_pkt_slot_inv (s : st_rx_video_session_impl) (mbuf : st22_mbuf)
    (i : Nat) (h : rv_frame_inv s) :
    rv_frame_inv (rv_handle_st22_pkt_slot s mbuf i).state := by
  unfold rv_handle_st22_pkt_slot
  simp only []
  by_cases hgot : (s.slots i).seq_id_got = true
  · rw [if_pos hgot]
    split_ifs
    · exact rv_frame_inv_quiet _ _ (rv_quiet_stats _ _) h
    · exact rv_frame_inv_quiet _ _ (rv_quiet_stats _ _) h
    · exact rv_frame_inv_quiet _ _ (rv_quiet_slot_update s i _ _ rfl rfl) h
    · have hq := rv_quiet_slot_update s i
        { s.slots i with frame_bitmap := (mt_bitmap_test_and_set (s.slots i).frame_bitmap
            (rv_st22_seq_pkt_idx (mbuf.seq_number % U16) (s.slots i).seq_id_base)).2 }
        s.stats rfl rfl
      exact rv_handle_st22_pkt_place_inv _ _ _ (rv_frame_inv_quiet _ _ hq h)
  · rw [if_neg hgot]
    split
    · exact rv_frame_inv_quiet _ _ (rv_quiet_stats _ _) h
    · rename_i box_hdr_length hb
      have hq := rv_quiet_slot_update s i
        { s.slots i with
          st22_box_hdr_length := box_hdr_length
          seq_id_base := to_uint16 ((mbuf.seq_number % U16 : Nat) - (st22_pkt_counter mbuf : Int))
          st22_payload_length := st22_payload_length s mbuf
          seq_id_got := true
          frame_bitmap := (mt_bitmap_test_and_set (s.slots i).frame_bitmap
            (st22_pkt_counter mbuf : Int)).2 }
        s.stats rfl rfl
      exact rv_handle_st22_pkt_place_inv _ _ _ (rv_frame_inv_quiet _ _ hq h)

theorem rv_handle_st22_pkt_inv (s : st_rx_video_session_impl) (mbuf : st22_mbuf)
    (s_port : Nat) (ctrl_thread : Bool) (h : rv_frame_inv s) :
    rv_frame_inv (rv_handle_st22_pkt s mbuf s_port ctrl_thread).state := by
  have hl := rv_slot_by_tmstamp_inv s (mbuf.tmstamp % U32) none h
  unfold rv_handle_st22_pkt
  simp only []
  split_ifs
  · exact rv_frame_inv_quiet _ _ (rv_quiet_stats _ _) h
  · exact rv_frame_inv_quiet _ _ (rv_quiet_stats _ _) h
  · split
    · exact rv_frame_inv_quiet _ _ (rv_quiet_stats _ _) hl
    · exact rv_handle_st22_pkt_slot_inv _ mbuf _ hl

theorem rv_hdr_split_seq_check_error (s : st_rx_video_session_impl) (mbuf : rte_mbuf) (i : Nat)
    (r : rv_result) (h : rv_hdr_split_seq_check s mbuf i = .error r) : rv_quiet s r.state := by
  unfold rv_hdr_split_seq_check at h
  simp only [] at h
  split_ifs at h
  · cases h; exact rv_quiet_stats _ _
  · cases h; exact rv_quiet_slot_update s i _ _ rfl rfl
  · cases h; exact rv_quiet_stats _ _

theorem rv_hdr_split_seq_check_ok (s s2 : st_rx_video_session_impl) (mbuf : rte_mbuf) (i : Nat)
    (pkt_idx : Int) (h : rv_hdr_split_seq_check s mbuf i = .ok (s2, pkt_idx)) :
    rv_quiet s s2 := by
  unfold rv_hdr_split_seq_check at h
  simp only [] at h
  split_ifs at h
  · cases h; exact rv_quiet_slot_update s i _ s.stats rfl rfl
  · cases h; exact rv_quiet_slot_update s i _ s.stats rfl rfl

theorem rv_quiet_hdr_split (s : st_rx_video_session_impl)
    (info : Nat → st_rx_video_hdr_split_info) (st : rv_stats) :
    rv_quiet s { s with hdr_split_info := info, stats := st } :=
  ⟨rfl, fun _ => rfl, fun _ => rfl, fun _ => rfl, rfl, rfl, events_extend_of_eq _ _ _ rfl⟩

theorem rv_hdr_split_addr_check_error (s : st_rx_video_session_impl) (mbuf : rte_mbuf)
    (s_port payload : Nat) (pkt_idx : Int) (r : rv_result)
    (h : rv_hdr_split_addr_check s mbuf s_port payload pkt_idx = some (.error r)) :
    rv_quiet s r.state := by
  unfold rv_hdr_split_addr_check at h
  simp only [] at h
  split_ifs at h
  all_goals (cases h; try exact rv_quiet_stats _ _)

theorem rv_hdr_split_addr_check_ok (s s3 : st_rx_video_session_impl) (mbuf : rte_mbuf)
    (s_port payload : Nat) (pkt_idx : Int) (need_copy : Bool)
    (h : rv_hdr_split_addr_check s mbuf s_port payload pkt_idx = some (.ok (s3, need_copy))) :
    rv_quiet s s3 := by
  unfold rv_hdr_split_addr_check at h
  simp only [] at h
  split_ifs at h
  all_goals (cases h; try first
    | exact rv_quiet_hdr_split _ _ _ | exact rv_quiet_stats _ _ | exact rv_quiet_refl _)

theorem rv_hdr_split_finish_inv (s : st_rx_video_session_impl) (mbuf : rte_mbuf)
    (need_copy : Bool) (i f offset payload_length : Nat)
    (h : rv_frame_inv s) (hheld : (s.slots i).frame = some f) :
    rv_frame_inv (rv_hdr_split_finish s mbuf need_copy i f offset payload_length).state := by
  have hq1 : rv_quiet s (if need_copy = true then
      frame_memcpy s f offset (mbuf_read mbuf.payload 0 payload_length) else s) := by
    split_ifs
    · exact frame_memcpy_quiet _ _ _ _
    · exact rv_quiet_refl _
  unfold rv_hdr_split_finish
  simp only []
  generalize (if need_copy = true then
      frame_memcpy s f offset (mbuf_read mbuf.payload 0 payload_length) else s) = s1 at hq1
  have hq2 := rv_quiet_trans _ _ _ hq1 (rv_quiet_slot_update s1 i
    { rv_slot_add_frame_size (s1.slots i) payload_length with
      pkts_received := (rv_slot_add_frame_size (s1.slots i) payload_length).pkts_received + 1 }
    { s1.stats with stat_pkts_received := s1.stats.stat_pkts_received + 1 } rfl rfl)
  split
  · exact rv_frame_inv_quiet _ _ hq2 h
  · rename_i s3 hs3
    have hq3 := rv_quiet_trans _ _ _ hq2 (rv_pkt_slice_quiet _ _ _ _ _ _ hs3)
    split_ifs
    · exact rv_slot_full_frame_inv _ i f (rv_frame_inv_quiet _ _ hq3 h)
        (rv_quiet_slot_frame _ _ i f hq3 hheld)
    · exact rv_frame_inv_quiet _ _ hq3 h

theorem rv_handle_hdr_split_pkt_slot_inv (s : st_rx_video_session_impl) (mbuf : rte_mbuf)
    (s_port payload i f : Nat) (h : rv_frame_inv s) (hheld : (s.slots i).frame = some f) :
    rv_frame_inv (rv_handle_hdr_split_pkt_slot s mbuf s_port payload i f).state := by
  have hq1 := rv_quiet_slot_update s i
    { s.slots i with second_field := decide (BIT15 ≤ mbuf.row_number % U16) } s.stats rfl rfl
  unfold rv_handle_hdr_split_pkt_slot
  simp only []
  split
  · rename_i r hr
    exact rv_frame_inv_quiet _ _
      (rv_quiet_trans _ _ _ hq1 (rv_hdr_split_seq_check_error _ _ _ _ hr)) h
  · rename_i s2 pkt_idx hr
    have hq2 := rv_quiet_trans _ _ _ hq1 (rv_hdr_split_seq_check_ok _ _ _ _ _ hr)
    split_ifs
    · exact rv_frame_inv_quiet _ _ (rv_quiet_trans _ _ _ hq2 (rv_quiet_stats _ _)) h
    · exact rv_frame_inv_quiet _ _ (rv_quiet_trans _ _ _ hq2 (rv_quiet_stats _ _)) h
    · split
      · exact rv_frame_inv_quiet _ _ hq2 h
      · rename_i r2 hr2
        exact rv_frame_inv_quiet _ _
          (rv_quiet_trans _ _ _ hq2 (rv_hdr_split_addr_check_error _ _ _ _ _ _ hr2)) h
      · rename_i s3 need_copy hr2
        have hq3 := rv_quiet_trans _ _ _ hq2 (rv_hdr_split_addr_check_ok _ _ _ _ _ _ _ hr2)
        exact rv_hdr_split_finish_inv _ _ _ _ _ _ _ (rv_frame_inv_quiet _ _ hq3 h)
          (rv_quiet_slot_frame _ _ i f hq3 hheld)

theorem rv_handle_hdr_split_pkt_inv (s : st_rx_video_session_impl) (mbuf : rte_mbuf)
    (s_port : Nat) (ctrl_thread : Bool) (h : rv_frame_inv s) :
    rv_frame_inv (rv_handle_hdr_split_pkt s mbuf s_port ctrl_thread).state := by
  unfold rv_handle_hdr_split_pkt
  simp only []
  by_cases hpt : mbuf.payload_type % 256 ≠ s.ops.payload_type
  · rw [if_pos hpt]
    exact rv_frame_inv_quiet _ _ (rv_quiet_stats _ _) h
  · rw [if_neg hpt]
    by_cases hpool : (!(s.hdr_split_info s_port).mbuf_pool_ready) = true
    · rw [if_pos hpool]
      exact rv_frame_inv_quiet _ _ (rv_quiet_stats _ _) h
    · rw [if_neg hpool]
      generalize rv_hdr_split_payload mbuf = payload
      have hl := rv_slot_by_tmstamp_inv s (mbuf.tmstamp % U32) (some payload) h
      split
      · exact rv_frame_inv_quiet _ _ (rv_quiet_stats _ _) hl
      · rename_i i hi
        split
        · exact rv_frame_inv_quiet _ _ (rv_quiet_stats _ _) hl
        · rename_i f hf
          exact rv_handle_hdr_split_pkt_slot_inv _ mbuf s_port payload i f hl hf

theorem rv_dma_drop_mbufs_quiet (dropped : List (Nat × Nat)) (slice_cb : Bool) :
    ∀ (s s1 : st_rx_video_session_impl), rv_dma_drop_mbufs s slice_cb dropped = some s1 →
      rv_quiet s s1 := by
  induction dropped with
  | nil =>
    intro s s1 h
    unfold rv_dma_drop_mbufs at h
    cases h; exact rv_quiet_refl _
  | cons d rest ih =>
    intro s s1 h
    obtain ⟨offset, len⟩ := d
    unfold rv_dma_drop_mbufs at h
    by_cases hc : slice_cb = true
    · rw [if_pos hc] at h
      cases hd : s.dma_slot with
      | none => rw [hd] at h; cases h
      | some i =>
        rw [hd] at h
        simp only [] at h
        cases hinfo : (s.slots i).slice_info with
        | none => rw [hinfo] at h; cases h
        | some info =>
          rw [hinfo] at h
          simp only [] at h
          cases hadd : rv_slice_add s i info offset len with
          | none => rw [hadd] at h; cases h
          | some s2 =>
            rw [hadd] at h
            simp only [] at h
            exact rv_quiet_trans _ _ _ (rv_slice_add_quiet _ _ _ _ _ _ hadd) (ih _ _ h)
    · rw [if_neg hc] at h
      exact ih _ _ h

theorem rv_quiet_dma_dev (s : st_rx_video_session_impl) (d : Option mtl_dma_lender_dev) :
    rv_quiet s { s with dma_dev := d } :=
  ⟨rfl, fun _ => rfl, fun _ => rfl, fun _ => rfl, rfl, rfl, events_extend_of_eq _ _ _ rfl⟩

theorem rv_quiet_dma_slot (s : st_rx_video_session_impl) (d : Option Nat) :
    rv_quiet s { s with dma_slot := d } :=
  ⟨rfl, fun _ => rfl, fun _ => rfl, fun _ => rfl, rfl, rfl, events_extend_of_eq _ _ _ rfl⟩

theorem rv_dma_dequeue_inv (s : st_rx_video_session_impl) (slice_cb : Bool) (nb_dq : Nat)
    (h : rv_frame_inv s) : rv_frame_inv (rv_dma_dequeue s slice_cb nb_dq).state := by
  unfold rv_dma_dequeue
  split
  · exact h
  · rename_i dma_dev hdev
    simp only []
    split
    · exact h
    · rename_i s1 hs1
      have hq := rv_quiet_trans _ _ _ (rv_quiet_dma_dev s _) (rv_dma_drop_mbufs_quiet _ _ _ _ hs1)
      have h1 := rv_frame_inv_quiet _ _ hq h
      split
      · rename_i dma_slot hslot
        split_ifs
        · split
          · rename_i f hf
            exact rv_frame_inv_quiet _ _ (rv_quiet_dma_slot _ none)
              (rv_slot_full_frame_inv s1 dma_slot f h1 hf)
          · exact h1
        · exact h1
        · exact h1
      · exact h1

theorem st20_rx_put_framebuff_inv (s : st_rx_video_session_impl) (framebuff j : Nat)
    (hfind : (List.range s.st20_frames_cnt).find?
      (fun i => (s.st20_frames i).addr == framebuff) = some j)
    (hheld : j ∈ s.app_held) (h : rv_frame_inv s) :
    rv_frame_inv (st20_rx_put_framebuff s framebuff).2 := by
  obtain ⟨h1, h2, h3, h4⟩ := h
  unfold st20_rx_put_framebuff
  rw [hfind]
  simp only [rv_put_frame]
  refine ⟨?_, ?_, ?_, ?_⟩
  · intro i f hf
    have hne : f ≠ j := by
      intro he
      subst he
      exact (h1 i f hf).2 hheld
    refine ⟨?_, ?_⟩
    · simp only [Function.update_noteq hne]
      exact (h1 i f hf).1
    · intro hmem
      exact (h1 i f hf).2 (List.mem_of_mem_erase hmem)
  · intro i k f hi hk
    exact h2 i k f hi hk
  · intro f hmem
    have hne : f ≠ j := by
      intro he
      subst he
      exact (List.Nodup.not_mem_erase h4) hmem
    simp only [Function.update_noteq hne]
    exact h3 f (List.mem_of_mem_erase hmem)
  · exact h4.erase j

theorem rv_init_slot_inv (s : st_rx_video_session_impl) (flag_enable_rtcp : Bool)
    (slice_num : Option Nat) (h : s.app_held = []) :
    rv_frame_inv (rv_init_slot s flag_enable_rtcp slice_num) := by
  refine ⟨?_, ?_, ?_, ?_⟩
  · intro i f hf
    simp [rv_init_slot, rv_init_slot_entry] at hf
  · intro i j f hf
    simp [rv_init_slot, rv_init_slot_entry] at hf
  · intro f hf
    simp [rv_init_slot, h] at hf
  · simp [rv_init_slot, h]

theorem rv_reachable_inv (s0 s : st_rx_video_session_impl) (h0 : rv_frame_inv s0)
    (h : rv_reachable s0 s) : rv_frame_inv s := by
  induction h with
  | init => exact h0
  | slot_by_tmstamp s tmstamp pd _ ih => exact rv_slot_by_tmstamp_inv s tmstamp pd ih
  | frame_pkt s mbuf s_port ctrl_thread _ ih =>
    exact rv_handle_frame_pkt_inv s mbuf s_port ctrl_thread ih
  | st22_pkt s mbuf s_port ctrl_thread _ ih =>
    exact rv_handle_st22_pkt_inv s mbuf s_port ctrl_thread ih
  | hdr_split_pkt s mbuf s_port ctrl_thread _ ih =>
    exact rv_handle_hdr_split_pkt_inv s mbuf s_port ctrl_thread ih
  | slot_full_frame s i f _ hheld ih => exact rv_slot_full_frame_inv s i f ih hheld
  | st22_slot_full_frame s i f _ hheld ih => exact rv_st22_slot_full_frame_inv s i f ih hheld
  | dma_dequeue s slice_cb nb_dq _ ih => exact rv_dma_dequeue_inv s slice_cb nb_dq ih
  | put_framebuff s framebuff j _ hfind hheld ih =>
    exact st20_rx_put_framebuff_inv s framebuff j hfind hheld ih

/-- Claim C5.  Take any session whose application holds no frame and reset its slots
with `rv_init_slot`.  In every state reachable from there by packet handling
(`rv_slot_by_tmstamp`, the three packet handlers, the full-frame functions,
`rv_dma_dequeue`) and by the application giving back frames it holds (frames it
was notified of, each once per notification), no frame buffer is held by two
slots at the same time, and every frame held by a slot has a reference count of
at least 1. -/
theorem rv_reachable_frame_ownership (s0 : st_rx_video_session_impl) (flag_enable_rtcp : Bool)
    (slice_num : Option Nat) (s : st_rx_video_session_impl) (h0 : s0.app_held = [])
    (h : rv_reachable (rv_init_slot s0 flag_enable_rtcp slice_num) s) :
    (∀ i j f, (s.slots i).frame = some f → (s.slots j).frame = some f → i = j) ∧
    (∀ i f, (s.slots i).frame = some f → 1 ≤ (s.st20_frames f).refcnt) := by
  have hinv := rv_reachable_inv _ s (rv_init_slot_inv s0 flag_enable_rtcp slice_num h0) h
  refine ⟨hinv.2.1, ?_⟩
  intro i f hf
  rw [(hinv.1 i f hf).1]

/-- Witness of C5: the 1080p session after its slots were reset and one packet was
handled; slot 0 then holds frame 0, whose reference count is 1. -/
theorem rv_reachable_frame_ownership_witness :
    ((rv_handle_frame_pkt (rv_init_slot session_1080p false none) mbuf_example 0
      true).state.slots 0).frame = some 0 ∧
    (∀ i j f,
      ((rv_handle_frame_pkt (rv_init_slot session_1080p false none) mbuf_example 0
        true).state.slots i).frame = some f →
      ((rv_handle_frame_pkt (rv_init_slot session_1080p false none) mbuf_example 0
        true).state.slots j).frame = some f → i = j) ∧
    (∀ i f,
      ((rv_handle_frame_pkt (rv_init_slot session_1080p false none) mbuf_example 0
        true).state.slots i).frame = some f →
      1 ≤ ((rv_handle_frame_pkt (rv_init_slot session_1080p false none) mbuf_example 0
        true).state.st20_frames f).refcnt) :=
  ⟨by decide,
   rv_reachable_frame_ownership session_1080p false none _ (by decide)
    (rv_reachable.frame_pkt _ mbuf_example 0 true rv_reachable.init)⟩

/-! ## Two-port frame with loss on one port -/

theorem pkt_1080p_payload_length (tmstamp seq_base k : Nat) :
    rv_pkt_payload_length (pkt_1080p tmstamp seq_base k) = 1200 := by
  simp only [rv_pkt_payload_length, pkt_1080p, U16, BIT15]
  have h1 : k % 4 * 480 < 65536 := by omega
  have h : ¬ (32768 ≤ k % 4 * 480 % 65536) := by
    rw [Nat.mod_eq_of_lt h1]; omega
  simp [h]

theorem pkt_1080p_seq_id (tmstamp seq_base k : Nat) :
    rfc4175_rtp_seq_id (pkt_1080p tmstamp seq_base k) = (seq_base + k) % U32 := by
  simp only [rfc4175_rtp_seq_id, pkt_1080p, U16, U32]
  omega

theorem rv_seq_pkt_idx_1080p (seq_base k : Nat) (hk : k < 4320) :
    rv_seq_pkt_idx ((seq_base + k) % U32) (seq_base % U32) = (k : Int) := by
  simp only [rv_seq_pkt_idx, to_int32, U32]
  split_ifs <;> omega

theorem rv_first_base_1080p (seq_base k : Nat) :
    to_uint32 ((((seq_base + k) % U32 : Nat) : Int) - (k : Int)) = seq_base % U32 := by
  simp only [to_uint32, U32]
  omega

theorem pkt_1080p_offset (s : st_rx_video_session_impl) (tmstamp seq_base k : Nat)
    (hk : k < 4320) (hl : s.st20_linesize = 4800) (hc : s.st20_pg_coverage = 2)
    (hp : s.st20_pg_size = 5) :
    rv_pkt_offset s (pkt_1080p tmstamp seq_base k) = 1200 * k := by
  simp only [rv_pkt_offset, pkt_1080p, U16, BIT15, U32, hl, hc, hp]
  have h1 : k % 4 * 480 < 32768 := by omega
  have h2 : k / 4 < 32768 := by omega
  rw [Nat.mod_eq_of_lt (by omega : k / 4 < 65536), Nat.mod_eq_of_lt h2,
    Nat.mod_eq_of_lt (by omega : k % 4 * 480 < 65536), Nat.mod_eq_of_lt h1]
  omega

theorem session_1080p_two_port_lookup (tmstamp : Nat) (h0 : tmstamp ≠ 0) :
    rv_slot_by_tmstamp session_1080p_two_port tmstamp none =
      rv_slot_recycle session_1080p_two_port tmstamp none := by
  have hm : rv_slot_match session_1080p_two_port tmstamp = none := by
    show (List.range 1).find? (fun i => tmstamp == (session_1080p_two_port.slots i).tmstamp)
      = none
    rw [List.find?_eq_none]
    intro i hi
    have hi0 : i = 0 := by simpa using hi
    subst hi0
    show ¬ ((tmstamp == 0) = true)
    simpa using h0
  have hb : dma_busy session_1080p_two_port = false := rfl
  simp [rv_slot_by_tmstamp, hm, hb]

theorem session_1080p_two_port_recycle (tmstamp : Nat) :
    (rv_slot_recycle session_1080p_two_port tmstamp none).2 = some 0 ∧
    session_is_1080p_two_port (rv_slot_recycle session_1080p_two_port tmstamp none).1 ∧
    ((rv_slot_recycle session_1080p_two_port tmstamp none).1.slots 0).tmstamp = tmstamp ∧
    ((rv_slot_recycle session_1080p_two_port tmstamp none).1.slots 0).frame = some 0 ∧
    ((rv_slot_recycle session_1080p_two_port tmstamp none).1.slots 0).seq_id_got = false ∧
    ((rv_slot_recycle session_1080p_two_port tmstamp none).1.slots 0).slice_info = none ∧
    ((rv_slot_recycle session_1080p_two_port tmstamp none).1.slots 0).frame_bitmap = [] ∧
    ((rv_slot_recycle session_1080p_two_port tmstamp none).1.slots 0).pkts_received = 0 ∧
    rv_slot_get_frame_size ((rv_slot_recycle session_1080p_two_port tmstamp none).1.slots 0)
      = 0 ∧
    ((rv_slot_recycle session_1080p_two_port tmstamp none).1.slots 0).pkts_redundant_received
      = 0 ∧
    (rv_slot_recycle session_1080p_two_port tmstamp none).1.events = [] :=
  ⟨rfl, ⟨rfl, rfl, rfl, rfl, rfl, rfl, rfl, rfl, rfl, rfl, rfl, rfl, rfl⟩, rfl, rfl, rfl, rfl,
    rfl, rfl, rfl, rfl, rfl⟩

theorem rv_pkt_offset_limit_1080p (s : st_rx_video_session_impl)
    (hs : session_is_1080p_two_port s) : rv_pkt_offset_limit s = 5184000 := by
  obtain ⟨-, -, -, -, -, -, hfb, hl, hb, -⟩ := hs
  simp only [rv_pkt_offset_limit, hfb, hl, hb, U64]

theorem rv_handle_frame_pkt_slot_1080p (s : st_rx_video_session_impl)
    (tmstamp seq_base k f : Nat) (hs : session_is_1080p_two_port s) (hk : k < 4320) :
    rv_handle_frame_pkt_slot s (pkt_1080p tmstamp seq_base k) true 0 f =
      rv_pkt_seq_check
        { s with slots := Function.update s.slots 0 { s.slots 0 with second_field := false } }
        (pkt_1080p tmstamp seq_base k) true 0 f := by
  have hlim := rv_pkt_offset_limit_1080p s hs
  have hoff := pkt_1080p_offset s tmstamp seq_base k hk hs.2.2.2.2.2.2.2.1
    hs.2.2.2.2.2.2.2.2.2.2.2.1 hs.2.2.2.2.2.2.2.2.2.2.1
  have hlen := pkt_1080p_payload_length tmstamp seq_base k
  have hrl : ¬ (BIT15 ≤ (pkt_1080p tmstamp seq_base k).row_length % U16) := by
    simp [pkt_1080p, BIT15, U16]
  have hrn : decide (BIT15 ≤ (pkt_1080p tmstamp seq_base k).row_number % U16) = false := by
    simp only [pkt_1080p, BIT15, U16, decide_eq_false_iff_not]
    omega
  unfold rv_handle_frame_pkt_slot
  rw [if_neg hrl]
  simp only [hlim, hoff, hlen, hrn]
  rw [if_neg (by omega)]

theorem rv_handle_frame_pkt_place_1080p (s : st_rx_video_session_impl)
    (tmstamp seq_base k f : Nat) (hs : session_is_1080p_two_port s)
    (hslice : (s.slots 0).slice_info = none) (hk : k < 4320) :
    rv_handle_frame_pkt_place s (pkt_1080p tmstamp seq_base k) true 0 f =
      .ret 0 (rv_pkt_finish
        (rv_pkt_account
          (frame_memcpy s f (1200 * k) (mbuf_read (pkt_1080p tmstamp seq_base k).payload 0 1200))
          true 0 1200) false 0 f) := by
  obtain ⟨-, hebu, -, hu, hdma, -, -, hl, -, -, hp, hc, -⟩ := hs
  have hoff := pkt_1080p_offset s tmstamp seq_base k hk hl hc hp
  have hlen := pkt_1080p_payload_length tmstamp seq_base k
  have hextra : decide (BIT15 ≤ (pkt_1080p tmstamp seq_base k).row_offset % U16) = false := by
    simp only [pkt_1080p, BIT15, U16, decide_eq_false_iff_not]
    rw [Nat.mod_eq_of_lt (by omega : k % 4 * 480 < 65536)]
    omega
  have hplace : rv_pkt_place_payload s (pkt_1080p tmstamp seq_base k) f =
      (frame_memcpy s f (1200 * k) (mbuf_read (pkt_1080p tmstamp seq_base k).payload 0 1200),
        false) := by
    unfold rv_pkt_place_payload
    simp only [hu, hebu, hextra, hdma, hoff, hlen]
    simp
  unfold rv_handle_frame_pkt_place
  simp only [hplace, hoff, hlen]
  have hsl : rv_pkt_slice
      (rv_pkt_account
        (frame_memcpy s f (1200 * k) (mbuf_read (pkt_1080p tmstamp seq_base k).payload 0 1200))
        true 0 1200) false 0 (1200 * k) 1200 =
      some (rv_pkt_account
        (frame_memcpy s f (1200 * k) (mbuf_read (pkt_1080p tmstamp seq_base k).payload 0 1200))
        true 0 1200) := by
    unfold rv_pkt_slice
    have h2 : ((rv_pkt_account
        (frame_memcpy s f (1200 * k) (mbuf_read (pkt_1080p tmstamp seq_base k).payload 0 1200))
        true 0 1200).slots 0).slice_info = none := by
      simp [rv_pkt_account, frame_memcpy, rv_slot_pkt_lcore_add_frame_size, hslice]
    rw [h2]
  rw [hsl]

theorem rv_handle_frame_pkt_to_slot (s : st_rx_video_session_impl) (mbuf : rte_mbuf)
    (s_port : Nat) (ctrl_thread : Bool) (s1 : st_rx_video_session_impl) (i f : Nat)
    (hpt : mbuf.payload_type % 256 = s.ops.payload_type)
    (hseg : mbuf.next_data_len = none)
    (hlookup : rv_slot_by_tmstamp s (mbuf.tmstamp % U32) none = (s1, some i))
    (hframe : (s1.slots i).frame = some f) :
    rv_handle_frame_pkt s mbuf s_port ctrl_thread =
      rv_handle_frame_pkt_slot s1 mbuf ctrl_thread i f := by
  simp [rv_handle_frame_pkt, hpt, hseg, hlookup, hframe]

theorem mem_bitmap_of_nat (seen : List Nat) (k : Nat) :
    (k : Int) ∈ seen.map Int.ofNat ↔ k ∈ seen := by
  constructor
  · intro h
    obtain ⟨j, hj, he⟩ := List.mem_map.mp h
    have : j = k := Int.ofNat.inj he
    rw [← this]; exact hj
  · intro h
    exact List.mem_map.mpr ⟨k, h, rfl⟩

theorem frame_in_progress_to_seq_check (s : st_rx_video_session_impl)
    (tmstamp seq_base k s_port f : Nat) (seen : List Nat) (redundant : Nat)
    (h : frame_in_progress s (tmstamp % U32) (seq_base % U32) f seen redundant)
    (hk : k < 4320) :
    rv_handle_frame_pkt s (pkt_1080p tmstamp seq_base k) s_port true =
      rv_pkt_seq_check
        { s with slots := Function.update s.slots 0 { s.slots 0 with second_field := false } }
        (pkt_1080p tmstamp seq_base k) true 0 f := by
  obtain ⟨hs, ht, hf, -⟩ := h
  have hm : rv_slot_match s ((pkt_1080p tmstamp seq_base k).tmstamp % U32) = some 0 := by
    apply rv_slot_match_of_first
    · rw [hs.2.2.2.2.2.2.2.2.2.2.2.2]; decide
    · exact ht
    · intro j hj; omega
  rw [rv_handle_frame_pkt_to_slot s _ s_port true s 0 f (by rw [hs.1]; rfl) rfl
    (rv_slot_by_tmstamp_match s _ 0 none hm) hf]
  exact rv_handle_frame_pkt_slot_1080p s tmstamp seq_base k f hs hk

theorem rv_pkt_seq_check_redundant (s : st_rx_video_session_impl) (mbuf : rte_mbuf)
    (ctrl_thread : Bool) (i f : Nat) (hgot : (s.slots i).seq_id_got = true)
    (hidx0 : 0 ≤ rv_seq_pkt_idx (rfc4175_rtp_seq_id mbuf) (s.slots i).seq_id_base_u32)
    (hidx1 : to_size_t (rv_seq_pkt_idx (rfc4175_rtp_seq_id mbuf) (s.slots i).seq_id_base_u32)
      < s.st20_frame_bitmap_size * 8)
    (hset : rv_seq_pkt_idx (rfc4175_rtp_seq_id mbuf) (s.slots i).seq_id_base_u32
      ∈ (s.slots i).frame_bitmap) :
    rv_pkt_seq_check s mbuf ctrl_thread i f = .ret 0 { s with
      slots := Function.update s.slots i
        { s.slots i with pkts_redundant_received := (s.slots i).pkts_redundant_received + 1 }
      stats := { s.stats with
        stat_pkts_redundant_dropped := s.stats.stat_pkts_redundant_dropped + 1 } } := by
  unfold rv_pkt_seq_check
  simp [hgot, Int.not_lt.mpr hidx0, Nat.not_le.mpr hidx1, mt_bitmap_test_and_set, hset]

theorem rv_pkt_seq_check_accept (s : st_rx_video_session_impl) (mbuf : rte_mbuf)
    (ctrl_thread : Bool) (i f : Nat) (hgot : (s.slots i).seq_id_got = true)
    (hidx0 : 0 ≤ rv_seq_pkt_idx (rfc4175_rtp_seq_id mbuf) (s.slots i).seq_id_base_u32)
    (hidx1 : to_size_t (rv_seq_pkt_idx (rfc4175_rtp_seq_id mbuf) (s.slots i).seq_id_base_u32)
      < s.st20_frame_bitmap_size * 8)
    (hset : rv_seq_pkt_idx (rfc4175_rtp_seq_id mbuf) (s.slots i).seq_id_base_u32
      ∉ (s.slots i).frame_bitmap) :
    rv_pkt_seq_check s mbuf ctrl_thread i f =
      rv_handle_frame_pkt_place
        { s with
          slots := Function.update s.slots i
            { s.slots i with
              frame_bitmap :=
                rv_seq_pkt_idx (rfc4175_rtp_seq_id mbuf) (s.slots i).seq_id_base_u32 ::
                  (s.slots i).frame_bitmap } }
        mbuf ctrl_thread i f := by
  unfold rv_pkt_seq_check
  simp [hgot, Int.not_lt.mpr hidx0, Nat.not_le.mpr hidx1, mt_bitmap_test_and_set, hset]

theorem rv_pkt_seq_check_first (s : st_rx_video_session_impl) (mbuf : rte_mbuf)
    (i f : Nat) (pkt_idx : Int) (hgot : (s.slots i).seq_id_got = false)
    (hidx : rv_first_pkt_idx s mbuf = some pkt_idx)
    (hset : pkt_idx ∉ (s.slots i).frame_bitmap) :
    rv_pkt_seq_check s mbuf true i f =
      rv_handle_frame_pkt_place
        { s with
          slots := Function.update s.slots i
            { s.slots i with
              seq_id_base_u32 := to_uint32 ((rfc4175_rtp_seq_id mbuf : Int) - pkt_idx)
              seq_id_got := true
              frame_bitmap := pkt_idx :: (s.slots i).frame_bitmap } }
        mbuf true i f := by
  unfold rv_pkt_seq_check
  simp [hgot, hidx, mt_bitmap_test_and_set, hset]

/-- A packet whose index is already in the bitmap: only the redundant counter
moves. -/
theorem frame_in_progress_redundant (s : st_rx_video_session_impl)
    (tmstamp seq_base k s_port f : Nat) (seen : List Nat) (redundant : Nat)
    (h : frame_in_progress s (tmstamp % U32) (seq_base % U32) f seen redundant)
    (hk : k < 4320) (hseen : k ∈ seen) :
    ∃ s2, rv_handle_frame_pkt s (pkt_1080p tmstamp seq_base k) s_port true = .ret 0 s2 ∧
      frame_in_progress s2 (tmstamp % U32) (seq_base % U32) f seen (redundant + 1) := by
  rw [frame_in_progress_to_seq_check s tmstamp seq_base k s_port f seen redundant h hk]
  obtain ⟨hs, ht, hf, hgot, hbase, hslice, hbm, hrecv, hsize, hred, hev⟩ := h
  have hidx : rv_seq_pkt_idx (rfc4175_rtp_seq_id (pkt_1080p tmstamp seq_base k))
      (seq_base % U32) = (k : Int) := by
    rw [pkt_1080p_seq_id]; exact rv_seq_pkt_idx_1080p seq_base k hk
  rw [rv_pkt_seq_check_redundant _ _ true 0 f (by simp [hgot])
    (by simp [hbase, hidx])
    (by simp only [Function.update_same, hbase, hidx, to_size_t, hs.2.2.2.2.2.2.2.2.2.1]; omega)
    (by simp only [Function.update_same, hbase, hidx, hbm]
        exact (mem_bitmap_of_nat seen k).mpr hseen)]
  refine ⟨_, rfl, hs, ?_, ?_, ?_, ?_, ?_, ?_, ?_, ?_, ?_, hev⟩
  · simp [ht]
  · simp [hf]
  · simp [hgot]
  · simp [hbase]
  · simp [hslice]
  · simp [hbm]
  · simp [hrecv]
  · simpa [rv_slot_get_frame_size] using hsize
  · simp [hred]

/-- A packet whose index is not yet in the bitmap is copied and accounted: the state
before the completion check is in progress with the index added. -/
theorem frame_in_progress_accept (s : st_rx_video_session_impl)
    (tmstamp seq_base k s_port f : Nat) (seen : List Nat) (redundant : Nat)
    (h : frame_in_progress s (tmstamp % U32) (seq_base % U32) f seen redundant)
    (hk : k < 4320) (hseen : k ∉ seen) :
    ∃ s3, rv_handle_frame_pkt s (pkt_1080p tmstamp seq_base k) s_port true =
        .ret 0 (rv_pkt_finish s3 false 0 f) ∧
      frame_in_progress s3 (tmstamp % U32) (seq_base % U32) f (k :: seen) redundant := by
  rw [frame_in_progress_to_seq_check s tmstamp seq_base k s_port f seen redundant h hk]
  obtain ⟨hs, ht, hf, hgot, hbase, hslice, hbm, hrecv, hsize, hred, hev⟩ := h
  have hidx : rv_seq_pkt_idx (rfc4175_rtp_seq_id (pkt_1080p tmstamp seq_base k))
      (seq_base % U32) = (k : Int) := by
    rw [pkt_1080p_seq_id]; exact rv_seq_pkt_idx_1080p seq_base k hk
  rw [rv_pkt_seq_check_accept _ _ true 0 f (by simp [hgot])
    (by simp [hbase, hidx])
    (by simp only [Function.update_same, hbase, hidx, to_size_t, hs.2.2.2.2.2.2.2.2.2.1]; omega)
    (by simp only [Function.update_same, hbase, hidx, hbm]
        exact fun hm => hseen ((mem_bitmap_of_nat seen k).mp hm))]
  rw [rv_handle_frame_pkt_place_1080p]
  · refine ⟨_, rfl, hs, ?_, ?_, ?_, ?_, ?_, ?_, ?_, ?_, ?_, hev⟩
    · simp [rv_pkt_account, frame_memcpy, rv_slot_pkt_lcore_add_frame_size, ht]
    · simp [rv_pkt_account, frame_memcpy, rv_slot_pkt_lcore_add_frame_size, hf]
    · simp [rv_pkt_account, frame_memcpy, rv_slot_pkt_lcore_add_frame_size, hgot]
    · simp [rv_pkt_account, frame_memcpy, rv_slot_pkt_lcore_add_frame_size, hbase]
    · simp [rv_pkt_account, frame_memcpy, rv_slot_pkt_lcore_add_frame_size, hslice]
    · simp [rv_pkt_account, frame_memcpy, rv_slot_pkt_lcore_add_frame_size, hbm, hbase, hidx]
    · simp [rv_pkt_account, frame_memcpy, rv_slot_pkt_lcore_add_frame_size, hrecv]
    · simp only [rv_slot_get_frame_size] at hsize
      simp [rv_pkt_account, frame_memcpy, rv_slot_pkt_lcore_add_frame_size,
        rv_slot_get_frame_size]
      omega
    · simp [rv_pkt_account, frame_memcpy, rv_slot_pkt_lcore_add_frame_size, hred]
  · exact hs
  · simp [hslice]
  · exact hk

theorem rv_first_pkt_idx_1080p (s : st_rx_video_session_impl) (tmstamp seq_base k : Nat)
    (hs : session_is_1080p_two_port s) (hk : k < 4320) :
    rv_first_pkt_idx s (pkt_1080p tmstamp seq_base k) = some (k : Int) := by
  have hoff := pkt_1080p_offset s tmstamp seq_base k hk hs.2.2.2.2.2.2.2.1
    hs.2.2.2.2.2.2.2.2.2.2.2.1 hs.2.2.2.2.2.2.2.2.2.2.1
  have hlen := pkt_1080p_payload_length tmstamp seq_base k
  unfold rv_first_pkt_idx
  simp only [hoff, hlen]
  have h1 : ¬ (1200 * k % 1200 ≠ 0) := by omega
  have h2 : 1200 * k / 1200 = k := by omega
  rw [if_neg (by decide), if_neg h1, h2]
  simp only [to_int32, U32]
  rw [Nat.mod_eq_of_lt (by omega), if_pos (by omega)]

/-- The first packet of the frame on a slot that has just been recycled: the
sequence base is captured and the packet is copied and accounted. -/
theorem frame_fresh_first (s : st_rx_video_session_impl)
    (tmstamp seq_base k f : Nat) (hs : session_is_1080p_two_port s)
    (ht : (s.slots 0).tmstamp = tmstamp % U32) (hf : (s.slots 0).frame = some f)
    (hgot : (s.slots 0).seq_id_got = false) (hslice : (s.slots 0).slice_info = none)
    (hbm : (s.slots 0).frame_bitmap = []) (hrecv : (s.slots 0).pkts_received = 0)
    (hsize : rv_slot_get_frame_size (s.slots 0) = 0)
    (hred : (s.slots 0).pkts_redundant_received = 0) (hev : s.events = [])
    (hk : k < 4320) :
    ∃ s3, rv_handle_frame_pkt_slot s (pkt_1080p tmstamp seq_base k) true 0 f =
        .ret 0 (rv_pkt_finish s3 false 0 f) ∧
      frame_in_progress s3 (tmstamp % U32) (seq_base % U32) f [k] 0 := by
  rw [rv_handle_frame_pkt_slot_1080p s tmstamp seq_base k f hs hk]
  rw [rv_pkt_seq_check_first _ _ 0 f (k : Int) (by simp [hgot])
    (rv_first_pkt_idx_1080p _ tmstamp seq_base k (by exact hs) hk) (by simp [hbm])]
  rw [rv_handle_frame_pkt_place_1080p]
  · refine ⟨_, rfl, hs, ?_, ?_, ?_, ?_, ?_, ?_, ?_, ?_, ?_, hev⟩
    · simp [rv_pkt_account, frame_memcpy, rv_slot_pkt_lcore_add_frame_size, ht]
    · simp [rv_pkt_account, frame_memcpy, rv_slot_pkt_lcore_add_frame_size, hf]
    · simp [rv_pkt_account, frame_memcpy, rv_slot_pkt_lcore_add_frame_size]
    · simp only [rv_pkt_account, frame_memcpy, rv_slot_pkt_lcore_add_frame_size,
        Function.update_same, pkt_1080p_seq_id]
      exact rv_first_base_1080p seq_base k
    · simp [rv_pkt_account, frame_memcpy, rv_slot_pkt_lcore_add_frame_size, hslice]
    · simp [rv_pkt_account, frame_memcpy, rv_slot_pkt_lcore_add_frame_size, hbm]
    · simp [rv_pkt_account, frame_memcpy, rv_slot_pkt_lcore_add_frame_size, hrecv]
    · simp only [rv_slot_get_frame_size] at hsize
      simp [rv_pkt_account, frame_memcpy, rv_slot_pkt_lcore_add_frame_size,
        rv_slot_get_frame_size]
      omega
    · simp [rv_pkt_account, frame_memcpy, rv_slot_pkt_lcore_add_frame_size, hred]
  · exact hs
  · simp [hslice]
  · exact hk

theorem frame_in_progress_not_full (s : st_rx_video_session_impl)
    (tmstamp seq_base f : Nat) (seen : List Nat) (redundant : Nat)
    (h : frame_in_progress s tmstamp seq_base f seen redundant) (hlen : seen.length < 4320) :
    rv_pkt_finish s false 0 f = s := by
  obtain ⟨hs, -, -, -, -, -, -, -, hsize, -, -⟩ := h
  have he : rv_pkt_end_frame s 0 = false := by
    simp only [rv_pkt_end_frame, hs.2.2.2.2.1, hs.2.2.2.2.2.1, hsize, decide_eq_false_iff_not]
    omega
  simp [rv_pkt_finish, he]

theorem frame_in_progress_full (s : st_rx_video_session_impl)
    (tmstamp seq_base f : Nat) (seen : List Nat) (redundant : Nat)
    (h : frame_in_progress s tmstamp seq_base f seen redundant) (hlen : seen.length = 4320) :
    rv_pkt_finish s false 0 f = rv_slot_full_frame s 0 f ∧
    frame_done (rv_slot_full_frame s 0 f) tmstamp ∧
    (rv_slot_full_frame s 0 f).events =
      [rx_event.notify_frame_ready f (rv_frame_notify_meta s (s.slots 0) (s.st20_frames f)) 0] ∧
    (rv_frame_notify_meta s (s.slots 0) (s.st20_frames f)).timestamp = tmstamp ∧
    (rv_frame_notify_meta s (s.slots 0) (s.st20_frames f)).frame_recv_size = 5184000 ∧
    (rv_frame_notify_meta s (s.slots 0) (s.st20_frames f)).status =
      if redundant + 16 < 4320 then .RECONSTRUCTED else .COMPLETE := by
  obtain ⟨hs, ht, hf, hgot, hbase, hslice, hbm, hrecv, hsize, hred, hev⟩ := h
  have he : rv_pkt_end_frame s 0 = true := by
    simp only [rv_pkt_end_frame, hs.2.2.2.2.1, hs.2.2.2.2.2.1, hsize, decide_eq_true_eq]
    omega
  have hm : rv_slot_match s tmstamp = some 0 := by
    apply rv_slot_match_of_first
    · rw [hs.2.2.2.2.2.2.2.2.2.2.2.2]; decide
    · exact ht
    · intro j hj; omega
  have hfs : s.st20_frame_size ≤ rv_slot_get_frame_size (s.slots 0) := by
    rw [hs.2.2.2.2.2.1, hsize]; omega
  refine ⟨by simp [rv_pkt_finish, he], rv_slot_full_frame_done s 0 f tmstamp hm, ?_, ?_, ?_, ?_⟩
  · have hn : s.ops.notify_frame_ready f
        (rv_frame_notify_meta s (s.slots 0) (s.st20_frames f)) = 0 := by
      rw [hs.1]; rfl
    have hfs2 : s.st20_frame_size ≤
        (rv_frame_notify_meta s (s.slots 0) (s.st20_frames f)).frame_recv_size := hfs
    unfold rv_slot_full_frame rv_frame_notify
    simp only []
    rw [if_pos hfs2, if_neg (by rw [hn]; decide)]
    simp [hev, dma_inflight, hs.2.2.2.2.1]
  · simp [rv_frame_notify_meta, ht]
  · simp [rv_frame_notify_meta, hsize, hlen]
  · have hnp : s.ops.num_port = 2 := by rw [hs.1]; rfl
    simp only [rv_frame_notify_meta, rv_frame_notify_status, hfs, if_true, hnp, hred, hrecv, hlen]
    simp

theorem rv_handle_frame_pkts_cons_ret (s s1 : st_rx_video_session_impl)
    (p : rte_mbuf × Nat × Bool) (rest : List (rte_mbuf × Nat × Bool)) (code : Int)
    (h : rv_handle_frame_pkt s p.1 p.2.1 p.2.2 = .ret code s1) :
    rv_handle_frame_pkts s (p :: rest) =
      (code :: (rv_handle_frame_pkts s1 rest).1, (rv_handle_frame_pkts s1 rest).2) := by
  simp [rv_handle_frame_pkts, h]

theorem pkts_1080p_tmstamp (tmstamp seq_base : Nat) (arrivals : List (Nat × Nat)) :
    ∀ p ∈ pkts_1080p tmstamp seq_base arrivals, p.1.tmstamp % U32 = tmstamp % U32 := by
  intro p hp
  obtain ⟨a, -, rfl⟩ := List.mem_map.mp hp
  rfl

theorem range_subset_length (n : Nat) (seen : List Nat) (h : ∀ k, k < n → k ∈ seen) :
    n ≤ seen.length := by
  have hsub : List.range n ⊆ seen := fun k hk => h k (List.mem_range.mp hk)
  have := (List.subperm_of_subset (List.nodup_range n) hsub).length_le
  simpa using this

/-- The rest of a frame in progress: once every packet index has arrived the frame
is notified exactly once, and the status is RECONSTRUCTED when fewer than
4304 duplicates can have been counted. -/
theorem frame_in_progress_run (tmstamp seq_base f : Nat) (arrivals : List (Nat × Nat)) :
    ∀ (s : st_rx_video_session_impl) (seen : List Nat) (redundant : Nat),
      frame_in_progress s (tmstamp % U32) (seq_base % U32) f seen redundant →
      seen.length < 4320 →
      (∀ a ∈ arrivals, a.1 < 4320) →
      (∀ k, k < 4320 → k ∈ seen ∨ k ∈ arrivals.map Prod.fst) →
      ∃ m,
        (rv_handle_frame_pkts s (pkts_1080p tmstamp seq_base arrivals)).1.length =
          arrivals.length ∧
        (rv_handle_frame_pkts s (pkts_1080p tmstamp seq_base arrivals)).2.events =
          [rx_event.notify_frame_ready f m 0] ∧
        m.timestamp = tmstamp % U32 ∧ m.frame_recv_size = 5184000 ∧
        (redundant + seen.length + arrivals.length + 16 < 8640 →
          m.status = .RECONSTRUCTED) := by
  induction arrivals with
  | nil =>
    intro s seen redundant _ hlen _ hcover
    have := range_subset_length 4320 seen (fun k hk => by simpa using hcover k hk)
    omega
  | cons a rest ih =>
    intro s seen redundant h hlen harr hcover
    have hk : a.1 < 4320 := harr a (List.mem_cons_self _ _)
    have hrest : ∀ b ∈ rest, b.1 < 4320 := fun b hb => harr b (List.mem_cons_of_mem _ hb)
    have hcons : pkts_1080p tmstamp seq_base (a :: rest) =
        (pkt_1080p tmstamp seq_base a.1, a.2, true) :: pkts_1080p tmstamp seq_base rest := rfl
    rw [hcons]
    by_cases hseen : a.1 ∈ seen
    · obtain ⟨s2, hret, h2⟩ :=
        frame_in_progress_redundant s tmstamp seq_base a.1 a.2 f seen redundant h hk hseen
      rw [rv_handle_frame_pkts_cons_ret s s2 _ _ 0 hret]
      obtain ⟨m, hc, he, hts, hsz, hst⟩ := ih s2 seen (redundant + 1) h2 hlen hrest (by
        intro k hk4
        rcases hcover k hk4 with hin | hin
        · exact Or.inl hin
        · simp only [List.map_cons, List.mem_cons] at hin
          rcases hin with hin | hin
          · exact Or.inl (hin ▸ hseen)
          · exact Or.inr hin)
      refine ⟨m, by simp [hc], he, hts, hsz, ?_⟩
      intro hcount
      apply hst
      simp only [List.length_cons] at hcount
      omega
    · obtain ⟨s3, hret, h3⟩ :=
        frame_in_progress_accept s tmstamp seq_base a.1 a.2 f seen redundant h hk hseen
      rw [rv_handle_frame_pkts_cons_ret s _ _ _ 0 hret]
      by_cases hfull : seen.length + 1 < 4320
      · rw [frame_in_progress_not_full s3 _ _ f (a.1 :: seen) redundant h3 (by simpa using hfull)]
        obtain ⟨m, hc, he, hts, hsz, hst⟩ := ih s3 (a.1 :: seen) redundant h3
          (by simpa using hfull) hrest (by
            intro k hk4
            rcases hcover k hk4 with hin | hin
            · exact Or.inl (List.mem_cons_of_mem _ hin)
            · simp only [List.map_cons, List.mem_cons] at hin
              rcases hin with hin | hin
              · exact Or.inl (hin ▸ List.mem_cons_self _ _)
              · exact Or.inr hin)
        refine ⟨m, by simp [hc], he, hts, hsz, ?_⟩
        intro hcount
        apply hst
        simp only [List.length_cons] at hcount ⊢
        omega
      · have hlen2 : (a.1 :: seen).length = 4320 := by simp only [List.length_cons]; omega
        obtain ⟨hfin, hdone, hev, hts, hsz, hst⟩ :=
          frame_in_progress_full s3 _ _ f (a.1 :: seen) redundant h3 hlen2
        rw [hfin]
        obtain ⟨hc, -, st, hstate⟩ := rv_handle_frame_pkts_frame_done (tmstamp % U32)
          (pkts_1080p tmstamp seq_base rest) _ hdone (pkts_1080p_tmstamp tmstamp seq_base rest)
        refine ⟨_, ?_, ?_, hts, hsz, ?_⟩
        · have hl : (pkts_1080p tmstamp seq_base rest).length = rest.length := by
            simp [pkts_1080p]
          simp only [List.length_cons, hc, hl]
        · rw [hstate]; exact hev
        · intro hcount
          rw [hst, if_pos]
          simp only [List.length_cons] at hcount hlen2
          omega

/-- One frame on the fresh two-port session: whatever the arrival order, once every
packet index 0..4319 has arrived at least once the frame is notified exactly
once, every packet is answered, and the status is RECONSTRUCTED when fewer
than 8624 packets arrived in all. -/
theorem session_1080p_two_port_run (tmstamp seq_base : Nat) (arrivals : List (Nat × Nat))
    (ht : tmstamp % U32 ≠ 0) (harr : ∀ a ∈ arrivals, a.1 < 4320)
    (hcover : ∀ k, k < 4320 → k ∈ arrivals.map Prod.fst) :
    ∃ m,
      (rv_handle_frame_pkts session_1080p_two_port
        (pkts_1080p tmstamp seq_base arrivals)).1.length = arrivals.length ∧
      (rv_handle_frame_pkts session_1080p_two_port
        (pkts_1080p tmstamp seq_base arrivals)).2.events =
          [rx_event.notify_frame_ready 0 m 0] ∧
      m.timestamp = tmstamp % U32 ∧ m.frame_recv_size = 5184000 ∧
      (arrivals.length + 16 < 8640 → m.status = .RECONSTRUCTED) := by
  cases arrivals with
  | nil =>
    have := hcover 0 (by decide)
    simp at this
  | cons a rest =>
    have hk : a.1 < 4320 := harr a (List.mem_cons_self _ _)
    have hrest : ∀ b ∈ rest, b.1 < 4320 := fun b hb => harr b (List.mem_cons_of_mem _ hb)
    have hcons : pkts_1080p tmstamp seq_base (a :: rest) =
        (pkt_1080p tmstamp seq_base a.1, a.2, true) :: pkts_1080p tmstamp seq_base rest := rfl
    obtain ⟨h2, hs, hts, hf, hgot, hslice, hbm, hrecv, hsize, hred, hev⟩ :=
      session_1080p_two_port_recycle (tmstamp % U32)
    have hlookup : rv_slot_by_tmstamp session_1080p_two_port
        ((pkt_1080p tmstamp seq_base a.1).tmstamp % U32) none =
        ((rv_slot_recycle session_1080p_two_port (tmstamp % U32) none).1, some 0) := by
      show rv_slot_by_tmstamp session_1080p_two_port (tmstamp % U32) none = _
      rw [session_1080p_two_port_lookup (tmstamp % U32) ht]
      exact Prod.ext rfl h2
    have hto := rv_handle_frame_pkt_to_slot session_1080p_two_port
      (pkt_1080p tmstamp seq_base a.1) a.2 true _ 0 0 rfl rfl hlookup hf
    obtain ⟨s3, hret, h3⟩ := frame_fresh_first _ tmstamp seq_base a.1 0 hs
      hts hf hgot hslice hbm hrecv hsize hred hev hk
    rw [hret] at hto
    rw [hcons, rv_handle_frame_pkts_cons_ret _ _ _ _ 0 hto,
      frame_in_progress_not_full s3 _ _ 0 [a.1] 0 h3 (by simp)]
    obtain ⟨m, hc, he, hmts, hsz, hst⟩ := frame_in_progress_run tmstamp seq_base 0 rest s3
      [a.1] 0 h3 (by simp) hrest (by
        intro k hk4
        have hin := hcover k hk4
        simp only [List.map_cons, List.mem_cons] at hin
        rcases hin with hin | hin
        · exact Or.inl (by simp [hin])
        · exact Or.inr hin)
    refine ⟨m, by simp [hc], he, hmts, hsz, ?_⟩
    intro hcount
    apply hst
    simp only [List.length_cons, List.length_nil] at hcount ⊢
    omega

theorem arrivals_port0_loss_length (lost : List Nat) (hn : lost.Nodup)
    (hl : ∀ k ∈ lost, k < 4320) :
    (arrivals_port0_loss lost).length + lost.length = 8640 := by
  have h1 := @List.length_eq_length_filter_add Nat (List.range 4320) (fun k => decide (k ∉ lost))
  have h2 : ((List.range 4320).filter (fun k => !decide (k ∉ lost))).length = lost.length := by
    apply List.Perm.length_eq
    rw [List.perm_ext_iff_of_nodup ((List.nodup_range 4320).filter _) hn]
    intro k
    simp only [List.mem_filter, List.mem_range, Bool.not_eq_true', decide_eq_false_iff_not,
      not_not]
    exact ⟨fun h => h.2, fun h => ⟨hl k h, h⟩⟩
  simp only [arrivals_port0_loss, List.length_append, List.length_map, List.length_range]
  simp only [List.length_range] at h1
  omega

theorem arrivals_port0_loss_mem (lost : List Nat) (arrivals : List (Nat × Nat))
    (hperm : arrivals.Perm (arrivals_port0_loss lost)) :
    (∀ a ∈ arrivals, a.1 < 4320) ∧ (∀ k, k < 4320 → k ∈ arrivals.map Prod.fst) := by
  constructor
  · intro a ha
    have hm := hperm.mem_iff.mp ha
    simp only [arrivals_port0_loss, List.mem_append, List.mem_map, List.mem_filter,
      List.mem_range] at hm
    rcases hm with ⟨k, ⟨hk, -⟩, rfl⟩ | ⟨k, hk, rfl⟩
    · exact hk
    · exact hk
  · intro k hk
    apply List.mem_map.mpr
    refine ⟨(k, 1), hperm.mem_iff.mpr ?_, rfl⟩
    simp only [arrivals_port0_loss, List.mem_append, List.mem_map, List.mem_range]
    exact Or.inr ⟨k, hk, rfl⟩

/-- Claim C4, amended.  On the fresh two-port 1080p session (frame size 5184000,
4320 packets of 1200 payload bytes), take a frame with a non-zero timestamp of
which 43 distinct packets are lost on port 0 and delivered by port 1 only, while
every other packet arrives on both ports, in any arrival order, each packet
handed to `rv_handle_frame_pkt` by the dispatch loop of a session without packet
lcore.  Every packet is answered, the frame is notified exactly once, with the
full received size, and its status is RECONSTRUCTED (not COMPLETE): at most 4277
duplicates are counted and 4277 + 16 < 4320. -/
theorem two_port_loss_frame_reconstructed (tmstamp seq_base : Nat) (lost : List Nat)
    (arrivals : List (Nat × Nat)) (ht : tmstamp % U32 ≠ 0) (hnodup : lost.Nodup)
    (hlost : ∀ k ∈ lost, k < 4320) (hlen : lost.length = 43)
    (hperm : arrivals.Perm (arrivals_port0_loss lost)) :
    ∃ m,
      (rv_handle_frame_pkts session_1080p_two_port
        (pkts_1080p tmstamp seq_base arrivals)).1.length = arrivals.length ∧
      (rv_handle_frame_pkts session_1080p_two_port
        (pkts_1080p tmstamp seq_base arrivals)).2.events =
          [rx_event.notify_frame_ready 0 m 0] ∧
      m.timestamp = tmstamp % U32 ∧ m.frame_recv_size = 5184000 ∧
      m.status = .RECONSTRUCTED := by
  obtain ⟨harr, hcover⟩ := arrivals_port0_loss_mem lost arrivals hperm
  obtain ⟨m, hc, he, hts, hsz, hst⟩ :=
    session_1080p_two_port_run tmstamp seq_base arrivals ht harr hcover
  refine ⟨m, hc, he, hts, hsz, hst ?_⟩
  have h1 := arrivals_port0_loss_length lost hnodup hlost
  have h2 := hperm.length_eq
  omega

/-- Witness of C4: timestamp 1500, sequence base 0, the packets 0..42 lost on port 0,
port 0 handled before port 1. -/
theorem two_port_loss_frame_reconstructed_witness :
    ∃ m,
      (rv_handle_frame_pkts session_1080p_two_port
        (pkts_1080p 1500 0 (arrivals_port0_loss (List.range 43)))).1.length =
          (arrivals_port0_loss (List.range 43)).length ∧
      (rv_handle_frame_pkts session_1080p_two_port
        (pkts_1080p 1500 0 (arrivals_port0_loss (List.range 43)))).2.events =
          [rx_event.notify_frame_ready 0 m 0] ∧
      m.timestamp = 1500 % U32 ∧ m.frame_recv_size = 5184000 ∧
      m.status = .RECONSTRUCTED :=
  two_port_loss_frame_reconstructed 1500 0 (List.range 43) (arrivals_port0_loss (List.range 43))
    (by decide) (List.nodup_range 43) (fun k hk => by
      have := List.mem_range.mp hk
      omega) (List.length_range 43) (List.Perm.refl _)

/-- Counterexample to C4 as stated: the frame with timestamp 3000 whose last 43
packets (4277..4319) are lost on port 0, port 1 handled before port 0.  All
8597 packets are answered and the single notification of the frame carries
RECONSTRUCTED, which is not COMPLETE. -/
theorem two_port_loss_frame_not_complete :
    ∃ m,
      (rv_handle_frame_pkts session_1080p_two_port
        (pkts_1080p 3000 0
          ((List.range 4320).map (fun k => (k, 1)) ++
            (List.range 4277).map (fun k => (k, 0))))).2.events =
          [rx_event.notify_frame_ready 0 m 0] ∧
      m.status = .RECONSTRUCTED ∧ m.status ≠ .COMPLETE := by
  obtain ⟨m, -, he, -, -, hst⟩ := session_1080p_two_port_run 3000 0
    ((List.range 4320).map (fun k => (k, 1)) ++ (List.range 4277).map (fun k => (k, 0)))
    (by decide)
    (by
      intro a ha
      simp only [List.mem_append, List.mem_map, List.mem_range] at ha
      rcases ha with ⟨k, hk, rfl⟩ | ⟨k, hk, rfl⟩
      · exact hk
      · show k < 4320
        omega)
    (by
      intro k hk
      apply List.mem_map.mpr
      refine ⟨(k, 1), ?_, rfl⟩
      simp only [List.mem_append, List.mem_map, List.mem_range]
      exact Or.inl ⟨k, hk, rfl⟩)
  have hs : m.status = .RECONSTRUCTED := hst (by
    simp only [List.length_append, List.length_map, List.length_range]
    decide)
  exact ⟨m, he, hs, by rw [hs]; decide⟩

/-! ## ST 2110-22 frame with boxes -/

theorem st22_pkt_counter_eq (tmstamp seq_base n P L : Nat) (codestream : Nat → List Nat)
    (j : Nat) (hj : j < 65536) :
    st22_pkt_counter (st22_pkt tmstamp seq_base n P L codestream j) = j := by
  simp only [st22_pkt_counter, st22_pkt, U16]
  omega

theorem st22_payload_length_eq (s : st_rx_video_session_impl)
    (tmstamp seq_base n P L : Nat) (codestream : Nat → List Nat) (j : Nat)
    (hs : s.st22_hdr_size = 58) (hlen : st22_pkt_len n P L j + 58 < 65536) :
    st22_payload_length s (st22_pkt tmstamp seq_base n P L codestream j) =
      st22_pkt_len n P L j := by
  simp only [st22_payload_length, st22_pkt, U16, hs]
  omega

theorem rv_st22_seq_pkt_idx_eq (seq_base j : Nat) (hj : j < 65536) :
    rv_st22_seq_pkt_idx ((seq_base + j) % 65536 % U16) (seq_base % 65536) = (j : Int) := by
  simp only [rv_st22_seq_pkt_idx, U16]
  split_ifs <;> omega

theorem rv_parse_st22_boxes_16_20 (codestream : List Nat) :
    rv_parse_st22_boxes (st22_boxes_16_20 ++ codestream) = some 36 := by
  simp [rv_parse_st22_boxes, st22_box_tbox, st22_box_lbox, st22_boxes_16_20, U32]

theorem rv_handle_st22_pkt_to_slot (s : st_rx_video_session_impl) (mbuf : st22_mbuf)
    (s_port : Nat) (ctrl_thread : Bool) (s1 : st_rx_video_session_impl) (i : Nat)
    (hpt : mbuf.payload_type % 256 = s.ops.payload_type) (hk : mbuf.kmode = false)
    (hlookup : rv_slot_by_tmstamp s (mbuf.tmstamp % U32) none = (s1, some i)) :
    rv_handle_st22_pkt s mbuf s_port ctrl_thread = rv_handle_st22_pkt_slot s1 mbuf i := by
  simp [rv_handle_st22_pkt, hpt, hk, hlookup]

theorem rv_handle_st22_pkt_slot_accept (s : st_rx_video_session_impl) (mbuf : st22_mbuf)
    (i : Nat) (hgot : (s.slots i).seq_id_got = true)
    (hlen : mbuf.marker = true ∨ st22_payload_length s mbuf = (s.slots i).st22_payload_length)
    (hidx0 : 0 ≤ rv_st22_seq_pkt_idx (mbuf.seq_number % U16) (s.slots i).seq_id_base)
    (hidx1 : to_size_t (rv_st22_seq_pkt_idx (mbuf.seq_number % U16) (s.slots i).seq_id_base)
      < s.st20_frame_bitmap_size * 8)
    (hset : rv_st22_seq_pkt_idx (mbuf.seq_number % U16) (s.slots i).seq_id_base
      ∉ (s.slots i).frame_bitmap) :
    rv_handle_st22_pkt_slot s mbuf i =
      rv_handle_st22_pkt_place
        { s with
          slots := Function.update s.slots i
            { s.slots i with
              frame_bitmap :=
                rv_st22_seq_pkt_idx (mbuf.seq_number % U16) (s.slots i).seq_id_base ::
                  (s.slots i).frame_bitmap } }
        mbuf i := by
  unfold rv_handle_st22_pkt_slot
  have h1 : (!mbuf.marker && decide (st22_payload_length s mbuf ≠
      (s.slots i).st22_payload_length)) = false := by
    rcases hlen with h | h
    · simp [h]
    · simp [h]
  simp only []
  rw [if_pos hgot, h1]
  simp [Int.not_lt.mpr hidx0, Nat.not_le.mpr hidx1, mt_bitmap_test_and_set, hset]

theorem rv_handle_st22_pkt_slot_first (s : st_rx_video_session_impl) (mbuf : st22_mbuf)
    (i box_hdr_length : Nat) (hgot : (s.slots i).seq_id_got = false)
    (hctr : st22_pkt_counter mbuf = 0) (hflag : s.st22_flag_disable_boxes = false)
    (hbox : rv_parse_st22_boxes mbuf.payload = some box_hdr_length)
    (hset : (0 : Int) ∉ (s.slots i).frame_bitmap) :
    rv_handle_st22_pkt_slot s mbuf i =
      rv_handle_st22_pkt_place
        { s with
          slots := Function.update s.slots i
            { s.slots i with
              st22_box_hdr_length := box_hdr_length
              seq_id_base := to_uint16 ((mbuf.seq_number % U16 : Nat) : Int)
              st22_payload_length := st22_payload_length s mbuf
              seq_id_got := true
              frame_bitmap := 0 :: (s.slots i).frame_bitmap } }
        mbuf i := by
  unfold rv_handle_st22_pkt_slot
  simp [hgot, hctr, hflag, hbox, mt_bitmap_test_and_set, hset]

theorem rv_handle_st22_pkt_place_ok (s : st_rx_video_session_impl) (mbuf : st22_mbuf)
    (i f : Nat) (hf : (s.slots i).frame = some f)
    (hfit : (rv_st22_offset (s.slots i) (st22_pkt_counter mbuf) +
      rv_st22_copy_length (s.slots i) (st22_pkt_counter mbuf) (st22_payload_length s mbuf)) % U32
        ≤ s.st20_frame_size) :
    rv_handle_st22_pkt_place s mbuf i =
      rv_st22_pkt_finish
        (rv_st22_expect_size
          (rv_st22_pkt_copy s mbuf i f (rv_st22_offset (s.slots i) (st22_pkt_counter mbuf))
            (if st22_pkt_counter mbuf = 0 then (s.slots i).st22_box_hdr_length else 0)
            (rv_st22_copy_length (s.slots i) (st22_pkt_counter mbuf)
              (st22_payload_length s mbuf)))
          mbuf.marker (rv_st22_offset (s.slots i) (st22_pkt_counter mbuf))
          (rv_st22_copy_length (s.slots i) (st22_pkt_counter mbuf)
            (st22_payload_length s mbuf))) i f := by
  unfold rv_handle_st22_pkt_place
  simp only [hf]
  rw [if_neg (Nat.not_lt.mpr hfit)]

theorem rv_st22_offset_eq (slot : st_rx_video_slot_impl) (a P : Nat) (ha : 1 ≤ a)
    (hP : slot.st22_payload_length = P) (hb : slot.st22_box_hdr_length = 36)
    (h36 : 36 ≤ a * P) (h32 : a * P - 36 < U32) :
    rv_st22_offset slot a = a * P - 36 := by
  have ha0 : a ≠ 0 := by omega
  simp only [rv_st22_offset, ha0, if_false, hP, hb, to_uint32]
  have h1 : ((a : Int) * (P : Int) - ((36 : Nat) : Int)) = ((a * P - 36 : Nat) : Int) := by
    push_cast [Nat.cast_sub h36]
    ring
  rw [h1]
  simp only [U32] at h32
  generalize a * P - 36 = x at h32
  omega

theorem rv_st22_copy_length_eq (slot : st_rx_video_slot_impl) (a len : Nat) (ha : 1 ≤ a) :
    rv_st22_copy_length slot a len = len := by
  have ha0 : a ≠ 0 := by omega
  simp [rv_st22_copy_length, ha0]

theorem rv_st22_pkt_copy_expect_fields (s : st_rx_video_session_impl) (mbuf : st22_mbuf)
    (i f offset skip len : Nat) (marker : Bool) :
    (rv_st22_expect_size (rv_st22_pkt_copy s mbuf i f offset skip len) marker offset len).ops
      = s.ops ∧
    (rv_st22_expect_size (rv_st22_pkt_copy s mbuf i f offset skip len) marker offset
      len).st22_hdr_size = s.st22_hdr_size ∧
    (rv_st22_expect_size (rv_st22_pkt_copy s mbuf i f offset skip len) marker offset
      len).slot_max = s.slot_max ∧
    (rv_st22_expect_size (rv_st22_pkt_copy s mbuf i f offset skip len) marker offset
      len).st20_frame_size = s.st20_frame_size ∧
    (rv_st22_expect_size (rv_st22_pkt_copy s mbuf i f offset skip len) marker offset
      len).st20_frame_bitmap_size = s.st20_frame_bitmap_size ∧
    (rv_st22_expect_size (rv_st22_pkt_copy s mbuf i f offset skip len) marker offset
      len).events = s.events ∧
    (rv_st22_expect_size (rv_st22_pkt_copy s mbuf i f offset skip len) marker offset
      len).slots i =
        { rv_slot_add_frame_size (s.slots i) len with
          pkts_received := (s.slots i).pkts_received + 1 } ∧
    (rv_st22_expect_size (rv_st22_pkt_copy s mbuf i f offset skip len) marker offset
      len).st22_expect_frame_size =
        (if marker then (offset + len) % U32 else s.st22_expect_frame_size) := by
  cases marker <;>
    simp [rv_st22_expect_size, rv_st22_pkt_copy, frame_memcpy, rv_slot_add_frame_size]

theorem st22_frame_in_progress_step (s : st_rx_video_session_impl)
    (tmstamp seq_base n P L f a s_port : Nat) (ctrl_thread : Bool)
    (codestream : Nat → List Nat) (rest : List Nat)
    (h : st22_frame_in_progress s (tmstamp % U32) (seq_base % 65536) n P L f (a :: rest))
    (ha1 : 1 ≤ a) (han : a ≤ n) (harest : a ∉ rest) (hn16 : n < 65536) (hP : 36 ≤ P)
    (hP16 : P + 58 < 65536) (hL16 : L + 58 < 65536) :
    ∃ s3, rv_handle_st22_pkt s (st22_pkt tmstamp seq_base n P L codestream a) s_port
        ctrl_thread = rv_st22_pkt_finish s3 0 f ∧
      st22_frame_in_progress s3 (tmstamp % U32) (seq_base % 65536) n P L f rest := by
  obtain ⟨hpt, hhdr, hmax, hF32, hfit, hbits, ht, hf, hgot, hbase, hplen, hbox, hbm, hsize,
    hexp, hev⟩ := h
  have hm : rv_slot_match s ((st22_pkt tmstamp seq_base n P L codestream a).tmstamp % U32)
      = some 0 := by
    apply rv_slot_match_of_first
    · rw [hmax]; decide
    · exact ht
    · intro j hj; omega
  have hctr := st22_pkt_counter_eq tmstamp seq_base n P L codestream a (by omega)
  have hlen16 : st22_pkt_len n P L a + 58 < 65536 := by
    unfold st22_pkt_len; split_ifs <;> omega
  have hpl := st22_payload_length_eq s tmstamp seq_base n P L codestream a hhdr hlen16
  have hidx : rv_st22_seq_pkt_idx ((st22_pkt tmstamp seq_base n P L codestream a).seq_number
      % U16) (s.slots 0).seq_id_base = (a : Int) := by
    rw [hbase]; exact rv_st22_seq_pkt_idx_eq seq_base a (by omega)
  -- arithmetic on the offsets
  have h1 : P ≤ a * P := Nat.le_mul_of_pos_left P (by omega)
  have h2 : a * P ≤ n * P := Nat.mul_le_mul_right P han
  have h3 : a ≠ n → a * P + P ≤ n * P := by
    intro hne
    have : (a + 1) * P ≤ n * P := Nat.mul_le_mul_right P (by omega)
    rw [Nat.succ_mul] at this
    exact this
  have h36 : 36 ≤ a * P := by omega
  have hlenle : a * P - 36 + st22_pkt_len n P L a ≤ n * P + L - 36 := by
    unfold st22_pkt_len
    split_ifs with hn
    · subst hn
      generalize a * P = x at h36 ⊢
      omega
    · have := h3 hn
      generalize a * P = x at h36 this ⊢
      generalize n * P = y at this ⊢
      omega
  simp only [U32] at hF32
  have hfit2 : a * P - 36 + st22_pkt_len n P L a ≤ s.st20_frame_size := le_trans hlenle hfit
  have hoff32 : a * P - 36 < 4294967296 := by
    generalize a * P - 36 = x at hfit2
    omega
  rw [rv_handle_st22_pkt_to_slot s _ s_port ctrl_thread s 0 (by rw [hpt]; rfl) rfl
    (rv_slot_by_tmstamp_match s _ 0 none hm)]
  rw [rv_handle_st22_pkt_slot_accept s _ 0 hgot
    (by
      by_cases hn : a = n
      · left; simp [st22_pkt, hn]
      · right; rw [hpl, hplen]; simp [st22_pkt_len, hn])
    (by rw [hidx]; omega)
    (by rw [hidx]; simp only [to_size_t]; omega)
    (by rw [hidx]; exact hbm a (List.mem_cons_self _ _))]
  rw [hidx]
  have hoff : rv_st22_offset
      { s.slots 0 with frame_bitmap := (a : Int) :: (s.slots 0).frame_bitmap } a = a * P - 36 :=
    rv_st22_offset_eq _ a P ha1 hplen hbox h36 hoff32
  have hpl2 : st22_payload_length
      { s with
        slots := Function.update s.slots 0
          { s.slots 0 with frame_bitmap := (a : Int) :: (s.slots 0).frame_bitmap } }
      (st22_pkt tmstamp seq_base n P L codestream a) = st22_pkt_len n P L a :=
    st22_payload_length_eq _ tmstamp seq_base n P L codestream a hhdr hlen16
  rw [rv_handle_st22_pkt_place_ok _ _ 0 f (by simp [hf])
    (by
      simp only [Function.update_same, hctr, hpl2]
      rw [hoff, rv_st22_copy_length_eq _ a _ ha1]
      have hlt : a * P - 36 + st22_pkt_len n P L a < U32 := by
        simp only [U32]
        generalize a * P - 36 + st22_pkt_len n P L a = x at hfit2
        omega
      rw [Nat.mod_eq_of_lt hlt]
      exact hfit2)]
  simp only [Function.update_same, hctr, hpl2]
  rw [hoff, rv_st22_copy_length_eq _ a _ ha1]
  refine ⟨_, rfl, ?_⟩
  have E := rv_st22_pkt_copy_expect_fields
    { s with
      slots := Function.update s.slots 0
        { s.slots 0 with frame_bitmap := (a : Int) :: (s.slots 0).frame_bitmap } }
    (st22_pkt tmstamp seq_base n P L codestream a) 0 f (a * P - 36)
    (if a = 0 then (s.slots 0).st22_box_hdr_length else 0) (st22_pkt_len n P L a)
    (st22_pkt tmstamp seq_base n P L codestream a).marker
  generalize hs3 : rv_st22_expect_size _ _ _ _ = s3
  rw [hs3] at E
  obtain ⟨e1, e2, e3, e4, e5, e6, e7, e8⟩ := E
  simp only [Function.update_same] at e7
  have hsum : (List.map (st22_pkt_len n P L) (a :: rest)).sum =
      st22_pkt_len n P L a + (List.map (st22_pkt_len n P L) rest).sum := by simp
  rw [hsum] at hsize
  refine ⟨by rw [e1]; exact hpt, by rw [e2]; exact hhdr, by rw [e3]; exact hmax,
    by rw [e4]; simpa [U32] using hF32, by rw [e4]; exact hfit, by rw [e5]; exact hbits,
    by rw [e7]; exact ht, by rw [e7]; exact hf, by rw [e7]; exact hgot, by rw [e7]; exact hbase,
    by rw [e7]; exact hplen, by rw [e7]; exact hbox, ?_, ?_, ?_, by rw [e6]; exact hev⟩
  · intro j hj
    rw [e7]
    simp only [rv_slot_add_frame_size, List.mem_cons, not_or]
    refine ⟨?_, hbm j (List.mem_cons_of_mem _ hj)⟩
    intro hja
    have : j = a := by exact_mod_cast hja
    exact harest (this ▸ hj)
  · rw [e7]
    simp only [rv_slot_get_frame_size, rv_slot_add_frame_size] at hsize ⊢
    omega
  · rw [e8]
    by_cases hn : a = n
    · subst hn
      have hnr : a ∉ rest := harest
      simp only [st22_pkt, decide_True, if_true, st22_pkt_len, if_neg hnr]
      have hlt : a * P - 36 + L < U32 := by
        simp only [st22_pkt_len, if_true] at hfit2
        simp only [U32]
        generalize a * P - 36 + L = x at hfit2
        omega
      rw [Nat.mod_eq_of_lt hlt]
      generalize a * P = x at h36 ⊢
      omega
    · have hmk : (st22_pkt tmstamp seq_base n P L codestream a).marker = false := by
        simp [st22_pkt, hn]
      rw [hmk]
      simp only [Bool.false_eq_true, if_false]
      show s.st22_expect_frame_size = _
      rw [hexp]
      have hne : n ≠ a := fun h => hn h.symm
      simp [List.mem_cons, hne]

theorem st22_pkt_len_pos (n P L j : Nat) (hP : 36 ≤ P) (hL : 0 < L) :
    0 < st22_pkt_len n P L j := by
  unfold st22_pkt_len
  split_ifs <;> omega

/-- While packets are still to come the completion check does not fire. -/
theorem st22_frame_in_progress_not_full (s : st_rx_video_session_impl)
    (tmstamp seq_base n P L f a : Nat) (rest : List Nat)
    (h : st22_frame_in_progress s tmstamp seq_base n P L f (a :: rest))
    (hP : 36 ≤ P) (hL : 0 < L) :
    rv_st22_pkt_finish s 0 f = .ret 0 s := by
  obtain ⟨-, -, -, -, -, -, -, -, -, -, -, -, -, hsize, hexp, -⟩ := h
  have hpos := st22_pkt_len_pos n P L a hP hL
  have hsum : (List.map (st22_pkt_len n P L) (a :: rest)).sum =
      st22_pkt_len n P L a + (List.map (st22_pkt_len n P L) rest).sum := by simp
  rw [hsum] at hsize
  unfold rv_st22_pkt_finish
  rw [if_neg]
  rw [hexp]
  intro hc
  by_cases hn : n ∈ a :: rest
  · rw [if_pos hn] at hc
    exact hc.1 rfl
  · rw [if_neg hn] at hc
    omega

/-- With no packet left the completion check fires: the frame is notified as
COMPLETE with the received size. -/
theorem st22_frame_in_progress_full (s : st_rx_video_session_impl)
    (tmstamp seq_base n P L f : Nat)
    (h : st22_frame_in_progress s tmstamp seq_base n P L f [])
    (hpos : 0 < n * P + L - 36) :
    rv_st22_pkt_finish s 0 f = .ret 0 (rv_st22_slot_full_frame s 0 f) ∧
    (rv_st22_slot_full_frame s 0 f).events =
      [rx_event.st22_notify_frame_ready f
        { timestamp := tmstamp, frame_total_size := n * P + L - 36, status := .COMPLETE }] := by
  obtain ⟨-, -, -, -, -, -, ht, -, -, -, -, -, -, hsize, hexp, hev⟩ := h
  simp only [List.map_nil, List.sum_nil, Nat.add_zero] at hsize
  simp only [List.not_mem_nil, if_false] at hexp
  constructor
  · unfold rv_st22_pkt_finish
    rw [if_pos]
    rw [hexp, hsize]
    exact ⟨by omega, rfl⟩
  · unfold rv_st22_slot_full_frame rv_st22_frame_notify
    simp only [st_is_frame_complete, if_true, rv_put_frame]
    split_ifs <;> simp [hev, ht, hsize]

theorem st22_pkt_len_sum (n P L : Nat) (hn : 1 ≤ n) :
    ((List.range' 1 n).map (st22_pkt_len n P L)).sum = (n - 1) * P + L := by
  obtain ⟨m, rfl⟩ : ∃ m, n = m + 1 := ⟨n - 1, by omega⟩
  rw [List.range'_1_concat, List.map_append, List.sum_append]
  have h1 : (List.range' 1 m).map (st22_pkt_len (m + 1) P L) =
      (List.range' 1 m).map (fun _ => P) := by
    apply List.map_congr_left
    intro j hj
    have := (List.mem_range'_1.mp hj).2
    simp only [st22_pkt_len]
    rw [if_neg (by omega)]
  rw [h1]
  have h2 : st22_pkt_len (m + 1) P L (1 + m) = L := by
    simp only [st22_pkt_len]
    rw [if_pos (by omega)]
  simp [h2]

theorem session_st22_lookup (framebuff_max_size tmstamp : Nat) (h0 : tmstamp ≠ 0) :
    rv_slot_by_tmstamp (session_st22 framebuff_max_size) tmstamp none =
      ((rv_slot_recycle (session_st22 framebuff_max_size) tmstamp none).1, some 0) := by
  have hm : rv_slot_match (session_st22 framebuff_max_size) tmstamp = none := by
    show (List.range 1).find?
      (fun i => tmstamp == ((session_st22 framebuff_max_size).slots i).tmstamp) = none
    rw [List.find?_eq_none]
    intro i hi
    have hi0 : i = 0 := by simpa using hi
    subst hi0
    show ¬ ((tmstamp == 0) = true)
    simpa using h0
  have hb : dma_busy (session_st22 framebuff_max_size) = false := rfl
  have h2 : (rv_slot_recycle (session_st22 framebuff_max_size) tmstamp none).2 = some 0 := rfl
  simp only [rv_slot_by_tmstamp, hm, hb, Bool.false_eq_true, if_false]
  exact Prod.ext rfl h2

theorem session_st22_recycle (framebuff_max_size tmstamp : Nat) :
    (rv_slot_recycle (session_st22 framebuff_max_size) tmstamp none).1.ops.payload_type = 96 ∧
    (rv_slot_recycle (session_st22 framebuff_max_size) tmstamp none).1.st22_hdr_size = 58 ∧
    (rv_slot_recycle (session_st22 framebuff_max_size) tmstamp none).1.slot_max = 1 ∧
    (rv_slot_recycle (session_st22 framebuff_max_size) tmstamp none).1.st20_frame_size =
      framebuff_max_size ∧
    (rv_slot_recycle (session_st22 framebuff_max_size) tmstamp none).1.st20_frame_bitmap_size =
      (session_st22 framebuff_max_size).st20_frame_bitmap_size ∧
    (rv_slot_recycle (session_st22 framebuff_max_size) tmstamp none).1.st22_flag_disable_boxes
      = false ∧
    (rv_slot_recycle (session_st22 framebuff_max_size) tmstamp none).1.st22_expect_frame_size
      = 0 ∧
    (rv_slot_recycle (session_st22 framebuff_max_size) tmstamp none).1.events = [] ∧
    ((rv_slot_recycle (session_st22 framebuff_max_size) tmstamp none).1.slots 0).tmstamp =
      tmstamp ∧
    ((rv_slot_recycle (session_st22 framebuff_max_size) tmstamp none).1.slots 0).frame =
      some 0 ∧
    ((rv_slot_recycle (session_st22 framebuff_max_size) tmstamp none).1.slots 0).seq_id_got =
      false ∧
    ((rv_slot_recycle (session_st22 framebuff_max_size) tmstamp none).1.slots 0).frame_bitmap =
      [] ∧
    rv_slot_get_frame_size
      ((rv_slot_recycle (session_st22 framebuff_max_size) tmstamp none).1.slots 0) = 0 :=
  ⟨rfl, rfl, rfl, rfl, rfl, rfl, rfl, rfl, rfl, rfl, rfl, rfl, rfl⟩

/-- Packet 0 on a slot that has just been recycled: the boxes are measured (36
bytes), the sequence base and the payload length are captured, and the
codestream bytes after the boxes are copied to offset 0. -/
theorem st22_frame_fresh_first (s : st_rx_video_session_impl)
    (tmstamp seq_base n P L f : Nat) (codestream : Nat → List Nat) (order : List Nat)
    (hpt : s.ops.payload_type = 96) (hhdr : s.st22_hdr_size = 58) (hmax : s.slot_max = 1)
    (hF32 : s.st20_frame_size < U32) (hfit : n * P + L - 36 ≤ s.st20_frame_size)
    (hbits : n < s.st20_frame_bitmap_size * 8) (hflag : s.st22_flag_disable_boxes = false)
    (hexp : s.st22_expect_frame_size = 0) (hev : s.events = [])
    (ht : (s.slots 0).tmstamp = tmstamp % U32) (hf : (s.slots 0).frame = some f)
    (hgot : (s.slots 0).seq_id_got = false) (hbm : (s.slots 0).frame_bitmap = [])
    (hsize : rv_slot_get_frame_size (s.slots 0) = 0)
    (hn : 1 ≤ n) (hP : 36 ≤ P) (hP16 : P + 58 < 65536)
    (hperm : order.Perm (List.range' 1 n)) :
    ∃ s3, rv_handle_st22_pkt_slot s (st22_pkt tmstamp seq_base n P L codestream 0) 0 =
        rv_st22_pkt_finish s3 0 f ∧
      st22_frame_in_progress s3 (tmstamp % U32) (seq_base % 65536) n P L f order := by
  have hctr := st22_pkt_counter_eq tmstamp seq_base n P L codestream 0 (by decide)
  have hl0 : st22_pkt_len n P L 0 = P := by
    simp only [st22_pkt_len]
    rw [if_neg (by omega)]
  have hbox : rv_parse_st22_boxes (st22_pkt tmstamp seq_base n P L codestream 0).payload =
      some 36 := by
    simp only [st22_pkt, if_true]
    exact rv_parse_st22_boxes_16_20 (codestream 0)
  have h1 : P ≤ n * P := Nat.le_mul_of_pos_left P (by omega)
  have hpl : st22_payload_length s (st22_pkt tmstamp seq_base n P L codestream 0) = P := by
    rw [st22_payload_length_eq s tmstamp seq_base n P L codestream 0 hhdr (by rw [hl0]; exact hP16),
      hl0]
  rw [rv_handle_st22_pkt_slot_first s _ 0 36 hgot hctr hflag hbox (by simp [hbm]), hpl]
  have hcopy : (P + U16 - 36 % U16) % U16 = P - 36 := by
    simp only [U16]; omega
  have hpl2 : st22_payload_length
      { s with
        slots := Function.update s.slots 0
          { s.slots 0 with
            st22_box_hdr_length := 36
            seq_id_base := to_uint16
              (((st22_pkt tmstamp seq_base n P L codestream 0).seq_number % U16 : Nat) : Int)
            st22_payload_length := P
            seq_id_got := true
            frame_bitmap := 0 :: (s.slots 0).frame_bitmap } }
      (st22_pkt tmstamp seq_base n P L codestream 0) = P := hpl
  rw [rv_handle_st22_pkt_place_ok _ _ 0 f (by simp [hf])
    (by
      simp only [Function.update_same, hctr, rv_st22_offset, rv_st22_copy_length, if_true, hpl2,
        hcopy, Nat.zero_add]
      simp only [U32] at hF32 ⊢
      have hle : P - 36 ≤ s.st20_frame_size := by
        generalize n * P = x at h1 hfit
        omega
      rw [Nat.mod_eq_of_lt (by omega)]
      exact hle)]
  simp only [Function.update_same, hctr, rv_st22_offset, rv_st22_copy_length, if_true, hpl2, hcopy]
  refine ⟨_, rfl, ?_⟩
  have E := rv_st22_pkt_copy_expect_fields
    { s with
      slots := Function.update s.slots 0
        { s.slots 0 with
          st22_box_hdr_length := 36
          seq_id_base := to_uint16
            (((st22_pkt tmstamp seq_base n P L codestream 0).seq_number % U16 : Nat) : Int)
          st22_payload_length := P
          seq_id_got := true
          frame_bitmap := 0 :: (s.slots 0).frame_bitmap } }
    (st22_pkt tmstamp seq_base n P L codestream 0) 0 f 0 36 (P - 36)
    (st22_pkt tmstamp seq_base n P L codestream 0).marker
  generalize hs3 : rv_st22_expect_size _ _ _ _ = s3
  rw [hs3] at E
  obtain ⟨e1, e2, e3, e4, e5, e6, e7, e8⟩ := E
  simp only [Function.update_same] at e7
  have hmem : ∀ j ∈ order, 1 ≤ j ∧ j ≤ n := by
    intro j hj
    have := List.mem_range'_1.mp (hperm.mem_iff.mp hj)
    omega
  have hnmem : n ∈ order := hperm.mem_iff.mpr (List.mem_range'_1.mpr ⟨hn, by omega⟩)
  have hsum : (order.map (st22_pkt_len n P L)).sum = (n - 1) * P + L := by
    rw [(hperm.map _).sum_eq, st22_pkt_len_sum n P L hn]
  have hmul : (n - 1) * P + P = n * P := by
    obtain ⟨m, rfl⟩ : ∃ m, n = m + 1 := ⟨n - 1, by omega⟩
    rw [Nat.add_sub_cancel, Nat.succ_mul]
  refine ⟨by rw [e1]; exact hpt, by rw [e2]; exact hhdr, by rw [e3]; exact hmax,
    by rw [e4]; exact hF32, by rw [e4]; exact hfit, by rw [e5]; exact hbits,
    by rw [e7]; exact ht, by rw [e7]; exact hf, by rw [e7]; rfl, ?_,
    by rw [e7]; rfl, by rw [e7]; rfl, ?_, ?_, ?_, by rw [e6]; exact hev⟩
  · rw [e7]
    simp only [rv_slot_add_frame_size, st22_pkt, to_uint16, U16, Nat.add_zero]
    omega
  · intro j hj
    rw [e7]
    simp only [rv_slot_add_frame_size, hbm, List.mem_singleton]
    have := (hmem j hj).1
    omega
  · rw [e7, hsum]
    simp only [rv_slot_get_frame_size, rv_slot_add_frame_size] at hsize ⊢
    generalize n * P = x at h1 hmul ⊢
    generalize (n - 1) * P = y at hmul ⊢
    omega
  · rw [e8]
    have hmk : (st22_pkt tmstamp seq_base n P L codestream 0).marker = false := by
      simp only [st22_pkt, decide_eq_false_iff_not]
      omega
    rw [hmk, if_pos hnmem]
    simp only [Bool.false_eq_true, if_false]
    exact hexp

theorem rv_handle_st22_pkts_cons_ret (s s1 : st_rx_video_session_impl)
    (p : st22_mbuf × Nat × Bool) (rest : List (st22_mbuf × Nat × Bool)) (code : Int)
    (h : rv_handle_st22_pkt s p.1 p.2.1 p.2.2 = .ret code s1) :
    rv_handle_st22_pkts s (p :: rest) =
      (code :: (rv_handle_st22_pkts s1 rest).1, (rv_handle_st22_pkts s1 rest).2) := by
  simp [rv_handle_st22_pkts, h]

/-- The packets after packet 0, each once and in any order: every one is accepted
with return code 0, and the last one to arrive completes the frame. -/
theorem st22_frame_in_progress_run (tmstamp seq_base n P L f : Nat)
    (codestream : Nat → List Nat) (hn16 : n < 65536) (hP : 36 ≤ P) (hP16 : P + 58 < 65536)
    (hL : 0 < L) (hL16 : L + 58 < 65536) (rest : List Nat) :
    ∀ (s : st_rx_video_session_impl),
      st22_frame_in_progress s (tmstamp % U32) (seq_base % 65536) n P L f rest →
      rest ≠ [] → rest.Nodup → (∀ j ∈ rest, 1 ≤ j ∧ j ≤ n) →
      (rv_handle_st22_pkts s (st22_pkts tmstamp seq_base n P L codestream rest)).1 =
        List.replicate rest.length 0 ∧
      (rv_handle_st22_pkts s (st22_pkts tmstamp seq_base n P L codestream rest)).2.events =
        [rx_event.st22_notify_frame_ready f
          { timestamp := tmstamp % U32, frame_total_size := n * P + L - 36,
            status := .COMPLETE }] := by
  induction rest with
  | nil => intro s _ hne; exact absurd rfl hne
  | cons a rest ih =>
    intro s h _ hnodup hmem
    have ha := hmem a (List.mem_cons_self _ _)
    have harest : a ∉ rest := (List.nodup_cons.mp hnodup).1
    have hcons : st22_pkts tmstamp seq_base n P L codestream (a :: rest) =
        (st22_pkt tmstamp seq_base n P L codestream a, 0, true) ::
          st22_pkts tmstamp seq_base n P L codestream rest := rfl
    obtain ⟨s3, hret, h3⟩ := st22_frame_in_progress_step s tmstamp seq_base n P L f a 0 true
      codestream rest h ha.1 ha.2 harest hn16 hP hP16 hL16
    rw [hcons]
    cases rest with
    | nil =>
      have hpos : 0 < n * P + L - 36 := by
        have h1 : P ≤ n * P := Nat.le_mul_of_pos_left P (by omega)
        generalize n * P = x at h1 ⊢
        omega
      obtain ⟨hfin, hev⟩ := st22_frame_in_progress_full s3 _ _ n P L f h3 hpos
      rw [hfin] at hret
      rw [rv_handle_st22_pkts_cons_ret s _ _ _ 0 hret]
      exact ⟨rfl, hev⟩
    | cons b r =>
      rw [st22_frame_in_progress_not_full s3 _ _ n P L f b r h3 hP hL] at hret
      rw [rv_handle_st22_pkts_cons_ret s _ _ _ 0 hret]
      obtain ⟨hc, he⟩ := ih s3 h3 (List.cons_ne_nil _ _) (List.nodup_cons.mp hnodup).2
        (fun j hj => hmem j (List.mem_cons_of_mem _ hj))
      refine ⟨?_, he⟩
      rw [hc]
      rfl

/-- Claim C10.  On a fresh ST 2110-22 session, take a frame with a non-zero timestamp
made of the packets 0..n (1 ≤ n): packet 0 arrives first and starts with the
boxes `jpvs` (length 16) and `colr` (length 20), every packet but the last has
payload length `P`, the last packet `n` has the marker bit and payload length `L`
(so its raw offset is `O = n * P`), and the packets 1..n arrive once each in any
order.  Provided the packets are ones the handler accepts (the boxes fit the
first packet, the lengths are 16-bit packet lengths, the last packet carries
payload, `n` is inside the bitmap window, and the `n * P + L - 36` codestream bytes
fit the frame buffer), every packet is answered with 0 and the frame is
notified exactly once, with status COMPLETE and
`frame_total_size = n * P + L - 36`. -/
theorem st22_frame_with_boxes_total_size (framebuff_max_size tmstamp seq_base n P L : Nat)
    (codestream : Nat → List Nat) (order : List Nat)
    (ht : tmstamp % U32 ≠ 0) (hF : framebuff_max_size < U32)
    (hn : 1 ≤ n) (hn16 : n < 65536)
    (hbits : n < (session_st22 framebuff_max_size).st20_frame_bitmap_size * 8)
    (hP : 36 ≤ P) (hP16 : P + 58 < 65536) (hL : 0 < L) (hL16 : L + 58 < 65536)
    (hfit : n * P + L - 36 ≤ framebuff_max_size)
    (hperm : order.Perm (List.range' 1 n)) :
    (rv_handle_st22_pkts (session_st22 framebuff_max_size)
      (st22_pkts tmstamp seq_base n P L codestream (0 :: order))).1 =
        List.replicate (n + 1) 0 ∧
    (rv_handle_st22_pkts (session_st22 framebuff_max_size)
      (st22_pkts tmstamp seq_base n P L codestream (0 :: order))).2.events =
        [rx_event.st22_notify_frame_ready 0
          { timestamp := tmstamp % U32, frame_total_size := n * P + L - 36,
            status := .COMPLETE }] := by
  have hcons : st22_pkts tmstamp seq_base n P L codestream (0 :: order) =
      (st22_pkt tmstamp seq_base n P L codestream 0, 0, true) ::
        st22_pkts tmstamp seq_base n P L codestream order := rfl
  obtain ⟨e1, e2, e3, e4, e5, e6, e7, e8, e9, e10, e11, e12, e13⟩ :=
    session_st22_recycle framebuff_max_size (tmstamp % U32)
  have hto := rv_handle_st22_pkt_to_slot (session_st22 framebuff_max_size)
    (st22_pkt tmstamp seq_base n P L codestream 0) 0 true _ 0 rfl rfl
    (session_st22_lookup framebuff_max_size (tmstamp % U32) ht)
  obtain ⟨s3, hret, h3⟩ := st22_frame_fresh_first _ tmstamp seq_base n P L 0 codestream order
    e1 e2 e3 (by rw [e4]; exact hF) (by rw [e4]; exact hfit) (by rw [e5]; exact hbits) e6 e7 e8
    e9 e10 e11 e12 e13 hn hP hP16 hperm
  rw [hret] at hto
  have hlen : order.length = n := by
    rw [hperm.length_eq, List.length_range']
  have hne : order ≠ [] := by
    intro h
    rw [h] at hlen
    simp at hlen
    omega
  obtain ⟨b, r, hbr⟩ := List.exists_cons_of_ne_nil hne
  have h3b : st22_frame_in_progress s3 (tmstamp % U32) (seq_base % 65536) n P L 0 (b :: r) := by
    rw [← hbr]; exact h3
  rw [st22_frame_in_progress_not_full s3 _ _ n P L 0 b r h3b hP hL] at hto
  rw [hcons, rv_handle_st22_pkts_cons_ret _ _ _ _ 0 hto]
  obtain ⟨hc, he⟩ := st22_frame_in_progress_run tmstamp seq_base n P L 0 codestream hn16 hP hP16
    hL hL16 order s3 h3 hne (hperm.nodup_iff.mpr (List.nodup_range' 1 n))
    (fun j hj => by
      have := List.mem_range'_1.mp (hperm.mem_iff.mp hj)
      omega)
  refine ⟨?_, he⟩
  rw [hc, hlen]
  rfl

/-- Witness of C10: a frame of three packets (two of 1200 payload bytes and a marker
packet of 500) on a session with frame buffers of 1000000 bytes, the marker
packet arriving before packet 1; the notified size is 2 * 1200 + 500 - 36 = 2864. -/
theorem st22_frame_with_boxes_total_size_witness :
    (rv_handle_st22_pkts (session_st22 1000000)
      (st22_pkts 1500 0 2 1200 500 (fun _ => []) [0, 2, 1])).1 = [0, 0, 0] ∧
    (rv_handle_st22_pkts (session_st22 1000000)
      (st22_pkts 1500 0 2 1200 500 (fun _ => []) [0, 2, 1])).2.events =
        [rx_event.st22_notify_frame_ready 0
          { timestamp := 1500, frame_total_size := 2864, status := .COMPLETE }] :=
  st22_frame_with_boxes_total_size 1000000 1500 0 2 1200 500 (fun _ => []) [2, 1]
    (by decide) (by decide) (by decide) (by decide) (by decide) (by decide) (by decide)
    (by decide) (by decide) (by decide) (by decide)

/-! ## Timing analyser windows -/

theorem rv_ebu_on_frame_ebu_info (s : st_rx_video_session_impl) (t : Nat) (a b c : Int) :
    (rv_ebu_on_frame s t a b c).ebu_info = (rv_ebu_on_frame_window s).ebu_info := rfl

theorem rv_ebu_on_frame_ebu_result (s : st_rx_video_session_impl) (t : Nat) (a b c : Int) :
    (rv_ebu_on_frame s t a b c).ebu_result = (rv_ebu_on_frame_window s).ebu_result := rfl

theorem rv_ebu_on_frame_frame_idx (s : st_rx_video_session_impl) (t : Nat) (a b c : Int) :
    (rv_ebu_on_frame s t a b c).ebu.frame_idx = (rv_ebu_on_frame_window s).ebu.frame_idx := by
  unfold rv_ebu_on_frame
  simp only []
  split_ifs <;> rfl

theorem rv_ebu_on_frame_window_open (s : st_rx_video_session_impl)
    (h : (s.ebu.frame_idx + 1) % 300 ≠ 0) :
    (rv_ebu_on_frame_window s).ebu.frame_idx = s.ebu.frame_idx + 1 ∧
    (rv_ebu_on_frame_window s).ebu_info = s.ebu_info ∧
    (rv_ebu_on_frame_window s).ebu_result = s.ebu_result := by
  unfold rv_ebu_on_frame_window
  simp [h]

theorem rv_ebu_on_frame_window_count (s : st_rx_video_session_impl)
    (h : (s.ebu.frame_idx + 1) % 300 = 0) (hd : s.ebu_info.dropped_results ≠ 0)
    (hn : ¬ s.ebu_info.dropped_results < s.ebu_result.ebu_result_num + 1) :
    (rv_ebu_on_frame_window s).ebu.frame_idx = 0 ∧
    (rv_ebu_on_frame_window s).ebu_info = s.ebu_info ∧
    (rv_ebu_on_frame_window s).ebu_result =
      { s.ebu_result with ebu_result_num := s.ebu_result.ebu_result_num + 1 } := by
  unfold rv_ebu_on_frame_window
  simp [h, hd, hn, rv_ebu_clear_result]

theorem rv_ebu_on_frame_window_reset (s : st_rx_video_session_impl)
    (h : (s.ebu.frame_idx + 1) % 300 = 0) (hd : s.ebu_info.dropped_results ≠ 0)
    (hn : s.ebu_info.dropped_results < s.ebu_result.ebu_result_num + 1) :
    (rv_ebu_on_frame_window s).ebu.frame_idx = 0 ∧
    (rv_ebu_on_frame_window s).ebu_info = { s.ebu_info with dropped_results := 0 } ∧
    (rv_ebu_on_frame_window s).ebu_result = { s.ebu_result with ebu_result_num := 0 } := by
  unfold rv_ebu_on_frame_window
  simp [h, hd, hn, rv_ebu_clear_result]

theorem rv_ebu_cinst_result_verdicts (ebu : st_rx_video_ebu_stat) (i : st_rx_video_ebu_info)
    (r : st_rx_video_ebu_result) :
    ebu_cinst_verdicts (rv_ebu_cinst_result ebu i r).2.2 = ebu_cinst_verdicts r + 1 ∧
    (rv_ebu_cinst_result ebu i r).2.2.ebu_result_num = r.ebu_result_num := by
  unfold rv_ebu_cinst_result ebu_cinst_verdicts
  split_ifs <;> simp <;> omega

theorem rv_ebu_vrx_result_verdicts (ebu : st_rx_video_ebu_stat) (i : st_rx_video_ebu_info)
    (r : st_rx_video_ebu_result) :
    ebu_cinst_verdicts (rv_ebu_vrx_result ebu i r).2.2 = ebu_cinst_verdicts r ∧
    (rv_ebu_vrx_result ebu i r).2.2.ebu_result_num = r.ebu_result_num := by
  unfold rv_ebu_vrx_result ebu_cinst_verdicts
  split_ifs <;> simp

theorem rv_ebu_fpt_result_verdicts (ebu : st_rx_video_ebu_stat) (i : Nat)
    (r : st_rx_video_ebu_result) :
    ebu_cinst_verdicts (rv_ebu_fpt_result ebu i r).2.2 = ebu_cinst_verdicts r ∧
    (rv_ebu_fpt_result ebu i r).2.2.ebu_result_num = r.ebu_result_num := by
  unfold rv_ebu_fpt_result ebu_cinst_verdicts
  split_ifs <;> simp

theorem rv_ebu_latency_result_verdicts (ebu : st_rx_video_ebu_stat) (i : st_rx_video_ebu_info)
    (r : st_rx_video_ebu_result) :
    ebu_cinst_verdicts (rv_ebu_latency_result ebu i r).2.2 = ebu_cinst_verdicts r ∧
    (rv_ebu_latency_result ebu i r).2.2.ebu_result_num = r.ebu_result_num := by
  unfold rv_ebu_latency_result ebu_cinst_verdicts
  split_ifs <;> simp

theorem rv_ebu_rtp_offset_result_verdicts (ebu : st_rx_video_ebu_stat)
    (i : st_rx_video_ebu_info) (r : st_rx_video_ebu_result) :
    ebu_cinst_verdicts (rv_ebu_rtp_offset_result ebu i r).2.2 = ebu_cinst_verdicts r ∧
    (rv_ebu_rtp_offset_result ebu i r).2.2.ebu_result_num = r.ebu_result_num := by
  unfold rv_ebu_rtp_offset_result ebu_cinst_verdicts
  split_ifs <;> simp

theorem rv_ebu_rtp_ts_delta_result_verdicts (rtd : Int) (ebu : st_rx_video_ebu_stat)
    (r : st_rx_video_ebu_result) :
    ebu_cinst_verdicts (rv_ebu_rtp_ts_delta_result rtd ebu r).2.2 = ebu_cinst_verdicts r ∧
    (rv_ebu_rtp_ts_delta_result rtd ebu r).2.2.ebu_result_num = r.ebu_result_num := by
  unfold rv_ebu_rtp_ts_delta_result ebu_cinst_verdicts
  split_ifs <;> simp

theorem rv_ebu_result_verdicts (s : st_rx_video_session_impl) :
    ebu_cinst_verdicts (rv_ebu_result s).ebu_result = ebu_cinst_verdicts s.ebu_result + 1 ∧
    (rv_ebu_result s).ebu_result.ebu_result_num = s.ebu_result.ebu_result_num ∧
    (rv_ebu_result s).ebu_info = s.ebu_info := by
  have h1 := rv_ebu_cinst_result_verdicts s.ebu s.ebu_info s.ebu_result
  generalize hr1 : rv_ebu_cinst_result s.ebu s.ebu_info s.ebu_result = r1 at h1
  have h2 := rv_ebu_vrx_result_verdicts r1.2.1 s.ebu_info r1.2.2
  generalize hr2 : rv_ebu_vrx_result r1.2.1 s.ebu_info r1.2.2 = r2 at h2
  have h3 := rv_ebu_fpt_result_verdicts r2.2.1 s.ebu_info.tr_offset r2.2.2
  generalize hr3 : rv_ebu_fpt_result r2.2.1 s.ebu_info.tr_offset r2.2.2 = r3 at h3
  have h4 := rv_ebu_latency_result_verdicts r3.2.1 s.ebu_info r3.2.2
  generalize hr4 : rv_ebu_latency_result r3.2.1 s.ebu_info r3.2.2 = r4 at h4
  have h5 := rv_ebu_rtp_offset_result_verdicts r4.2.1 s.ebu_info r4.2.2
  generalize hr5 : rv_ebu_rtp_offset_result r4.2.1 s.ebu_info r4.2.2 = r5 at h5
  have h6 := rv_ebu_rtp_ts_delta_result_verdicts s.frame_time_sampling r5.2.1 r5.2.2
  generalize hr6 : rv_ebu_rtp_ts_delta_result s.frame_time_sampling r5.2.1 r5.2.2 = r6 at h6
  have e : (rv_ebu_result s).ebu_result =
      (if r6.2.1.compliant then
        { r6.2.2 with
          compliance := r6.2.2.compliance + 1
          compliance_narrow :=
            if r6.2.1.compliant_narrow then r6.2.2.compliance_narrow + 1
            else r6.2.2.compliance_narrow }
      else r6.2.2) := by
    unfold rv_ebu_result
    simp only [hr1, hr2, hr3, hr4, hr5, hr6]
  refine ⟨?_, ?_, rfl⟩
  · rw [e]
    have : ebu_cinst_verdicts r6.2.2 = ebu_cinst_verdicts s.ebu_result + 1 := by omega
    split_ifs <;> exact this
  · rw [e]
    have : r6.2.2.ebu_result_num = s.ebu_result.ebu_result_num := by
      rw [h6.2, h5.2, h4.2, h3.2, h2.2, h1.2]
    split_ifs <;> exact this

theorem rv_ebu_on_frame_window_result (s : st_rx_video_session_impl)
    (h : (s.ebu.frame_idx + 1) % 300 = 0) (hd : s.ebu_info.dropped_results = 0) :
    (rv_ebu_on_frame_window s).ebu.frame_idx = 0 ∧
    (rv_ebu_on_frame_window s).ebu_info = s.ebu_info ∧
    (rv_ebu_on_frame_window s).ebu_result.ebu_result_num = s.ebu_result.ebu_result_num + 1 ∧
    ebu_cinst_verdicts (rv_ebu_on_frame_window s).ebu_result =
      ebu_cinst_verdicts s.ebu_result + 1 := by
  have hv := rv_ebu_result_verdicts
    { s with
      ebu := { s.ebu with frame_idx := s.ebu.frame_idx + 1 }
      ebu_result := { s.ebu_result with ebu_result_num := s.ebu_result.ebu_result_num + 1 } }
  unfold rv_ebu_on_frame_window
  simp only [h, hd, if_true]
  refine ⟨rfl, hv.2.2, hv.2.1, ?_⟩
  rw [hv.1]
  rfl

theorem rv_ebu_on_frame_window_inv (r0 : st_rx_video_ebu_result) (n : Nat)
    (s : st_rx_video_session_impl) (t : Nat) (a b c : Int)
    (h : ebu_window_inv r0 n s) (hn : n + 1 < 1800) :
    ebu_window_inv r0 (n + 1) (rv_ebu_on_frame s t a b c) := by
  obtain ⟨hf, h1, h2⟩ := h
  unfold ebu_window_inv
  rw [rv_ebu_on_frame_frame_idx, rv_ebu_on_frame_ebu_info, rv_ebu_on_frame_ebu_result]
  by_cases hc : (n + 1) % 300 = 0
  · have hc2 : (s.ebu.frame_idx + 1) % 300 = 0 := by rw [hf]; omega
    by_cases hlt : n < 1500
    · obtain ⟨hd, hr⟩ := h1 hlt
      by_cases h15 : n + 1 = 1500
      · have hq : n / 300 = 4 := by omega
        rw [hq] at hr
        have hlt4 : s.ebu_info.dropped_results < s.ebu_result.ebu_result_num + 1 := by
          rw [hd, hr]
          show (4 : Int) < ((4 : Nat) : Int) + 1
          decide
        have hres := rv_ebu_on_frame_window_reset s hc2 (by rw [hd]; decide) hlt4
        refine ⟨by rw [hres.1]; omega, fun hh => absurd hh (by omega), fun _ => ?_⟩
        rw [hres.2.1, hres.2.2, hr]
        exact ⟨rfl, rfl⟩
      · have hq : n / 300 < 4 := by omega
        have hq2 : (n + 1) / 300 = n / 300 + 1 := by omega
        have hge4 : ¬ s.ebu_info.dropped_results < s.ebu_result.ebu_result_num + 1 := by
          rw [hd, hr]
          show ¬ (4 : Int) < ((n / 300 : Nat) : Int) + 1
          omega
        have hres := rv_ebu_on_frame_window_count s hc2 (by rw [hd]; decide) hge4
        refine ⟨by rw [hres.1]; omega, fun _ => ?_, fun hh => absurd hh (by omega)⟩
        rw [hres.2.1, hres.2.2, hr, hq2]
        refine ⟨hd, ?_⟩
        simp
    · exfalso; omega
  · have hc2 : (s.ebu.frame_idx + 1) % 300 ≠ 0 := by rw [hf]; omega
    have hres := rv_ebu_on_frame_window_open s hc2
    have hq2 : (n + 1) / 300 = n / 300 := by omega
    refine ⟨by rw [hres.1, hf]; omega, fun hh => ?_, fun hh => ?_⟩
    · rw [hres.2.1, hres.2.2, hq2]
      exact h1 (by omega)
    · rw [hres.2.1, hres.2.2]
      exact h2 (by omega)

theorem rv_ebu_on_frames_inv (r0 : st_rx_video_ebu_result)
    (frames : List (Nat × Int × Int × Int)) :
    ∀ (n : Nat) (s : st_rx_video_session_impl), ebu_window_inv r0 n s →
      n + frames.length < 1800 →
      ebu_window_inv r0 (n + frames.length) (rv_ebu_on_frames s frames) := by
  induction frames with
  | nil => intro n s h _; simpa [rv_ebu_on_frames] using h
  | cons x rest ih =>
    intro n s h hn
    simp only [List.length_cons] at hn
    have h1 := rv_ebu_on_frame_window_inv r0 n s x.1 x.2.1 x.2.2.1 x.2.2.2 h (by omega)
    have h2 := ih (n + 1) _ h1 (by omega)
    simp only [rv_ebu_on_frames, List.length_cons]
    have e : n + (rest.length + 1) = n + 1 + rest.length := by omega
    rw [e]
    exact h2

theorem rv_ebu_on_frames_append (s : st_rx_video_session_impl)
    (xs ys : List (Nat × Int × Int × Int)) :
    rv_ebu_on_frames s (xs ++ ys) = rv_ebu_on_frames (rv_ebu_on_frames s xs) ys := by
  induction xs generalizing s with
  | nil => rfl
  | cons x rest ih => simp only [List.cons_append, rv_ebu_on_frames]; exact ih _

theorem rv_ebu_init_inv (s0 s : st_rx_video_session_impl) (fps_timing_ret : Int)
    (c_narrow c_wide vrx_narrow vrx_wide rtp_offset_max : Int) (tr_offset : Nat)
    (hinit : rv_ebu_init s0 fps_timing_ret c_narrow c_wide vrx_narrow vrx_wide rtp_offset_max
      tr_offset = (0, s))
    (hnum : s0.ebu_result.ebu_result_num = 0) :
    ebu_window_inv s0.ebu_result 0 s := by
  unfold rv_ebu_init at hinit
  simp only [] at hinit
  split_ifs at hinit with h1 h2
  · simp only [Prod.mk.injEq] at hinit; omega
  · simp [EINVAL_errno] at hinit
  · simp only [Prod.mk.injEq, true_and] at hinit
    subst hinit
    refine ⟨rfl, fun _ => ⟨rfl, ?_⟩, fun hh => absurd hh (by decide)⟩
    have e : ((0 / 300 : Nat) : Int) = s0.ebu_result.ebu_result_num := by rw [hnum]; rfl
    show s0.ebu_result = _
    rw [e]

/-- Claim C15: after `rv_ebu_init` (on a session whose result counter is 0, as in a new
session) the analyser records no verdict for any of the first 1799 frames: the
windows closing at frames 300, 600, 900 and 1200 only raise `ebu_result_num` to 1, 2, 3
and 4, and the window closing at frame 1500 only resets `ebu_result_num` and
`dropped_results` to 0, without running `rv_ebu_result`.  The first window that is judged is
the sixth, closing at frame 1800: there `ebu_result_num` becomes 1 and one Cinst
verdict is counted.  So five windows are discarded, not four. -/
theorem rv_ebu_first_result_at_frame_1800 (s0 s : st_rx_video_session_impl)
    (fps_timing_ret : Int) (c_narrow c_wide vrx_narrow vrx_wide rtp_offset_max : Int)
    (tr_offset : Nat) (frames : List (Nat × Int × Int × Int))
    (hinit : rv_ebu_init s0 fps_timing_ret c_narrow c_wide vrx_narrow vrx_wide rtp_offset_max
      tr_offset = (0, s))
    (hnum : s0.ebu_result.ebu_result_num = 0) :
    (frames.length < 1500 →
      (rv_ebu_on_frames s frames).ebu_result =
        { s0.ebu_result with ebu_result_num := ((frames.length / 300 : Nat) : Int) }) ∧
    (1500 ≤ frames.length → frames.length < 1800 →
      (rv_ebu_on_frames s frames).ebu_result = s0.ebu_result) ∧
    (frames.length = 1800 →
      (rv_ebu_on_frames s frames).ebu_result.ebu_result_num = 1 ∧
      ebu_cinst_verdicts (rv_ebu_on_frames s frames).ebu_result =
        ebu_cinst_verdicts s0.ebu_result + 1) := by
  have h0 := rv_ebu_init_inv s0 s fps_timing_ret c_narrow c_wide vrx_narrow vrx_wide
    rtp_offset_max tr_offset hinit hnum
  refine ⟨fun hl => ?_, fun hl1 hl2 => ?_, fun hl => ?_⟩
  · have h := rv_ebu_on_frames_inv s0.ebu_result frames 0 s h0 (by omega)
    rw [Nat.zero_add] at h
    exact (h.2.1 hl).2
  · have h := rv_ebu_on_frames_inv s0.ebu_result frames 0 s h0 (by omega)
    rw [Nat.zero_add] at h
    rw [(h.2.2 hl1).2, ← hnum]
  · have hsplit : frames = frames.take 1799 ++ frames.drop 1799 :=
      (List.take_append_drop _ _).symm
    have hd : (frames.drop 1799).length = 1 := by rw [List.length_drop]; omega
    obtain ⟨x, hx⟩ := List.length_eq_one.mp hd
    have ht : (frames.take 1799).length = 1799 := by rw [List.length_take]; omega
    have h := rv_ebu_on_frames_inv s0.ebu_result (frames.take 1799) 0 s h0 (by omega)
    rw [Nat.zero_add, ht] at h
    rw [hsplit, rv_ebu_on_frames_append, hx]
    generalize rv_ebu_on_frames s (frames.take 1799) = s1 at h
    obtain ⟨hf, -, h2⟩ := h
    obtain ⟨hdr, hres⟩ := h2 (by decide)
    simp only [rv_ebu_on_frames]
    rw [rv_ebu_on_frame_ebu_result]
    have hw := rv_ebu_on_frame_window_result s1 (by rw [hf]) hdr
    rw [hw.2.2.1, hw.2.2.2, hres]
    exact ⟨rfl, rfl⟩

/-- Claim C15 at a concrete input: the session `session_1080p_ebu`, initialised by `rv_ebu_init`,
has after 1500 frames recorded no result at all, and after 1800 frames its
first. -/
theorem rv_ebu_first_result_at_frame_1800_witness :
    rv_ebu_init session_1080p_ebu 0 4 16 8 720 0 8000 = (0, session_1080p_ebu_started) ∧
    session_1080p_ebu.ebu_result.ebu_result_num = 0 ∧
    (rv_ebu_on_frames session_1080p_ebu_started
      (List.replicate 1500 (0, 0, 0, 0))).ebu_result = session_1080p_ebu.ebu_result ∧
    (rv_ebu_on_frames session_1080p_ebu_started
      (List.replicate 1800 (0, 0, 0, 0))).ebu_result.ebu_result_num = 1 :=
  ⟨rfl, rfl,
    (rv_ebu_first_result_at_frame_1800 session_1080p_ebu session_1080p_ebu_started 0 4 16 8 720 0
      8000 (List.replicate 1500 (0, 0, 0, 0)) rfl rfl).2.1 (by simp) (by simp),
    ((rv_ebu_first_result_at_frame_1800 session_1080p_ebu session_1080p_ebu_started 0 4 16 8 720 0
      8000 (List.replicate 1800 (0, 0, 0, 0)) rfl rfl).2.2 (by simp)).1⟩

/-! ## Cinst verdict -/

/-- Claim C16, as the code has it: `rv_ebu_cinst_result` gives PASS_NARROW iff `cinst_max` is at most
`c_max_narrow_pass`; above that, PASS_WIDE iff it is at most `c_max_wide_pass`, PASS_WIDE_WA iff it
is above `c_max_wide_pass` and at most `c_max_wide_pass * 16`, and FAIL iff it is above both.
PASS_NARROW counts `cinst_pass_narrow`; PASS_WIDE and PASS_WIDE_WA both count `cinst_pass_wide` and
clear only `compliant_narrow`; FAIL counts `cinst_fail` and clears `compliant`.  So a value above
`c_max_wide_pass` fails only when it is also above sixteen times that
threshold. -/
theorem rv_ebu_cinst_result_table (ebu : st_rx_video_ebu_stat) (ebu_info : st_rx_video_ebu_info)
    (ebu_result : st_rx_video_ebu_result) :
    ((rv_ebu_cinst_result ebu ebu_info ebu_result).1 = .PASS_NARROW ↔
      ebu.cinst_max ≤ ebu_info.c_max_narrow_pass) ∧
    ((rv_ebu_cinst_result ebu ebu_info ebu_result).1 = .PASS_WIDE ↔
      ebu_info.c_max_narrow_pass < ebu.cinst_max ∧ ebu.cinst_max ≤ ebu_info.c_max_wide_pass) ∧
    ((rv_ebu_cinst_result ebu ebu_info ebu_result).1 = .PASS_WIDE_WA ↔
      ebu_info.c_max_narrow_pass < ebu.cinst_max ∧ ebu_info.c_max_wide_pass < ebu.cinst_max ∧
        ebu.cinst_max ≤ ebu_info.c_max_wide_pass * 16) ∧
    ((rv_ebu_cinst_result ebu ebu_info ebu_result).1 = .FAIL ↔
      ebu_info.c_max_narrow_pass < ebu.cinst_max ∧ ebu_info.c_max_wide_pass < ebu.cinst_max ∧
        ebu_info.c_max_wide_pass * 16 < ebu.cinst_max) ∧
    ((rv_ebu_cinst_result ebu ebu_info ebu_result).1 = .PASS_NARROW →
      (rv_ebu_cinst_result ebu ebu_info ebu_result).2 =
        (ebu, { ebu_result with cinst_pass_narrow := ebu_result.cinst_pass_narrow + 1 })) ∧
    ((rv_ebu_cinst_result ebu ebu_info ebu_result).1 = .PASS_WIDE ∨
        (rv_ebu_cinst_result ebu ebu_info ebu_result).1 = .PASS_WIDE_WA →
      (rv_ebu_cinst_result ebu ebu_info ebu_result).2 =
        ({ ebu with compliant_narrow := false },
          { ebu_result with cinst_pass_wide := ebu_result.cinst_pass_wide + 1 })) ∧
    ((rv_ebu_cinst_result ebu ebu_info ebu_result).1 = .FAIL →
      (rv_ebu_cinst_result ebu ebu_info ebu_result).2 =
        ({ ebu with compliant := false },
          { ebu_result with cinst_fail := ebu_result.cinst_fail + 1 })) := by
  unfold rv_ebu_cinst_result
  split_ifs with h1 h2 h3
  · simp [h1]
  · simp [h1, h2]
    omega
  · simp [h1, h2, h3]
    omega
  · simp [h1, h2, h3]
    omega

/-- Claim C16, counterexample: with the thresholds 4 (narrow) and 16 (wide), a window whose
`cinst_max` is 17 is above the wide threshold, yet the verdict is PASS_WIDE_WA: `cinst_pass_wide` is
counted, `cinst_fail` is not, and `compliant` stays set. -/
theorem rv_ebu_cinst_result_above_wide_passes :
    (16 : Int) < ({ rv_ebu_clear_result with cinst_max := 17 } : st_rx_video_ebu_stat).cinst_max ∧
    (rv_ebu_cinst_result { rv_ebu_clear_result with cinst_max := 17 }
      { st_rx_video_ebu_info_zero with c_max_narrow_pass := 4, c_max_wide_pass := 16 }
      st_rx_video_ebu_result_zero).1 = .PASS_WIDE_WA ∧
    (rv_ebu_cinst_result { rv_ebu_clear_result with cinst_max := 17 }
      { st_rx_video_ebu_info_zero with c_max_narrow_pass := 4, c_max_wide_pass := 16 }
      st_rx_video_ebu_result_zero).2.2.cinst_fail = 0 ∧
    (rv_ebu_cinst_result { rv_ebu_clear_result with cinst_max := 17 }
      { st_rx_video_ebu_info_zero with c_max_narrow_pass := 4, c_max_wide_pass := 16 }
      st_rx_video_ebu_result_zero).2.2.cinst_pass_wide = 1 ∧
    (rv_ebu_cinst_result { rv_ebu_clear_result with cinst_max := 17 }
      { st_rx_video_ebu_info_zero with c_max_narrow_pass := 4, c_max_wide_pass := 16 }
      st_rx_video_ebu_result_zero).2.1.compliant = true := by
  decide

/-! ## Bitmap window and counters at concrete inputs -/

/-- Claim C19, failing input: on the 1080p session (bitmap of 810 bytes, so 6480 bits) the
packet `mbuf_line_1079_600` arrives first for its frame.  Its index is derived from the
offset, 1079 * 4800 / 600 = 8632, which is past the bitmap; the handler makes no
window test on this path: the packet is accepted (return 0, `pkts_received` 1, no
`stat_pkts_idx_oo_bitmap`), and bit 8632 is set. -/
theorem rv_handle_frame_pkt_first_pkt_idx_past_bitmap :
    session_1080p.st20_frame_bitmap_size * 8 = 6480 ∧
    rv_first_pkt_idx session_1080p mbuf_line_1079_600 = some 8632 ∧
    (rv_handle_frame_pkt session_1080p mbuf_line_1079_600 0 true).code = some 0 ∧
    ((rv_handle_frame_pkt session_1080p mbuf_line_1079_600 0 true).state.slots 0).frame_bitmap
      = [8632] ∧
    ((rv_handle_frame_pkt session_1080p mbuf_line_1079_600 0 true).state.slots 0).pkts_received
      = 1 ∧
    (rv_handle_frame_pkt session_1080p mbuf_line_1079_600 0 true).state.stats.stat_pkts_idx_oo_bitmap
      = 0 := by
  refine ⟨by decide, by decide, by decide, by decide, by decide, by decide⟩

/-- Claim C18, counterexample: the session `session_2x4` (frame size 20) receives three packets
of 7 bytes with the sequence numbers 0, 1, 2.  All three are accepted; the
third completes the frame, and the notification reports a received size of
21, above the frame size of 20. -/
theorem notified_recv_size_above_frame_size :
    session_2x4.st20_frame_size = 20 ∧
    (rv_handle_frame_pkts session_2x4
      [(mbuf_7_bytes 0, 0, true), (mbuf_7_bytes 1, 0, true), (mbuf_7_bytes 2, 0, true)]).1
      = [0, 0, 0] ∧
    notified_sizes (rv_handle_frame_pkts session_2x4
      [(mbuf_7_bytes 0, 0, true), (mbuf_7_bytes 1, 0, true), (mbuf_7_bytes 2, 0, true)]).2.events
      = [(20, 21)] := by
  refine ⟨by decide, by decide, by decide⟩

/-! ## Slot counters -/

theorem rv_kept_refl (s : st_rx_video_session_impl) : rv_kept s s :=
  ⟨⟨rfl, rfl, rfl⟩, fun _ => ⟨⟨rfl, rfl, rfl, rfl⟩, ⟨rfl, rfl, rfl⟩, rfl⟩⟩

theorem rv_consts_trans (s1 s2 s3 : st_rx_video_session_impl) (h12 : rv_consts s1 s2)
    (h23 : rv_consts s2 s3) : rv_consts s1 s3 :=
  ⟨h23.1.trans h12.1, h23.2.1.trans h12.2.1, h23.2.2.trans h12.2.2⟩

theorem slot_fixed_trans (a b c : st_rx_video_slot_impl) (h12 : slot_fixed a b)
    (h23 : slot_fixed b c) : slot_fixed a c :=
  ⟨h23.1.trans h12.1, h23.2.1.trans h12.2.1, h23.2.2.1.trans h12.2.2.1,
    h23.2.2.2.trans h12.2.2.2⟩

theorem slot_counts_trans (a b c : st_rx_video_slot_impl) (h12 : slot_counts a b)
    (h23 : slot_counts b c) : slot_counts a c :=
  ⟨h23.1.trans h12.1, h23.2.1.trans h12.2.1, h23.2.2.trans h12.2.2⟩

theorem rv_kept_trans (s1 s2 s3 : st_rx_video_session_impl) (h12 : rv_kept s1 s2)
    (h23 : rv_kept s2 s3) : rv_kept s1 s3 :=
  ⟨rv_consts_trans _ _ _ h12.1 h23.1, fun j =>
    ⟨slot_fixed_trans _ _ _ (h12.2 j).1 (h23.2 j).1,
      slot_counts_trans _ _ _ (h12.2 j).2.1 (h23.2 j).2.1,
      (h23.2 j).2.2.trans (h12.2 j).2.2⟩⟩

theorem rv_kept_of_slots (s s2 : st_rx_video_session_impl) (hs : s2.slots = s.slots)
    (h1 : s2.st20_frame_size = s.st20_frame_size)
    (h2 : s2.st20_frame_bitmap_size = s.st20_frame_bitmap_size)
    (h3 : s2.dma_dev.isSome = s.dma_dev.isSome) : rv_kept s s2 :=
  ⟨⟨h1, h2, h3⟩, fun j => by rw [hs]; exact ⟨⟨rfl, rfl, rfl, rfl⟩, ⟨rfl, rfl, rfl⟩, rfl⟩⟩

theorem rv_kept_slot_update (s : st_rx_video_session_impl) (i : Nat)
    (slot : st_rx_video_slot_impl) (st : rv_stats)
    (hf : slot_fixed (s.slots i) slot) (hc : slot_counts (s.slots i) slot)
    (hfr : slot.frame = (s.slots i).frame) :
    rv_kept s { s with slots := Function.update s.slots i slot, stats := st } := by
  refine ⟨⟨rfl, rfl, rfl⟩, fun j => ?_⟩
  by_cases hj : j = i
  · subst hj; simpa using ⟨hf, hc, hfr⟩
  · have e : (Function.update s.slots i slot) j = s.slots j := Function.update_noteq hj _ _
    show slot_fixed (s.slots j) (Function.update s.slots i slot j) ∧
      slot_counts (s.slots j) (Function.update s.slots i slot j) ∧
      (Function.update s.slots i slot j).frame = (s.slots j).frame
    rw [e]
    exact ⟨⟨rfl, rfl, rfl, rfl⟩, ⟨rfl, rfl, rfl⟩, rfl⟩

theorem rv_kept_but_frame_of_kept (s s2 : st_rx_video_session_impl) (i : Nat)
    (h : rv_kept s s2) : rv_kept_but_frame s s2 i :=
  ⟨h.1, fun j => ⟨(h.2 j).1, (h.2 j).2.1, fun _ => (h.2 j).2.2⟩⟩

theorem rv_frame_notify_kept (s : st_rx_video_session_impl) (i f : Nat) :
    rv_kept_but_frame s (rv_frame_notify s i f) i := by
  unfold rv_frame_notify
  simp only [rv_put_frame]
  refine ⟨?_, fun j => ?_⟩
  · split_ifs <;> exact ⟨rfl, rfl, rfl⟩
  · by_cases hj : j = i
    · subst hj
      split_ifs <;> simp [slot_fixed, slot_counts]
    · split_ifs <;> simp [slot_fixed, slot_counts, Function.update_noteq hj]

theorem rv_st22_frame_notify_kept (s : st_rx_video_session_impl) (i f : Nat)
    (status : st_frame_status) :
    rv_kept_but_frame s (rv_st22_frame_notify s i f status) i := by
  unfold rv_st22_frame_notify
  simp only [rv_put_frame]
  refine ⟨?_, fun j => ?_⟩
  · split_ifs <;> exact ⟨rfl, rfl, rfl⟩
  · by_cases hj : j = i
    · subst hj
      split_ifs <;> simp [slot_fixed, slot_counts]
    · split_ifs <;> simp [slot_fixed, slot_counts, Function.update_noteq hj]

theorem rv_slot_evict_kept (s : st_rx_video_session_impl) (k : Nat) :
    rv_kept_but_frame s (rv_slot_evict s k) k ∧ ((rv_slot_evict s k).slots k).frame = none := by
  unfold rv_slot_evict
  cases hfr : (s.slots k).frame with
  | none => exact ⟨rv_kept_but_frame_of_kept _ _ _ (rv_kept_refl s), hfr⟩
  | some f =>
    simp only []
    have key : ∀ sn : st_rx_video_session_impl, rv_kept_but_frame s sn k →
        rv_kept_but_frame s
          { sn with slots := Function.update sn.slots k { sn.slots k with frame := none } } k ∧
        (({ sn with slots := Function.update sn.slots k { sn.slots k with frame := none } } :
          st_rx_video_session_impl).slots k).frame = none := by
      intro sn hsn
      refine ⟨⟨hsn.1, fun j => ?_⟩, by simp⟩
      by_cases hj : j = k
      · subst hj
        simpa using ⟨(hsn.2 j).1, (hsn.2 j).2.1⟩
      · simp only [Function.update_noteq hj]
        exact hsn.2 j
    by_cases h22 : s.st22_info.isSome = true
    · simp only [h22, if_true]
      exact key _ (rv_st22_frame_notify_kept s k f _)
    · simp only [h22]
      exact key _ (rv_frame_notify_kept s k f)

theorem rv_get_frame_kept (s : st_rx_video_session_impl) : rv_kept s (rv_get_frame s).1 := by
  unfold rv_get_frame
  split
  · exact rv_kept_of_slots _ _ rfl rfl rfl rfl
  · exact rv_kept_refl _

theorem rv_slot_full_frame_kept (s : st_rx_video_session_impl) (i f : Nat) :
    rv_consts s (rv_slot_full_frame s i f) ∧
    (∀ j, slot_fixed (s.slots j) ((rv_slot_full_frame s i f).slots j)) ∧
    (∀ j, j ≠ i → slot_counts (s.slots j) ((rv_slot_full_frame s i f).slots j) ∧
      ((rv_slot_full_frame s i f).slots j).frame = (s.slots j).frame) ∧
    ((rv_slot_full_frame s i f).slots i).frame = none ∧
    rv_slot_get_frame_size ((rv_slot_full_frame s i f).slots i) = 0 ∧
    ((rv_slot_full_frame s i f).slots i).pkts_received = 0 := by
  have hn := rv_frame_notify_kept s i f
  unfold rv_slot_full_frame
  simp only []
  refine ⟨hn.1, fun j => ?_, fun j hj => ?_, by simp, by simp [rv_slot_init_frame_size,
    rv_slot_get_frame_size], by simp⟩
  · by_cases hj : j = i
    · subst hj
      simpa [rv_slot_init_frame_size, slot_fixed] using (hn.2 j).1
    · simp only [Function.update_noteq hj]
      exact (hn.2 j).1
  · simp only [Function.update_noteq hj]
    exact ⟨(hn.2 j).2.1, (hn.2 j).2.2 hj⟩

theorem rv_pkt_place_payload_kept (s : st_rx_video_session_impl) (mbuf : rte_mbuf)
    (f : Nat) : rv_kept s (rv_pkt_place_payload s mbuf f).1 := by
  unfold rv_pkt_place_payload
  simp only []
  by_cases hu : s.st20_uframe_size ≠ 0
  · rw [if_pos hu]
    split_ifs <;> exact rv_kept_of_slots _ _ rfl rfl rfl rfl
  · rw [if_neg hu]
    by_cases hc : (!s.has_ebu) = true
    · rw [if_pos hc]
      by_cases h2 : (decide (BIT15 ≤ mbuf.row_offset % U16) &&
          decide (s.st20_bytes_in_line < s.st20_linesize)) = true
      · rw [if_pos h2]
        exact rv_kept_of_slots _ _ rfl rfl rfl rfl
      · rw [if_neg h2]
        cases hd : s.dma_dev with
        | none => exact rv_kept_of_slots _ _ rfl rfl rfl (by simp [frame_memcpy, hd])
        | some d =>
          simp only []
          split_ifs
          · exact rv_kept_of_slots _ _ rfl rfl rfl (by simp [frame_memcpy, hd])
          · exact rv_kept_of_slots _ _ rfl rfl rfl (by simp [hd])
          · exact rv_kept_of_slots _ _ rfl rfl rfl (by simp [frame_memcpy, hd])
    · rw [if_neg hc]
      exact rv_kept_refl _

theorem rv_kept_slice_info (s : st_rx_video_session_impl) (i : Nat)
    (info : Option st_rx_video_slot_slice_info) (st : rv_stats) :
    rv_kept s { s with
      slots := Function.update s.slots i { s.slots i with slice_info := info }, stats := st } :=
  rv_kept_slot_update s i _ st ⟨rfl, rfl, rfl, rfl⟩ ⟨rfl, rfl, rfl⟩ rfl

theorem rv_slice_notify_kept (s : st_rx_video_session_impl) (i f : Nat)
    (info : st_rx_video_slot_slice_info) : rv_kept s (rv_slice_notify s i f info) :=
  rv_kept_of_slots _ _ rfl rfl rfl rfl

theorem rv_slice_add_kept (s s2 : st_rx_video_session_impl) (i : Nat)
    (info : st_rx_video_slot_slice_info) (offset size : Nat)
    (h : rv_slice_add s i info offset size = some s2) : rv_kept s s2 := by
  unfold rv_slice_add at h
  simp only [] at h
  cases hsl : info.slices with
  | nil =>
    rw [hsl] at h
    cases h; exact rv_kept_refl _
  | cons main_slice extras =>
    rw [hsl] at h
    simp only [] at h
    by_cases hoff : offset % U32 ≠ main_slice.size
    · rw [if_pos hoff] at h
      cases hx : rv_slice_add_extra extras (offset % U32) (size % U32) with
      | none =>
        rw [hx] at h
        cases h; exact rv_kept_of_slots _ _ rfl rfl rfl rfl
      | some p =>
        rw [hx] at h
        cases h
        exact rv_kept_slice_info s i _ s.stats
    · rw [if_neg hoff] at h
      by_cases hz : s.slice_size = 0
      · rw [if_pos hz] at h; cases h
      · rw [if_neg hz] at h
        split_ifs at h
        all_goals first
          | (cases h; exact rv_kept_slice_info s i _ _)
          | (split at h
             · cases h
               refine rv_kept_trans _ _ _ ?_ (rv_slice_notify_kept _ _ _ _)
               refine ⟨⟨rfl, rfl, rfl⟩, fun j => ?_⟩
               by_cases hj : j = i
               · subst hj; simp [slot_fixed, slot_counts]
               · simp [Function.update_noteq hj, slot_fixed, slot_counts]
             · cases h)

theorem rv_pkt_slice_kept (s s3 : st_rx_video_session_impl) (dma_copy : Bool)
    (i offset len : Nat) (h : rv_pkt_slice s dma_copy i offset len = some s3) :
    rv_kept s s3 := by
  unfold rv_pkt_slice at h
  split at h
  · split_ifs at h
    · cases h; exact rv_kept_refl _
    · exact rv_slice_add_kept _ _ _ _ _ _ h
  · cases h; exact rv_kept_refl _

theorem rv_pkt_user_meta_kept (s : st_rx_video_session_impl) (mbuf : rte_mbuf) (f : Nat) :
    rv_kept s (rv_pkt_user_meta s mbuf f).state := by
  unfold rv_pkt_user_meta
  simp only []
  split_ifs <;> exact rv_kept_of_slots _ _ rfl rfl rfl rfl

theorem window_bits_clear (n : Nat) (b : List Int) : window_bits n (bitmap_clear b n) = 0 := by
  unfold window_bits bitmap_clear
  rw [List.filter_filter, List.length_eq_zero, List.filter_eq_nil_iff]
  intro a _
  simp

theorem bitmap_clear_nodup (n : Nat) (b : List Int) (h : b.Nodup) :
    (bitmap_clear b n).Nodup := by
  unfold bitmap_clear
  exact h.filter _

theorem window_bits_cons_in (n : Nat) (idx : Int) (b : List Int) (h0 : 0 ≤ idx)
    (h1 : idx < (n : Int) * 8) : window_bits n (idx :: b) = window_bits n b + 1 := by
  unfold window_bits
  simp [List.filter_cons, h0, h1]

theorem window_bits_cons_le (n : Nat) (idx : Int) (b : List Int) :
    window_bits n b ≤ window_bits n (idx :: b) ∧
    window_bits n (idx :: b) ≤ window_bits n b + 1 := by
  unfold window_bits
  rw [List.filter_cons]
  split_ifs <;> simp

theorem mt_bitmap_test_and_set_nodup (b : List Int) (idx : Int) (h : b.Nodup) :
    (mt_bitmap_test_and_set b idx).2.Nodup := by
  unfold mt_bitmap_test_and_set
  split_ifs with hm
  · exact h
  · exact List.nodup_cons.mpr ⟨hm, h⟩

theorem mt_bitmap_test_and_set_window_bits (n : Nat) (b : List Int) (idx : Int) :
    window_bits n b ≤ window_bits n (mt_bitmap_test_and_set b idx).2 ∧
    window_bits n (mt_bitmap_test_and_set b idx).2 ≤ window_bits n b + 1 := by
  unfold mt_bitmap_test_and_set
  split_ifs
  · exact ⟨Nat.le_refl _, Nat.le_succ _⟩
  · exact window_bits_cons_le n idx b

theorem rv_seq_pkt_idx_lt (a b : Nat) : rv_seq_pkt_idx a b < 2147483648 := by
  unfold rv_seq_pkt_idx to_int32
  simp only [U32]
  split_ifs <;> omega

theorem to_size_t_of_nonneg (i : Int) (h0 : 0 ≤ i) (h1 : i < 2147483648) :
    ((to_size_t i : Nat) : Int) = i := by
  unfold to_size_t
  omega

theorem slot_cnt_inv_keep (n fs : Nat) (dma : Bool) (a b : st_rx_video_slot_impl)
    (hf : slot_fixed a b) (hc : slot_counts a b) (hfr : b.frame = a.frame)
    (h : slot_cnt_inv n fs dma a) : slot_cnt_inv n fs dma b := by
  unfold slot_cnt_inv rv_slot_get_frame_size at *
  rw [hf.2.2.2, hf.2.2.1, hc.1, hc.2.1, hc.2.2, hfr]
  exact h

theorem slot_cnt_inv_reset (n fs : Nat) (dma : Bool) (a b : st_rx_video_slot_impl)
    (hnd : a.frame_bitmap.Nodup) (hb : b.frame_bitmap = a.frame_bitmap) (hfr : b.frame = none)
    (hr : rv_slot_get_frame_size b = 0) : slot_cnt_inv n fs dma b :=
  ⟨by rw [hb]; exact hnd, fun h => absurd hfr h, fun _ => Or.inl hr⟩

theorem slot_cnt_inv_fresh (n fs : Nat) (dma : Bool) (a b : st_rx_video_slot_impl)
    (hnd : a.frame_bitmap.Nodup) (hb : b.frame_bitmap = bitmap_clear a.frame_bitmap n)
    (hrec : b.pkts_received = 0) (hr : rv_slot_get_frame_size b = 0) :
    slot_cnt_inv n fs dma b := by
  refine ⟨by rw [hb]; exact bitmap_clear_nodup n _ hnd, fun _ => ?_, fun _ => Or.inl hr⟩
  rw [hb, window_bits_clear, hrec]
  exact ⟨fun _ => ⟨rfl, rfl⟩, Nat.le_refl _, Nat.zero_le _⟩

theorem rv_cnt_inv_kept (n fs : Nat) (dma : Bool) (s s2 : st_rx_video_session_impl)
    (hk : rv_kept s s2) (h : rv_cnt_inv n fs dma s) : rv_cnt_inv n fs dma s2 :=
  ⟨hk.1.2.1.trans h.1, hk.1.1.trans h.2.1, hk.1.2.2.trans h.2.2.1, fun i =>
    slot_cnt_inv_keep _ _ _ _ _ (hk.2 i).1 (hk.2 i).2.1 (hk.2 i).2.2 (h.2.2.2 i)⟩

theorem rv_slot_full_frame_cnt_inv (n fs : Nat) (dma : Bool) (s : st_rx_video_session_impl)
    (i f : Nat) (hn : s.st20_frame_bitmap_size = n) (hfs : s.st20_frame_size = fs)
    (hd : s.dma_dev.isSome = dma)
    (h : ∀ j, j ≠ i → slot_cnt_inv n fs dma (s.slots j))
    (hnd : (s.slots i).frame_bitmap.Nodup) :
    rv_cnt_inv n fs dma (rv_slot_full_frame s i f) := by
  obtain ⟨hc, hfix, hoth, hfr, hrecv, -⟩ := rv_slot_full_frame_kept s i f
  refine ⟨hc.2.1.trans hn, hc.1.trans hfs, hc.2.2.trans hd, fun j => ?_⟩
  by_cases hj : j = i
  · subst hj
    exact slot_cnt_inv_reset _ _ _ _ _ hnd (hfix j).2.2.2 hfr hrecv
  · exact slot_cnt_inv_keep _ _ _ _ _ (hfix j) (hoth j hj).1 (hoth j hj).2 (h j hj)

theorem rv_slot_recycle_kept (s : st_rx_video_session_impl) (tmstamp : Nat) (pd : Option Nat) :
    let k := (Int.tmod (s.slot_idx + 1) (s.slot_max : Int)).toNat
    rv_consts s (rv_slot_recycle s tmstamp pd).1 ∧
    (∀ j, j ≠ k → slot_fixed (s.slots j) ((rv_slot_recycle s tmstamp pd).1.slots j) ∧
      slot_counts (s.slots j) ((rv_slot_recycle s tmstamp pd).1.slots j) ∧
      ((rv_slot_recycle s tmstamp pd).1.slots j).frame = (s.slots j).frame) ∧
    ((rv_slot_recycle s tmstamp pd).1.slots k).tmstamp = tmstamp ∧
    ((rv_slot_recycle s tmstamp pd).1.slots k).seq_id_base_u32 = (s.slots k).seq_id_base_u32 ∧
    ((rv_slot_recycle s tmstamp pd).1.slots k).seq_id_got = false ∧
    ((rv_slot_recycle s tmstamp pd).1.slots k).pkts_received = 0 ∧
    rv_slot_get_frame_size ((rv_slot_recycle s tmstamp pd).1.slots k) = 0 ∧
    ((((rv_slot_recycle s tmstamp pd).1.slots k).frame = none ∧
        ((rv_slot_recycle s tmstamp pd).1.slots k).frame_bitmap = (s.slots k).frame_bitmap) ∨
      ((rv_slot_recycle s tmstamp pd).1.slots k).frame_bitmap =
        bitmap_clear (s.slots k).frame_bitmap s.st20_frame_bitmap_size) := by
  intro k
  obtain ⟨he, hek⟩ := rv_slot_evict_kept s k
  have hgs := fun t => (rv_get_frame_slots t).1
  have hgf : ∀ t, (rv_get_frame t).1.st20_frame_size = t.st20_frame_size :=
    fun t => (rv_get_frame_kept t).1.1
  have hgb : ∀ t, (rv_get_frame t).1.st20_frame_bitmap_size = t.st20_frame_bitmap_size :=
    fun t => (rv_get_frame_kept t).1.2.1
  have hgd : ∀ t, (rv_get_frame t).1.dma_dev.isSome = t.dma_dev.isSome :=
    fun t => (rv_get_frame_kept t).1.2.2
  have hoth : ∀ j, j ≠ k → slot_fixed (s.slots j) ((rv_slot_evict s k).slots j) ∧
      slot_counts (s.slots j) ((rv_slot_evict s k).slots j) ∧
      ((rv_slot_evict s k).slots j).frame = (s.slots j).frame :=
    fun j hj => ⟨(he.2 j).1, (he.2 j).2.1, (he.2 j).2.2 hj⟩
  have hb := (he.2 k).1.2.2.2
  have hbase := (he.2 k).1.2.1
  unfold rv_slot_recycle
  simp only []
  split
  · refine ⟨⟨?_, ?_, ?_⟩, ?_, ?_, ?_, ?_, ?_, ?_, ?_⟩
    · simp [hgf, he.1.1]
    · simp [hgb, he.1.2.1]
    · simp [hgd, he.1.2.2]
    · intro j hj
      simpa [hgs, Function.update_noteq hj] using hoth j hj
    · simp [hgs, rv_slot_init_frame_size]
    · simpa [hgs, rv_slot_init_frame_size] using hbase
    · simp [hgs, rv_slot_init_frame_size]
    · simp [hgs, rv_slot_init_frame_size]
    · simp [hgs, rv_slot_init_frame_size, rv_slot_get_frame_size]
    · left
      simpa [hgs, rv_slot_init_frame_size] using ⟨hek, hb⟩
  · split
    · split_ifs
      · refine ⟨⟨?_, ?_, ?_⟩, ?_, ?_, ?_, ?_, ?_, ?_, ?_⟩
        · simp [hgf, he.1.1]
        · simp [hgb, he.1.2.1]
        · simp [hgd, he.1.2.2]
        · intro j hj
          simpa [hgs, Function.update_noteq hj] using hoth j hj
        · simp [hgs, rv_slot_init_frame_size]
        · simpa [hgs, rv_slot_init_frame_size] using hbase
        · simp [hgs, rv_slot_init_frame_size]
        · simp [hgs, rv_slot_init_frame_size]
        · simp [hgs, rv_slot_init_frame_size, rv_slot_get_frame_size]
        · left
          simpa [hgs, rv_slot_init_frame_size] using ⟨hek, hb⟩
      · refine ⟨⟨?_, ?_, ?_⟩, ?_, ?_, ?_, ?_, ?_, ?_, ?_⟩
        · simp [hgf, he.1.1]
        · simp [hgb, he.1.2.1]
        · simp [hgd, he.1.2.2]
        · intro j hj
          simpa [hgs, Function.update_noteq hj] using hoth j hj
        · simp [hgs, rv_slot_init_frame_size]
        · simpa [hgs, rv_slot_init_frame_size] using hbase
        · simp [hgs, rv_slot_init_frame_size]
        · simp [hgs, rv_slot_init_frame_size]
        · simp [hgs, rv_slot_init_frame_size, rv_slot_get_frame_size]
        · right
          simp [hgs, hgb, rv_slot_init_frame_size, hb, he.1.2.1]
    · refine ⟨⟨?_, ?_, ?_⟩, ?_, ?_, ?_, ?_, ?_, ?_, ?_⟩
      · simp [hgf, he.1.1]
      · simp [hgb, he.1.2.1]
      · simp [hgd, he.1.2.2]
      · intro j hj
        simpa [hgs, Function.update_noteq hj] using hoth j hj
      · simp [hgs, rv_slot_init_frame_size]
      · simpa [hgs, rv_slot_init_frame_size] using hbase
      · simp [hgs, rv_slot_init_frame_size]
      · simp [hgs, rv_slot_init_frame_size]
      · simp [hgs, rv_slot_init_frame_size, rv_slot_get_frame_size]
      · right
        simp [hgs, hgb, rv_slot_init_frame_size, hb, he.1.2.1]

theorem rv_slot_recycle_cnt_inv (n fs : Nat) (dma : Bool) (s : st_rx_video_session_impl)
    (tmstamp : Nat) (pd : Option Nat) (h : rv_cnt_inv n fs dma s) :
    rv_cnt_inv n fs dma (rv_slot_recycle s tmstamp pd).1 := by
  have hk := rv_slot_recycle_kept s tmstamp pd
  simp only [] at hk
  obtain ⟨hc, hoth, -, -, hgot, hrec, hrecv, hfb⟩ := hk
  refine ⟨hc.2.1.trans h.1, hc.1.trans h.2.1, hc.2.2.trans h.2.2.1, fun j => ?_⟩
  by_cases hj : j = (Int.tmod (s.slot_idx + 1) (s.slot_max : Int)).toNat
  · subst hj
    rcases hfb with ⟨hfr, hb⟩ | hb
    · exact slot_cnt_inv_reset _ _ _ _ _ (h.2.2.2 _).1 hb hfr hrecv
    · rw [h.1] at hb
      exact slot_cnt_inv_fresh _ _ _ _ _ (h.2.2.2 _).1 hb hrec hrecv
  · exact slot_cnt_inv_keep _ _ _ _ _ (hoth j hj).1 (hoth j hj).2.1 (hoth j hj).2.2 (h.2.2.2 j)

theorem rv_slot_by_tmstamp_cnt_inv (n fs : Nat) (dma : Bool) (s : st_rx_video_session_impl)
    (tmstamp : Nat) (pd : Option Nat) (h : rv_cnt_inv n fs dma s) :
    rv_cnt_inv n fs dma (rv_slot_by_tmstamp s tmstamp pd).1 := by
  unfold rv_slot_by_tmstamp
  split
  · exact h
  · split_ifs
    · exact rv_cnt_inv_kept _ _ _ _ _ (rv_kept_of_slots _ _ rfl rfl rfl rfl) h
    · exact rv_slot_recycle_cnt_inv _ _ _ s tmstamp pd h

theorem rv_pkt_account_slots (s : st_rx_video_session_impl) (ctrl_thread : Bool) (i len : Nat) :
    rv_consts s (rv_pkt_account s ctrl_thread i len) ∧
    (∀ j, j ≠ i → (rv_pkt_account s ctrl_thread i len).slots j = s.slots j) ∧
    slot_fixed (s.slots i) ((rv_pkt_account s ctrl_thread i len).slots i) ∧
    ((rv_pkt_account s ctrl_thread i len).slots i).frame = (s.slots i).frame ∧
    ((rv_pkt_account s ctrl_thread i len).slots i).pkts_received = (s.slots i).pkts_received + 1 ∧
    rv_slot_get_frame_size ((rv_pkt_account s ctrl_thread i len).slots i) =
      rv_slot_get_frame_size (s.slots i) + len := by
  unfold rv_pkt_account
  simp only []
  refine ⟨⟨rfl, rfl, rfl⟩, fun j hj => by simp [Function.update_noteq hj], ?_, ?_, ?_, ?_⟩
  · cases ctrl_thread <;>
      simp [slot_fixed, rv_slot_pkt_lcore_add_frame_size, rv_slot_add_frame_size]
  · cases ctrl_thread <;> simp [rv_slot_pkt_lcore_add_frame_size, rv_slot_add_frame_size]
  · cases ctrl_thread <;> simp [rv_slot_pkt_lcore_add_frame_size, rv_slot_add_frame_size]
  · cases ctrl_thread <;>
      simp [rv_slot_pkt_lcore_add_frame_size, rv_slot_add_frame_size, rv_slot_get_frame_size] <;>
      omega

theorem rv_pkt_finish_cnt_inv (n fs : Nat) (dma : Bool) (s : st_rx_video_session_impl)
    (dma_copy : Bool) (i f : Nat) (hn : s.st20_frame_bitmap_size = n)
    (hfs : s.st20_frame_size = fs) (hd : s.dma_dev.isSome = dma)
    (h : ∀ j, j ≠ i → slot_cnt_inv n fs dma (s.slots j))
    (hnd : (s.slots i).frame_bitmap.Nodup) (hfr : (s.slots i).frame = some f)
    (hgot : (s.slots i).seq_id_got = true)
    (hb1 : window_bits n (s.slots i).frame_bitmap ≤ (s.slots i).pkts_received)
    (hb2 : (s.slots i).pkts_received ≤ window_bits n (s.slots i).frame_bitmap + 1) :
    rv_cnt_inv n fs dma (rv_pkt_finish s dma_copy i f) := by
  have h4 : rv_cnt_inv n fs dma
      (if rv_pkt_end_frame s i = true then rv_slot_full_frame s i f else s) := by
    by_cases he : rv_pkt_end_frame s i = true
    · rw [if_pos he]
      exact rv_slot_full_frame_cnt_inv n fs dma s i f hn hfs hd h hnd
    · rw [if_neg he]
      refine ⟨hn, hfs, hd, fun j => ?_⟩
      by_cases hj : j = i
      · subst hj
        refine ⟨hnd, fun _ => ⟨fun hg => ?_, hb1, hb2⟩, fun hdma => Or.inr ⟨?_, ?_⟩⟩
        · rw [hgot] at hg; cases hg
        · rw [hfr]; simp
        · unfold rv_pkt_end_frame at he
          rw [← hd] at hdma
          cases hdev : s.dma_dev with
          | some d => rw [hdev] at hdma; simp at hdma
          | none =>
            rw [hdev] at he
            simp only [decide_eq_true_eq] at he
            omega
      · exact h j hj
  unfold rv_pkt_finish
  cases dma_copy with
  | false => simpa using h4
  | true =>
    simp only [if_true]
    exact rv_cnt_inv_kept _ _ _ _ _ (rv_kept_of_slots _ _ rfl rfl rfl rfl) h4

theorem rv_handle_frame_pkt_place_cnt_inv (n fs : Nat) (dma : Bool)
    (s : st_rx_video_session_impl) (mbuf : rte_mbuf) (ctrl_thread : Bool) (i f : Nat)
    (code : Int) (s2 : st_rx_video_session_impl) (hn : s.st20_frame_bitmap_size = n)
    (hfs : s.st20_frame_size = fs) (hd : s.dma_dev.isSome = dma)
    (h : ∀ j, j ≠ i → slot_cnt_inv n fs dma (s.slots j))
    (hnd : (s.slots i).frame_bitmap.Nodup) (hfr : (s.slots i).frame = some f)
    (hgot : (s.slots i).seq_id_got = true)
    (hb1 : window_bits n (s.slots i).frame_bitmap ≤ (s.slots i).pkts_received + 1)
    (hb2 : (s.slots i).pkts_received ≤ window_bits n (s.slots i).frame_bitmap)
    (hr : rv_handle_frame_pkt_place s mbuf ctrl_thread i f = .ret code s2) :
    rv_cnt_inv n fs dma s2 := by
  have hp := rv_pkt_place_payload_kept s mbuf f
  have ha := rv_pkt_account_slots (rv_pkt_place_payload s mbuf f).1 ctrl_thread i
    (rv_pkt_payload_length mbuf)
  unfold rv_handle_frame_pkt_place at hr
  simp only [] at hr
  cases hsl : rv_pkt_slice (rv_pkt_account (rv_pkt_place_payload s mbuf f).1 ctrl_thread i
        (rv_pkt_payload_length mbuf)) (rv_pkt_place_payload s mbuf f).2 i (rv_pkt_offset s mbuf)
        (rv_pkt_payload_length mbuf) with
  | none => rw [hsl] at hr; cases hr
  | some s3 =>
    rw [hsl] at hr
    simp only [rv_result.ret.injEq] at hr
    rw [← hr.2]
    have hk := rv_pkt_slice_kept _ _ _ _ _ _ hsl
    obtain ⟨hac, haoth, hafix, hafr, harec, -⟩ := ha
    have hi := hk.2 i
    apply rv_pkt_finish_cnt_inv n fs dma s3 _ i f
    · rw [hk.1.2.1, hac.2.1, hp.1.2.1]; exact hn
    · rw [hk.1.1, hac.1, hp.1.1]; exact hfs
    · rw [hk.1.2.2, hac.2.2, hp.1.2.2]; exact hd
    · intro j hj
      have h1 := hk.2 j
      rw [haoth j hj] at h1
      have h2 := hp.2 j
      exact slot_cnt_inv_keep _ _ _ _ _ (slot_fixed_trans _ _ _ h2.1 h1.1)
        (slot_counts_trans _ _ _ h2.2.1 h1.2.1) (h1.2.2.trans h2.2.2) (h j hj)
    · rw [hi.1.2.2.2, hafix.2.2.2, (hp.2 i).1.2.2.2]; exact hnd
    · rw [hi.2.2, hafr, (hp.2 i).2.2]; exact hfr
    · rw [hi.1.2.2.1, hafix.2.2.1, (hp.2 i).1.2.2.1]; exact hgot
    · rw [hi.1.2.2.2, hafix.2.2.2, (hp.2 i).1.2.2.2, hi.2.1.1, harec, (hp.2 i).2.1.1]
      exact hb1
    · rw [hi.1.2.2.2, hafix.2.2.2, (hp.2 i).1.2.2.2, hi.2.1.1, harec, (hp.2 i).2.1.1]
      omega

theorem rv_pkt_seq_check_cnt_inv (n fs : Nat) (dma : Bool) (s : st_rx_video_session_impl)
    (mbuf : rte_mbuf) (ctrl_thread : Bool) (i f : Nat) (code : Int)
    (s2 : st_rx_video_session_impl) (h : rv_cnt_inv n fs dma s)
    (hfr : (s.slots i).frame = some f)
    (hr : rv_pkt_seq_check s mbuf ctrl_thread i f = .ret code s2) :
    rv_cnt_inv n fs dma s2 := by
  obtain ⟨hn, hfs, hd, hs⟩ := h
  have hsi := hs i
  have hfr2 : (s.slots i).frame ≠ none := by rw [hfr]; simp
  obtain ⟨hnd, hbits, -⟩ := hsi
  obtain ⟨hfirst, hb1, hb2⟩ := hbits hfr2
  unfold rv_pkt_seq_check at hr
  simp only [] at hr
  by_cases hgot : (s.slots i).seq_id_got = true
  · rw [if_pos hgot] at hr
    by_cases hoo : rv_seq_pkt_idx (rfc4175_rtp_seq_id mbuf) (s.slots i).seq_id_base_u32 < 0 ∨
        s.st20_frame_bitmap_size * 8 ≤
          to_size_t (rv_seq_pkt_idx (rfc4175_rtp_seq_id mbuf) (s.slots i).seq_id_base_u32)
    · rw [if_pos hoo] at hr
      simp only [rv_result.ret.injEq] at hr
      rw [← hr.2]
      exact rv_cnt_inv_kept _ _ _ _ _ (rv_kept_of_slots _ _ rfl rfl rfl rfl) ⟨hn, hfs, hd, hs⟩
    · rw [if_neg hoo] at hr
      by_cases hset : (mt_bitmap_test_and_set (s.slots i).frame_bitmap
          (rv_seq_pkt_idx (rfc4175_rtp_seq_id mbuf) (s.slots i).seq_id_base_u32)).1 = true
      · rw [if_pos hset] at hr
        simp only [rv_result.ret.injEq] at hr
        rw [← hr.2]
        exact rv_cnt_inv_kept _ _ _ _ _
          (rv_kept_slot_update s i _ _ ⟨rfl, rfl, rfl, rfl⟩ ⟨rfl, rfl, rfl⟩ rfl)
          ⟨hn, hfs, hd, hs⟩
      · rw [if_neg hset] at hr
        have hmem : rv_seq_pkt_idx (rfc4175_rtp_seq_id mbuf) (s.slots i).seq_id_base_u32 ∉
            (s.slots i).frame_bitmap := by
          intro hm
          apply hset
          simp [mt_bitmap_test_and_set, hm]
        have he : (mt_bitmap_test_and_set (s.slots i).frame_bitmap
            (rv_seq_pkt_idx (rfc4175_rtp_seq_id mbuf) (s.slots i).seq_id_base_u32)).2 =
            rv_seq_pkt_idx (rfc4175_rtp_seq_id mbuf) (s.slots i).seq_id_base_u32 ::
              (s.slots i).frame_bitmap := by
          simp [mt_bitmap_test_and_set, hmem]
        have h0 : 0 ≤ rv_seq_pkt_idx (rfc4175_rtp_seq_id mbuf) (s.slots i).seq_id_base_u32 := by
          omega
        have h1 : rv_seq_pkt_idx (rfc4175_rtp_seq_id mbuf) (s.slots i).seq_id_base_u32 <
            (n : Int) * 8 := by
          have hlt := rv_seq_pkt_idx_lt (rfc4175_rtp_seq_id mbuf) (s.slots i).seq_id_base_u32
          have hcast := to_size_t_of_nonneg _ h0 hlt
          rw [← hn]
          omega
        have hwb := window_bits_cons_in n _ (s.slots i).frame_bitmap h0 h1
        refine rv_handle_frame_pkt_place_cnt_inv n fs dma _ mbuf ctrl_thread i f code s2 ?_ ?_ ?_
          ?_ ?_ ?_ ?_ ?_ ?_ hr
        · exact hn
        · exact hfs
        · exact hd
        · intro j hj
          simp only [Function.update_noteq hj]
          exact hs j
        · simp only [Function.update_same]
          exact mt_bitmap_test_and_set_nodup _ _ hnd
        · simpa using hfr
        · simpa using hgot
        · simp only [Function.update_same]
          rw [he, hwb]
          omega
        · simp only [Function.update_same]
          rw [he, hwb]
          omega
  · rw [if_neg hgot] at hr
    have hgot2 : (s.slots i).seq_id_got = false := by simpa using hgot
    obtain ⟨hrec0, hwb0⟩ := hfirst hgot2
    by_cases hc : ctrl_thread = true
    · rw [if_pos hc] at hr
      cases hidx : rv_first_pkt_idx s mbuf with
      | none => rw [hidx] at hr; cases hr
      | some pkt_idx =>
        rw [hidx] at hr
        simp only [] at hr
        have hw := mt_bitmap_test_and_set_window_bits n (s.slots i).frame_bitmap pkt_idx
        refine rv_handle_frame_pkt_place_cnt_inv n fs dma _ mbuf ctrl_thread i f code s2 ?_ ?_ ?_
          ?_ ?_ ?_ ?_ ?_ ?_ hr
        · exact hn
        · exact hfs
        · exact hd
        · intro j hj
          simp only [Function.update_noteq hj]
          exact hs j
        · simp only [Function.update_same]
          exact mt_bitmap_test_and_set_nodup _ _ hnd
        · simpa using hfr
        · simp
        · simp only [Function.update_same]
          omega
        · simp only [Function.update_same]
          omega
    · rw [if_neg hc] at hr
      simp only [rv_result.ret.injEq] at hr
      rw [← hr.2]
      exact rv_cnt_inv_kept _ _ _ _ _ (rv_kept_of_slots _ _ rfl rfl rfl rfl) ⟨hn, hfs, hd, hs⟩

theorem rv_handle_frame_pkt_slot_cnt_inv (n fs : Nat) (dma : Bool)
    (s : st_rx_video_session_impl) (mbuf : rte_mbuf) (ctrl_thread : Bool) (i f : Nat)
    (code : Int) (s2 : st_rx_video_session_impl) (h : rv_cnt_inv n fs dma s)
    (hfr : (s.slots i).frame = some f)
    (hr : rv_handle_frame_pkt_slot s mbuf ctrl_thread i f = .ret code s2) :
    rv_cnt_inv n fs dma s2 := by
  have hq := rv_kept_slot_update s i
    { s.slots i with second_field := decide (BIT15 ≤ mbuf.row_number % U16) } s.stats
    ⟨rfl, rfl, rfl, rfl⟩ ⟨rfl, rfl, rfl⟩ rfl
  unfold rv_handle_frame_pkt_slot at hr
  simp only [] at hr
  split_ifs at hr
  · have hk := rv_pkt_user_meta_kept s mbuf f
    rw [hr] at hk
    exact rv_cnt_inv_kept _ _ _ _ _ hk h
  · simp only [rv_result.ret.injEq] at hr
    rw [← hr.2]
    exact rv_cnt_inv_kept _ _ _ _ _
      (rv_kept_trans _ _ _ hq (rv_kept_of_slots _ _ rfl rfl rfl rfl)) h
  · refine rv_pkt_seq_check_cnt_inv n fs dma _ mbuf ctrl_thread i f code s2
      (rv_cnt_inv_kept _ _ _ _ _ hq h) ?_ hr
    simpa using hfr

theorem rv_handle_frame_pkt_cnt_inv (n fs : Nat) (dma : Bool) (s : st_rx_video_session_impl)
    (mbuf : rte_mbuf) (s_port : Nat) (ctrl_thread : Bool) (code : Int)
    (s2 : st_rx_video_session_impl) (h : rv_cnt_inv n fs dma s)
    (hr : rv_handle_frame_pkt s mbuf s_port ctrl_thread = .ret code s2) :
    rv_cnt_inv n fs dma s2 := by
  have hl := rv_slot_by_tmstamp_cnt_inv n fs dma s (mbuf.tmstamp % U32) none h
  unfold rv_handle_frame_pkt at hr
  simp only [] at hr
  split_ifs at hr
  · simp only [rv_result.ret.injEq] at hr
    rw [← hr.2]
    exact rv_cnt_inv_kept _ _ _ _ _ (rv_kept_of_slots _ _ rfl rfl rfl rfl) h
  · simp only [rv_result.ret.injEq] at hr
    rw [← hr.2]
    exact rv_cnt_inv_kept _ _ _ _ _ (rv_kept_of_slots _ _ rfl rfl rfl rfl) h
  · split at hr
    · simp only [rv_result.ret.injEq] at hr
      rw [← hr.2]
      exact rv_cnt_inv_kept _ _ _ _ _ (rv_kept_of_slots _ _ rfl rfl rfl rfl) hl
    · rename_i i hi
      split at hr
      · simp only [rv_result.ret.injEq] at hr
        rw [← hr.2]
        exact rv_cnt_inv_kept _ _ _ _ _ (rv_kept_of_slots _ _ rfl rfl rfl rfl) hl
      · rename_i f hf
        exact rv_handle_frame_pkt_slot_cnt_inv n fs dma _ mbuf ctrl_thread i f code s2 hl hf hr

theorem rv_handle_frame_pkts_cnt_inv (n fs : Nat) (dma : Bool)
    (pkts : List (rte_mbuf × Nat × Bool)) :
    ∀ s : st_rx_video_session_impl, rv_cnt_inv n fs dma s →
      (rv_handle_frame_pkts s pkts).1.length = pkts.length →
      rv_cnt_inv n fs dma (rv_handle_frame_pkts s pkts).2 := by
  induction pkts with
  | nil => intro s h _; exact h
  | cons p rest ih =>
    intro s h hlen
    unfold rv_handle_frame_pkts at hlen ⊢
    cases hr : rv_handle_frame_pkt s p.1 p.2.1 p.2.2 with
    | fault s1 =>
      rw [hr] at hlen
      simp at hlen
    | ret code s1 =>
      rw [hr] at hlen
      simp only [List.length_cons, Nat.add_right_cancel_iff] at hlen
      simp only []
      exact ih s1 (rv_handle_frame_pkt_cnt_inv n fs dma s _ _ _ code s1 h hr) hlen

theorem rv_session_init_cnt_inv (width height pg_size pg_coverage linesize num_port
    frames_cnt : Nat) (dma_dev : Option mtl_dma_lender_dev) :
    rv_cnt_inv
      (rv_session_init width height pg_size pg_coverage linesize num_port frames_cnt
        dma_dev).st20_frame_bitmap_size
      (rv_session_init width height pg_size pg_coverage linesize num_port frames_cnt
        dma_dev).st20_frame_size
      dma_dev.isSome
      (rv_session_init width height pg_size pg_coverage linesize num_port frames_cnt dma_dev) := by
  refine ⟨rfl, rfl, rfl, fun i => ⟨?_, fun h => absurd rfl h, fun _ => Or.inl rfl⟩⟩
  exact List.nodup_nil

/-- Claim C18, as the code has it: in a state reached from a session without DMA device
that satisfies the counter invariant (a new session does) by calls of `rv_handle_frame_pkt`
that all returned, the frame size is unchanged and the received size of
every slot is 0, or the slot holds a frame and the received size is below
the frame size.  (The size reported by a notification is the one before the
slot is reset, and is not bounded by the frame size.) -/
theorem rv_handle_frame_pkts_recv_size (s0 : st_rx_video_session_impl)
    (pkts : List (rte_mbuf × Nat × Bool)) (i : Nat)
    (h0 : rv_cnt_inv s0.st20_frame_bitmap_size s0.st20_frame_size false s0)
    (hrun : (rv_handle_frame_pkts s0 pkts).1.length = pkts.length) :
    (rv_handle_frame_pkts s0 pkts).2.st20_frame_size = s0.st20_frame_size ∧
    (rv_slot_get_frame_size ((rv_handle_frame_pkts s0 pkts).2.slots i) = 0 ∨
      (((rv_handle_frame_pkts s0 pkts).2.slots i).frame ≠ none ∧
        rv_slot_get_frame_size ((rv_handle_frame_pkts s0 pkts).2.slots i) <
          s0.st20_frame_size)) := by
  have h := rv_handle_frame_pkts_cnt_inv _ _ _ pkts s0 h0 hrun
  obtain ⟨-, hfs, -, hs⟩ := h
  exact ⟨hfs, (hs i).2.2 rfl⟩

/-- Claim C18 at a concrete input: the 1080p session after `mbuf_example`. -/
theorem rv_handle_frame_pkts_recv_size_witness :
    (rv_handle_frame_pkts session_1080p [(mbuf_example, 0, true)]).1.length = 1 ∧
    (rv_slot_get_frame_size
        ((rv_handle_frame_pkts session_1080p [(mbuf_example, 0, true)]).2.slots 0) = 0 ∨
      (((rv_handle_frame_pkts session_1080p [(mbuf_example, 0, true)]).2.slots 0).frame ≠ none ∧
        rv_slot_get_frame_size
          ((rv_handle_frame_pkts session_1080p [(mbuf_example, 0, true)]).2.slots 0) <
            session_1080p.st20_frame_size)) :=
  ⟨by decide,
    (rv_handle_frame_pkts_recv_size session_1080p [(mbuf_example, 0, true)] 0
      (rv_session_init_cnt_inv 1920 1080 5 2 4800 1 2 none) (by decide)).2⟩

/-! ## Sequence base -/

theorem rv_pkt_finish_fixed (s : st_rx_video_session_impl) (dma_copy : Bool) (i f : Nat) :
    ∀ j, slot_fixed (s.slots j) ((rv_pkt_finish s dma_copy i f).slots j) := by
  intro j
  have hff := (rv_slot_full_frame_kept s i f).2.1 j
  unfold rv_pkt_finish
  cases dma_copy <;> simp only [] <;> split_ifs <;>
    first | exact hff | exact ⟨rfl, rfl, rfl, rfl⟩

theorem rv_handle_frame_pkt_place_fixed (s : st_rx_video_session_impl) (mbuf : rte_mbuf)
    (ctrl_thread : Bool) (i f : Nat) :
    ∀ j, slot_fixed (s.slots j) ((rv_handle_frame_pkt_place s mbuf ctrl_thread i f).state.slots j) := by
  intro j
  have hp := (rv_pkt_place_payload_kept s mbuf f).2 j
  have ha := rv_pkt_account_slots (rv_pkt_place_payload s mbuf f).1 ctrl_thread i
    (rv_pkt_payload_length mbuf)
  have haj : slot_fixed ((rv_pkt_place_payload s mbuf f).1.slots j)
      ((rv_pkt_account (rv_pkt_place_payload s mbuf f).1 ctrl_thread i
        (rv_pkt_payload_length mbuf)).slots j) := by
    by_cases hj : j = i
    · subst hj; exact ha.2.2.1
    · rw [ha.2.1 j hj]; exact ⟨rfl, rfl, rfl, rfl⟩
  unfold rv_handle_frame_pkt_place
  simp only []
  cases hsl : rv_pkt_slice (rv_pkt_account (rv_pkt_place_payload s mbuf f).1 ctrl_thread i
        (rv_pkt_payload_length mbuf)) (rv_pkt_place_payload s mbuf f).2 i (rv_pkt_offset s mbuf)
        (rv_pkt_payload_length mbuf) with
  | none => exact slot_fixed_trans _ _ _ hp.1 haj
  | some s3 =>
    simp only [rv_result.state]
    have hk := (rv_pkt_slice_kept _ _ _ _ _ _ hsl).2 j
    exact slot_fixed_trans _ _ _ (slot_fixed_trans _ _ _ (slot_fixed_trans _ _ _ hp.1 haj) hk.1)
      (rv_pkt_finish_fixed s3 _ i f j)

theorem rv_pkt_seq_check_base (s : st_rx_video_session_impl) (mbuf : rte_mbuf)
    (ctrl_thread : Bool) (i f : Nat) :
    ∀ j, ((rv_pkt_seq_check s mbuf ctrl_thread i f).state.slots j).tmstamp = (s.slots j).tmstamp ∧
      (j ≠ i ∨ (s.slots i).seq_id_got = true →
        ((rv_pkt_seq_check s mbuf ctrl_thread i f).state.slots j).seq_id_base_u32 =
          (s.slots j).seq_id_base_u32) := by
  intro j
  unfold rv_pkt_seq_check
  simp only []
  by_cases hgot : (s.slots i).seq_id_got = true
  · rw [if_pos hgot]
    split_ifs
    · exact ⟨rfl, fun _ => rfl⟩
    · by_cases hj : j = i
      · subst hj; simp [rv_result.state]
      · simp [rv_result.state, Function.update_noteq hj]
    · have hf := rv_handle_frame_pkt_place_fixed
        { s with
          slots := Function.update s.slots i
            { s.slots i with
              frame_bitmap := (mt_bitmap_test_and_set (s.slots i).frame_bitmap
                (rv_seq_pkt_idx (rfc4175_rtp_seq_id mbuf) (s.slots i).seq_id_base_u32)).2 } }
        mbuf ctrl_thread i f j
      rw [hf.1, hf.2.1]
      by_cases hj : j = i
      · subst hj; simp
      · simp [Function.update_noteq hj]
  · rw [if_neg hgot]
    by_cases hc : ctrl_thread = true
    · rw [if_pos hc]
      cases hidx : rv_first_pkt_idx s mbuf with
      | none => exact ⟨rfl, fun _ => rfl⟩
      | some pkt_idx =>
        simp only []
        have hf := rv_handle_frame_pkt_place_fixed
          { s with
            slots := Function.update s.slots i
              { s.slots i with
                seq_id_base_u32 := to_uint32 ((rfc4175_rtp_seq_id mbuf : Int) - pkt_idx)
                seq_id_got := true
                frame_bitmap := (mt_bitmap_test_and_set (s.slots i).frame_bitmap pkt_idx).2 } }
          mbuf ctrl_thread i f j
        rw [hf.1, hf.2.1]
        by_cases hj : j = i
        · subst hj
          simp [hgot]
        · simp [Function.update_noteq hj]
    · rw [if_neg hc]
      exact ⟨rfl, fun _ => rfl⟩

theorem rv_handle_frame_pkt_slot_base (s : st_rx_video_session_impl) (mbuf : rte_mbuf)
    (ctrl_thread : Bool) (i f : Nat) :
    ∀ j, ((rv_handle_frame_pkt_slot s mbuf ctrl_thread i f).state.slots j).tmstamp =
        (s.slots j).tmstamp ∧
      (j ≠ i ∨ (s.slots i).seq_id_got = true →
        ((rv_handle_frame_pkt_slot s mbuf ctrl_thread i f).state.slots j).seq_id_base_u32 =
          (s.slots j).seq_id_base_u32) := by
  intro j
  unfold rv_handle_frame_pkt_slot
  simp only []
  split_ifs
  · have hk := (rv_pkt_user_meta_kept s mbuf f).2 j
    exact ⟨hk.1.1, fun _ => hk.1.2.1⟩
  · by_cases hj : j = i
    · subst hj; simp [rv_result.state]
    · simp [rv_result.state, Function.update_noteq hj]
  · have hb := rv_pkt_seq_check_base
      { s with
        slots := Function.update s.slots i
          { s.slots i with second_field := decide (BIT15 ≤ mbuf.row_number % U16) } }
      mbuf ctrl_thread i f j
    rw [hb.1]
    by_cases hj : j = i
    · subst hj
      refine ⟨by simp, fun hg => ?_⟩
      rw [hb.2 (Or.inr (by simpa using hg.resolve_left (fun h => h rfl)))]
      simp
    · refine ⟨by simp [Function.update_noteq hj], fun _ => ?_⟩
      rw [hb.2 (Or.inl hj)]
      simp [Function.update_noteq hj]

theorem rv_handle_frame_pkt_base (s : st_rx_video_session_impl) (mbuf : rte_mbuf)
    (s_port : Nat) (ctrl_thread : Bool) (j : Nat) (hmax : 0 < s.slot_max)
    (hgot : (s.slots j).seq_id_got = true)
    (ht : ((rv_handle_frame_pkt s mbuf s_port ctrl_thread).state.slots j).tmstamp =
      (s.slots j).tmstamp) :
    ((rv_handle_frame_pkt s mbuf s_port ctrl_thread).state.slots j).seq_id_base_u32 =
      (s.slots j).seq_id_base_u32 := by
  unfold rv_handle_frame_pkt at ht ⊢
  simp only [] at ht ⊢
  split_ifs at ht ⊢
  · rfl
  · rfl
  · unfold rv_slot_by_tmstamp at ht ⊢
    cases hm : rv_slot_match s (mbuf.tmstamp % U32) with
    | some i0 =>
      rw [hm] at ht
      simp only [] at ht ⊢
      cases hfr : (s.slots i0).frame with
      | none => rfl
      | some f =>
        simp only []
        apply (rv_handle_frame_pkt_slot_base s mbuf ctrl_thread i0 f j).2
        by_cases hj : j = i0
        · subst hj; exact Or.inr hgot
        · exact Or.inl hj
    | none =>
      rw [hm] at ht
      simp only [] at ht ⊢
      by_cases hb : dma_busy s = true
      · simp only [hb, if_true]
        rfl
      · have hb2 : dma_busy s = false := by simpa using hb
        simp only [hb2, Bool.false_eq_true, if_false] at ht ⊢
        have hmiss := (rv_slot_match_eq_none s (mbuf.tmstamp % U32)).mp hm
        have hk := rv_slot_recycle_idx_lt (s.slot_idx + 1) s.slot_max hmax
        have hsl := rv_slot_recycle_slots s (mbuf.tmstamp % U32) none
        have hkept := rv_slot_recycle_kept s (mbuf.tmstamp % U32) none
        simp only [] at hsl hkept
        obtain ⟨-, h2, h3, h4⟩ := hsl
        obtain ⟨-, hoth, -⟩ := hkept
        by_cases hj : j = (Int.tmod (s.slot_idx + 1) (s.slot_max : Int)).toNat
        · exfalso
          apply hmiss j (by rw [hj]; exact hk)
          rw [← ht]
          cases hres : (rv_slot_recycle s (mbuf.tmstamp % U32) none).2 with
          | none => simp only [rv_result.state]; rw [hj]; exact h3
          | some i1 =>
            simp only []
            cases hfr : ((rv_slot_recycle s (mbuf.tmstamp % U32) none).1.slots i1).frame with
            | none => simp only [rv_result.state]; rw [hj]; exact h3
            | some f =>
              simp only []
              rw [(rv_handle_frame_pkt_slot_base _ mbuf ctrl_thread i1 f j).1, hj]
              exact h3
        · cases hres : (rv_slot_recycle s (mbuf.tmstamp % U32) none).2 with
          | none => simp only [rv_result.state]; exact (hoth j hj).1.2.1
          | some i1 =>
            simp only []
            cases hfr : ((rv_slot_recycle s (mbuf.tmstamp % U32) none).1.slots i1).frame with
            | none => simp only [rv_result.state]; exact (hoth j hj).1.2.1
            | some f =>
              simp only []
              have hi1 := h4 i1 hres
              rw [(rv_handle_frame_pkt_slot_base _ mbuf ctrl_thread i1 f j).2
                (Or.inl (by rw [hi1]; exact hj))]
              exact (hoth j hj).1.2.1

theorem rfc4175_rtp_seq_id_lt (mbuf : rte_mbuf) : rfc4175_rtp_seq_id mbuf < U32 := by
  unfold rfc4175_rtp_seq_id
  simp only [U16, U32]
  omega

theorem rfc4175_rtp_seq_id_or (mbuf : rte_mbuf) :
    rfc4175_rtp_seq_id mbuf =
      ((mbuf.seq_number_ext % U16) <<< 16) ||| (mbuf.seq_number % U16) := by
  unfold rfc4175_rtp_seq_id
  have h : mbuf.seq_number % U16 < 2 ^ 16 := Nat.mod_lt _ (by decide)
  have e := Nat.mul_add_lt_is_or h (mbuf.seq_number_ext % U16)
  rw [Nat.shiftLeft_eq, Nat.mul_comm, ← e]
  omega

theorem rv_seq_pkt_idx_eq (seq base : Nat) (hs : seq < U32) (hb : base < U32) :
    rv_seq_pkt_idx seq base = to_int32 ((seq + U32 - base) % U32) := by
  unfold rv_seq_pkt_idx to_int32
  simp only [U32] at *
  split_ifs <;> omega

theorem rv_pkt_seq_check_out_of_window (s : st_rx_video_session_impl) (mbuf : rte_mbuf)
    (ctrl_thread : Bool) (i f : Nat) (hgot : (s.slots i).seq_id_got = true)
    (hidx : ¬ (0 ≤ rv_seq_pkt_idx (rfc4175_rtp_seq_id mbuf) (s.slots i).seq_id_base_u32 ∧
      rv_seq_pkt_idx (rfc4175_rtp_seq_id mbuf) (s.slots i).seq_id_base_u32 <
        (s.st20_frame_bitmap_size : Int) * 8)) :
    rv_pkt_seq_check s mbuf ctrl_thread i f = .ret (- EIO_errno) { s with stats := { s.stats with
      stat_pkts_idx_oo_bitmap := s.stats.stat_pkts_idx_oo_bitmap + 1 } } := by
  have hlt := rv_seq_pkt_idx_lt (rfc4175_rtp_seq_id mbuf) (s.slots i).seq_id_base_u32
  have hoo : rv_seq_pkt_idx (rfc4175_rtp_seq_id mbuf) (s.slots i).seq_id_base_u32 < 0 ∨
      s.st20_frame_bitmap_size * 8 ≤
        to_size_t (rv_seq_pkt_idx (rfc4175_rtp_seq_id mbuf) (s.slots i).seq_id_base_u32) := by
    by_cases h0 : rv_seq_pkt_idx (rfc4175_rtp_seq_id mbuf) (s.slots i).seq_id_base_u32 < 0
    · exact Or.inl h0
    · right
      have hcast := to_size_t_of_nonneg _ (by omega) hlt
      omega
  unfold rv_pkt_seq_check
  simp only []
  rw [if_pos hgot, if_pos hoo]

theorem rv_seq_pkt_idx_in_window (s : st_rx_video_session_impl) (idx : Int)
    (h0 : 0 ≤ idx) (h1 : idx < (s.st20_frame_bitmap_size : Int) * 8) (hlt : idx < 2147483648) :
    to_size_t idx < s.st20_frame_bitmap_size * 8 := by
  have hcast := to_size_t_of_nonneg _ h0 hlt
  omega

/-- Claim C20: a packet for a slot whose sequence base has been captured (`seq_id_got`) does
not write `seq_id_base_u32`: after the handler the slot has the same base unless it was
given another timestamp in this call.  The sequence number of the packet is
`(seq_number_ext << 16) | seq_number`; the index is `(seq - seq_id_base_u32) mod 2^32` read as a
signed 32-bit integer (both branches of `rv_seq_pkt_idx`); and the sequence check drops the
packet as out of the bitmap exactly when that index is not in
`[0, st20_frame_bitmap_size * 8)`: otherwise it is a duplicate when its bit is set and
it is placed, with its bit set, when not. -/
theorem rv_handle_frame_pkt_seq_id_base_once (s : st_rx_video_session_impl) (mbuf : rte_mbuf)
    (s_port : Nat) (ctrl_thread : Bool) (i f : Nat) (hmax : 0 < s.slot_max)
    (hgot : (s.slots i).seq_id_got = true) (hbase : (s.slots i).seq_id_base_u32 < U32) :
    (((rv_handle_frame_pkt s mbuf s_port ctrl_thread).state.slots i).tmstamp =
        (s.slots i).tmstamp →
      ((rv_handle_frame_pkt s mbuf s_port ctrl_thread).state.slots i).seq_id_base_u32 =
        (s.slots i).seq_id_base_u32) ∧
    rfc4175_rtp_seq_id mbuf =
      ((mbuf.seq_number_ext % U16) <<< 16) ||| (mbuf.seq_number % U16) ∧
    rv_seq_pkt_idx (rfc4175_rtp_seq_id mbuf) (s.slots i).seq_id_base_u32 =
      to_int32 ((rfc4175_rtp_seq_id mbuf + U32 - (s.slots i).seq_id_base_u32) % U32) ∧
    (¬ (0 ≤ rv_seq_pkt_idx (rfc4175_rtp_seq_id mbuf) (s.slots i).seq_id_base_u32 ∧
        rv_seq_pkt_idx (rfc4175_rtp_seq_id mbuf) (s.slots i).seq_id_base_u32 <
          (s.st20_frame_bitmap_size : Int) * 8) →
      rv_pkt_seq_check s mbuf ctrl_thread i f =
        .ret (- EIO_errno) { s with stats := { s.stats with
          stat_pkts_idx_oo_bitmap := s.stats.stat_pkts_idx_oo_bitmap + 1 } }) ∧
    (0 ≤ rv_seq_pkt_idx (rfc4175_rtp_seq_id mbuf) (s.slots i).seq_id_base_u32 ∧
        rv_seq_pkt_idx (rfc4175_rtp_seq_id mbuf) (s.slots i).seq_id_base_u32 <
          (s.st20_frame_bitmap_size : Int) * 8 →
      (rv_seq_pkt_idx (rfc4175_rtp_seq_id mbuf) (s.slots i).seq_id_base_u32 ∈
          (s.slots i).frame_bitmap →
        rv_pkt_seq_check s mbuf ctrl_thread i f = .ret 0 { s with
          slots := Function.update s.slots i
            { s.slots i with
              pkts_redundant_received := (s.slots i).pkts_redundant_received + 1 }
          stats := { s.stats with
            stat_pkts_redundant_dropped := s.stats.stat_pkts_redundant_dropped + 1 } }) ∧
      (rv_seq_pkt_idx (rfc4175_rtp_seq_id mbuf) (s.slots i).seq_id_base_u32 ∉
          (s.slots i).frame_bitmap →
        rv_pkt_seq_check s mbuf ctrl_thread i f =
          rv_handle_frame_pkt_place
            { s with
              slots := Function.update s.slots i
                { s.slots i with
                  frame_bitmap :=
                    rv_seq_pkt_idx (rfc4175_rtp_seq_id mbuf) (s.slots i).seq_id_base_u32 ::
                      (s.slots i).frame_bitmap } }
            mbuf ctrl_thread i f)) := by
  have hlt := rv_seq_pkt_idx_lt (rfc4175_rtp_seq_id mbuf) (s.slots i).seq_id_base_u32
  refine ⟨rv_handle_frame_pkt_base s mbuf s_port ctrl_thread i hmax hgot,
    rfc4175_rtp_seq_id_or mbuf,
    rv_seq_pkt_idx_eq _ _ (rfc4175_rtp_seq_id_lt mbuf) hbase,
    rv_pkt_seq_check_out_of_window s mbuf ctrl_thread i f hgot, fun hin => ⟨fun hset => ?_,
      fun hset => ?_⟩⟩
  · exact rv_pkt_seq_check_redundant s mbuf ctrl_thread i f hgot hin.1
      (rv_seq_pkt_idx_in_window s _ hin.1 hin.2 hlt) hset
  · exact rv_pkt_seq_check_accept s mbuf ctrl_thread i f hgot hin.1
      (rv_seq_pkt_idx_in_window s _ hin.1 hin.2 hlt) hset

/-- Claim C20 at a concrete input: the 1080p session that has handled `mbuf_example` (base 0)
handles the packet with sequence number 1; the base stays 0 and the index
is 1. -/
theorem rv_handle_frame_pkt_seq_id_base_once_witness :
    0 < session_1080p_one_pkt.slot_max ∧
    (session_1080p_one_pkt.slots 0).seq_id_got = true ∧
    (session_1080p_one_pkt.slots 0).seq_id_base_u32 < U32 ∧
    ((rv_handle_frame_pkt session_1080p_one_pkt mbuf_example_second 0 true).state.slots
      0).seq_id_base_u32 = (session_1080p_one_pkt.slots 0).seq_id_base_u32 ∧
    rv_seq_pkt_idx (rfc4175_rtp_seq_id mbuf_example_second)
        (session_1080p_one_pkt.slots 0).seq_id_base_u32 =
      to_int32 ((rfc4175_rtp_seq_id mbuf_example_second + U32 -
        (session_1080p_one_pkt.slots 0).seq_id_base_u32) % U32) :=
  ⟨by decide, by decide, by decide,
    (rv_handle_frame_pkt_seq_id_base_once session_1080p_one_pkt mbuf_example_second 0 true 0 0
      (by decide) (by decide) (by decide)).1 (by decide),
    (rv_handle_frame_pkt_seq_id_base_once session_1080p_one_pkt mbuf_example_second 0 true 0 0
      (by decide) (by decide) (by decide)).2.2.1⟩

/-! ## Attach -/

theorem rv_sizes_kept_refl (s : st_rx_video_session_impl) : rv_sizes_kept s s :=
  ⟨rfl, rfl, rfl, rfl, rfl⟩

theorem rv_sizes_kept_trans (s1 s2 s3 : st_rx_video_session_impl) (h12 : rv_sizes_kept s1 s2)
    (h23 : rv_sizes_kept s2 s3) : rv_sizes_kept s1 s3 :=
  ⟨h23.1.trans h12.1, h23.2.1.trans h12.2.1, h23.2.2.1.trans h12.2.2.1,
    h23.2.2.2.1.trans h12.2.2.2.1, h23.2.2.2.2.trans h12.2.2.2.2⟩

theorem rv_uinit_hw_ports_sizes (ports : List Nat) :
    ∀ (impl : mtl_main_impl) (s : st_rx_video_session_impl),
      rv_sizes_kept s (rv_uinit_hw_ports impl s ports).2 := by
  induction ports with
  | nil => intro impl s; exact rv_sizes_kept_refl s
  | cons i rest ih =>
    intro impl s
    unfold rv_uinit_hw_ports
    split_ifs
    · exact rv_sizes_kept_trans _ _ _ ⟨rfl, rfl, rfl, rfl, rfl⟩ (ih _ _)
    · exact ih _ _

theorem rv_uinit_hw_sizes (impl : mtl_main_impl) (s : st_rx_video_session_impl) :
    rv_sizes_kept s (rv_uinit_hw impl s).2 :=
  rv_uinit_hw_ports_sizes _ impl s

theorem rv_init_hw_ports_sizes (ports : List Nat) :
    ∀ (impl : mtl_main_impl) (s : st_rx_video_session_impl),
      rv_sizes_kept s (rv_init_hw_ports impl s ports).2.2 := by
  induction ports with
  | nil => intro impl s; exact rv_sizes_kept_refl s
  | cons i rest ih =>
    intro impl s
    unfold rv_init_hw_ports
    split_ifs
    · exact rv_uinit_hw_sizes impl s
    · exact rv_sizes_kept_trans _ _ _ ⟨rfl, rfl, rfl, rfl, rfl⟩ (ih _ _)
    · exact rv_uinit_hw_sizes impl s

theorem rv_init_hw_sizes (impl : mtl_main_impl) (s : st_rx_video_session_impl) :
    rv_sizes_kept s (rv_init_hw impl s).2.2 :=
  rv_init_hw_ports_sizes _ impl s

theorem rv_init_rtcp_ports_sizes (ports : List Nat) :
    ∀ (impl : mtl_main_impl) (s : st_rx_video_session_impl),
      rv_sizes_kept s (rv_init_rtcp_ports impl s ports).2.2 := by
  induction ports with
  | nil => intro impl s; exact rv_sizes_kept_refl s
  | cons i rest ih =>
    intro impl s
    unfold rv_init_rtcp_ports
    split_ifs
    · exact rv_sizes_kept_refl s
    · exact rv_sizes_kept_trans _ _ _ ⟨rfl, rfl, rfl, rfl, rfl⟩ (ih _ _)
    · exact ⟨rfl, rfl, rfl, rfl, rfl⟩

theorem rv_init_rtcp_sizes (impl : mtl_main_impl) (s : st_rx_video_session_impl) :
    rv_sizes_kept s (rv_init_rtcp impl s).2.2 :=
  rv_init_rtcp_ports_sizes _ impl s

theorem rv_init_sw_sizes (impl : mtl_main_impl) (s : st_rx_video_session_impl)
    (st22_ops : Option st22_rx_ops) : rv_sizes_kept s (rv_init_sw impl s st22_ops).2 := by
  unfold rv_init_sw
  split_ifs
  · exact rv_sizes_kept_refl s
  · cases st22_ops <;> exact ⟨rfl, rfl, rfl, rfl, rfl⟩

theorem rv_init_pkt_handler_sizes (s : st_rx_video_session_impl) :
    rv_sizes_kept s (rv_init_pkt_handler s).2 := by
  unfold rv_init_pkt_handler
  simp only []
  split_ifs <;> exact ⟨rfl, rfl, rfl, rfl, rfl⟩

theorem rv_attach_init_sizes (impl : mtl_main_impl) (s : st_rx_video_session_impl)
    (st22_ops : Option st22_rx_ops) :
    rv_sizes_kept s (rv_attach_init impl s st22_ops).2.2 := by
  have hhw := rv_init_hw_sizes impl s
  unfold rv_attach_init
  simp only []
  by_cases h1 : (rv_init_hw impl s).1 < 0
  · rw [if_pos h1]; exact hhw
  · rw [if_neg h1]
    generalize hsw : (if st20_is_frame_type (rv_init_hw impl s).2.2.ops.type = true ∧
        st22_ops.isNone = true ∧
        ((rv_init_hw impl s).2.2.ops.flag_auto_detect = true ∨
          (rv_init_hw impl s).2.1.has_ebu = true) then
        rv_detector_init (rv_init_hw impl s).2.2
      else rv_init_sw (rv_init_hw impl s).2.1 (rv_init_hw impl s).2.2 st22_ops) = sw
    have hsws : rv_sizes_kept (rv_init_hw impl s).2.2 sw.2 := by
      rw [← hsw]
      split_ifs
      · exact ⟨rfl, rfl, rfl, rfl, rfl⟩
      · exact rv_init_sw_sizes _ _ _
    have h02 := rv_sizes_kept_trans _ _ _ hhw hsws
    by_cases h2 : sw.1 < 0
    · rw [if_pos h2]
      exact rv_sizes_kept_trans _ _ _ h02 (rv_uinit_hw_sizes _ _)
    · rw [if_neg h2]
      by_cases h3 : (rv_init_mcast (rv_init_hw impl s).2.1 sw.2).1 < 0
      · rw [if_pos h3]
        exact rv_sizes_kept_trans _ _ _ h02
          (rv_sizes_kept_trans _ _ _ ⟨rfl, rfl, rfl, rfl, rfl⟩ (rv_uinit_hw_sizes _ _))
      · rw [if_neg h3]
        generalize hrt : (if sw.2.ops.flag_enable_rtcp = true then
            rv_init_rtcp (rv_init_mcast (rv_init_hw impl s).2.1 sw.2).2 sw.2
          else (0, (rv_init_mcast (rv_init_hw impl s).2.1 sw.2).2, sw.2)) = rtcp
        have hrts : rv_sizes_kept sw.2 rtcp.2.2 := by
          rw [← hrt]
          split_ifs
          · exact rv_init_rtcp_sizes _ _
          · exact rv_sizes_kept_refl _
        have h03 := rv_sizes_kept_trans _ _ _ h02 hrts
        by_cases h4 : rtcp.1 < 0
        · rw [if_pos h4]
          exact rv_sizes_kept_trans _ _ _ h03
            (rv_sizes_kept_trans _ _ _ ⟨rfl, rfl, rfl, rfl, rfl⟩ (rv_uinit_hw_sizes _ _))
        · rw [if_neg h4]
          have hh := rv_init_pkt_handler_sizes rtcp.2.2
          split_ifs
          · exact rv_sizes_kept_trans _ _ _ h03
              (rv_sizes_kept_trans _ _ _ hh
                (rv_sizes_kept_trans _ _ _ ⟨rfl, rfl, rfl, rfl, rfl⟩ (rv_uinit_hw_sizes _ _)))
          · exact rv_sizes_kept_trans _ _ _ h03
              (rv_sizes_kept_trans _ _ _ hh ⟨rfl, rfl, rfl, rfl, rfl⟩)

theorem rv_attach_derive_sizes (impl : mtl_main_impl) (s : st_rx_video_session_impl)
    (ops : st20_rx_ops) (hpm : 0 ≤ impl.port_map_ret) (hpg : 0 ≤ impl.pgroup_ret)
    (hfps : 0 ≤ impl.fps_timing_ret) (hcov0 : impl.pg_coverage ≠ 0)
    (hcov : impl.pg_coverage < U32) (hw : ops.width * impl.pg_size < U32)
    (hwh : ops.width * ops.height * impl.pg_size < U32) :
    ∃ code s1, rv_attach_derive impl s ops none = some (code, s1) ∧
      s1.st20_bytes_in_line = ops.width * impl.pg_size / impl.pg_coverage ∧
      s1.st20_linesize = max (ops.width * impl.pg_size / impl.pg_coverage) ops.linesize ∧
      (ops.linesize ≠ 0 ∧ ops.linesize ≤ ops.width * impl.pg_size / impl.pg_coverage →
        code = - EINVAL_errno ∧ s1.st20_frame_size = s.st20_frame_size) ∧
      (ops.linesize = 0 ∨ ops.width * impl.pg_size / impl.pg_coverage < ops.linesize →
        code = 0 ∧
        s1.st20_frame_size =
          if ops.interlaced then ops.width * ops.height * impl.pg_size / impl.pg_coverage / 2
          else ops.width * ops.height * impl.pg_size / impl.pg_coverage) := by
  have e1 : impl.pg_coverage % U32 = impl.pg_coverage := Nat.mod_eq_of_lt hcov
  have e2 : (ops.width * impl.pg_size) % U32 = ops.width * impl.pg_size := Nat.mod_eq_of_lt hw
  have e3 : (ops.width * ops.height * impl.pg_size) % U32 = ops.width * ops.height * impl.pg_size :=
    Nat.mod_eq_of_lt hwh
  unfold rv_attach_derive
  rw [if_neg (by omega), if_neg (by omega)]
  simp only []
  rw [if_neg (by omega), if_neg (by rw [e1]; exact hcov0)]
  simp only [e1, e2, e3]
  by_cases hbad : ¬ ops.width * impl.pg_size / impl.pg_coverage < ops.linesize ∧ ops.linesize ≠ 0
  · rw [if_pos hbad]
    refine ⟨_, _, rfl, rfl, ?_, fun _ => ⟨rfl, rfl⟩, fun h => ?_⟩
    · show (if ops.width * impl.pg_size / impl.pg_coverage < ops.linesize then ops.linesize
        else ops.width * impl.pg_size / impl.pg_coverage) = _
      rw [if_neg hbad.1]
      omega
    · exfalso
      rcases h with h | h
      · exact hbad.2 h
      · exact hbad.1 h
  · rw [if_neg hbad]
    refine ⟨_, _, rfl, rfl, ?_, fun h => ?_, fun _ => ⟨rfl, ?_⟩⟩
    · show (if ops.width * impl.pg_size / impl.pg_coverage < ops.linesize then ops.linesize
        else ops.width * impl.pg_size / impl.pg_coverage) = _
      split_ifs <;> omega
    · exfalso
      apply hbad
      exact ⟨by omega, h.1⟩
    · show (if ops.interlaced = true then
          ops.width * ops.height * impl.pg_size / impl.pg_coverage / 2
        else ops.width * ops.height * impl.pg_size / impl.pg_coverage) = _
      rfl

/-- Claim C12, as the code has it: for an ST 2110-20 configuration (no ST 2110-22 options) whose
lookups succeed and whose products fit in 32 bits, `rv_attach` returns, with
`st20_bytes_in_line = width * pg_size / pg_coverage` and `st20_linesize = max(bytes_in_line, linesize)`.  A non-zero user
line size that is not larger than `bytes_in_line` makes it return `-EINVAL` before the frame size is
derived: `st20_frame_size` keeps its old value.  For a user line size of 0 or above
`bytes_in_line` the frame size is `width * height * pg_size / pg_coverage`, halved when interlaced,
whatever the later steps of the attach return. -/
theorem rv_attach_derived_sizes (impl : mtl_main_impl) (s : st_rx_video_session_impl)
    (ops : st20_rx_ops) (hpm : 0 ≤ impl.port_map_ret) (hpg : 0 ≤ impl.pgroup_ret)
    (hfps : 0 ≤ impl.fps_timing_ret) (hcov0 : impl.pg_coverage ≠ 0)
    (hcov : impl.pg_coverage < U32) (hw : ops.width * impl.pg_size < U32)
    (hwh : ops.width * ops.height * impl.pg_size < U32) :
    ∃ code impl1 s1, rv_attach impl s ops none = some (code, impl1, s1) ∧
      s1.st20_bytes_in_line = ops.width * impl.pg_size / impl.pg_coverage ∧
      s1.st20_linesize = max (ops.width * impl.pg_size / impl.pg_coverage) ops.linesize ∧
      (ops.linesize ≠ 0 ∧ ops.linesize ≤ ops.width * impl.pg_size / impl.pg_coverage →
        code = - EINVAL_errno ∧ s1.st20_frame_size = s.st20_frame_size) ∧
      (ops.linesize = 0 ∨ ops.width * impl.pg_size / impl.pg_coverage < ops.linesize →
        s1.st20_frame_size =
          if ops.interlaced then ops.width * ops.height * impl.pg_size / impl.pg_coverage / 2
          else ops.width * ops.height * impl.pg_size / impl.pg_coverage) := by
  obtain ⟨code, s1, hd, hb, hl, hbad, hgood⟩ :=
    rv_attach_derive_sizes impl s ops hpm hpg hfps hcov0 hcov hw hwh
  unfold rv_attach
  rw [hd]
  simp only []
  by_cases hc : code < 0
  · rw [if_pos hc]
    refine ⟨code, impl, s1, rfl, hb, hl, hbad, fun h => ?_⟩
    have := (hgood h).1
    omega
  · rw [if_neg hc]
    have hk := rv_attach_init_sizes impl s1 none
    refine ⟨_, _, _, rfl, hk.2.1.trans hb, hk.2.2.1.trans hl, fun h => ?_, fun h => ?_⟩
    · have := (hbad h).1
      rw [this] at hc
      exact absurd (by decide) hc
    · exact hk.1.trans (hgood h).2

/-- Claim C12 at a concrete input: 1920 x 1080 with 5 bytes for 2 pixels and no user line
size gives lines of 4800 bytes and a frame of 5184000 bytes. -/
theorem rv_attach_derived_sizes_witness :
    ∃ code impl1 s1, rv_attach impl_all_ok st_rx_video_session_zero ops_1080p none =
        some (code, impl1, s1) ∧
      s1.st20_bytes_in_line = 4800 ∧ s1.st20_linesize = 4800 ∧ s1.st20_frame_size = 5184000 := by
  obtain ⟨code, impl1, s1, h, hb, hl, -, hf⟩ :=
    rv_attach_derived_sizes impl_all_ok st_rx_video_session_zero ops_1080p (by decide) (by decide)
      (by decide) (by decide) (by decide) (by decide) (by decide)
  exact ⟨code, impl1, s1, h, hb, hl, hf (Or.inl rfl)⟩

/-- Claim C12, counterexample: with a user line size of 4800 on a 1080p session (`bytes_in_line` is
4800 too) `rv_attach` returns `-EINVAL`; the frame size is not derived and stays 0 in the new
session. -/
theorem rv_attach_linesize_refused :
    (rv_attach impl_all_ok st_rx_video_session_zero ops_1080p_linesize_4800 none).map
      (fun r => (r.1, r.2.2.st20_bytes_in_line, r.2.2.st20_linesize, r.2.2.st20_frame_size)) =
      some (- EINVAL_errno, 4800, 4800, 0) := by
  decide

/-! ## Attach roll-back and detected sizes -/

/-- Claim C14, failing inputs.  (1) A session on two multicast ports; the join succeeds on
port 0 and fails on port 1: `rv_attach` fails, `rv_mgr_attach` returns no session, the table and
`max_idx` are unchanged and both receive queues are put back, but the group joined
on port 0 is still joined (the failure path of `rv_init_mcast` calls `rv_uinit_sw` and `rv_uinit_hw` only).
(2) A session on two ports with RTCP; the receiver is created on port 0 and
cannot be created on port 1: again no session, table unchanged, queues put
back, but the receiver of port 0 is still allocated (the failure path of
`rv_init_rtcp` does not call `rv_uinit_rtcp`), while the session that pointed to it is freed. -/
theorem rv_mgr_attach_failure_leaves_resources :
    rv_mgr_attach_outcome
        (rv_mgr_attach impl_mcast_fail_port1 mgr_empty ops_two_mcast_ports none) =
      some (false, 0, true, [], [0], []) ∧
    rv_mgr_attach_outcome
        (rv_mgr_attach impl_rtcp_fail_port1 mgr_empty ops_two_rtcp_ports none) =
      some (false, 0, true, [], [], [0]) :=
  ⟨rfl, rfl⟩

/-- Claim C13, failing input: the same 1280 x 720 picture (frame size 2304000) gets a bitmap
of max(2304000 / 800 / 8, 720 * 2 / 8) = 360 bytes when the session is attached with the
format, and of 2304000 / 1000 / 8 = 288 bytes when the format is found by the detector: the
detect path divides by 1000 where the attach path divides by 800. -/
theorem rv_detect_bitmap_size_differs :
    (rv_attach impl_all_ok st_rx_video_session_zero ops_720p none).map
      (fun r => (r.1, r.2.2.st20_frame_size, r.2.2.st20_frame_bitmap_size)) =
      some (0, 2304000, 360) ∧
    (rv_handle_detect_pkts impl_all_ok session_auto_detect
      (stream_720p_three_frames ++ stream_720p_fourth_frame)).2.detector.status = .SUCCESS ∧
    (rv_handle_detect_pkts impl_all_ok session_auto_detect
      (stream_720p_three_frames ++ stream_720p_fourth_frame)).2.st20_frame_size = 2304000 ∧
    (rv_handle_detect_pkts impl_all_ok session_auto_detect
      (stream_720p_three_frames ++ stream_720p_fourth_frame)).2.st20_frame_bitmap_size = 288 ∧
    max (2304000 / 800 / 8) (720 * 2 / 8) = 360 := by
  refine ⟨by decide, by decide, by decide, by decide, by decide⟩

/-- Claim C11, counterexample: after the three frames of `stream_720p_three_frames` (the third marker has been
handled) `notify_detected` has not been called, the detector is still detecting and the
packet handler is still `rv_handle_detect_pkt`; the calls come with the marker of the fourth
frame. -/
theorem rv_handle_detect_pkts_third_marker_silent :
    (rv_handle_detect_pkts impl_all_ok session_auto_detect stream_720p_three_frames).1 =
      [0, 0, 0, 0, 0, 0] ∧
    (rv_handle_detect_pkts impl_all_ok session_auto_detect stream_720p_three_frames).2.detected
      = [] ∧
    (rv_handle_detect_pkts impl_all_ok session_auto_detect
      stream_720p_three_frames).2.detector.status = .DETECTING ∧
    (rv_handle_detect_pkts impl_all_ok session_auto_detect stream_720p_three_frames).2.pkt_handler
      = .rv_handle_detect_pkt ∧
    (rv_handle_detect_pkts impl_all_ok session_auto_detect
      (stream_720p_three_frames ++ stream_720p_fourth_frame)).2.detected =
      [{ width := 1280, height := 720, fps := .P59_94, packing := .BPM, interlaced := false }] ∧
    (rv_handle_detect_pkts impl_all_ok session_auto_detect
      (stream_720p_three_frames ++ stream_720p_fourth_frame)).2.pkt_handler
      = .rv_handle_frame_pkt := by
  refine ⟨by decide, by decide, by decide, by decide, by decide, by decide⟩

/-! ## Format detection -/

theorem rv_detect_env_refl (s : st_rx_video_session_impl) : rv_detect_env s s :=
  ⟨rfl, rfl, rfl, rfl, rfl⟩

theorem rv_detect_env_trans (s1 s2 s3 : st_rx_video_session_impl) (h12 : rv_detect_env s1 s2)
    (h23 : rv_detect_env s2 s3) : rv_detect_env s1 s3 :=
  ⟨h23.1.trans h12.1, h23.2.1.trans h12.2.1, h23.2.2.1.trans h12.2.2.1,
    h23.2.2.2.1.trans h12.2.2.2.1, h23.2.2.2.2.trans h12.2.2.2.2⟩

theorem rv_detect_run_nil (impl : mtl_main_impl) (s : st_rx_video_session_impl) :
    rv_detect_run impl s [] s := rfl

theorem rv_detect_run_cons (impl : mtl_main_impl) (s s1 s2 : st_rx_video_session_impl)
    (p : rte_mbuf) (rest : List rte_mbuf)
    (h1 : rv_handle_detect_pkt impl s p 0 true = .ret 0 s1)
    (h2 : rv_detect_run impl s1 rest s2) : rv_detect_run impl s (p :: rest) s2 := by
  unfold rv_detect_run at *
  unfold rv_handle_detect_pkts
  rw [h1]
  simp only []
  rw [h2]
  rfl

theorem rv_detect_run_append (impl : mtl_main_impl) (xs ys : List rte_mbuf) :
    ∀ (s s1 s2 : st_rx_video_session_impl), rv_detect_run impl s xs s1 →
      rv_detect_run impl s1 ys s2 → rv_detect_run impl s (xs ++ ys) s2 := by
  induction xs with
  | nil =>
    intro s s1 s2 h1 h2
    unfold rv_detect_run at h1
    simp only [rv_handle_detect_pkts, List.length_nil, List.replicate_zero, Prod.mk.injEq,
      true_and] at h1
    subst h1
    exact h2
  | cons p rest ih =>
    intro s s1 s2 h1 h2
    unfold rv_detect_run at h1
    unfold rv_handle_detect_pkts at h1
    cases hr : rv_handle_detect_pkt impl s p 0 true with
    | fault t =>
      rw [hr] at h1
      simp at h1
    | ret code t =>
      rw [hr] at h1
      simp only [List.length_cons, List.replicate_succ, Prod.mk.injEq, List.cons.injEq] at h1
      obtain ⟨⟨hc, hcodes⟩, hst⟩ := h1
      subst hc
      have hrest : rv_detect_run impl t rest s1 := by
        unfold rv_detect_run
        exact Prod.ext hcodes hst
      exact rv_detect_run_cons impl s t s2 p (rest ++ ys) hr (ih t s1 s2 hrest h2)

theorem rv_detect_field_ok (s : st_rx_video_session_impl) (p : rte_mbuf)
    (h : p.row_number % U16 < BIT15) : rv_detect_field s p = s := by
  unfold rv_detect_field
  rw [if_neg (by omega)]

theorem rv_detect_packing_flags_ok (s : st_rx_video_session_impl) (p : rte_mbuf)
    (h : rv_detect_payload_length p % 180 = 0) :
    rv_detect_env s (rv_detect_packing_flags s p) ∧
    (rv_detect_packing_flags s p).detected = s.detected ∧
    (rv_detect_packing_flags s p).pkt_handler = s.pkt_handler ∧
    (rv_detect_packing_flags s p).detector.status = s.detector.status ∧
    (rv_detect_packing_flags s p).detector.bpm = s.detector.bpm ∧
    (rv_detect_packing_flags s p).detector.meta = s.detector.meta ∧
    (rv_detect_packing_flags s p).detector.frame_num = s.detector.frame_num ∧
    (rv_detect_packing_flags s p).detector.rtp_tm = s.detector.rtp_tm := by
  unfold rv_detect_packing_flags
  simp only []
  rw [if_neg (by simpa using h)]
  split_ifs <;> exact ⟨⟨rfl, rfl, rfl, rfl, rfl⟩, rfl, rfl, rfl, rfl, rfl, rfl, rfl⟩

theorem rv_handle_detect_pkt_body (impl : mtl_main_impl) (s : st_rx_video_session_impl)
    (p : rte_mbuf) (hok : detect_pkt_ok s.ops.payload_type p) (hm : p.marker = false) :
    ∃ s2, rv_handle_detect_pkt impl s p 0 true = .ret 0 s2 ∧ rv_detect_env s s2 ∧
      s2.detected = s.detected ∧ s2.pkt_handler = s.pkt_handler ∧
      s2.detector.status = s.detector.status ∧ s2.detector.bpm = s.detector.bpm ∧
      s2.detector.meta = s.detector.meta ∧ s2.detector.frame_num = s.detector.frame_num ∧
      s2.detector.rtp_tm = s.detector.rtp_tm := by
  obtain ⟨hpt, hsf, h180⟩ := hok
  have hf := rv_detect_packing_flags_ok s p h180
  unfold rv_handle_detect_pkt
  simp only []
  rw [rv_detect_field_ok s p hsf, if_neg (by simpa using hpt)]
  simp only [hm, Bool.false_eq_true, if_false]
  exact ⟨_, rfl, hf⟩

theorem rv_handle_detect_pkt_marker (impl : mtl_main_impl) (s : st_rx_video_session_impl)
    (p : rte_mbuf) (k : Nat) (hd : rv_detecting s k) (hk : k < 3)
    (hok : detect_pkt_ok s.ops.payload_type p) (hm : p.marker = true) :
    ∃ s2, rv_handle_detect_pkt impl s p 0 true = .ret 0 s2 ∧ rv_detect_env s s2 ∧
      rv_detecting s2 (k + 1) ∧
      s2.detector.rtp_tm = Function.update s.detector.rtp_tm k (p.tmstamp % U32) := by
  obtain ⟨hpt, hsf, h180⟩ := hok
  obtain ⟨hst, hh, hbpm, hmeta, hfn, hdet⟩ := hd
  obtain ⟨henv, hf1, hf2, hf3, hf4, hf5, hf6, hf7⟩ := rv_detect_packing_flags_ok s p h180
  unfold rv_handle_detect_pkt
  simp only []
  rw [rv_detect_field_ok s p hsf, if_neg (by simpa using hpt)]
  simp only [hm, if_true]
  have hon : rv_detect_on_marker (rv_detect_packing_flags s p) (p.tmstamp % U32)
        ((p.row_number % U16) % BIT15) =
      { rv_detect_packing_flags s p with
        detector :=
          { (rv_detect_packing_flags s p).detector with
            rtp_tm := Function.update (rv_detect_packing_flags s p).detector.rtp_tm
              (rv_detect_packing_flags s p).detector.frame_num (p.tmstamp % U32)
            pkt_num := Function.update (rv_detect_packing_flags s p).detector.pkt_num
              (rv_detect_packing_flags s p).detector.frame_num
              (rv_detect_packing_flags s p).stats.stat_pkts_received
            frame_num := (rv_detect_packing_flags s p).detector.frame_num + 1 } } := by
    unfold rv_detect_on_marker
    simp only []
    rw [if_pos (by rw [hf6, hfn]; exact hk)]
  rw [hon]
  simp only []
  rw [if_neg (by rw [hf5, hmeta]; simp)]
  refine ⟨_, rfl, henv, ⟨?_, ?_, ?_, ?_, ?_, ?_⟩, ?_⟩
  · exact hf3.trans hst
  · exact hf2.trans hh
  · exact hf4.trans hbpm
  · exact hf5.trans hmeta
  · show (rv_detect_packing_flags s p).detector.frame_num + 1 = k + 1
    rw [hf6, hfn]
  · exact hf1.trans hdet
  · show Function.update (rv_detect_packing_flags s p).detector.rtp_tm
      (rv_detect_packing_flags s p).detector.frame_num (p.tmstamp % U32) = _
    rw [hf6, hf7, hfn]

theorem rv_detect_run_bodies (impl : mtl_main_impl) (pkts : List rte_mbuf) :
    ∀ (s : st_rx_video_session_impl) (k : Nat), rv_detecting s k →
      (∀ p ∈ pkts, detect_pkt_ok s.ops.payload_type p ∧ p.marker = false) →
      ∃ s2, rv_detect_run impl s pkts s2 ∧ rv_detect_env s s2 ∧ rv_detecting s2 k ∧
        s2.detector.rtp_tm = s.detector.rtp_tm := by
  induction pkts with
  | nil =>
    intro s k hd _
    exact ⟨s, rv_detect_run_nil impl s, rv_detect_env_refl s, hd, rfl⟩
  | cons p rest ih =>
    intro s k hd hp
    have hp0 := hp p (List.mem_cons_self _ _)
    obtain ⟨s1, hr, henv, h1, h2, h3, h4, h5, h6, h7⟩ :=
      rv_handle_detect_pkt_body impl s p hp0.1 hp0.2
    obtain ⟨hst, hh, hbpm, hmeta, hfn, hdet⟩ := hd
    have hd1 : rv_detecting s1 k :=
      ⟨h3.trans hst, h2.trans hh, h4.trans hbpm, h5.trans hmeta, h6.trans hfn, h1.trans hdet⟩
    obtain ⟨s2, hrun, henv2, hd2, htm⟩ := ih s1 k hd1 (by
      intro q hq
      rw [henv.1]
      exact hp q (List.mem_cons_of_mem _ hq))
    exact ⟨s2, rv_detect_run_cons impl s s1 s2 p rest hr hrun, rv_detect_env_trans _ _ _ henv henv2,
      hd2, htm.trans h7⟩

theorem rv_detect_run_frame (impl : mtl_main_impl) (s : st_rx_video_session_impl)
    (body : List rte_mbuf) (m : rte_mbuf) (k : Nat) (hd : rv_detecting s k) (hk : k < 3)
    (hbody : ∀ p ∈ body, detect_pkt_ok s.ops.payload_type p ∧ p.marker = false)
    (hm : detect_pkt_ok s.ops.payload_type m ∧ m.marker = true) :
    ∃ s2, rv_detect_run impl s (body ++ [m]) s2 ∧ rv_detect_env s s2 ∧ rv_detecting s2 (k + 1) ∧
      s2.detector.rtp_tm = Function.update s.detector.rtp_tm k (m.tmstamp % U32) := by
  obtain ⟨s1, hrun, henv, hd1, htm⟩ := rv_detect_run_bodies impl body s k hd hbody
  obtain ⟨s2, hr, henv2, hd2, htm2⟩ :=
    rv_handle_detect_pkt_marker impl s1 m k hd1 hk (by rw [henv.1]; exact hm.1) hm.2
  refine ⟨s2, rv_detect_run_append impl body [m] s s1 s2 hrun
    (rv_detect_run_cons impl s1 s2 s2 m [] hr (rv_detect_run_nil impl s2)),
    rv_detect_env_trans _ _ _ henv henv2, hd2, ?_⟩
  rw [htm2, htm]

theorem rv_detect_derive_ok (s : st_rx_video_session_impl)
    (hcov : s.st20_pg_coverage % U32 ≠ 0) (hline : s.ops.linesize = 0) :
    ∃ s4, rv_detect_derive s = some (0, s4) ∧ s4.detected = s.detected ∧
      s4.detector = s.detector ∧ s4.ops = s.ops ∧ s4.st22_info = s.st22_info ∧
      s4.is_hdr_split = s.is_hdr_split := by
  unfold rv_detect_derive
  simp only []
  rw [if_neg hcov, if_neg (by rw [hline]; simp)]
  exact ⟨_, rfl, rfl, rfl, rfl, rfl, rfl⟩

theorem rv_detect_change_status_success (s : st_rx_video_session_impl)
    (hst : s.detector.status = .DETECTING) (htype : st20_is_frame_type s.ops.type = true)
    (hst22 : s.st22_info = none) (hsplit : s.is_hdr_split = false) :
    (rv_detect_change_status s .SUCCESS).detector.status = .SUCCESS ∧
    (rv_detect_change_status s .SUCCESS).pkt_handler = .rv_handle_frame_pkt ∧
    (rv_detect_change_status s .SUCCESS).detected = s.detected := by
  unfold rv_detect_change_status
  rw [if_neg (by rw [hst]; decide)]
  unfold rv_init_pkt_handler
  simp [htype, hst22, hsplit]

theorem rv_detect_init_ok (impl : mtl_main_impl) (s : st_rx_video_session_impl)
    (hcov : s.st20_pg_coverage % U32 ≠ 0) (hline : s.ops.linesize = 0)
    (hsw : 0 ≤ impl.init_sw_ret) (hst : s.detector.status = .DETECTING)
    (htype : st20_is_frame_type s.ops.type = true) (hst22 : s.st22_info = none)
    (hsplit : s.is_hdr_split = false) :
    ∃ s5, rv_detect_init impl s = .ret 0 s5 ∧ s5.detected = s.detected ∧
      s5.detector.status = .SUCCESS ∧ s5.pkt_handler = .rv_handle_frame_pkt := by
  obtain ⟨s4, hd, h1, h2, h3, h4, h5⟩ := rv_detect_derive_ok s hcov hline
  have hsw2 : rv_init_sw impl s4 none = (0, s4) := by
    unfold rv_init_sw
    rw [if_neg (by omega)]
  have hcs := rv_detect_change_status_success s4 (by rw [h2]; exact hst) (by rw [h3]; exact htype)
    (h4.trans hst22) (h5.trans hsplit)
  unfold rv_detect_init
  rw [hd]
  simp only []
  rw [if_neg (by decide), hsw2]
  simp only []
  rw [if_neg (by decide)]
  exact ⟨_, rfl, hcs.2.2.trans h1, hcs.1, hcs.2.1⟩

theorem rv_detect_detected_ok (impl : mtl_main_impl) (s : st_rx_video_session_impl)
    (notify : st20_detect_meta → Int × st20_detect_reply)
    (hnotify : s.ops.notify_detected = some notify) (hn0 : 0 ≤ (notify s.detector.meta).1)
    (hcov : s.st20_pg_coverage % U32 ≠ 0) (hline : s.ops.linesize = 0)
    (hsw : 0 ≤ impl.init_sw_ret) (hst : s.detector.status = .DETECTING)
    (htype : st20_is_frame_type s.ops.type = true) (hst22 : s.st22_info = none)
    (hsplit : s.is_hdr_split = false) :
    ∃ s5, rv_detect_detected impl s = .ret 0 s5 ∧ s5.detected = s.detector.meta :: s.detected ∧
      s5.detector.status = .SUCCESS ∧ s5.pkt_handler = .rv_handle_frame_pkt := by
  have hn : rv_detect_notify (rv_detect_copy_meta s) =
      .ok { rv_detect_copy_meta s with
        detected := s.detector.meta :: s.detected
        slice_lines := (notify s.detector.meta).2.slice_lines
        st20_uframe_size := (notify s.detector.meta).2.uframe_size } := by
    unfold rv_detect_notify
    have e : (rv_detect_copy_meta s).ops.notify_detected = some notify := hnotify
    rw [e]
    simp only []
    have e2 : (rv_detect_copy_meta s).detector.meta = s.detector.meta := rfl
    rw [e2, if_neg (by omega)]
    rfl
  unfold rv_detect_detected
  rw [hn]
  simp only []
  exact rv_detect_init_ok impl _ hcov hline hsw hst htype hst22 hsplit

theorem rv_detect_on_marker_fourth (s : st_rx_video_session_impl) (tmstamp : Nat)
    (hfn : s.detector.frame_num = 3) (hbpm : s.detector.bpm = true)
    (hmeta : s.detector.meta =
      { width := 0, height := 0, fps := .MAX, packing := .MAX, interlaced := false })
    (hd0 : rv_detector_rtp_tm_delta s.detector 0 1 = 1501 ∨
      rv_detector_rtp_tm_delta s.detector 0 1 = 1502)
    (hd1 : (rv_detector_rtp_tm_delta s.detector 0 1 -
      rv_detector_rtp_tm_delta s.detector 1 2).natAbs ≤ 1) :
    (rv_detect_on_marker s tmstamp 719).detector.meta = detect_meta_720p59 ∧
    (rv_detect_on_marker s tmstamp 719).detector.status = s.detector.status ∧
    (rv_detect_on_marker s tmstamp 719).ops = s.ops ∧
    (rv_detect_on_marker s tmstamp 719).detected = s.detected ∧
    (rv_detect_on_marker s tmstamp 719).st20_pg_coverage = s.st20_pg_coverage ∧
    (rv_detect_on_marker s tmstamp 719).st22_info = s.st22_info ∧
    (rv_detect_on_marker s tmstamp 719).is_hdr_split = s.is_hdr_split := by
  have h1 : rv_detector_calculate_dimension s.detector ((719 : Nat) : Int) =
      { s.detector with meta := { s.detector.meta with height := 720, width := 1280 } } := by
    unfold rv_detector_calculate_dimension
    simp [hmeta]
  have h2 : rv_detector_calculate_fps
        { s.detector with meta := { s.detector.meta with height := 720, width := 1280 } } =
      { s.detector with
        meta := { s.detector.meta with height := 720, width := 1280, fps := .P59_94 } } := by
    unfold rv_detector_calculate_fps
    simp only []
    have e01 : rv_detector_rtp_tm_delta
        { s.detector with meta := { s.detector.meta with height := 720, width := 1280 } } 0 1 =
        rv_detector_rtp_tm_delta s.detector 0 1 := rfl
    have e12 : rv_detector_rtp_tm_delta
        { s.detector with meta := { s.detector.meta with height := 720, width := 1280 } } 1 2 =
        rv_detector_rtp_tm_delta s.detector 1 2 := rfl
    rw [e01, e12, if_pos hd1]
    rcases hd0 with h | h <;> rw [h] <;> simp
  unfold rv_detect_on_marker
  simp only []
  rw [if_neg (by rw [hfn]; decide), h1, h2]
  unfold rv_detector_calculate_n_packet rv_detector_calculate_packing
  simp only []
  refine ⟨?_, ?_, ?_, ?_, ?_, ?_, ?_⟩
  · split_ifs <;> simp_all [detect_meta_720p59]
  · split_ifs <;> rfl
  all_goals trivial

theorem rv_handle_detect_pkt_fourth_marker (impl : mtl_main_impl)
    (s : st_rx_video_session_impl) (p : rte_mbuf)
    (notify : st20_detect_meta → Int × st20_detect_reply) (hd : rv_detecting s 3)
    (hok : detect_pkt_ok s.ops.payload_type p) (hm : p.marker = true)
    (hl : (p.row_number % U16) % BIT15 = 719)
    (hd0 : rv_detector_rtp_tm_delta s.detector 0 1 = 1501 ∨
      rv_detector_rtp_tm_delta s.detector 0 1 = 1502)
    (hd1 : (rv_detector_rtp_tm_delta s.detector 0 1 -
      rv_detector_rtp_tm_delta s.detector 1 2).natAbs ≤ 1)
    (hnotify : s.ops.notify_detected = some notify) (hn0 : 0 ≤ (notify detect_meta_720p59).1)
    (hcov : s.st20_pg_coverage % U32 ≠ 0) (hline : s.ops.linesize = 0)
    (hsw : 0 ≤ impl.init_sw_ret) (htype : st20_is_frame_type s.ops.type = true)
    (hst22 : s.st22_info = none) (hsplit : s.is_hdr_split = false) :
    ∃ s5, rv_handle_detect_pkt impl s p 0 true = .ret 0 s5 ∧
      s5.detected = [detect_meta_720p59] ∧ s5.detector.status = .SUCCESS ∧
      s5.pkt_handler = .rv_handle_frame_pkt := by
  obtain ⟨hpt, hsf, h180⟩ := hok
  obtain ⟨hst, hh, hbpm, hmeta, hfn, hdet⟩ := hd
  obtain ⟨henv, hf1, hf2, hf3, hf4, hf5, hf6, hf7⟩ := rv_detect_packing_flags_ok s p h180
  have hdelta : ∀ i j, rv_detector_rtp_tm_delta (rv_detect_packing_flags s p).detector i j =
      rv_detector_rtp_tm_delta s.detector i j := by
    intro i j
    unfold rv_detector_rtp_tm_delta
    rw [hf7]
  obtain ⟨hm1, hm2, hm3, hm4, hm5, hm6, hm7⟩ :=
    rv_detect_on_marker_fourth (rv_detect_packing_flags s p) (p.tmstamp % U32)
      (hf6.trans hfn) (hf4.trans hbpm) (hf5.trans hmeta)
      (by rw [hdelta]; exact hd0) (by rw [hdelta, hdelta]; exact hd1)
  unfold rv_handle_detect_pkt
  simp only []
  rw [rv_detect_field_ok s p hsf, if_neg (by simpa using hpt)]
  simp only [hm, if_true]
  rw [hl, if_pos (by rw [hm1]; simp [detect_meta_720p59]),
    if_neg (by rw [hm1]; simp [detect_meta_720p59])]
  obtain ⟨s5, hr, hdet5, hst5, hh5⟩ :=
    rv_detect_detected_ok impl
      (rv_detect_on_marker (rv_detect_packing_flags s p) (p.tmstamp % U32) 719) notify
      (by rw [hm3, henv.1]; exact hnotify) (by rw [hm1]; exact hn0)
      (by rw [hm5, henv.2.2.1]; exact hcov) (by rw [hm3, henv.1]; exact hline) hsw
      (by rw [hm2, hf3]; exact hst) (by rw [hm3, henv.1]; exact htype)
      (by rw [hm6, henv.2.2.2.1]; exact hst22) (by rw [hm7, henv.2.2.2.2]; exact hsplit)
  refine ⟨s5, hr, ?_, hst5, hh5⟩
  rw [hdet5, hm1, hm4, hf1, hdet]

/-- Claim C11, as the code has it: a session whose detector is armed receives four frames of
a stream whose packets all have the payload type of the session, no second
field bit and a payload that is a multiple of 180 bytes; the frames end with
the marker packets `m1`..`m4`, the RTP timestamp steps `m1 -> m2` and `m2 -> m3` are 1501 or 1502
(and differ by at most 1), and `m4` is on line 719.  The first three markers are
only recorded: after `m3` `notify_detected` has not been called and the handler is still
`rv_handle_detect_pkt`.  The fourth marker makes the detection: `notify_detected` is called once, with 1280 x 720,
59.94 fps, BPM, progressive, and (the callback accepting, no user line size,
`rv_init_sw` succeeding, no ST 2110-22 and no header split) the status becomes SUCCESS and
the packet handler `rv_handle_frame_pkt`. -/
theorem rv_handle_detect_pkts_detected_at_fourth_marker (impl : mtl_main_impl)
    (s0 : st_rx_video_session_impl) (f1 f2 f3 f4 : List rte_mbuf) (m1 m2 m3 m4 : rte_mbuf)
    (notify : st20_detect_meta → Int × st20_detect_reply) (hd : rv_detecting s0 0)
    (hbody : ∀ p ∈ f1 ++ f2 ++ f3 ++ f4,
      detect_pkt_ok s0.ops.payload_type p ∧ p.marker = false)
    (hmark : ∀ p ∈ [m1, m2, m3, m4], detect_pkt_ok s0.ops.payload_type p ∧ p.marker = true)
    (hl : (m4.row_number % U16) % BIT15 = 719)
    (hd0 : rtp_tmstamp_step m1 m2 = 1501 ∨ rtp_tmstamp_step m1 m2 = 1502)
    (hd1 : (rtp_tmstamp_step m1 m2 - rtp_tmstamp_step m2 m3).natAbs ≤ 1)
    (hnotify : s0.ops.notify_detected = some notify) (hn0 : 0 ≤ (notify detect_meta_720p59).1)
    (hcov : s0.st20_pg_coverage % U32 ≠ 0) (hline : s0.ops.linesize = 0)
    (hsw : 0 ≤ impl.init_sw_ret) (htype : st20_is_frame_type s0.ops.type = true)
    (hst22 : s0.st22_info = none) (hsplit : s0.is_hdr_split = false) :
    (rv_handle_detect_pkts impl s0 ((f1 ++ [m1]) ++ (f2 ++ [m2]) ++ (f3 ++ [m3]))).2.detected
      = [] ∧
    (rv_handle_detect_pkts impl s0 ((f1 ++ [m1]) ++ (f2 ++ [m2]) ++ (f3 ++ [m3]))).2.pkt_handler
      = .rv_handle_detect_pkt ∧
    (rv_handle_detect_pkts impl s0
      ((f1 ++ [m1]) ++ (f2 ++ [m2]) ++ (f3 ++ [m3]) ++ (f4 ++ [m4]))).2.detected
      = [detect_meta_720p59] ∧
    (rv_handle_detect_pkts impl s0
      ((f1 ++ [m1]) ++ (f2 ++ [m2]) ++ (f3 ++ [m3]) ++ (f4 ++ [m4]))).2.detector.status
      = .SUCCESS ∧
    (rv_handle_detect_pkts impl s0
      ((f1 ++ [m1]) ++ (f2 ++ [m2]) ++ (f3 ++ [m3]) ++ (f4 ++ [m4]))).2.pkt_handler
      = .rv_handle_frame_pkt := by
  have hb1 : ∀ p ∈ f1, detect_pkt_ok s0.ops.payload_type p ∧ p.marker = false :=
    fun p hp => hbody p (by simp [hp])
  have hb2 : ∀ p ∈ f2, detect_pkt_ok s0.ops.payload_type p ∧ p.marker = false :=
    fun p hp => hbody p (by simp [hp])
  have hb3 : ∀ p ∈ f3, detect_pkt_ok s0.ops.payload_type p ∧ p.marker = false :=
    fun p hp => hbody p (by simp [hp])
  have hb4 : ∀ p ∈ f4, detect_pkt_ok s0.ops.payload_type p ∧ p.marker = false :=
    fun p hp => hbody p (by simp [hp])
  have hk1 := hmark m1 (by simp)
  have hk2 := hmark m2 (by simp)
  have hk3 := hmark m3 (by simp)
  have hk4 := hmark m4 (by simp)
  obtain ⟨s1, hr1, he1, hd1s, ht1⟩ := rv_detect_run_frame impl s0 f1 m1 0 hd (by decide) hb1 hk1
  obtain ⟨s2, hr2, he2, hd2s, ht2⟩ := rv_detect_run_frame impl s1 f2 m2 1 hd1s (by decide)
    (by rw [he1.1]; exact hb2) (by rw [he1.1]; exact hk2)
  have he02 := rv_detect_env_trans _ _ _ he1 he2
  obtain ⟨s3, hr3, he3, hd3s, ht3⟩ := rv_detect_run_frame impl s2 f3 m3 2 hd2s (by decide)
    (by rw [he02.1]; exact hb3) (by rw [he02.1]; exact hk3)
  have he03 := rv_detect_env_trans _ _ _ he02 he3
  obtain ⟨s4, hr4, he4, hd4s, ht4⟩ := rv_detect_run_bodies impl f4 s3 3 hd3s
    (by rw [he03.1]; exact hb4)
  have he04 := rv_detect_env_trans _ _ _ he03 he4
  have htm : s4.detector.rtp_tm =
      Function.update (Function.update (Function.update s0.detector.rtp_tm 0 (m1.tmstamp % U32))
        1 (m2.tmstamp % U32)) 2 (m3.tmstamp % U32) := by
    rw [ht4, ht3, ht2, ht1]
  have h01 : rv_detector_rtp_tm_delta s4.detector 0 1 = rtp_tmstamp_step m1 m2 := by
    unfold rv_detector_rtp_tm_delta rtp_tmstamp_step
    rw [htm]
    simp [Function.update]
  have h12 : rv_detector_rtp_tm_delta s4.detector 1 2 = rtp_tmstamp_step m2 m3 := by
    unfold rv_detector_rtp_tm_delta rtp_tmstamp_step
    rw [htm]
    simp [Function.update]
  obtain ⟨s5, hr5, hdet5, hst5, hh5⟩ :=
    rv_handle_detect_pkt_fourth_marker impl s4 m4 notify hd4s (by rw [he04.1]; exact hk4.1) hk4.2
      hl (by rw [h01]; exact hd0) (by rw [h01, h12]; exact hd1)
      (by rw [he04.1]; exact hnotify) hn0 (by rw [he04.2.2.1]; exact hcov)
      (by rw [he04.1]; exact hline) hsw (by rw [he04.1]; exact htype)
      (he04.2.2.2.1.trans hst22) (he04.2.2.2.2.trans hsplit)
  have hrun3 := rv_detect_run_append impl _ _ s0 s2 s3
    (rv_detect_run_append impl _ _ s0 s1 s2 hr1 hr2) hr3
  have hrun5 := rv_detect_run_append impl _ _ s0 s3 s5 hrun3
    (rv_detect_run_append impl f4 [m4] s3 s4 s5 hr4
      (rv_detect_run_cons impl s4 s5 s5 m4 [] hr5 (rv_detect_run_nil impl s5)))
  unfold rv_detect_run at hrun3 hrun5
  rw [hrun3, hrun5]
  exact ⟨hd3s.2.2.2.2.2, hd3s.2.1, hdet5, hst5, hh5⟩

/-- Claim C11 at a concrete input: the session `session_auto_detect` and the four frames of the 720p stream. -/
theorem rv_handle_detect_pkts_detected_at_fourth_marker_witness :
    rv_detecting session_auto_detect 0 ∧
    rtp_tmstamp_step (mbuf_720p 1000 1 719 true) (mbuf_720p 2501 3 719 true) = 1501 ∧
    (rv_handle_detect_pkts impl_all_ok session_auto_detect
      (([mbuf_720p 1000 0 0 false] ++ [mbuf_720p 1000 1 719 true]) ++
        ([mbuf_720p 2501 2 0 false] ++ [mbuf_720p 2501 3 719 true]) ++
        ([mbuf_720p 4003 4 0 false] ++ [mbuf_720p 4003 5 719 true]) ++
        ([mbuf_720p 5504 6 0 false] ++ [mbuf_720p 5504 7 719 true]))).2.detected
      = [detect_meta_720p59] :=
  ⟨⟨rfl, rfl, rfl, rfl, rfl, rfl⟩, by decide,
    (rv_handle_detect_pkts_detected_at_fourth_marker impl_all_ok session_auto_detect
      [mbuf_720p 1000 0 0 false] [mbuf_720p 2501 2 0 false] [mbuf_720p 4003 4 0 false]
      [mbuf_720p 5504 6 0 false] (mbuf_720p 1000 1 719 true) (mbuf_720p 2501 3 719 true)
      (mbuf_720p 4003 5 719 true) (mbuf_720p 5504 7 719 true)
      (fun _ => (0, { slice_lines := 0, uframe_size := 0 }))
      ⟨rfl, rfl, rfl, rfl, rfl, rfl⟩
      (by
        intro p hp
        simp only [List.cons_append, List.nil_append, List.mem_cons, List.mem_singleton,
          List.not_mem_nil, or_false] at hp
        rcases hp with h | h | h | h <;> subst h <;> exact ⟨⟨rfl, by decide, by decide⟩, rfl⟩)
      (by
        intro p hp
        simp only [List.mem_cons, List.mem_singleton, List.not_mem_nil, or_false] at hp
        rcases hp with h | h | h | h <;> subst h <;> exact ⟨⟨rfl, by decide, by decide⟩, rfl⟩)
      (by decide) (Or.inl (by decide)) (by decide) rfl (by decide) (by decide) rfl (by decide)
      rfl rfl rfl).2.2.1⟩

/-! ## ST 2110-22 boxes of a late first packet -/

theorem st22_box_kept_refl (s : st_rx_video_session_impl) : st22_box_kept s s :=
  fun _ => rfl

theorem st22_box_kept_trans (s1 s2 s3 : st_rx_video_session_impl) (h12 : st22_box_kept s1 s2)
    (h23 : st22_box_kept s2 s3) : st22_box_kept s1 s3 :=
  fun j => (h23 j).trans (h12 j)

theorem rv_st22_frame_notify_box (s : st_rx_video_session_impl) (i f : Nat)
    (status : st_frame_status) : st22_box_kept s (rv_st22_frame_notify s i f status) := by
  intro j
  unfold rv_st22_frame_notify
  simp only [rv_put_frame]
  by_cases hj : j = i
  · subst hj; split_ifs <;> simp
  · split_ifs <;> simp [Function.update_noteq hj]

theorem rv_st22_slot_full_frame_box (s : st_rx_video_session_impl) (i f : Nat) :
    st22_box_kept s (rv_st22_slot_full_frame s i f) := by
  intro j
  unfold rv_st22_slot_full_frame
  by_cases hj : j = i
  · subst hj; simp [rv_slot_init_frame_size, rv_st22_frame_notify_box s j f .COMPLETE j]
  · simp [Function.update_noteq hj, rv_st22_frame_notify_box s i f .COMPLETE j]

theorem rv_st22_pkt_finish_box (s : st_rx_video_session_impl) (i f : Nat) :
    st22_box_kept s (rv_st22_pkt_finish s i f).state := by
  unfold rv_st22_pkt_finish
  split_ifs
  · exact rv_st22_slot_full_frame_box _ i f
  · exact fun _ => rfl

theorem rv_st22_pkt_copy_box (s : st_rx_video_session_impl) (mbuf : st22_mbuf)
    (i f offset skip len : Nat) (marker : Bool) :
    st22_box_kept s
      (rv_st22_expect_size (rv_st22_pkt_copy s mbuf i f offset skip len) marker offset len) := by
  intro j
  unfold rv_st22_expect_size rv_st22_pkt_copy
  by_cases hj : j = i
  · subst hj
    split_ifs <;> simp [rv_slot_add_frame_size, frame_memcpy]
  · split_ifs <;> simp [Function.update_noteq hj, frame_memcpy]

theorem rv_handle_st22_pkt_place_box (s : st_rx_video_session_impl) (mbuf : st22_mbuf)
    (i : Nat) : st22_box_kept s (rv_handle_st22_pkt_place s mbuf i).state := by
  unfold rv_handle_st22_pkt_place
  cases hf : (s.slots i).frame with
  | none =>
    simp only [hf]
    exact fun _ => rfl
  | some f =>
    simp only [hf]
    by_cases h1 : s.st20_frame_size <
        (rv_st22_offset (s.slots i) (st22_pkt_counter mbuf) +
          rv_st22_copy_length (s.slots i) (st22_pkt_counter mbuf)
            (st22_payload_length s mbuf)) % U32
    · rw [if_pos h1]
      exact fun _ => rfl
    · rw [if_neg h1]
      exact st22_box_kept_trans _ _ _ (rv_st22_pkt_copy_box s mbuf i f _ _ _ _)
        (rv_st22_pkt_finish_box _ i f)

/-- Claim C21 (code bug): a packet with packet counter 0 that finds its slot with the sequence base already
captured (another packet of the frame arrived before it) does not get its
boxes parsed: whatever the packet carries and whatever becomes of it, every
slot has the box header length it had before, and the length taken off the
packet (and off the offsets of the other packets) is that old one. -/
theorem rv_handle_st22_pkt_late_first_pkt_boxes_not_parsed (s : st_rx_video_session_impl)
    (mbuf : st22_mbuf) (s_port : Nat) (ctrl_thread : Bool) (i : Nat)
    (hctr : st22_pkt_counter mbuf = 0)
    (hmatch : rv_slot_match s (mbuf.tmstamp % U32) = some i)
    (hgot : (s.slots i).seq_id_got = true) :
    (∀ j, ((rv_handle_st22_pkt s mbuf s_port ctrl_thread).state.slots j).st22_box_hdr_length =
      (s.slots j).st22_box_hdr_length) ∧
    (∀ slot : st_rx_video_slot_impl,
      rv_st22_copy_length slot (st22_pkt_counter mbuf) (st22_payload_length s mbuf) =
        (st22_payload_length s mbuf + U16 - slot.st22_box_hdr_length % U16) % U16) := by
  refine ⟨?_, fun slot => by simp [rv_st22_copy_length, hctr]⟩
  unfold rv_handle_st22_pkt
  split_ifs with h1 h2
  · exact fun _ => rfl
  · exact fun _ => rfl
  · simp only [rv_slot_by_tmstamp_match s _ i none hmatch]
    unfold rv_handle_st22_pkt_slot
    simp only [hgot, if_true]
    split_ifs with h3 h4 h5
    · exact fun _ => rfl
    · exact fun _ => rfl
    · intro j
      by_cases hj : j = i
      · subst hj; simp [rv_result.state]
      · simp [rv_result.state, Function.update_noteq hj]
    · refine st22_box_kept_trans _ _ _ ?_ (rv_handle_st22_pkt_place_box _ mbuf i)
      intro j
      by_cases hj : j = i
      · subst hj; simp
      · simp [Function.update_noteq hj]

/-- Claim C21, failing input: packet 1 of the example frame arrives first and captures the base;
then packet 0 arrives with its `jpvs` (16 bytes) and `colr` (20 bytes) boxes.  `rv_parse_st22_boxes` would
give 36 for it, but the packet is accepted (return value 0, second packet received)
with the box header length of the slot still 0, and its first 100 payload bytes,
boxes included, are copied to offset 0 of the frame. -/
theorem rv_handle_st22_pkt_late_first_pkt_boxes_not_parsed_witness :
    st22_pkt_counter (st22_pkt_example 0) = 0 ∧
    rv_slot_match session_st22_second_pkt_first ((st22_pkt_example 0).tmstamp % U32) = some 0 ∧
    (session_st22_second_pkt_first.slots 0).seq_id_got = true ∧
    rv_parse_st22_boxes (st22_pkt_example 0).payload = some 36 ∧
    (rv_handle_st22_pkt session_st22_second_pkt_first (st22_pkt_example 0) 0 true).code
      = some 0 ∧
    ((rv_handle_st22_pkt session_st22_second_pkt_first (st22_pkt_example 0) 0
      true).state.slots 0).st22_box_hdr_length = 0 ∧
    ((rv_handle_st22_pkt session_st22_second_pkt_first (st22_pkt_example 0) 0
      true).state.slots 0).pkts_received = 2 ∧
    ((rv_handle_st22_pkt session_st22_second_pkt_first (st22_pkt_example 0) 0
      true).state.st20_frames 0).copies.map (fun c => (c.dst, c.data.length, c.data.take 8))
      = [(0, 100, [0, 0, 0, 16, 106, 112, 118, 115]), (100, 100, [2, 2, 2, 2, 2, 2, 2, 2])] :=
  ⟨by decide, by decide, by decide, by decide, by decide,
    ((rv_handle_st22_pkt_late_first_pkt_boxes_not_parsed session_st22_second_pkt_first
      (st22_pkt_example 0) 0 true 0 (by decide) (by decide) (by decide)).1 0).trans
      (by decide),
    by decide, by decide⟩

/-! ## Detector packet count -/

/-- Claim C22, counterexample: on `stream_720p_uneven_frames` the samples at the first three markers are 1, 3 and 6
packets, so the two deltas are 2 and 3; the detector reports SUCCESS at the fourth
marker all the same (`notify_detected` is called with 1280 x 720 at 59.94 in block packing), and
`pkt_per_frame` still has the 0 of `rv_detector_init`. -/
theorem rv_handle_detect_pkts_success_with_unequal_deltas :
    (rv_handle_detect_pkts impl_all_ok session_auto_detect
      stream_720p_uneven_frames).2.detector.status = .SUCCESS ∧
    ((rv_handle_detect_pkts impl_all_ok session_auto_detect
      stream_720p_uneven_frames).2.detector.pkt_num 0,
     (rv_handle_detect_pkts impl_all_ok session_auto_detect
      stream_720p_uneven_frames).2.detector.pkt_num 1,
     (rv_handle_detect_pkts impl_all_ok session_auto_detect
      stream_720p_uneven_frames).2.detector.pkt_num 2) = (1, 3, 6) ∧
    (rv_handle_detect_pkts impl_all_ok session_auto_detect
      stream_720p_uneven_frames).2.detector.pkt_per_frame = 0 ∧
    (rv_handle_detect_pkts impl_all_ok session_auto_detect
      stream_720p_uneven_frames).2.detected =
      [{ width := 1280, height := 720, fps := .P59_94, packing := .BPM, interlaced := false }] ∧
    (rv_handle_detect_pkts impl_all_ok session_auto_detect
      stream_720p_uneven_frames).2.pkt_handler = .rv_handle_frame_pkt := by
  refine ⟨by decide, by decide, by decide, by decide, by decide⟩

theorem rv_detector_calculate_dimension_meta (d : st_rx_video_detector) (l : Int) :
    ∃ m, rv_detector_calculate_dimension d l = { d with meta := m } := by
  unfold rv_detector_calculate_dimension
  simp only []
  split_ifs <;> exact ⟨_, rfl⟩

theorem rv_detector_calculate_fps_meta (d : st_rx_video_detector) :
    ∃ m, rv_detector_calculate_fps d = { d with meta := m } := by
  unfold rv_detector_calculate_fps
  simp only []
  split_ifs <;> exact ⟨_, rfl⟩

theorem rv_detector_calculate_packing_meta (d : st_rx_video_detector) :
    ∃ m, rv_detector_calculate_packing d = { d with meta := m } := by
  unfold rv_detector_calculate_packing
  simp only []
  split_ifs <;> exact ⟨_, rfl⟩

theorem rv_detect_on_marker_calculated (s : st_rx_video_session_impl) (tmstamp line : Nat)
    (h : ¬ s.detector.frame_num < 3) :
    ∃ m, (rv_detect_on_marker s tmstamp line).detector =
      { s.detector with
        meta := m
        frame_num := 0
        pkt_per_frame :=
          if (s.detector.pkt_num 1 : Int) - s.detector.pkt_num 0 =
              (s.detector.pkt_num 2 : Int) - s.detector.pkt_num 1 then
            (s.detector.pkt_num 1 : Int) - s.detector.pkt_num 0
          else s.detector.pkt_per_frame } := by
  unfold rv_detect_on_marker
  simp only []
  rw [if_neg h]
  obtain ⟨m1, h1⟩ := rv_detector_calculate_dimension_meta s.detector (line : Int)
  rw [h1]
  obtain ⟨m2, h2⟩ := rv_detector_calculate_fps_meta { s.detector with meta := m1 }
  rw [h2]
  unfold rv_detector_calculate_n_packet
  simp only []
  split_ifs with ht
  · obtain ⟨m3, h3⟩ := rv_detector_calculate_packing_meta
      { s.detector with meta := m2, pkt_per_frame := (s.detector.pkt_num 1 : Int) - s.detector.pkt_num 0 }
    exact ⟨m3, by rw [h3]⟩
  · obtain ⟨m3, h3⟩ := rv_detector_calculate_packing_meta { s.detector with meta := m2 }
    exact ⟨m3, by rw [h3]⟩

theorem rv_detect_flags_detector (s : st_rx_video_session_impl) (mbuf : rte_mbuf) :
    ∃ (m : st20_detect_meta) (b sl : Bool),
      m.fps = s.detector.meta.fps ∧
      (rv_detect_packing_flags (rv_detect_field s mbuf) mbuf).detector =
        { s.detector with meta := m, bpm := b, single_line := sl } := by
  unfold rv_detect_packing_flags rv_detect_field
  simp only []
  split_ifs <;> exact ⟨_, _, _, by rfl, rfl⟩

theorem rv_detect_change_status_detector (s : st_rx_video_session_impl)
    (new_status : st20_detect_status) :
    (rv_detect_change_status s new_status).detector =
      { s.detector with status := new_status } := by
  unfold rv_detect_change_status
  split_ifs with h
  · rw [← h]
  · unfold rv_init_pkt_handler
    simp only []
    split_ifs <;> rfl

theorem rv_detect_notify_detector (s s3 : st_rx_video_session_impl)
    (hn : rv_detect_notify s = .ok s3) : s3.detector = s.detector := by
  unfold rv_detect_notify at hn
  cases hcb : s.ops.notify_detected with
  | none =>
    simp only [hcb] at hn
    cases hn
    rfl
  | some cb =>
    simp only [hcb] at hn
    split_ifs at hn with hneg
    cases hn
    rfl

theorem rv_detect_notify_error_detector (s : st_rx_video_session_impl)
    (e : Int × st_rx_video_session_impl) (hn : rv_detect_notify s = .error e) :
    e.2.detector = { s.detector with status := .FAIL } := by
  unfold rv_detect_notify at hn
  cases hcb : s.ops.notify_detected with
  | none => simp [hcb] at hn
  | some cb =>
    simp only [hcb] at hn
    split_ifs at hn with hneg
    cases hn
    rw [rv_detect_change_status_detector]

theorem rv_detect_init_detector (impl : mtl_main_impl) (s : st_rx_video_session_impl) :
    ∃ st, (rv_detect_init impl s).state.detector = { s.detector with status := st } := by
  unfold rv_detect_init
  cases hd : rv_detect_derive s with
  | none => exact ⟨s.detector.status, rfl⟩
  | some r =>
    obtain ⟨code, s4⟩ := r
    have h4 : s4.detector = s.detector := by
      unfold rv_detect_derive at hd
      simp only [] at hd
      split_ifs at hd <;> cases hd <;> rfl
    simp only []
    have hsw : (rv_init_sw impl s4 none).2.detector = s4.detector := by
      unfold rv_init_sw
      split_ifs <;> rfl
    split_ifs with hc hr
    · exact ⟨s.detector.status, by simp [rv_result.state, h4]⟩
    · exact ⟨.FAIL, by rw [rv_result.state, rv_detect_change_status_detector, hsw, h4]⟩
    · exact ⟨.SUCCESS, by
        show (rv_detect_change_status (rv_init_sw impl s4 none).2 .SUCCESS).detector = _
        rw [rv_detect_change_status_detector, hsw, h4]⟩

theorem rv_detect_detected_detector (impl : mtl_main_impl) (s : st_rx_video_session_impl) :
    ∃ st, (rv_detect_detected impl s).state.detector = { s.detector with status := st } := by
  unfold rv_detect_detected
  cases hn : rv_detect_notify (rv_detect_copy_meta s) with
  | error e =>
    exact ⟨.FAIL, rv_detect_notify_error_detector (rv_detect_copy_meta s) e hn⟩
  | ok s3 =>
    obtain ⟨st, h⟩ := rv_detect_init_detector impl s3
    exact ⟨st, by
      show (rv_detect_init impl s3).state.detector = _
      rw [h, rv_detect_notify_detector (rv_detect_copy_meta s) s3 hn]
      rfl⟩

theorem rv_detect_received_detector (s : st_rx_video_session_impl) :
    (rv_detect_received s).state.detector = s.detector := rfl

/-- Claim C22, amended: when a packet takes a detector that is detecting and has found no frame rate
yet to SUCCESS, that packet is a marker packet arriving after three samples were taken,
the samples are unchanged, and `pkt_per_frame` is the first delta `pkt_num[1] - pkt_num[0]` if the
two deltas are equal and the value it had before (0 after `rv_detector_init`) if they differ: unequal
deltas do not prevent the success. -/
theorem rv_handle_detect_pkt_success_pkt_per_frame (impl : mtl_main_impl)
    (s : st_rx_video_session_impl) (mbuf : rte_mbuf) (s_port : Nat) (ctrl_thread : Bool)
    (hst : s.detector.status = .DETECTING) (hfps : s.detector.meta.fps = .MAX)
    (hsucc : (rv_handle_detect_pkt impl s mbuf s_port ctrl_thread).state.detector.status =
      .SUCCESS) :
    mbuf.marker = true ∧ 3 ≤ s.detector.frame_num ∧
    (rv_handle_detect_pkt impl s mbuf s_port ctrl_thread).state.detector.pkt_num =
      s.detector.pkt_num ∧
    (rv_handle_detect_pkt impl s mbuf s_port ctrl_thread).state.detector.pkt_per_frame =
      (if (s.detector.pkt_num 1 : Int) - s.detector.pkt_num 0 =
          (s.detector.pkt_num 2 : Int) - s.detector.pkt_num 1 then
        (s.detector.pkt_num 1 : Int) - s.detector.pkt_num 0
      else s.detector.pkt_per_frame) := by
  obtain ⟨m, b, sl, hm, hfl⟩ := rv_detect_flags_detector s mbuf
  have hne : st20_detect_status.DETECTING ≠ .SUCCESS := by decide
  have hfield : (rv_detect_field s mbuf).detector.status = s.detector.status := by
    unfold rv_detect_field
    split_ifs <;> rfl
  have hrec :
      (rv_detect_packing_flags (rv_detect_field s mbuf) mbuf).detector.frame_num < 3 →
      (rv_detect_on_marker (rv_detect_packing_flags (rv_detect_field s mbuf) mbuf)
        (mbuf.tmstamp % U32) (mbuf.row_number % U16 % BIT15)).detector.meta = m ∧
      (rv_detect_on_marker (rv_detect_packing_flags (rv_detect_field s mbuf) mbuf)
        (mbuf.tmstamp % U32) (mbuf.row_number % U16 % BIT15)).detector.status =
        s.detector.status := by
    intro hfn
    unfold rv_detect_on_marker
    simp only []
    rw [if_pos hfn]
    constructor
    · show (rv_detect_packing_flags (rv_detect_field s mbuf) mbuf).detector.meta = m
      rw [hfl]
    · show (rv_detect_packing_flags (rv_detect_field s mbuf) mbuf).detector.status = _
      rw [hfl]
  have key : mbuf.marker = true ∧
      ¬ (rv_detect_packing_flags (rv_detect_field s mbuf) mbuf).detector.frame_num < 3 ∧
      ∃ st, (rv_handle_detect_pkt impl s mbuf s_port ctrl_thread).state.detector =
        { (rv_detect_on_marker (rv_detect_packing_flags (rv_detect_field s mbuf) mbuf)
            (mbuf.tmstamp % U32) (mbuf.row_number % U16 % BIT15)).detector with
          status := st } := by
    unfold rv_handle_detect_pkt at hsucc ⊢
    simp only [] at hsucc ⊢
    split_ifs at hsucc ⊢ with h1 h2 h3 h4
    · exact absurd (hst.symm.trans (hfield.symm.trans hsucc)) hne
    · rw [rv_detect_received_detector, rv_detect_change_status_detector] at hsucc
      exact absurd hsucc (show st20_detect_status.FAIL ≠ .SUCCESS by decide)
    · by_cases hfn :
          (rv_detect_packing_flags (rv_detect_field s mbuf) mbuf).detector.frame_num < 3
      · exfalso
        rw [(hrec hfn).1, hm, hfps] at h3
        exact h3.1 rfl
      · exact ⟨h2, hfn, rv_detect_detected_detector impl _⟩
    · exfalso
      rw [rv_detect_received_detector] at hsucc
      by_cases hfn :
          (rv_detect_packing_flags (rv_detect_field s mbuf) mbuf).detector.frame_num < 3
      · exact hne (hst.symm.trans ((hrec hfn).2.symm.trans hsucc))
      · obtain ⟨m4, h4⟩ := rv_detect_on_marker_calculated _ (mbuf.tmstamp % U32)
          (mbuf.row_number % U16 % BIT15) hfn
        rw [h4, hfl] at hsucc
        exact hne (hst.symm.trans hsucc)
    · exfalso
      rw [rv_detect_received_detector, hfl] at hsucc
      exact hne (hst.symm.trans hsucc)
  obtain ⟨hmk, hfn, st, hdet⟩ := key
  obtain ⟨m4, h4⟩ := rv_detect_on_marker_calculated _ (mbuf.tmstamp % U32)
    (mbuf.row_number % U16 % BIT15) hfn
  rw [hfl] at hfn
  rw [hdet, h4, hfl]
  exact ⟨hmk, Nat.not_lt.mp hfn, rfl, rfl⟩

/-- Claim C22 at concrete inputs: the fourth marker packet takes both example sessions to SUCCESS; after the
even frames (samples 1, 3, 5) `pkt_per_frame` is the delta 2, after the uneven frames (samples
1, 3, 6) it is still 0. -/
theorem rv_handle_detect_pkt_success_pkt_per_frame_witness :
    session_detect_even_frames.detector.status = .DETECTING ∧
    session_detect_even_frames.detector.meta.fps = .MAX ∧
    (rv_handle_detect_pkt impl_all_ok session_detect_even_frames (mbuf_720p 5504 7 719 true)
      0 true).state.detector.status = .SUCCESS ∧
    (rv_handle_detect_pkt impl_all_ok session_detect_even_frames (mbuf_720p 5504 7 719 true)
      0 true).state.detector.pkt_per_frame = 2 ∧
    session_detect_uneven_frames.detector.status = .DETECTING ∧
    session_detect_uneven_frames.detector.meta.fps = .MAX ∧
    (rv_handle_detect_pkt impl_all_ok session_detect_uneven_frames (mbuf_720p 5504 8 719 true)
      0 true).state.detector.status = .SUCCESS ∧
    (rv_handle_detect_pkt impl_all_ok session_detect_uneven_frames (mbuf_720p 5504 8 719 true)
      0 true).state.detector.pkt_per_frame = 0 :=
  ⟨by decide, by decide, by decide,
    (rv_handle_detect_pkt_success_pkt_per_frame impl_all_ok session_detect_even_frames
      (mbuf_720p 5504 7 719 true) 0 true (by decide) (by decide) (by decide)).2.2.2.trans
      (by decide),
    by decide, by decide, by decide,
    (rv_handle_detect_pkt_success_pkt_per_frame impl_all_ok session_detect_uneven_frames
      (mbuf_720p 5504 8 719 true) 0 true (by decide) (by decide) (by decide)).2.2.2.trans
      (by decide)⟩

/-! ## Packet co-thread -/

/-- Claim C23, counterexample: the co-thread takes `mbuf_example` from the ring and hands it to the frame
handler with `ctrl_thread` true; slot 0, whose base was not captured, gets
`seq_id_got` and the base 0, the packet is received and `stat_pkts_idx_dropped` stays 0. -/
theorem rv_pkt_lcore_func_captures_base :
    (((rv_slot_by_tmstamp session_1080p_ring_one 1500 none).1.slots 0).seq_id_got = false) ∧
    (rv_pkt_lcore_func_iter session_1080p_ring_one).code = some 0 ∧
    ((rv_pkt_lcore_func_iter session_1080p_ring_one).state.slots 0).seq_id_got = true ∧
    ((rv_pkt_lcore_func_iter session_1080p_ring_one).state.slots 0).seq_id_base_u32 = 0 ∧
    ((rv_pkt_lcore_func_iter session_1080p_ring_one).state.slots 0).pkts_received = 1 ∧
    (rv_pkt_lcore_func_iter session_1080p_ring_one).state.stats.stat_pkts_idx_dropped = 0 := by
  refine ⟨by decide, by decide, by decide, by decide, by decide, by decide⟩

theorem rv_handle_frame_pkt_not_ctrl_thread (s s1 : st_rx_video_session_impl)
    (mbuf : rte_mbuf) (s_port i f : Nat)
    (hpt : mbuf.payload_type % 256 = s.ops.payload_type)
    (hseg : mbuf.next_data_len = none)
    (hlookup : rv_slot_by_tmstamp s (mbuf.tmstamp % U32) none = (s1, some i))
    (hframe : (s1.slots i).frame = some f)
    (hmeta : mbuf.row_length % U16 < BIT15)
    (hoff : rv_pkt_offset s1 mbuf + rv_pkt_payload_length mbuf ≤ rv_pkt_offset_limit s1)
    (hgot : (s1.slots i).seq_id_got = false) :
    rv_handle_frame_pkt s mbuf s_port false =
      .ret (- EIO_errno)
        { s1 with
          slots := Function.update s1.slots i
            { s1.slots i with second_field := decide (BIT15 ≤ mbuf.row_number % U16) }
          stats := { s1.stats with
            stat_pkts_idx_dropped := s1.stats.stat_pkts_idx_dropped + 1 } } := by
  rw [rv_handle_frame_pkt_to_slot s mbuf s_port false s1 i f hpt hseg hlookup hframe]
  unfold rv_handle_frame_pkt_slot
  rw [if_neg (Nat.not_le.mpr hmeta)]
  simp only []
  rw [if_neg (Nat.not_lt.mpr hoff)]
  unfold rv_pkt_seq_check
  simp [hgot]

/-- Claim C23, amended: (1) the co-thread hands the oldest packet of the ring to the frame handler
with `ctrl_thread` true; (2) on a session with a packet ring, `rv_handle_mbuf` dispatches a burst that
the ring did not take itself, with `ctl_thread` false (and with `ctl_thread` true when there is no
ring); (3) a packet handled with `ctrl_thread` false that reaches the sequence test on a slot
whose base is not captured is dropped with `-EIO`: `stat_pkts_idx_dropped` is one higher and the
slot keeps `seq_id_got` false and its `seq_id_base_u32`. -/
theorem rv_pkt_seq_check_base_needs_ctrl_thread :
    (∀ (s : st_rx_video_session_impl) (ring : rte_ring) (pkt : rte_mbuf) (rest : List rte_mbuf),
      s.pkt_lcore_ring = some ring → ring.objs = pkt :: rest →
      (rv_pkt_lcore_func_iter s).state =
        (rv_handle_frame_pkt { s with pkt_lcore_ring := some { ring with objs := rest } }
          pkt 0 true).state) ∧
    (∀ (pkt_handler : st_rx_video_session_impl → rte_mbuf → Nat → Bool → rv_result)
      (s : st_rx_video_session_impl) (s_port : Nat) (mbuf : List rte_mbuf),
      s.attached = true → mbuf ≠ [] →
      (∀ ring, s.pkt_lcore_ring = some ring → ring.capacity < ring.objs.length + mbuf.length) →
      rv_handle_mbuf pkt_handler s s_port mbuf =
        rv_handle_mbuf_loop pkt_handler s_port s.pkt_lcore_ring.isNone
          { s with
            stat_pkts_enqueue_fallback :=
              s.stat_pkts_enqueue_fallback + (if s.pkt_lcore_ring.isNone then 0 else mbuf.length)
            pri_nic_inflight_cnt := s.pri_nic_inflight_cnt + 1 } 0 mbuf) ∧
    (∀ (s s1 : st_rx_video_session_impl) (mbuf : rte_mbuf) (s_port i f : Nat),
      mbuf.payload_type % 256 = s.ops.payload_type →
      mbuf.next_data_len = none →
      rv_slot_by_tmstamp s (mbuf.tmstamp % U32) none = (s1, some i) →
      (s1.slots i).frame = some f →
      mbuf.row_length % U16 < BIT15 →
      rv_pkt_offset s1 mbuf + rv_pkt_payload_length mbuf ≤ rv_pkt_offset_limit s1 →
      (s1.slots i).seq_id_got = false →
      (rv_handle_frame_pkt s mbuf s_port false).code = some (- EIO_errno) ∧
      (rv_handle_frame_pkt s mbuf s_port false).state.stats.stat_pkts_idx_dropped =
        s1.stats.stat_pkts_idx_dropped + 1 ∧
      ((rv_handle_frame_pkt s mbuf s_port false).state.slots i).seq_id_got = false ∧
      ((rv_handle_frame_pkt s mbuf s_port false).state.slots i).seq_id_base_u32 =
        (s1.slots i).seq_id_base_u32) := by
  refine ⟨?_, ?_, ?_⟩
  · intro s ring pkt rest hring hobjs
    unfold rv_pkt_lcore_func_iter
    simp only [hring, hobjs]
    cases rv_handle_frame_pkt { s with pkt_lcore_ring := some { ring with objs := rest } }
      pkt 0 true <;> rfl
  · intro pkt_handler s s_port mbuf hatt hne hfull
    have hlen : mbuf.length ≠ 0 := fun h => hne (List.length_eq_zero.mp h)
    unfold rv_handle_mbuf
    cases hring : s.pkt_lcore_ring with
    | none => simp [hatt, hlen, hring]
    | some ring =>
      have hnot : ¬ ring.objs.length + mbuf.length ≤ ring.capacity :=
        Nat.not_le.mpr (hfull ring hring)
      simp [hatt, hlen, rte_ring_sp_enqueue_bulk, hnot, hring]
  · intro s s1 mbuf s_port i f hpt hseg hlookup hframe hmeta hoff hgot
    rw [rv_handle_frame_pkt_not_ctrl_thread s s1 mbuf s_port i f hpt hseg hlookup hframe hmeta
      hoff hgot]
    simp [rv_result.code, rv_result.state, hgot]

/-- Claim C23 at concrete inputs: (1) the co-thread step on `session_1080p_ring_one` is the frame handler on
`mbuf_example` with `ctrl_thread` true; (2) the ring of `session_1080p_ring_full` cannot take the burst
`[mbuf_example]`, which `rv_handle_mbuf` therefore dispatches itself with `ctl_thread` false; (3) that call opens slot 0
for timestamp 1500 and drops the packet: the return value is `-EIO`, `stat_pkts_idx_dropped` is 1 and
the base of slot 0 is not captured. -/
theorem rv_pkt_seq_check_base_needs_ctrl_thread_witness :
    (rv_pkt_lcore_func_iter session_1080p_ring_one).state =
      (rv_handle_frame_pkt
        { session_1080p_ring_one with
          pkt_lcore_ring := some { capacity := 511, objs := [] } } mbuf_example 0 true).state ∧
    rv_handle_mbuf rv_handle_frame_pkt session_1080p_ring_full 0 [mbuf_example] =
      rv_handle_mbuf_loop rv_handle_frame_pkt 0 false
        { session_1080p_ring_full with
          stat_pkts_enqueue_fallback := 1
          pri_nic_inflight_cnt := 1 } 0 [mbuf_example] ∧
    (rv_handle_frame_pkt session_1080p_ring_full mbuf_example 0 false).code =
      some (- EIO_errno) ∧
    (rv_handle_frame_pkt session_1080p_ring_full mbuf_example 0
      false).state.stats.stat_pkts_idx_dropped = 1 ∧
    ((rv_handle_frame_pkt session_1080p_ring_full mbuf_example 0 false).state.slots
      0).seq_id_got = false ∧
    (rv_handle_mbuf rv_handle_frame_pkt session_1080p_ring_full 0
      [mbuf_example]).state.stats.stat_pkts_idx_dropped = 1 :=
  ⟨rv_pkt_seq_check_base_needs_ctrl_thread.1 session_1080p_ring_one
      { capacity := 511, objs := [mbuf_example] } mbuf_example [] rfl rfl,
    rv_pkt_seq_check_base_needs_ctrl_thread.2.1 rv_handle_frame_pkt session_1080p_ring_full 0
      [mbuf_example] rfl (by decide)
      (fun ring h => by have e := Option.some.inj h; subst e; decide),
    (rv_pkt_seq_check_base_needs_ctrl_thread.2.2 session_1080p_ring_full
      (rv_slot_by_tmstamp session_1080p_ring_full 1500 none).1 mbuf_example 0 0 0
      (by decide) rfl (by rfl) (by rfl) (by decide) (by decide) (by rfl)).1,
    (rv_pkt_seq_check_base_needs_ctrl_thread.2.2 session_1080p_ring_full
      (rv_slot_by_tmstamp session_1080p_ring_full 1500 none).1 mbuf_example 0 0 0
      (by decide) rfl (by rfl) (by rfl) (by decide) (by decide) (by rfl)).2.1,
    (rv_pkt_seq_check_base_needs_ctrl_thread.2.2 session_1080p_ring_full
      (rv_slot_by_tmstamp session_1080p_ring_full 1500 none).1 mbuf_example 0 0 0
      (by decide) rfl (by rfl) (by rfl) (by decide) (by decide) (by rfl)).2.2.1,
    by decide⟩

/-! ## Slice tracker -/

theorem slice_covered_iff (ranges : List (Nat × Nat)) (b : Nat) :
    slice_covered ranges b = true ↔ 0 < range_count ranges b := by
  unfold slice_covered range_count
  rw [List.countP_pos_iff, List.any_eq_true]

theorem slice_used_le_length (slices : List st_rx_video_slot_slice) :
    slice_used slices ≤ slices.length :=
  List.countP_le_length _

theorem rv_slice_merge_pass_spec (slices : List st_rx_video_slot_slice) :
    ∀ m : Nat,
      (∀ b, (if b < (rv_slice_merge_pass slices m).2.1 then 1 else 0) +
          slice_count (rv_slice_merge_pass slices m).1 b =
        (if b < m then 1 else 0) + slice_count slices b) ∧
      slice_used (rv_slice_merge_pass slices m).1 + (rv_slice_merge_pass slices m).2.2 =
        slice_used slices ∧
      m ≤ (rv_slice_merge_pass slices m).2.1 ∧
      ((rv_slice_merge_pass slices m).2.2 = 0 →
        (rv_slice_merge_pass slices m).1 = slices ∧ (rv_slice_merge_pass slices m).2.1 = m ∧
        ∀ e ∈ slices, e.size ≠ 0 → e.offset ≠ m) ∧
      (rv_slice_merge_pass slices m).1.length = slices.length := by
  induction slices with
  | nil =>
    intro m
    simp [rv_slice_merge_pass, slice_count, slice_used]
  | cons e rest ih =>
    intro m
    by_cases h : e.size ≠ 0 ∧ e.offset = m
    · obtain ⟨h1, h2, h3, _, h5⟩ := ih (m + e.size)
      have hp : rv_slice_merge_pass (e :: rest) m =
          ({ offset := 0, size := 0 } :: (rv_slice_merge_pass rest (m + e.size)).1,
            (rv_slice_merge_pass rest (m + e.size)).2.1,
            (rv_slice_merge_pass rest (m + e.size)).2.2 + 1) := by
        rw [rv_slice_merge_pass]
        simp only [h, ne_eq, not_false_eq_true, and_self, if_true]
      rw [hp]
      refine ⟨?_, ?_, ?_, ?_, ?_⟩
      · intro b
        have := h1 b
        simp only [slice_count, List.countP_cons, Bool.and_eq_true, decide_eq_true_eq, h.2,
          Nat.zero_add] at this ⊢
        split_ifs at this ⊢ <;> omega
      · simp only [slice_used, List.countP_cons, decide_eq_true_eq] at h2 ⊢
        rw [if_neg (by simp), if_pos h.1]
        omega
      · show m ≤ (rv_slice_merge_pass rest (m + e.size)).2.1
        omega
      · intro h0
        exact absurd h0 (Nat.succ_ne_zero _)
      · simp [h5]
    · obtain ⟨h1, h2, h3, h4, h5⟩ := ih m
      have hp : rv_slice_merge_pass (e :: rest) m =
          (e :: (rv_slice_merge_pass rest m).1, (rv_slice_merge_pass rest m).2.1,
            (rv_slice_merge_pass rest m).2.2) := by
        rw [rv_slice_merge_pass]
        rw [if_neg h]
      rw [hp]
      refine ⟨?_, ?_, h3, ?_, ?_⟩
      · intro b
        have := h1 b
        simp only [slice_count, List.countP_cons] at this ⊢
        omega
      · simp only [slice_used, List.countP_cons] at h2 ⊢
        omega
      · intro h0
        obtain ⟨e1, e2, e3⟩ := h4 h0
        refine ⟨by simp [e1], e2, ?_⟩
        intro x hx hsz
        rcases List.mem_cons.mp hx with hx | hx
        · subst hx
          exact fun ho => h ⟨hsz, ho⟩
        · exact e3 x hx hsz
      · simp [h5]

theorem rv_slice_repeat_merge_spec (fuel : Nat) :
    ∀ (slices : List st_rx_video_slot_slice) (m : Nat), slice_used slices < fuel →
      (∀ b, (if b < (rv_slice_repeat_merge fuel slices m).2.1 then 1 else 0) +
          slice_count (rv_slice_repeat_merge fuel slices m).1 b =
        (if b < m then 1 else 0) + slice_count slices b) ∧
      slice_used (rv_slice_repeat_merge fuel slices m).1 +
          (rv_slice_repeat_merge fuel slices m).2.2 = slice_used slices ∧
      m ≤ (rv_slice_repeat_merge fuel slices m).2.1 ∧
      (∀ e ∈ (rv_slice_repeat_merge fuel slices m).1, e.size ≠ 0 →
        e.offset ≠ (rv_slice_repeat_merge fuel slices m).2.1) := by
  induction fuel with
  | zero =>
    intro slices m h
    exact absurd h (Nat.not_lt_zero _)
  | succ fuel1 ih =>
    intro slices m hlt
    obtain ⟨p1, p2, p3, p4, _⟩ := rv_slice_merge_pass_spec slices m
    rw [rv_slice_repeat_merge]
    simp only []
    by_cases h0 : (rv_slice_merge_pass slices m).2.2 = 0
    · rw [if_pos h0]
      obtain ⟨e1, e2, e3⟩ := p4 h0
      refine ⟨p1, p2, p3, ?_⟩
      rw [e1, e2]
      exact e3
    · rw [if_neg h0]
      have hlt2 : slice_used (rv_slice_merge_pass slices m).1 < fuel1 := by omega
      obtain ⟨q1, q2, q3, q4⟩ := ih _ _ hlt2
      refine ⟨fun b => (q1 b).trans (p1 b), ?_, Nat.le_trans p3 q3, q4⟩
      show slice_used (rv_slice_repeat_merge fuel1 (rv_slice_merge_pass slices m).1
          (rv_slice_merge_pass slices m).2.1).1 +
        ((rv_slice_merge_pass slices m).2.2 +
          (rv_slice_repeat_merge fuel1 (rv_slice_merge_pass slices m).1
            (rv_slice_merge_pass slices m).2.1).2.2) = slice_used slices
      omega

theorem rv_slice_add_extra_spec (o z : Nat) (hz : z ≠ 0)
    (slices : List st_rx_video_slot_slice) :
    ∀ slices1 filled, rv_slice_add_extra slices o z = some (slices1, filled) →
      (∀ b, slice_count slices1 b =
        slice_count slices b + (if o ≤ b ∧ b < o + z then 1 else 0)) ∧
      slice_used slices1 = slice_used slices + (if filled = true then 1 else 0) ∧
      (∀ e1 ∈ slices1, e1.size ≠ 0 →
        e1.offset = o ∨ ∃ e ∈ slices, e.size ≠ 0 ∧ e.offset = e1.offset) := by
  induction slices with
  | nil =>
    intro _ _ h
    simp [rv_slice_add_extra] at h
  | cons e rest ih =>
    intro slices1 filled h
    rw [rv_slice_add_extra] at h
    by_cases h0 : e.size = 0
    · rw [if_pos h0] at h
      cases h
      refine ⟨?_, ?_, ?_⟩
      · intro b
        simp only [slice_count, List.countP_cons, Bool.and_eq_true, decide_eq_true_eq, h0,
          Nat.add_zero]
        split_ifs <;> omega
      · simp only [slice_used, List.countP_cons, decide_eq_true_eq, h0]
        simp [hz]
      · intro e1 he1 hs1
        rcases List.mem_cons.mp he1 with hx | hx
        · subst hx
          exact Or.inl rfl
        · exact Or.inr ⟨e1, List.mem_cons_of_mem _ hx, hs1, rfl⟩
    · rw [if_neg h0] at h
      by_cases h1 : o = e.size + e.offset
      · rw [if_pos h1] at h
        cases h
        refine ⟨?_, ?_, ?_⟩
        · intro b
          simp only [slice_count, List.countP_cons, Bool.and_eq_true, decide_eq_true_eq]
          split_ifs <;> omega
        · simp only [slice_used, List.countP_cons, decide_eq_true_eq]
          have : e.size + z ≠ 0 := by omega
          simp [h0, this]
        · intro e1 he1 hs1
          rcases List.mem_cons.mp he1 with hx | hx
          · subst hx
            exact Or.inr ⟨e, List.mem_cons_self _ _, h0, rfl⟩
          · exact Or.inr ⟨e1, List.mem_cons_of_mem _ hx, hs1, rfl⟩
      · rw [if_neg h1] at h
        cases hr : rv_slice_add_extra rest o z with
        | none => simp [hr] at h
        | some r =>
          obtain ⟨rest1, f1⟩ := r
          simp only [hr] at h
          cases h
          obtain ⟨q1, q2, q3⟩ := ih rest1 filled hr
          refine ⟨?_, ?_, ?_⟩
          · intro b
            have := q1 b
            simp only [slice_count, List.countP_cons] at this ⊢
            omega
          · simp only [slice_used, List.countP_cons] at q2 ⊢
            omega
          · intro e1 he1 hs1
            rcases List.mem_cons.mp he1 with hx | hx
            · subst hx
              exact Or.inr ⟨e1, List.mem_cons_self _ _, hs1, rfl⟩
            · rcases q3 e1 hx hs1 with hq | ⟨e2, he2, hs2, ho2⟩
              · exact Or.inl hq
              · exact Or.inr ⟨e2, List.mem_cons_of_mem _ he2, hs2, ho2⟩

theorem rv_slice_add_total (s : st_rx_video_session_impl) (i f : Nat)
    (slice_info : st_rx_video_slot_slice_info) (offset size : Nat)
    (hframe : (s.slots i).frame = some f) (hsz : 0 < s.slice_size)
    (hinfo : (s.slots i).slice_info = some slice_info) :
    ∃ s1, rv_slice_add s i slice_info offset size = some s1 ∧ s1.slice_size = s.slice_size ∧
      (s1.slots i).frame = some f ∧ (s1.slots i).slice_info ≠ none ∧
      s.stats.stat_pkts_slice_fail ≤ s1.stats.stat_pkts_slice_fail := by
  unfold rv_slice_add
  simp only []
  cases hsl : slice_info.slices with
  | nil => exact ⟨s, rfl, rfl, hframe, by simp [hinfo], Nat.le_refl _⟩
  | cons main_slice extras =>
    simp only []
    by_cases hom : offset % U32 ≠ main_slice.size
    · rw [if_pos hom]
      cases hadd : rv_slice_add_extra extras (offset % U32) (size % U32) with
      | none =>
        exact ⟨_, rfl, rfl, hframe, by simp [hinfo], Nat.le_succ _⟩
      | some r =>
        obtain ⟨extras1, filled⟩ := r
        exact ⟨_, rfl, rfl, by simp [hframe], by simp, Nat.le_refl _⟩
    · rw [if_neg hom, if_neg (Nat.pos_iff_ne_zero.mp hsz)]
      generalize (if slice_info.extra_slices ≠ 0 then
        rv_slice_repeat_merge (extras.length + 1) extras (main_slice.size + size % U32)
        else (extras, main_slice.size + size % U32, 0)) = r
      by_cases hlt : slice_info.ready_slices < r.2.1 / s.slice_size
      · rw [if_pos hlt]
        simp only [Function.update_same, hframe]
        exact ⟨_, rfl, rfl, by simp [rv_slice_notify, hframe],
          by simp [rv_slice_notify], Nat.le_refl _⟩
      · rw [if_neg hlt]
        exact ⟨_, rfl, rfl, by simp [hframe], by simp, Nat.le_refl _⟩

theorem rv_slice_add_run_total (i f : Nat) (ranges : List (Nat × Nat)) :
    ∀ s : st_rx_video_session_impl, (s.slots i).frame = some f → 0 < s.slice_size →
      (s.slots i).slice_info ≠ none →
      ∃ s2, rv_slice_add_run s i ranges = some s2 ∧
        s.stats.stat_pkts_slice_fail ≤ s2.stats.stat_pkts_slice_fail := by
  induction ranges with
  | nil => intro s _ _ _; exact ⟨s, rfl, Nat.le_refl _⟩
  | cons r rest ih =>
    intro s hf hsz hinfo
    cases hi : (s.slots i).slice_info with
    | none => exact absurd hi hinfo
    | some info =>
      obtain ⟨s1, h1, h2, h3, h4, h5⟩ := rv_slice_add_total s i f info r.1 r.2 hf hsz hi
      obtain ⟨s2, h6, h7⟩ := ih s1 h3 (by rw [h2]; exact hsz) h4
      refine ⟨s2, ?_, Nat.le_trans h5 h7⟩
      rw [rv_slice_add_run]
      simp only [hi, h1]
      exact h6

theorem range_count_append (done : List (Nat × Nat)) (o z b : Nat) :
    range_count (done ++ [(o, z)]) b =
      range_count done b + (if o ≤ b ∧ b < o + z then 1 else 0) := by
  simp only [range_count, List.countP_append, List.countP_cons, List.countP_nil,
    Bool.and_eq_true, decide_eq_true_eq, Nat.zero_add]

theorem slice_used_eq_zero (slices : List st_rx_video_slot_slice) (h : slice_used slices = 0)
    (e : st_rx_video_slot_slice) (he : e ∈ slices) : e.size = 0 := by
  unfold slice_used at h
  rw [List.countP_eq_zero] at h
  have := h e he
  simpa using this

theorem rv_slice_add_step (s : st_rx_video_session_impl) (i f : Nat)
    (info : st_rx_video_slot_slice_info) (done : List (Nat × Nat)) (o z : Nat)
    (hframe : (s.slots i).frame = some f) (hsz : 0 < s.slice_size)
    (hinv : slice_tracker_inv s.slice_size done info)
    (hz : 0 < z) (ho : o + z < U32) :
    ∀ s1, rv_slice_add s i info o z = some s1 →
      s1.stats.stat_pkts_slice_fail = s.stats.stat_pkts_slice_fail →
      ∃ info1, (s1.slots i).slice_info = some info1 ∧
        slice_tracker_inv s.slice_size (done ++ [(o, z)]) info1 := by
  intro s1 h1 hfail
  obtain ⟨main, extras, hsl, hC, hN, hE, hR⟩ := hinv
  have ho1 : o % U32 = o := Nat.mod_eq_of_lt (by omega)
  have hz1 : z % U32 = z := Nat.mod_eq_of_lt (by omega)
  unfold rv_slice_add at h1
  simp only [hsl, ho1, hz1] at h1
  by_cases hom : o ≠ main.size
  · rw [if_pos hom] at h1
    cases hadd : rv_slice_add_extra extras o z with
    | none =>
      simp only [hadd] at h1
      cases h1
      simp at hfail
    | some r =>
      obtain ⟨extras1, filled⟩ := r
      simp only [hadd] at h1
      cases h1
      obtain ⟨q1, q2, q3⟩ := rv_slice_add_extra_spec o z (by omega) extras extras1 filled hadd
      refine ⟨{ info with
        slices := main :: extras1
        extra_slices := if filled then info.extra_slices + 1 else info.extra_slices },
        by simp, main, extras1, rfl, ?_, ?_, ?_, hR⟩
      · intro b
        rw [range_count_append, q1 b, ← hC b]
        omega
      · intro e1 he1 hs1
        rcases q3 e1 he1 hs1 with hq | ⟨e, he, hs, hoff⟩
        · rw [hq]; exact hom
        · rw [← hoff]; exact hN e he hs
      · show (if filled = true then info.extra_slices + 1 else info.extra_slices) = _
        rw [q2, hE]
        split_ifs <;> rfl
  · have hom2 : o = main.size := not_not.mp hom
    rw [if_neg hom, if_neg (Nat.pos_iff_ne_zero.mp hsz)] at h1
    have hr : ∃ r : List st_rx_video_slot_slice × Nat × Nat,
        (if info.extra_slices ≠ 0 then
          rv_slice_repeat_merge (extras.length + 1) extras (main.size + z)
          else (extras, main.size + z, 0)) = r ∧
        (∀ b, (if b < r.2.1 then 1 else 0) + slice_count r.1 b =
          (if b < main.size + z then 1 else 0) + slice_count extras b) ∧
        slice_used r.1 + r.2.2 = slice_used extras ∧ main.size + z ≤ r.2.1 ∧
        (∀ e ∈ r.1, e.size ≠ 0 → e.offset ≠ r.2.1) := by
      by_cases hx : info.extra_slices ≠ 0
      · rw [if_pos hx]
        exact ⟨_, rfl, rv_slice_repeat_merge_spec (extras.length + 1) extras (main.size + z)
          (Nat.lt_succ_of_le (slice_used_le_length extras))⟩
      · rw [if_neg hx]
        have hu : slice_used extras = 0 := by rw [← hE]; exact not_not.mp hx
        exact ⟨_, rfl, fun b => rfl, by simp, Nat.le_refl _,
          fun e he hs => absurd (slice_used_eq_zero extras hu e he) hs⟩
    obtain ⟨r, hreq, r1, r2, r3, r4⟩ := hr
    rw [hreq] at h1
    have hC2 : ∀ b, (if b < r.2.1 then 1 else 0) + slice_count r.1 b =
        range_count (done ++ [(o, z)]) b := by
      intro b
      rw [range_count_append, r1 b, ← hC b, hom2]
      split_ifs <;> omega
    have hE2 : info.extra_slices - r.2.2 = slice_used r.1 := by omega
    by_cases hlt : info.ready_slices < r.2.1 / s.slice_size
    · rw [if_pos hlt] at h1
      simp only [Function.update_same, hframe] at h1
      cases h1
      refine ⟨{ info with
        slices := { main with size := r.2.1 } :: r.1
        extra_slices := info.extra_slices - r.2.2
        ready_slices := r.2.1 / s.slice_size },
        by simp [rv_slice_notify], { main with size := r.2.1 }, r.1, rfl, hC2, r4, hE2, rfl⟩
    · rw [if_neg hlt] at h1
      cases h1
      refine ⟨{ info with
        slices := { main with size := r.2.1 } :: r.1
        extra_slices := info.extra_slices - r.2.2 },
        by simp, { main with size := r.2.1 }, r.1, rfl, hC2, r4, hE2, ?_⟩
      show info.ready_slices = r.2.1 / s.slice_size
      have hle : main.size / s.slice_size ≤ r.2.1 / s.slice_size :=
        Nat.div_le_div_right (by omega)
      omega

theorem rv_slice_add_run_append (i : Nat) (a b : List (Nat × Nat)) :
    ∀ s : st_rx_video_session_impl,
      rv_slice_add_run s i (a ++ b) =
        match rv_slice_add_run s i a with
        | some s1 => rv_slice_add_run s1 i b
        | none => none := by
  induction a with
  | nil => intro s; rfl
  | cons r rest ih =>
    intro s
    rw [List.cons_append, rv_slice_add_run, rv_slice_add_run]
    cases (s.slots i).slice_info with
    | none => rfl
    | some info =>
      simp only []
      cases rv_slice_add s i info r.1 r.2 with
      | none => rfl
      | some s1 => exact ih s1

theorem rv_slice_add_run_inv (i f : Nat) (rest : List (Nat × Nat)) :
    ∀ (s : st_rx_video_session_impl) (done : List (Nat × Nat))
      (info : st_rx_video_slot_slice_info),
      (s.slots i).frame = some f → 0 < s.slice_size → (s.slots i).slice_info = some info →
      slice_tracker_inv s.slice_size done info →
      (∀ r ∈ rest, 0 < r.2 ∧ r.1 + r.2 < U32) →
      (∀ s2, rv_slice_add_run s i rest = some s2 →
        s2.stats.stat_pkts_slice_fail = s.stats.stat_pkts_slice_fail) →
      ∃ s2 info2, rv_slice_add_run s i rest = some s2 ∧ s2.slice_size = s.slice_size ∧
        (s2.slots i).slice_info = some info2 ∧
        slice_tracker_inv s.slice_size (done ++ rest) info2 := by
  induction rest with
  | nil =>
    intro s done info _ _ hinfo hinv _ _
    exact ⟨s, info, rfl, rfl, hinfo, by rw [List.append_nil]; exact hinv⟩
  | cons r rest ih =>
    intro s done info hf hsz hinfo hinv hpos hfail
    obtain ⟨s1, h1, h2, h3, h4, h5⟩ := rv_slice_add_total s i f info r.1 r.2 hf hsz hinfo
    obtain ⟨s2, h6, h7⟩ := rv_slice_add_run_total i f rest s1 h3 (by rw [h2]; exact hsz) h4
    have hrun : rv_slice_add_run s i (r :: rest) = rv_slice_add_run s1 i rest := by
      rw [rv_slice_add_run]
      simp only [hinfo, h1]
    have hf2 := hfail s2 (by rw [hrun]; exact h6)
    have hf1 : s1.stats.stat_pkts_slice_fail = s.stats.stat_pkts_slice_fail := by omega
    obtain ⟨info1, hi1, hinv1⟩ := rv_slice_add_step s i f info done r.1 r.2 hf hsz hinv
      (hpos r (List.mem_cons_self _ _)).1 (hpos r (List.mem_cons_self _ _)).2 s1 h1 hf1
    obtain ⟨s3, info3, g1, g2, g3, g4⟩ := ih s1 (done ++ [(r.1, r.2)]) info1 h3
      (by rw [h2]; exact hsz) hi1 (by rw [h2]; exact hinv1)
      (fun q hq => hpos q (List.mem_cons_of_mem _ hq))
      (fun t ht => by rw [hf1]; exact hfail t (by rw [hrun]; exact ht))
    refine ⟨s3, info3, by rw [hrun]; exact g1, g2.trans h2, g3, ?_⟩
    rw [h2, List.append_assoc] at g4
    exact g4

theorem range_count_le_one (ranges : List (Nat × Nat))
    (hdisj : ranges.Pairwise (fun a b => a.1 + a.2 ≤ b.1 ∨ b.1 + b.2 ≤ a.1)) :
    ∀ b, range_count ranges b ≤ 1 := by
  induction ranges with
  | nil => intro b; simp [range_count]
  | cons r l ih =>
    rw [List.pairwise_cons] at hdisj
    intro b
    have ihb := ih hdisj.2 b
    simp only [range_count, List.countP_cons, Bool.and_eq_true, decide_eq_true_eq] at ihb ⊢
    by_cases hb : r.1 ≤ b ∧ b < r.1 + r.2
    · rw [if_pos hb]
      have h0 : List.countP (fun r => decide (r.1 ≤ b) && decide (b < r.1 + r.2)) l = 0 := by
        rw [List.countP_eq_zero]
        intro q hq
        have := hdisj.1 q hq
        simp only [Bool.and_eq_true, decide_eq_true_eq, not_and, Nat.not_lt]
        omega
      rw [h0]
    · rw [if_neg hb]
      omega

theorem take_mem_take (ranges : List (Nat × Nat)) (j k : Nat) (hjk : j ≤ k) (r : Nat × Nat)
    (h : r ∈ ranges.take j) : r ∈ ranges.take k := by
  have e : ranges.take j = (ranges.take k).take j := by
    rw [List.take_take, Nat.min_eq_left hjk]
  rw [e] at h
  exact List.mem_of_mem_take h

theorem slice_tracker_inv_longest_covered (slice_size : Nat) (ranges : List (Nat × Nat))
    (info : st_rx_video_slot_slice_info) (hinv : slice_tracker_inv slice_size ranges info)
    (huniq : ∀ b, range_count ranges b ≤ 1) :
    slice_longest_covered ranges (info.slices.headD { offset := 0, size := 0 }).size ∧
    info.ready_slices = (info.slices.headD { offset := 0, size := 0 }).size / slice_size := by
  obtain ⟨main, extras, hsl, hC, hN, _, hR⟩ := hinv
  rw [hsl]
  refine ⟨⟨?_, ?_⟩, hR⟩
  · intro b hb
    rw [slice_covered_iff, ← hC b]
    have hb2 : b < main.size := hb
    rw [if_pos hb2]
    omega
  · show slice_covered ranges main.size = false
    by_contra hcov
    have hcov2 : slice_covered ranges main.size = true := by
      cases h : slice_covered ranges main.size with
      | true => rfl
      | false => exact absurd h hcov
    rw [slice_covered_iff, ← hC main.size, if_neg (Nat.lt_irrefl _), Nat.zero_add] at hcov2
    unfold slice_count at hcov2
    rw [List.countP_pos_iff] at hcov2
    obtain ⟨e, he, hin⟩ := hcov2
    simp only [Bool.and_eq_true, decide_eq_true_eq] at hin
    have hs : e.size ≠ 0 := by omega
    have hoff : e.offset ≠ main.size := hN e he hs
    have hlt : e.offset < main.size := by omega
    have h2 := hC e.offset
    rw [if_pos hlt] at h2
    have h3 : 0 < slice_count extras e.offset := by
      unfold slice_count
      rw [List.countP_pos_iff]
      exact ⟨e, he, by simp only [Bool.and_eq_true, decide_eq_true_eq]; omega⟩
    have h4 := huniq e.offset
    omega

theorem rv_slice_add_run_kept (i f : Nat) (ranges : List (Nat × Nat)) :
    ∀ s : st_rx_video_session_impl, (s.slots i).frame = some f → 0 < s.slice_size →
      (s.slots i).slice_info ≠ none →
      ∀ s2, rv_slice_add_run s i ranges = some s2 →
        (s2.slots i).frame = some f ∧ s2.slice_size = s.slice_size ∧
        (s2.slots i).slice_info ≠ none := by
  induction ranges with
  | nil =>
    intro s hf _ hinfo s2 h
    cases h
    exact ⟨hf, rfl, hinfo⟩
  | cons r rest ih =>
    intro s hf hsz hinfo s2 h
    cases hi : (s.slots i).slice_info with
    | none => exact absurd hi hinfo
    | some info =>
      obtain ⟨s1, h1, h2, h3, h4, _⟩ := rv_slice_add_total s i f info r.1 r.2 hf hsz hi
      rw [rv_slice_add_run] at h
      simp only [hi, h1] at h
      obtain ⟨g1, g2, g3⟩ := ih s1 h3 (by rw [h2]; exact hsz) h4 s2 h
      exact ⟨g1, g2.trans h2, g3⟩

theorem rv_slice_fresh_inv (slice_size : Nat) (info : st_rx_video_slot_slice_info)
    (hclear : slice_info_clear info = info) (hne : info.slices ≠ []) :
    slice_tracker_inv slice_size [] info := by
  have h1 : info.slices = info.slices.map (fun _ => { offset := 0, size := 0 }) := by
    conv_lhs => rw [← hclear]
    rfl
  have h2 : info.ready_slices = 0 := by rw [← hclear]; rfl
  have h3 : info.extra_slices = 0 := by rw [← hclear]; rfl
  have hall : ∀ e ∈ info.slices, e.size = 0 := by
    intro e he
    rw [h1, List.mem_map] at he
    obtain ⟨_, _, rfl⟩ := he
    rfl
  cases hs : info.slices with
  | nil => exact absurd hs hne
  | cons main extras =>
    rw [hs] at hall
    have hm : main.size = 0 := hall main (List.mem_cons_self _ _)
    have hext : ∀ e ∈ extras, e.size = 0 := fun e he => hall e (List.mem_cons_of_mem _ he)
    refine ⟨main, extras, hs, ?_, ?_, ?_, ?_⟩
    · intro b
      have hc : slice_count extras b = 0 := by
        unfold slice_count
        rw [List.countP_eq_zero]
        intro e he
        have := hext e he
        simp only [Bool.and_eq_true, decide_eq_true_eq, not_and, Nat.not_lt]
        omega
      rw [hm, hc]
      simp [range_count]
    · intro e he hz
      exact absurd (hext e he) hz
    · rw [h3]
      symm
      unfold slice_used
      rw [List.countP_eq_zero]
      intro e he
      simp [hext e he]
    · rw [h2, hm, Nat.zero_div]

theorem rv_slice_add_run_take_fail (s : st_rx_video_session_impl) (i f : Nat)
    (ranges : List (Nat × Nat)) (hframe : (s.slots i).frame = some f) (hsz : 0 < s.slice_size)
    (hinfo : (s.slots i).slice_info ≠ none)
    (hfail : ∀ s2, rv_slice_add_run s i ranges = some s2 →
      s2.stats.stat_pkts_slice_fail = s.stats.stat_pkts_slice_fail) (k : Nat) :
    ∀ sk, rv_slice_add_run s i (ranges.take k) = some sk →
      sk.stats.stat_pkts_slice_fail = s.stats.stat_pkts_slice_fail := by
  intro sk hk
  obtain ⟨t, ht, hle⟩ := rv_slice_add_run_total i f (ranges.take k) s hframe hsz hinfo
  rw [hk] at ht
  cases ht
  obtain ⟨g1, g2, g3⟩ := rv_slice_add_run_kept i f (ranges.take k) s hframe hsz hinfo sk hk
  obtain ⟨s2, h2, hle2⟩ := rv_slice_add_run_total i f (ranges.drop k) sk g1
    (by rw [g2]; exact hsz) g3
  have happ := rv_slice_add_run_append i (ranges.take k) (ranges.drop k) s
  rw [List.take_append_drop, hk] at happ
  simp only [] at happ
  have := hfail s2 (happ.trans h2)
  omega

theorem rv_slice_add_run_take_inv (s : st_rx_video_session_impl) (i f : Nat)
    (ranges : List (Nat × Nat)) (hfresh : rv_slice_fresh s i)
    (hframe : (s.slots i).frame = some f) (hsz : 0 < s.slice_size)
    (hpos : ∀ r ∈ ranges, 0 < r.2 ∧ r.1 + r.2 < U32)
    (hfail : ∀ s2, rv_slice_add_run s i ranges = some s2 →
      s2.stats.stat_pkts_slice_fail = s.stats.stat_pkts_slice_fail) (k : Nat) :
    ∃ sk info, rv_slice_add_run s i (ranges.take k) = some sk ∧
      (sk.slots i).slice_info = some info ∧
      slice_tracker_inv s.slice_size (ranges.take k) info := by
  obtain ⟨info0, hi0, hclear, hne⟩ := hfresh
  have hinfo : (s.slots i).slice_info ≠ none := by rw [hi0]; exact Option.some_ne_none _
  obtain ⟨sk, info, h1, _, h3, h4⟩ := rv_slice_add_run_inv i f (ranges.take k) s [] info0
    hframe hsz hi0 (rv_slice_fresh_inv s.slice_size info0 hclear hne)
    (fun r hr => hpos r (List.mem_of_mem_take hr))
    (rv_slice_add_run_take_fail s i f ranges hframe hsz hinfo hfail k)
  rw [List.nil_append] at h4
  exact ⟨sk, info, h1, h3, h4⟩

theorem slice_longest_covered_mono (ranges : List (Nat × Nat)) (j k m n : Nat) (hjk : j ≤ k)
    (hj : slice_longest_covered (ranges.take j) m)
    (hk : slice_longest_covered (ranges.take k) n) : m ≤ n := by
  by_contra hlt
  have hc := hj.1 n (by omega)
  have hn := hk.2
  unfold slice_covered at hc hn
  rw [List.any_eq_true] at hc
  obtain ⟨r, hr, hin⟩ := hc
  have : (List.take k ranges).any
      (fun r => decide (r.1 ≤ n) && decide (n < r.1 + r.2)) = true := by
    rw [List.any_eq_true]
    exact ⟨r, take_mem_take ranges j k hjk r hr, hin⟩
  rw [hn] at this
  exact absurd this (by decide)

theorem option_map_eq_some_forall {α : Type} (o : Option α) (g : α → Nat) (n : Nat)
    (h : o.map g = some n) : ∀ a, o = some a → g a = n := by
  intro a ha
  rw [ha] at h
  exact Option.some.inj h

/-- Claim C24: on a freshly cleared tracker of slot `i` (with a frame, and a non-zero slice
size, so that no call traps), for the calls `rv_slice_add(offset, size)` over
pairwise disjoint ranges with `size > 0` that end below `2^32`, if
`stat_pkts_slice_fail` is the same after the run, then after each call `k` the
run has returned a state whose main slice has the size `m` of the longest
covered part `[0, m)` of the ranges added so far, `ready_slices` is
`m / slice_size`, and `ready_slices` was not larger after any earlier call. -/
theorem rv_slice_add_run_main_slice (s : st_rx_video_session_impl) (i f : Nat)
    (ranges : List (Nat × Nat)) (hfresh : rv_slice_fresh s i)
    (hframe : (s.slots i).frame = some f) (hsz : 0 < s.slice_size)
    (hpos : ∀ r ∈ ranges, 0 < r.2 ∧ r.1 + r.2 < U32)
    (hdisj : ranges.Pairwise (fun a b => a.1 + a.2 ≤ b.1 ∨ b.1 + b.2 ≤ a.1))
    (hfail : ∀ s2, rv_slice_add_run s i ranges = some s2 →
      s2.stats.stat_pkts_slice_fail = s.stats.stat_pkts_slice_fail) :
    ∀ k, ∃ sk, rv_slice_add_run s i (ranges.take k) = some sk ∧
      slice_longest_covered (ranges.take k) (rv_slice_main_size sk i) ∧
      rv_slice_ready_slices sk i = rv_slice_main_size sk i / s.slice_size ∧
      ∀ j, j ≤ k → ∀ sj, rv_slice_add_run s i (ranges.take j) = some sj →
        rv_slice_ready_slices sj i ≤ rv_slice_ready_slices sk i := by
  have key : ∀ k, ∃ sk, rv_slice_add_run s i (ranges.take k) = some sk ∧
      slice_longest_covered (ranges.take k) (rv_slice_main_size sk i) ∧
      rv_slice_ready_slices sk i = rv_slice_main_size sk i / s.slice_size := by
    intro k
    obtain ⟨sk, info, h1, h2, h3⟩ := rv_slice_add_run_take_inv s i f ranges hfresh hframe hsz
      hpos hfail k
    have h4 := slice_tracker_inv_longest_covered s.slice_size (ranges.take k) info h3
      (range_count_le_one _ (List.Pairwise.sublist (List.take_sublist k ranges) hdisj))
    refine ⟨sk, h1, ?_, ?_⟩
    · unfold rv_slice_main_size
      simp only [h2]
      exact h4.1
    · unfold rv_slice_main_size rv_slice_ready_slices
      simp only [h2]
      exact h4.2
  intro k
  obtain ⟨sk, h1, h2, h3⟩ := key k
  refine ⟨sk, h1, h2, h3, ?_⟩
  intro j hjk sj hj
  obtain ⟨sj2, g1, g2, g3⟩ := key j
  rw [hj] at g1
  cases g1
  rw [g3, h3]
  exact Nat.div_le_div_right (slice_longest_covered_mono ranges j k _ _ hjk g2 h2)

/-- Claim C24 at a concrete input: four ranges handed out of order to the cleared tracker of
`session_1080p_slices`; after the fourth call the main slice holds all 476400 bytes,
which is three whole slices. -/
theorem rv_slice_add_run_main_slice_witness :
    rv_slice_fresh session_1080p_slices 0 ∧
    (session_1080p_slices.slots 0).frame = some 0 ∧
    0 < session_1080p_slices.slice_size ∧
    (∀ r ∈ slice_ranges_example, 0 < r.2 ∧ r.1 + r.2 < U32) ∧
    slice_ranges_example.Pairwise (fun a b => a.1 + a.2 ≤ b.1 ∨ b.1 + b.2 ≤ a.1) ∧
    (rv_slice_add_run session_1080p_slices 0 slice_ranges_example).map
      (fun s2 => (rv_slice_main_size s2 0, rv_slice_ready_slices s2 0)) = some (476400, 3) ∧
    ∃ sk, rv_slice_add_run session_1080p_slices 0 (slice_ranges_example.take 4) = some sk ∧
      slice_longest_covered (slice_ranges_example.take 4) (rv_slice_main_size sk 0) ∧
      rv_slice_ready_slices sk 0 = rv_slice_main_size sk 0 / session_1080p_slices.slice_size ∧
      ∀ j, j ≤ 4 → ∀ sj,
        rv_slice_add_run session_1080p_slices 0 (slice_ranges_example.take j) = some sj →
        rv_slice_ready_slices sj 0 ≤ rv_slice_ready_slices sk 0 :=
  ⟨⟨_, rfl, rfl, by decide⟩, rfl, by decide, by decide, by decide, by decide,
    rv_slice_add_run_main_slice session_1080p_slices 0 0 slice_ranges_example
      ⟨_, rfl, rfl, by decide⟩ rfl (by decide) (by decide) (by decide)
      (option_map_eq_some_forall _
        (fun s2 : st_rx_video_session_impl => s2.stats.stat_pkts_slice_fail) _ (by decide)) 4⟩

/-! ## Zero payload length -/

/-- Claim C25 (code bug): a packet whose payload length is 0 passes the payload-type, segment, slot,
user-meta and offset-bound tests like any other; on a slot whose sequence base is
not yet captured the control thread then computes `offset % payload_length` with a zero
divisor, and the handler traps instead of returning. -/
theorem rv_handle_frame_pkt_zero_payload_length_traps (s s1 : st_rx_video_session_impl)
    (mbuf : rte_mbuf) (s_port i f : Nat)
    (hpt : mbuf.payload_type % 256 = s.ops.payload_type)
    (hseg : mbuf.next_data_len = none)
    (hlookup : rv_slot_by_tmstamp s (mbuf.tmstamp % U32) none = (s1, some i))
    (hframe : (s1.slots i).frame = some f)
    (hmeta : mbuf.row_length % U16 < BIT15)
    (hoff : rv_pkt_offset s1 mbuf + rv_pkt_payload_length mbuf ≤ rv_pkt_offset_limit s1)
    (hgot : (s1.slots i).seq_id_got = false)
    (hlen : rv_pkt_payload_length mbuf = 0) :
    (rv_handle_frame_pkt s mbuf s_port true).code = none := by
  rw [rv_handle_frame_pkt_to_slot s mbuf s_port true s1 i f hpt hseg hlookup hframe]
  unfold rv_handle_frame_pkt_slot
  rw [if_neg (Nat.not_le.mpr hmeta)]
  simp only []
  rw [if_neg (Nat.not_lt.mpr hoff)]
  unfold rv_pkt_seq_check
  simp [hgot, rv_first_pkt_idx, hlen, rv_result.code]

/-- Claim C25 at a concrete input: the fresh 1080p session receives `mbuf_zero_length` (payload type 96,
one segment, line 0, offset 0, length 0) on the control thread; the lookup opens slot 0
with frame 0, the offset bound 0 + 0 <= 5184000 holds, the base is not captured, and the
handler traps. -/
theorem rv_handle_frame_pkt_zero_payload_length_traps_witness :
    mbuf_zero_length.payload_type % 256 = session_1080p.ops.payload_type ∧
    mbuf_zero_length.next_data_len = none ∧
    (rv_slot_by_tmstamp session_1080p (mbuf_zero_length.tmstamp % U32) none).2 = some 0 ∧
    (((rv_slot_by_tmstamp session_1080p (mbuf_zero_length.tmstamp % U32) none).1.slots 0).frame
      = some 0) ∧
    rv_pkt_offset (rv_slot_by_tmstamp session_1080p 1500 none).1 mbuf_zero_length +
        rv_pkt_payload_length mbuf_zero_length ≤
      rv_pkt_offset_limit (rv_slot_by_tmstamp session_1080p 1500 none).1 ∧
    rv_pkt_payload_length mbuf_zero_length = 0 ∧
    (rv_handle_frame_pkt session_1080p mbuf_zero_length 0 true).code = none :=
  ⟨by decide, rfl, by rfl, by rfl, by decide, by decide,
    rv_handle_frame_pkt_zero_payload_length_traps session_1080p
      (rv_slot_by_tmstamp session_1080p 1500 none).1 mbuf_zero_length 0 0 0
      (by decide) rfl (by rfl) (by rfl) (by decide) (by decide) (by rfl) (by decide)⟩

/-! ## Corrupted frame without packets -/

/-- Claim C26 (code bug), failing inputs: the first packet of the frame with timestamp 1500 is (1) a
user-meta packet, which is stored without being counted, or (2) a packet dropped by
the offset test; in both cases slot 0 keeps its frame with `pkts_received` 0 and a
received size of 0.  The first packet of the next frame (timestamp 3001) misses in
`rv_slot_by_tmstamp`, which evicts slot 0 through `rv_frame_notify`; the frame is classified
CORRUPTED and counted as dropped, so the miss-packet estimate is computed with both
`frame_recv_size` and `pkts_received` equal to 0. -/
theorem rv_frame_notify_corrupted_without_packets :
    ((session_1080p_user_meta_only.slots 0).frame = some 0 ∧
      (session_1080p_user_meta_only.slots 0).pkts_received = 0 ∧
      rv_slot_get_frame_size (session_1080p_user_meta_only.slots 0) = 0 ∧
      session_1080p_user_meta_only.stats.stat_pkts_user_meta = 1 ∧
      rv_slot_match session_1080p_user_meta_only (mbuf_next_frame.tmstamp % U32) = none ∧
      rv_slot_evict session_1080p_user_meta_only 0 =
        { rv_frame_notify session_1080p_user_meta_only 0 0 with
          slots := Function.update (rv_frame_notify session_1080p_user_meta_only 0 0).slots 0
            { (rv_frame_notify session_1080p_user_meta_only 0 0).slots 0 with frame := none } } ∧
      ((rv_frame_notify session_1080p_user_meta_only 0 0).slots 0).meta.status = .CORRUPTED ∧
      (rv_handle_frame_pkt session_1080p_user_meta_only mbuf_next_frame 0 true).code = some 0 ∧
      (rv_handle_frame_pkt session_1080p_user_meta_only mbuf_next_frame 0
        true).state.stats.stat_frames_dropped = 1) ∧
    ((session_1080p_rejected_only.slots 0).frame = some 0 ∧
      (session_1080p_rejected_only.slots 0).pkts_received = 0 ∧
      rv_slot_get_frame_size (session_1080p_rejected_only.slots 0) = 0 ∧
      session_1080p_rejected_only.stats.stat_pkts_offset_dropped = 1 ∧
      rv_slot_match session_1080p_rejected_only (mbuf_next_frame.tmstamp % U32) = none ∧
      ((rv_frame_notify session_1080p_rejected_only 0 0).slots 0).meta.status = .CORRUPTED ∧
      (rv_handle_frame_pkt session_1080p_rejected_only mbuf_next_frame 0 true).code = some 0 ∧
      (rv_handle_frame_pkt session_1080p_rejected_only mbuf_next_frame 0
        true).state.stats.stat_frames_dropped = 1) := by
  refine ⟨⟨by decide, by decide, by decide, by decide, by decide, rfl, by decide, by decide,
    by decide⟩, ⟨by decide, by decide, by decide, by decide, by decide, by decide, by decide,
    by decide⟩⟩

/-! ## ST 2110-22 box longer than the payload -/

/-- Claim C27 (code bug), failing input: the fresh ST 2110-22 session with frames of 1000000 bytes receives
`mbuf_st22_box_100`, whose packet counter is 0 and whose payload is 8 bytes long.
`rv_parse_st22_boxes` takes the box length 100 from the packet (it is at most 512) and stores
it as the slot's box header length; the subtraction `payload_length -= st22_box_hdr_length` on
`uint16_t` wraps to 8 - 100 + 65536 = 65444, the offset test 0 + 65444 <= 1000000 passes, the
packet is accepted (return value 0) and 65444 bytes are copied and counted for a
packet that holds 8. -/
theorem rv_handle_st22_pkt_box_longer_than_payload :
    st22_pkt_counter mbuf_st22_box_100 = 0 ∧
    st22_payload_length (session_st22 1000000) mbuf_st22_box_100 = 8 ∧
    rv_parse_st22_boxes mbuf_st22_box_100.payload = some 100 ∧
    (rv_handle_st22_pkt (session_st22 1000000) mbuf_st22_box_100 0 true).code = some 0 ∧
    ((rv_handle_st22_pkt (session_st22 1000000) mbuf_st22_box_100 0 true).state.slots
      0).st22_box_hdr_length = 100 ∧
    rv_st22_copy_length
      ((rv_handle_st22_pkt (session_st22 1000000) mbuf_st22_box_100 0 true).state.slots 0)
      0 8 = 65444 ∧
    rv_slot_get_frame_size
      ((rv_handle_st22_pkt (session_st22 1000000) mbuf_st22_box_100 0 true).state.slots 0)
      = 65444 ∧
    ((rv_handle_st22_pkt (session_st22 1000000) mbuf_st22_box_100 0 true).state.slots
      0).pkts_received = 1 ∧
    (rv_handle_st22_pkt (session_st22 1000000) mbuf_st22_box_100 0
      true).state.stats.stat_pkts_offset_dropped = 0 := by
  refine ⟨by decide, by decide, by decide, by decide, by decide, by decide, by decide,
    by decide, by decide⟩

/-! ## Port counters of a burst -/

/-- Claim C28 (code bug), failing input: a burst of two packets on port 0 of an attached 1080p session
without packet ring: first a packet with the wrong payload type, for which the frame
handler returns `-EINVAL`, then the valid first packet of a frame, for which the handler
returns 0 (it is received: `stat_pkts_received` is 1).  `rv_handle_mbuf` tests the running sum `ret` of the
return values, not the value of the packet, so the valid packet is counted as an
error too: `err_packets` is 2, and `packets`, `bytes` and `stat_bytes_received` stay 0.  With
the two packets in the other order the valid one is counted: `packets` is 1. -/
theorem rv_handle_mbuf_error_sticks :
    (rv_handle_frame_pkt session_1080p_attached mbuf_wrong_payload_type 0 true).code =
      some (- EINVAL_errno) ∧
    (rv_handle_frame_pkt
      (rv_handle_frame_pkt session_1080p_attached mbuf_wrong_payload_type 0 true).state
      mbuf_example_wire 0 true).code = some 0 ∧
    (rv_handle_mbuf rv_handle_frame_pkt session_1080p_attached 0
      [mbuf_wrong_payload_type, mbuf_example_wire]).code = some (- EINVAL_errno) ∧
    (rv_handle_mbuf rv_handle_frame_pkt session_1080p_attached 0
      [mbuf_wrong_payload_type, mbuf_example_wire]).state.stats.stat_pkts_received = 1 ∧
    (rv_handle_mbuf rv_handle_frame_pkt session_1080p_attached 0
      [mbuf_wrong_payload_type, mbuf_example_wire]).state.port_user_stats_err_packets 0 = 2 ∧
    (rv_handle_mbuf rv_handle_frame_pkt session_1080p_attached 0
      [mbuf_wrong_payload_type, mbuf_example_wire]).state.port_user_stats_packets 0 = 0 ∧
    (rv_handle_mbuf rv_handle_frame_pkt session_1080p_attached 0
      [mbuf_wrong_payload_type, mbuf_example_wire]).state.port_user_stats_bytes 0 = 0 ∧
    (rv_handle_mbuf rv_handle_frame_pkt session_1080p_attached 0
      [mbuf_wrong_payload_type, mbuf_example_wire]).state.stat_bytes_received = 0 ∧
    (rv_handle_mbuf rv_handle_frame_pkt session_1080p_attached 0
      [mbuf_example_wire, mbuf_wrong_payload_type]).state.port_user_stats_packets 0 = 1 := by
  refine ⟨by decide, by decide, by decide, by decide, by decide, by decide, by decide,
    by decide, by decide⟩

/-! ## Lookup without a free frame -/

theorem rv_handle_frame_pkt_no_slot (s : st_rx_video_session_impl) (mbuf : rte_mbuf)
    (s_port : Nat) (ctrl_thread : Bool) (i : Nat)
    (hpt : mbuf.payload_type % 256 = s.ops.payload_type)
    (hseg : mbuf.next_data_len = none)
    (hmatch : rv_slot_match s (mbuf.tmstamp % U32) = some i)
    (hf : (s.slots i).frame = none) :
    rv_handle_frame_pkt s mbuf s_port ctrl_thread =
      .ret (- EIO_errno) { s with stats := { s.stats with
        stat_pkts_no_slot := s.stats.stat_pkts_no_slot + 1 } } := by
  unfold rv_handle_frame_pkt
  simp [hpt, hseg, rv_slot_by_tmstamp_match s _ i none hmatch, hf]

theorem rv_handle_frame_pkts_no_slot (tmstamp i : Nat) (pkts : List (rte_mbuf × Nat × Bool)) :
    ∀ s : st_rx_video_session_impl,
      (∀ p ∈ pkts, p.1.tmstamp % U32 = tmstamp) →
      (∀ p ∈ pkts, p.1.payload_type % 256 = s.ops.payload_type) →
      (∀ p ∈ pkts, p.1.next_data_len = none) →
      rv_slot_match s tmstamp = some i → (s.slots i).frame = none →
      rv_handle_frame_pkts s pkts =
        (List.replicate pkts.length (- EIO_errno),
          { s with stats := { s.stats with
            stat_pkts_no_slot := s.stats.stat_pkts_no_slot + pkts.length } }) := by
  induction pkts with
  | nil => intro s _ _ _ _ _; rfl
  | cons p rest ih =>
    intro s hts hpt hseg hmatch hf
    have hstep := rv_handle_frame_pkt_no_slot s p.1 p.2.1 p.2.2 i
      (hpt p (List.mem_cons_self _ _)) (hseg p (List.mem_cons_self _ _))
      (by rw [hts p (List.mem_cons_self _ _)]; exact hmatch) hf
    have hrest := ih { s with stats := { s.stats with
        stat_pkts_no_slot := s.stats.stat_pkts_no_slot + 1 } }
      (fun q hq => hts q (List.mem_cons_of_mem _ hq))
      (fun q hq => hpt q (List.mem_cons_of_mem _ hq))
      (fun q hq => hseg q (List.mem_cons_of_mem _ hq)) hmatch hf
    rw [rv_handle_frame_pkts, hstep]
    simp only [hrest, List.length_cons, List.replicate_succ, Nat.add_assoc,
      Nat.add_comm 1 rest.length]

/-- Claim C30: on a session whose slots `rv_init_slot` has just initialised (timestamp 0, no frame), every
packet with RTP timestamp 0 that passes the payload-type and segment tests matches idle
slot 0 in `rv_slot_by_tmstamp` and is dropped: the frame handler returns `-EIO` for each of them, and
the session after the run differs from the initialised one in `stat_pkts_no_slot` only, which
has counted every packet; no slot was recycled and no frame was taken from the
pool. -/
theorem rv_handle_frame_pkts_tmstamp_zero_fresh (s0 : st_rx_video_session_impl)
    (flag_enable_rtcp : Bool) (slice_num : Option Nat) (pkts : List (rte_mbuf × Nat × Bool))
    (hts : ∀ p ∈ pkts, p.1.tmstamp % U32 = 0)
    (hpt : ∀ p ∈ pkts, p.1.payload_type % 256 = s0.ops.payload_type)
    (hseg : ∀ p ∈ pkts, p.1.next_data_len = none) :
    rv_slot_match (rv_init_slot s0 flag_enable_rtcp slice_num) 0 = some 0 ∧
    rv_handle_frame_pkts (rv_init_slot s0 flag_enable_rtcp slice_num) pkts =
      (List.replicate pkts.length (- EIO_errno),
        { rv_init_slot s0 flag_enable_rtcp slice_num with
          stats :=
            { (rv_init_slot s0 flag_enable_rtcp slice_num).stats with
              stat_pkts_no_slot :=
                (rv_init_slot s0 flag_enable_rtcp slice_num).stats.stat_pkts_no_slot +
                  pkts.length } }) := by
  have hmatch : rv_slot_match (rv_init_slot s0 flag_enable_rtcp slice_num) 0 = some 0 := by
    refine rv_slot_match_of_first _ 0 0 ?_ rfl (fun j hj => absurd hj (Nat.not_lt_zero j))
    show 0 < (if flag_enable_rtcp = true then 2 else 1)
    split_ifs <;> decide
  exact ⟨hmatch, rv_handle_frame_pkts_no_slot 0 0 pkts _ hts hpt hseg hmatch rfl⟩

/-- Claim C30 at a concrete input: the fresh 1080p session receives three packets with timestamp
0 (sequence numbers 0, 1, 2); each is dropped with `-EIO`, `stat_pkts_no_slot` is 3, slot 0 still
has no frame and both frames are still free. -/
theorem rv_handle_frame_pkts_tmstamp_zero_fresh_witness :
    (rv_handle_frame_pkts session_1080p
      [(mbuf_tmstamp_zero 0, 0, true), (mbuf_tmstamp_zero 1, 0, true),
        (mbuf_tmstamp_zero 2, 0, true)]).1 = [- EIO_errno, - EIO_errno, - EIO_errno] ∧
    (rv_handle_frame_pkts session_1080p
      [(mbuf_tmstamp_zero 0, 0, true), (mbuf_tmstamp_zero 1, 0, true),
        (mbuf_tmstamp_zero 2, 0, true)]).2.stats.stat_pkts_no_slot = 3 ∧
    ((rv_handle_frame_pkts session_1080p
      [(mbuf_tmstamp_zero 0, 0, true), (mbuf_tmstamp_zero 1, 0, true),
        (mbuf_tmstamp_zero 2, 0, true)]).2.slots 0).frame = none ∧
    ((rv_handle_frame_pkts session_1080p
      [(mbuf_tmstamp_zero 0, 0, true), (mbuf_tmstamp_zero 1, 0, true),
        (mbuf_tmstamp_zero 2, 0, true)]).2.st20_frames 0).refcnt = 0 := by
  have h := (rv_handle_frame_pkts_tmstamp_zero_fresh
    (rv_session_init 1920 1080 5 2 4800 1 2 none) false none
    [(mbuf_tmstamp_zero 0, 0, true), (mbuf_tmstamp_zero 1, 0, true),
      (mbuf_tmstamp_zero 2, 0, true)]
    (by decide) (by decide) (by decide)).2
  have e : rv_init_slot (rv_session_init 1920 1080 5 2 4800 1 2 none) false none
      = session_1080p := rfl
  rw [e] at h
  rw [h]
  exact ⟨rfl, rfl, rfl, rfl⟩

/-! ## Bitmap count -/

theorem slot_bits_inv_keep (n : Nat) (a b : st_rx_video_slot_impl)
    (hb : b.frame_bitmap = a.frame_bitmap) (hg : b.seq_id_got = a.seq_id_got)
    (hrec : b.pkts_received = a.pkts_received) (hfr : b.frame = a.frame)
    (h : slot_bits_inv n a) : slot_bits_inv n b := by
  unfold slot_bits_inv at *
  rw [hb, hg, hrec, hfr]
  exact h

theorem slot_bits_inv_no_frame (n : Nat) (b : st_rx_video_slot_impl)
    (hnd : b.frame_bitmap.Nodup) (hfr : b.frame = none) : slot_bits_inv n b :=
  ⟨hnd, fun h => absurd hfr h⟩

theorem slot_bits_inv_fresh (n : Nat) (a b : st_rx_video_slot_impl)
    (hnd : a.frame_bitmap.Nodup) (hb : b.frame_bitmap = bitmap_clear a.frame_bitmap n)
    (hrec : b.pkts_received = 0) : slot_bits_inv n b := by
  refine ⟨by rw [hb]; exact bitmap_clear_nodup n _ hnd, fun _ => ?_⟩
  rw [hb, window_bits_clear, hrec]
  exact ⟨fun _ => ⟨rfl, rfl⟩, Or.inl rfl⟩

theorem rv_bits_inv_kept (n : Nat) (s s2 : st_rx_video_session_impl)
    (hk : rv_kept s s2) (h : rv_bits_inv n s) : rv_bits_inv n s2 :=
  ⟨hk.1.2.1.trans h.1, fun i =>
    slot_bits_inv_keep _ _ _ (hk.2 i).1.2.2.2 (hk.2 i).1.2.2.1 (hk.2 i).2.1.1 (hk.2 i).2.2
      (h.2 i)⟩

theorem rv_slot_full_frame_bits_inv (n : Nat) (s : st_rx_video_session_impl) (i f : Nat)
    (h : rv_bits_inv n s) : rv_bits_inv n (rv_slot_full_frame s i f) := by
  obtain ⟨hc, hfix, hoth, hfr, -, -⟩ := rv_slot_full_frame_kept s i f
  refine ⟨hc.2.1.trans h.1, fun j => ?_⟩
  by_cases hj : j = i
  · subst hj
    refine slot_bits_inv_no_frame _ _ ?_ hfr
    rw [(hfix j).2.2.2]
    exact (h.2 j).1
  · exact slot_bits_inv_keep _ _ _ (hfix j).2.2.2 (hfix j).2.2.1 (hoth j hj).1.1 (hoth j hj).2
      (h.2 j)

theorem rv_slot_recycle_bits_inv (n : Nat) (s : st_rx_video_session_impl)
    (tmstamp : Nat) (pd : Option Nat) (h : rv_bits_inv n s) :
    rv_bits_inv n (rv_slot_recycle s tmstamp pd).1 := by
  have hk := rv_slot_recycle_kept s tmstamp pd
  simp only [] at hk
  obtain ⟨hc, hoth, -, -, -, hrec, -, hfb⟩ := hk
  refine ⟨hc.2.1.trans h.1, fun j => ?_⟩
  by_cases hj : j = (Int.tmod (s.slot_idx + 1) (s.slot_max : Int)).toNat
  · subst hj
    rcases hfb with ⟨hfr, hb⟩ | hb
    · refine slot_bits_inv_no_frame _ _ ?_ hfr
      rw [hb]
      exact (h.2 _).1
    · rw [h.1] at hb
      exact slot_bits_inv_fresh _ _ _ (h.2 _).1 hb hrec
  · exact slot_bits_inv_keep _ _ _ (hoth j hj).1.2.2.2 (hoth j hj).1.2.2.1 (hoth j hj).2.1.1
      (hoth j hj).2.2 (h.2 j)

theorem rv_slot_by_tmstamp_bits_inv (n : Nat) (s : st_rx_video_session_impl)
    (tmstamp : Nat) (pd : Option Nat) (h : rv_bits_inv n s) :
    rv_bits_inv n (rv_slot_by_tmstamp s tmstamp pd).1 := by
  unfold rv_slot_by_tmstamp
  split
  · exact h
  · split_ifs
    · exact rv_bits_inv_kept _ _ _ (rv_kept_of_slots _ _ rfl rfl rfl rfl) h
    · exact rv_slot_recycle_bits_inv _ s tmstamp pd h

theorem rv_pkt_finish_bits_inv (n : Nat) (s : st_rx_video_session_impl)
    (dma_copy : Bool) (i f : Nat) (h : rv_bits_inv n s) :
    rv_bits_inv n (rv_pkt_finish s dma_copy i f) := by
  have h4 : rv_bits_inv n
      (if rv_pkt_end_frame s i = true then rv_slot_full_frame s i f else s) := by
    by_cases he : rv_pkt_end_frame s i = true
    · rw [if_pos he]
      exact rv_slot_full_frame_bits_inv n s i f h
    · rw [if_neg he]
      exact h
  unfold rv_pkt_finish
  cases dma_copy with
  | false => simpa using h4
  | true =>
    simp only [if_true]
    exact rv_bits_inv_kept _ _ _ (rv_kept_of_slots _ _ rfl rfl rfl rfl) h4

theorem mt_bitmap_test_and_set_mem (b : List Int) (idx : Int) :
    idx ∈ (mt_bitmap_test_and_set b idx).2 := by
  unfold mt_bitmap_test_and_set
  split_ifs with hm
  · exact hm
  · exact List.mem_cons_self _ _

theorem mt_bitmap_test_and_set_subset (b : List Int) (idx x : Int) (hx : x ∈ b) :
    x ∈ (mt_bitmap_test_and_set b idx).2 := by
  unfold mt_bitmap_test_and_set
  split_ifs
  · exact hx
  · exact List.mem_cons_of_mem _ hx

theorem window_bits_cons_out (n : Nat) (idx : Int) (b : List Int)
    (h : ¬ (0 ≤ idx ∧ idx < (n : Int) * 8)) : window_bits n (idx :: b) = window_bits n b := by
  unfold window_bits
  rw [List.filter_cons]
  have hf : (decide (0 ≤ idx) && decide (idx < (n : Int) * 8)) = false := by
    simpa using h
  simp [hf]

theorem window_bits_eq_zero_not_mem (n : Nat) (b : List Int) (h : window_bits n b = 0)
    (idx : Int) (h0 : 0 ≤ idx) (h1 : idx < (n : Int) * 8) : idx ∉ b := by
  intro hm
  unfold window_bits at h
  rw [List.length_eq_zero, List.filter_eq_nil_iff] at h
  have := h idx hm
  simp [h0, h1] at this

theorem slot_bits_counted (n : Nat) (a b : st_rx_video_slot_impl)
    (hb : b.frame_bitmap = a.frame_bitmap) (hg : b.seq_id_got = a.seq_id_got)
    (hrec : b.pkts_received = a.pkts_received + 1)
    (h : slot_bits_pending n a) : slot_bits_inv n b := by
  obtain ⟨hnd, hgot, hk⟩ := h
  refine ⟨by rw [hb]; exact hnd, fun _ => ⟨fun hg2 => ?_, ?_⟩⟩
  · rw [hg, hgot] at hg2; cases hg2
  · rw [hb, hrec]
    rcases hk with hk | ⟨hk, ho⟩
    · exact Or.inl hk
    · exact Or.inr ⟨by rw [hk], ho⟩

theorem slot_bits_pending_set_in (n : Nat) (slot : st_rx_video_slot_impl) (idx : Int)
    (h : slot_bits_inv n slot) (hfr : slot.frame ≠ none) (hgot : slot.seq_id_got = true)
    (hm : idx ∉ slot.frame_bitmap) (h0 : 0 ≤ idx) (h1 : idx < (n : Int) * 8) :
    slot_bits_pending n { slot with frame_bitmap := idx :: slot.frame_bitmap } := by
  obtain ⟨hnd, hb⟩ := h
  obtain ⟨-, hk⟩ := hb hfr
  refine ⟨List.nodup_cons.mpr ⟨hm, hnd⟩, hgot, ?_⟩
  show slot.pkts_received + 1 = window_bits n (idx :: slot.frame_bitmap) ∨
    (slot.pkts_received = window_bits n (idx :: slot.frame_bitmap) ∧
      ∃ x ∈ idx :: slot.frame_bitmap, ¬ (0 ≤ x ∧ x < (n : Int) * 8))
  rw [window_bits_cons_in n idx _ h0 h1]
  rcases hk with hk | ⟨hk, x, hx, hxo⟩
  · exact Or.inl (by rw [hk])
  · exact Or.inr ⟨hk, x, List.mem_cons_of_mem _ hx, hxo⟩

theorem slot_bits_pending_first (n : Nat) (slot slot1 : st_rx_video_slot_impl) (idx : Int)
    (h : slot_bits_inv n slot) (hfr : slot.frame ≠ none) (hgot : slot.seq_id_got = false)
    (hb1 : slot1.frame_bitmap = (mt_bitmap_test_and_set slot.frame_bitmap idx).2)
    (hg1 : slot1.seq_id_got = true) (hr1 : slot1.pkts_received = slot.pkts_received) :
    slot_bits_pending n slot1 := by
  obtain ⟨hnd, hb⟩ := h
  obtain ⟨hfirst, -⟩ := hb hfr
  obtain ⟨hrec0, hw0⟩ := hfirst hgot
  refine ⟨by rw [hb1]; exact mt_bitmap_test_and_set_nodup _ _ hnd, hg1, ?_⟩
  rw [hb1, hr1, hrec0]
  by_cases hin : 0 ≤ idx ∧ idx < (n : Int) * 8
  · left
    have hm := window_bits_eq_zero_not_mem n _ hw0 idx hin.1 hin.2
    have he : (mt_bitmap_test_and_set slot.frame_bitmap idx).2 = idx :: slot.frame_bitmap := by
      simp [mt_bitmap_test_and_set, hm]
    rw [he, window_bits_cons_in n idx _ hin.1 hin.2, hw0]
  · right
    refine ⟨?_, idx, mt_bitmap_test_and_set_mem _ _, hin⟩
    unfold mt_bitmap_test_and_set
    split_ifs
    · exact hw0.symm
    · rw [window_bits_cons_out n idx _ hin, hw0]

theorem rv_handle_frame_pkt_place_bits_inv (n : Nat)
    (s : st_rx_video_session_impl) (mbuf : rte_mbuf) (ctrl_thread : Bool) (i f : Nat)
    (code : Int) (s2 : st_rx_video_session_impl) (hn : s.st20_frame_bitmap_size = n)
    (h : ∀ j, j ≠ i → slot_bits_inv n (s.slots j))
    (hp : slot_bits_pending n (s.slots i))
    (hr : rv_handle_frame_pkt_place s mbuf ctrl_thread i f = .ret code s2) :
    rv_bits_inv n s2 := by
  have hpl := rv_pkt_place_payload_kept s mbuf f
  have ha := rv_pkt_account_slots (rv_pkt_place_payload s mbuf f).1 ctrl_thread i
    (rv_pkt_payload_length mbuf)
  unfold rv_handle_frame_pkt_place at hr
  simp only [] at hr
  cases hsl : rv_pkt_slice (rv_pkt_account (rv_pkt_place_payload s mbuf f).1 ctrl_thread i
        (rv_pkt_payload_length mbuf)) (rv_pkt_place_payload s mbuf f).2 i (rv_pkt_offset s mbuf)
        (rv_pkt_payload_length mbuf) with
  | none => rw [hsl] at hr; cases hr
  | some s3 =>
    rw [hsl] at hr
    simp only [rv_result.ret.injEq] at hr
    rw [← hr.2]
    have hk := rv_pkt_slice_kept _ _ _ _ _ _ hsl
    obtain ⟨hac, haoth, hafix, hafr, harec, -⟩ := ha
    have hi := hk.2 i
    apply rv_pkt_finish_bits_inv n s3 _ i f
    refine ⟨?_, fun j => ?_⟩
    · rw [hk.1.2.1, hac.2.1, hpl.1.2.1]; exact hn
    · by_cases hj : j = i
      · subst hj
        refine slot_bits_counted n (s.slots j) _ ?_ ?_ ?_ hp
        · rw [hi.1.2.2.2, hafix.2.2.2, (hpl.2 j).1.2.2.2]
        · rw [hi.1.2.2.1, hafix.2.2.1, (hpl.2 j).1.2.2.1]
        · rw [hi.2.1.1, harec, (hpl.2 j).2.1.1]
      · have h1 := hk.2 j
        rw [haoth j hj] at h1
        have h2 := hpl.2 j
        exact slot_bits_inv_keep _ _ _ (h1.1.2.2.2.trans h2.1.2.2.2)
          (h1.1.2.2.1.trans h2.1.2.2.1) (h1.2.1.1.trans h2.2.1.1) (h1.2.2.trans h2.2.2) (h j hj)

theorem rv_pkt_seq_check_bits_inv (n : Nat) (s : st_rx_video_session_impl)
    (mbuf : rte_mbuf) (ctrl_thread : Bool) (i f : Nat) (code : Int)
    (s2 : st_rx_video_session_impl) (h : rv_bits_inv n s)
    (hfr : (s.slots i).frame = some f)
    (hr : rv_pkt_seq_check s mbuf ctrl_thread i f = .ret code s2) :
    rv_bits_inv n s2 := by
  obtain ⟨hn, hs⟩ := h
  have hfr2 : (s.slots i).frame ≠ none := by rw [hfr]; simp
  unfold rv_pkt_seq_check at hr
  simp only [] at hr
  by_cases hgot : (s.slots i).seq_id_got = true
  · rw [if_pos hgot] at hr
    by_cases hoo : rv_seq_pkt_idx (rfc4175_rtp_seq_id mbuf) (s.slots i).seq_id_base_u32 < 0 ∨
        s.st20_frame_bitmap_size * 8 ≤
          to_size_t (rv_seq_pkt_idx (rfc4175_rtp_seq_id mbuf) (s.slots i).seq_id_base_u32)
    · rw [if_pos hoo] at hr
      simp only [rv_result.ret.injEq] at hr
      rw [← hr.2]
      exact rv_bits_inv_kept _ _ _ (rv_kept_of_slots _ _ rfl rfl rfl rfl) ⟨hn, hs⟩
    · rw [if_neg hoo] at hr
      by_cases hset : (mt_bitmap_test_and_set (s.slots i).frame_bitmap
          (rv_seq_pkt_idx (rfc4175_rtp_seq_id mbuf) (s.slots i).seq_id_base_u32)).1 = true
      · rw [if_pos hset] at hr
        simp only [rv_result.ret.injEq] at hr
        rw [← hr.2]
        exact rv_bits_inv_kept _ _ _
          (rv_kept_slot_update s i _ _ ⟨rfl, rfl, rfl, rfl⟩ ⟨rfl, rfl, rfl⟩ rfl) ⟨hn, hs⟩
      · rw [if_neg hset] at hr
        have hmem : rv_seq_pkt_idx (rfc4175_rtp_seq_id mbuf) (s.slots i).seq_id_base_u32 ∉
            (s.slots i).frame_bitmap := by
          intro hm
          apply hset
          simp [mt_bitmap_test_and_set, hm]
        have he : (mt_bitmap_test_and_set (s.slots i).frame_bitmap
            (rv_seq_pkt_idx (rfc4175_rtp_seq_id mbuf) (s.slots i).seq_id_base_u32)).2 =
            rv_seq_pkt_idx (rfc4175_rtp_seq_id mbuf) (s.slots i).seq_id_base_u32 ::
              (s.slots i).frame_bitmap := by
          simp [mt_bitmap_test_and_set, hmem]
        have h0 : 0 ≤ rv_seq_pkt_idx (rfc4175_rtp_seq_id mbuf) (s.slots i).seq_id_base_u32 := by
          omega
        have h1 : rv_seq_pkt_idx (rfc4175_rtp_seq_id mbuf) (s.slots i).seq_id_base_u32 <
            (n : Int) * 8 := by
          have hlt := rv_seq_pkt_idx_lt (rfc4175_rtp_seq_id mbuf) (s.slots i).seq_id_base_u32
          have hcast := to_size_t_of_nonneg _ h0 hlt
          rw [← hn]
          omega
        rw [he] at hr
        refine rv_handle_frame_pkt_place_bits_inv n _ mbuf ctrl_thread i f code s2 ?_ ?_ ?_ hr
        · exact hn
        · intro j hj
          simp only [Function.update_noteq hj]
          exact hs j
        · simp only [Function.update_same]
          exact slot_bits_pending_set_in n (s.slots i) _ (hs i) hfr2 hgot hmem h0 h1
  · rw [if_neg hgot] at hr
    have hgot2 : (s.slots i).seq_id_got = false := by simpa using hgot
    by_cases hc : ctrl_thread = true
    · rw [if_pos hc] at hr
      cases hidx : rv_first_pkt_idx s mbuf with
      | none => rw [hidx] at hr; cases hr
      | some pkt_idx =>
        rw [hidx] at hr
        simp only [] at hr
        refine rv_handle_frame_pkt_place_bits_inv n _ mbuf ctrl_thread i f code s2 ?_ ?_ ?_ hr
        · exact hn
        · intro j hj
          simp only [Function.update_noteq hj]
          exact hs j
        · simp only [Function.update_same]
          exact slot_bits_pending_first n (s.slots i) _ pkt_idx (hs i) hfr2 hgot2 rfl rfl rfl
    · rw [if_neg hc] at hr
      simp only [rv_result.ret.injEq] at hr
      rw [← hr.2]
      exact rv_bits_inv_kept _ _ _ (rv_kept_of_slots _ _ rfl rfl rfl rfl) ⟨hn, hs⟩

theorem rv_handle_frame_pkt_slot_bits_inv (n : Nat)
    (s : st_rx_video_session_impl) (mbuf : rte_mbuf) (ctrl_thread : Bool) (i f : Nat)
    (code : Int) (s2 : st_rx_video_session_impl) (h : rv_bits_inv n s)
    (hfr : (s.slots i).frame = some f)
    (hr : rv_handle_frame_pkt_slot s mbuf ctrl_thread i f = .ret code s2) :
    rv_bits_inv n s2 := by
  have hq := rv_kept_slot_update s i
    { s.slots i with second_field := decide (BIT15 ≤ mbuf.row_number % U16) } s.stats
    ⟨rfl, rfl, rfl, rfl⟩ ⟨rfl, rfl, rfl⟩ rfl
  unfold rv_handle_frame_pkt_slot at hr
  simp only [] at hr
  split_ifs at hr
  · have hk := rv_pkt_user_meta_kept s mbuf f
    rw [hr] at hk
    exact rv_bits_inv_kept _ _ _ hk h
  · simp only [rv_result.ret.injEq] at hr
    rw [← hr.2]
    exact rv_bits_inv_kept _ _ _
      (rv_kept_trans _ _ _ hq (rv_kept_of_slots _ _ rfl rfl rfl rfl)) h
  · refine rv_pkt_seq_check_bits_inv n _ mbuf ctrl_thread i f code s2
      (rv_bits_inv_kept _ _ _ hq h) ?_ hr
    simpa using hfr

theorem rv_handle_frame_pkt_bits_inv (n : Nat) (s : st_rx_video_session_impl)
    (mbuf : rte_mbuf) (s_port : Nat) (ctrl_thread : Bool) (code : Int)
    (s2 : st_rx_video_session_impl) (h : rv_bits_inv n s)
    (hr : rv_handle_frame_pkt s mbuf s_port ctrl_thread = .ret code s2) :
    rv_bits_inv n s2 := by
  have hl := rv_slot_by_tmstamp_bits_inv n s (mbuf.tmstamp % U32) none h
  unfold rv_handle_frame_pkt at hr
  simp only [] at hr
  split_ifs at hr
  · simp only [rv_result.ret.injEq] at hr
    rw [← hr.2]
    exact rv_bits_inv_kept _ _ _ (rv_kept_of_slots _ _ rfl rfl rfl rfl) h
  · simp only [rv_result.ret.injEq] at hr
    rw [← hr.2]
    exact rv_bits_inv_kept _ _ _ (rv_kept_of_slots _ _ rfl rfl rfl rfl) h
  · split at hr
    · simp only [rv_result.ret.injEq] at hr
      rw [← hr.2]
      exact rv_bits_inv_kept _ _ _ (rv_kept_of_slots _ _ rfl rfl rfl rfl) hl
    · rename_i i hi
      split at hr
      · simp only [rv_result.ret.injEq] at hr
        rw [← hr.2]
        exact rv_bits_inv_kept _ _ _ (rv_kept_of_slots _ _ rfl rfl rfl rfl) hl
      · rename_i f hf
        exact rv_handle_frame_pkt_slot_bits_inv n _ mbuf ctrl_thread i f code s2 hl hf hr

theorem rv_handle_frame_pkts_bits_inv (n : Nat) (pkts : List (rte_mbuf × Nat × Bool)) :
    ∀ s : st_rx_video_session_impl, rv_bits_inv n s →
      (rv_handle_frame_pkts s pkts).1.length = pkts.length →
      rv_bits_inv n (rv_handle_frame_pkts s pkts).2 := by
  induction pkts with
  | nil => intro s h _; exact h
  | cons p rest ih =>
    intro s h hlen
    unfold rv_handle_frame_pkts at hlen ⊢
    cases hr : rv_handle_frame_pkt s p.1 p.2.1 p.2.2 with
    | fault s1 =>
      rw [hr] at hlen
      simp at hlen
    | ret code s1 =>
      rw [hr] at hlen
      simp only [List.length_cons, Nat.add_right_cancel_iff] at hlen
      simp only []
      exact ih s1 (rv_handle_frame_pkt_bits_inv n s _ _ _ code s1 h hr) hlen

theorem rv_frame_notify_offset_dropped (s : st_rx_video_session_impl) (i f : Nat) :
    (rv_frame_notify s i f).stats.stat_pkts_offset_dropped =
      s.stats.stat_pkts_offset_dropped := by
  unfold rv_frame_notify
  simp only [rv_put_frame]
  split_ifs <;> rfl

theorem rv_st22_frame_notify_offset_dropped (s : st_rx_video_session_impl) (i f : Nat)
    (status : st_frame_status) :
    (rv_st22_frame_notify s i f status).stats.stat_pkts_offset_dropped =
      s.stats.stat_pkts_offset_dropped := by
  unfold rv_st22_frame_notify
  simp only [rv_put_frame]
  split_ifs <;> rfl

theorem rv_slot_evict_offset_dropped (s : st_rx_video_session_impl) (k : Nat) :
    (rv_slot_evict s k).stats.stat_pkts_offset_dropped = s.stats.stat_pkts_offset_dropped := by
  unfold rv_slot_evict
  cases hfr : (s.slots k).frame with
  | none => rfl
  | some f =>
    simp only []
    split_ifs
    · exact rv_st22_frame_notify_offset_dropped s k f _
    · exact rv_frame_notify_offset_dropped s k f

theorem rv_get_frame_offset_dropped (s : st_rx_video_session_impl) :
    (rv_get_frame s).1.stats.stat_pkts_offset_dropped = s.stats.stat_pkts_offset_dropped := by
  unfold rv_get_frame
  split <;> rfl

theorem rv_slot_recycle_offset_dropped (s : st_rx_video_session_impl) (tmstamp : Nat)
    (pd : Option Nat) :
    (rv_slot_recycle s tmstamp pd).1.stats.stat_pkts_offset_dropped =
      s.stats.stat_pkts_offset_dropped := by
  have he := rv_slot_evict_offset_dropped s (Int.tmod (s.slot_idx + 1) (s.slot_max : Int)).toNat
  have hg := fun t => rv_get_frame_offset_dropped t
  unfold rv_slot_recycle
  simp only []
  split
  · simp [hg, he]
  · split
    · split_ifs
      · simp [hg, he]
      · simp [hg, he]
    · simp [hg, he]

theorem rv_slot_by_tmstamp_offset_dropped (s : st_rx_video_session_impl) (tmstamp : Nat)
    (pd : Option Nat) :
    (rv_slot_by_tmstamp s tmstamp pd).1.stats.stat_pkts_offset_dropped =
      s.stats.stat_pkts_offset_dropped := by
  unfold rv_slot_by_tmstamp
  split
  · rfl
  · split_ifs
    · rfl
    · exact rv_slot_recycle_offset_dropped s tmstamp pd

theorem rv_st22_slot_full_frame_kept (s : st_rx_video_session_impl) (i f : Nat) :
    rv_consts s (rv_st22_slot_full_frame s i f) ∧
    (∀ j, slot_fixed (s.slots j) ((rv_st22_slot_full_frame s i f).slots j)) ∧
    (∀ j, j ≠ i → slot_counts (s.slots j) ((rv_st22_slot_full_frame s i f).slots j) ∧
      ((rv_st22_slot_full_frame s i f).slots j).frame = (s.slots j).frame) ∧
    ((rv_st22_slot_full_frame s i f).slots i).frame = none ∧
    (rv_st22_slot_full_frame s i f).stats.stat_pkts_offset_dropped =
      s.stats.stat_pkts_offset_dropped := by
  have hn := rv_st22_frame_notify_kept s i f .COMPLETE
  have ho := rv_st22_frame_notify_offset_dropped s i f .COMPLETE
  unfold rv_st22_slot_full_frame
  simp only []
  refine ⟨hn.1, fun j => ?_, fun j hj => ?_, by simp, ho⟩
  · by_cases hj : j = i
    · subst hj
      simpa [rv_slot_init_frame_size, slot_fixed] using (hn.2 j).1
    · simp only [Function.update_noteq hj]
      exact (hn.2 j).1
  · simp only [Function.update_noteq hj]
    exact ⟨(hn.2 j).2.1, (hn.2 j).2.2 hj⟩

theorem rv_st22_slot_full_frame_bits_inv (n : Nat) (s : st_rx_video_session_impl)
    (i f : Nat) (h : rv_bits_inv n s) : rv_bits_inv n (rv_st22_slot_full_frame s i f) := by
  obtain ⟨hc, hfix, hoth, hfr, -⟩ := rv_st22_slot_full_frame_kept s i f
  refine ⟨hc.2.1.trans h.1, fun j => ?_⟩
  by_cases hj : j = i
  · subst hj
    refine slot_bits_inv_no_frame _ _ ?_ hfr
    rw [(hfix j).2.2.2]
    exact (h.2 j).1
  · exact slot_bits_inv_keep _ _ _ (hfix j).2.2.2 (hfix j).2.2.1 (hoth j hj).1.1 (hoth j hj).2
      (h.2 j)

theorem rv_st22_pkt_finish_bits_inv (n : Nat) (s : st_rx_video_session_impl) (i f : Nat)
    (h : rv_bits_inv n s) : rv_bits_inv n (rv_st22_pkt_finish s i f).state := by
  unfold rv_st22_pkt_finish
  split_ifs
  · exact rv_st22_slot_full_frame_bits_inv n s i f h
  · exact h

theorem rv_st22_pkt_finish_offset_dropped (s : st_rx_video_session_impl) (i f : Nat) :
    (rv_st22_pkt_finish s i f).state.stats.stat_pkts_offset_dropped =
      s.stats.stat_pkts_offset_dropped := by
  unfold rv_st22_pkt_finish
  split_ifs
  · exact (rv_st22_slot_full_frame_kept s i f).2.2.2.2
  · rfl

theorem rv_st22_pkt_finish_ret (s : st_rx_video_session_impl) (i f : Nat) :
    rv_st22_pkt_finish s i f = .ret 0 (rv_st22_pkt_finish s i f).state := by
  unfold rv_st22_pkt_finish
  split_ifs <;> rfl

theorem rv_st22_pkt_copy_slots (s : st_rx_video_session_impl) (mbuf : st22_mbuf)
    (i f offset skip len : Nat) :
    (rv_st22_pkt_copy s mbuf i f offset skip len).st20_frame_bitmap_size =
      s.st20_frame_bitmap_size ∧
    (∀ j, j ≠ i → (rv_st22_pkt_copy s mbuf i f offset skip len).slots j = s.slots j) ∧
    ((rv_st22_pkt_copy s mbuf i f offset skip len).slots i).frame_bitmap =
      (s.slots i).frame_bitmap ∧
    ((rv_st22_pkt_copy s mbuf i f offset skip len).slots i).seq_id_got =
      (s.slots i).seq_id_got ∧
    ((rv_st22_pkt_copy s mbuf i f offset skip len).slots i).frame = (s.slots i).frame ∧
    ((rv_st22_pkt_copy s mbuf i f offset skip len).slots i).pkts_received =
      (s.slots i).pkts_received + 1 ∧
    (rv_st22_pkt_copy s mbuf i f offset skip len).stats.stat_pkts_offset_dropped =
      s.stats.stat_pkts_offset_dropped := by
  unfold rv_st22_pkt_copy
  refine ⟨rfl, fun j hj => ?_, ?_, ?_, ?_, ?_, rfl⟩
  · simp [Function.update_noteq hj, frame_memcpy]
  · simp [rv_slot_add_frame_size, frame_memcpy]
  · simp [rv_slot_add_frame_size, frame_memcpy]
  · simp [rv_slot_add_frame_size, frame_memcpy]
  · simp [rv_slot_add_frame_size, frame_memcpy]

theorem rv_st22_expect_size_kept (s : st_rx_video_session_impl) (marker : Bool)
    (offset len : Nat) :
    rv_kept s (rv_st22_expect_size s marker offset len) ∧
    (rv_st22_expect_size s marker offset len).stats.stat_pkts_offset_dropped =
      s.stats.stat_pkts_offset_dropped := by
  unfold rv_st22_expect_size
  split_ifs
  · exact ⟨rv_kept_of_slots _ _ rfl rfl rfl rfl, rfl⟩
  · exact ⟨rv_kept_refl _, rfl⟩

theorem rv_handle_st22_pkt_place_offset_dropped (s : st_rx_video_session_impl)
    (mbuf : st22_mbuf) (i : Nat) :
    s.stats.stat_pkts_offset_dropped ≤
      (rv_handle_st22_pkt_place s mbuf i).state.stats.stat_pkts_offset_dropped := by
  unfold rv_handle_st22_pkt_place
  cases hf : (s.slots i).frame with
  | none =>
    simp only [hf]
    exact Nat.le_refl _
  | some f =>
    simp only [hf]
    by_cases h1 : s.st20_frame_size <
        (rv_st22_offset (s.slots i) (st22_pkt_counter mbuf) +
          rv_st22_copy_length (s.slots i) (st22_pkt_counter mbuf)
            (st22_payload_length s mbuf)) % U32
    · rw [if_pos h1]
      exact Nat.le_succ _
    · rw [if_neg h1]
      rw [rv_st22_pkt_finish_offset_dropped, (rv_st22_expect_size_kept _ _ _ _).2,
        (rv_st22_pkt_copy_slots s mbuf i f _ _ _).2.2.2.2.2.2]

theorem rv_handle_st22_pkt_place_bits_inv (n : Nat) (s : st_rx_video_session_impl)
    (mbuf : st22_mbuf) (i : Nat) (code : Int) (s2 : st_rx_video_session_impl)
    (hn : s.st20_frame_bitmap_size = n)
    (h : ∀ j, j ≠ i → slot_bits_inv n (s.slots j))
    (hnd : (s.slots i).frame_bitmap.Nodup)
    (hp : (s.slots i).frame ≠ none → slot_bits_pending n (s.slots i))
    (hoff : s2.stats.stat_pkts_offset_dropped = s.stats.stat_pkts_offset_dropped)
    (hr : rv_handle_st22_pkt_place s mbuf i = .ret code s2) :
    rv_bits_inv n s2 := by
  unfold rv_handle_st22_pkt_place at hr
  cases hf : (s.slots i).frame with
  | none =>
    simp only [hf, rv_result.ret.injEq] at hr
    rw [← hr.2]
    refine ⟨hn, fun j => ?_⟩
    by_cases hj : j = i
    · subst hj
      exact slot_bits_inv_no_frame _ _ hnd hf
    · exact h j hj
  | some f =>
    simp only [hf] at hr
    by_cases h1 : s.st20_frame_size <
        (rv_st22_offset (s.slots i) (st22_pkt_counter mbuf) +
          rv_st22_copy_length (s.slots i) (st22_pkt_counter mbuf)
            (st22_payload_length s mbuf)) % U32
    · rw [if_pos h1] at hr
      simp only [rv_result.ret.injEq] at hr
      rw [← hr.2] at hoff
      exact absurd hoff (Nat.succ_ne_self _)
    · rw [if_neg h1] at hr
      have e := congrArg rv_result.state hr
      simp only [rv_result.state] at e
      rw [← e]
      apply rv_st22_pkt_finish_bits_inv
      refine rv_bits_inv_kept _ _ _ (rv_st22_expect_size_kept _ _ _ _).1 ?_
      obtain ⟨c1, c2, c3, c4, c5, c6, -⟩ := rv_st22_pkt_copy_slots s mbuf i f
        (rv_st22_offset (s.slots i) (st22_pkt_counter mbuf))
        (if st22_pkt_counter mbuf = 0 then (s.slots i).st22_box_hdr_length else 0)
        (rv_st22_copy_length (s.slots i) (st22_pkt_counter mbuf) (st22_payload_length s mbuf))
      refine ⟨c1.trans hn, fun j => ?_⟩
      by_cases hj : j = i
      · subst hj
        exact slot_bits_counted n (s.slots j) _ c3 c4 c6 (hp (by rw [hf]; simp))
      · rw [c2 j hj]
        exact h j hj

theorem rv_st22_seq_pkt_idx_lt (seq_id seq_id_base : Nat) (h : seq_id < 65536) :
    rv_st22_seq_pkt_idx seq_id seq_id_base < 2147483648 := by
  unfold rv_st22_seq_pkt_idx
  split_ifs <;> omega

theorem rv_handle_st22_pkt_slot_offset_dropped (s : st_rx_video_session_impl)
    (mbuf : st22_mbuf) (i : Nat) :
    s.stats.stat_pkts_offset_dropped ≤
      (rv_handle_st22_pkt_slot s mbuf i).state.stats.stat_pkts_offset_dropped := by
  have key : ∀ s1 : st_rx_video_session_impl, s1.stats = s.stats →
      s.stats.stat_pkts_offset_dropped ≤
        (rv_handle_st22_pkt_place s1 mbuf i).state.stats.stat_pkts_offset_dropped := by
    intro s1 h1
    have := rv_handle_st22_pkt_place_offset_dropped s1 mbuf i
    rw [h1] at this
    exact this
  unfold rv_handle_st22_pkt_slot
  simp only []
  split_ifs
  · exact Nat.le_refl _
  · exact Nat.le_refl _
  · exact Nat.le_refl _
  · exact key _ rfl
  · split
    · exact Nat.le_refl _
    · exact key _ rfl
  · split
    · exact Nat.le_refl _
    · exact key _ rfl
  · split
    · exact Nat.le_refl _
    · exact key _ rfl

theorem rv_handle_st22_pkt_slot_bits_inv (n : Nat) (s : st_rx_video_session_impl)
    (mbuf : st22_mbuf) (i : Nat) (code : Int) (s2 : st_rx_video_session_impl)
    (h : rv_bits_inv n s)
    (hoff : s2.stats.stat_pkts_offset_dropped = s.stats.stat_pkts_offset_dropped)
    (hr : rv_handle_st22_pkt_slot s mbuf i = .ret code s2) :
    rv_bits_inv n s2 := by
  obtain ⟨hn, hs⟩ := h
  unfold rv_handle_st22_pkt_slot at hr
  simp only [] at hr
  by_cases hgot : (s.slots i).seq_id_got = true
  · rw [if_pos hgot] at hr
    by_cases hw : (!mbuf.marker &&
        decide (st22_payload_length s mbuf ≠ (s.slots i).st22_payload_length)) = true
    · rw [if_pos hw] at hr
      simp only [rv_result.ret.injEq] at hr
      rw [← hr.2]
      exact rv_bits_inv_kept _ _ _ (rv_kept_of_slots _ _ rfl rfl rfl rfl) ⟨hn, hs⟩
    · rw [if_neg hw] at hr
      by_cases hoo : rv_st22_seq_pkt_idx (mbuf.seq_number % U16) (s.slots i).seq_id_base < 0 ∨
          s.st20_frame_bitmap_size * 8 ≤
            to_size_t (rv_st22_seq_pkt_idx (mbuf.seq_number % U16) (s.slots i).seq_id_base)
      · rw [if_pos hoo] at hr
        simp only [rv_result.ret.injEq] at hr
        rw [← hr.2]
        exact rv_bits_inv_kept _ _ _ (rv_kept_of_slots _ _ rfl rfl rfl rfl) ⟨hn, hs⟩
      · rw [if_neg hoo] at hr
        by_cases hset : (mt_bitmap_test_and_set (s.slots i).frame_bitmap
            (rv_st22_seq_pkt_idx (mbuf.seq_number % U16) (s.slots i).seq_id_base)).1 = true
        · rw [if_pos hset] at hr
          simp only [rv_result.ret.injEq] at hr
          rw [← hr.2]
          exact rv_bits_inv_kept _ _ _
            (rv_kept_slot_update s i _ _ ⟨rfl, rfl, rfl, rfl⟩ ⟨rfl, rfl, rfl⟩ rfl) ⟨hn, hs⟩
        · rw [if_neg hset] at hr
          have hmem : rv_st22_seq_pkt_idx (mbuf.seq_number % U16) (s.slots i).seq_id_base ∉
              (s.slots i).frame_bitmap := by
            intro hm
            apply hset
            simp [mt_bitmap_test_and_set, hm]
          have he : (mt_bitmap_test_and_set (s.slots i).frame_bitmap
              (rv_st22_seq_pkt_idx (mbuf.seq_number % U16) (s.slots i).seq_id_base)).2 =
              rv_st22_seq_pkt_idx (mbuf.seq_number % U16) (s.slots i).seq_id_base ::
                (s.slots i).frame_bitmap := by
            simp [mt_bitmap_test_and_set, hmem]
          have h0 : 0 ≤ rv_st22_seq_pkt_idx (mbuf.seq_number % U16) (s.slots i).seq_id_base := by
            omega
          have h1 : rv_st22_seq_pkt_idx (mbuf.seq_number % U16) (s.slots i).seq_id_base <
              (n : Int) * 8 := by
            have hlt := rv_st22_seq_pkt_idx_lt (mbuf.seq_number % U16) (s.slots i).seq_id_base
              (Nat.mod_lt _ (by decide))
            have hcast := to_size_t_of_nonneg _ h0 hlt
            rw [← hn]
            omega
          rw [he] at hr
          refine rv_handle_st22_pkt_place_bits_inv n _ mbuf i code s2 ?_ ?_ ?_ ?_ ?_ hr
          · exact hn
          · intro j hj
            simp only [Function.update_noteq hj]
            exact hs j
          · simp only [Function.update_same]
            exact List.nodup_cons.mpr ⟨hmem, (hs i).1⟩
          · simp only [Function.update_same]
            intro hfr
            exact slot_bits_pending_set_in n (s.slots i) _ (hs i) hfr hgot hmem h0 h1
          · exact hoff
  · rw [if_neg hgot] at hr
    have hgot2 : (s.slots i).seq_id_got = false := by simpa using hgot
    revert hr
    generalize (if st22_pkt_counter mbuf = 0 then
        if s.st22_flag_disable_boxes = true then some 0 else rv_parse_st22_boxes mbuf.payload
      else some (s.slots i).st22_box_hdr_length) = boxes
    intro hr
    cases boxes with
    | none =>
      simp only [rv_result.ret.injEq] at hr
      rw [← hr.2]
      exact rv_bits_inv_kept _ _ _ (rv_kept_of_slots _ _ rfl rfl rfl rfl) ⟨hn, hs⟩
    | some box_hdr_length =>
      simp only [] at hr
      refine rv_handle_st22_pkt_place_bits_inv n _ mbuf i code s2 ?_ ?_ ?_ ?_ ?_ hr
      · exact hn
      · intro j hj
        simp only [Function.update_noteq hj]
        exact hs j
      · simp only [Function.update_same]
        exact mt_bitmap_test_and_set_nodup _ _ (hs i).1
      · simp only [Function.update_same]
        intro hfr
        exact slot_bits_pending_first n (s.slots i) _ (st22_pkt_counter mbuf : Int) (hs i) hfr
          hgot2 rfl rfl rfl
      · exact hoff

theorem rv_handle_st22_pkt_offset_dropped (s : st_rx_video_session_impl) (mbuf : st22_mbuf)
    (s_port : Nat) (ctrl_thread : Bool) :
    s.stats.stat_pkts_offset_dropped ≤
      (rv_handle_st22_pkt s mbuf s_port ctrl_thread).state.stats.stat_pkts_offset_dropped := by
  have hl := rv_slot_by_tmstamp_offset_dropped s (mbuf.tmstamp % U32) none
  unfold rv_handle_st22_pkt
  simp only []
  split_ifs
  · exact Nat.le_refl _
  · exact Nat.le_refl _
  · split
    · exact Nat.le_of_eq hl.symm
    · rename_i i hi
      have := rv_handle_st22_pkt_slot_offset_dropped (rv_slot_by_tmstamp s (mbuf.tmstamp % U32)
        none).1 mbuf i
      rw [hl] at this
      exact this

theorem rv_handle_st22_pkt_bits_inv (n : Nat) (s : st_rx_video_session_impl)
    (mbuf : st22_mbuf) (s_port : Nat) (ctrl_thread : Bool) (code : Int)
    (s2 : st_rx_video_session_impl) (h : rv_bits_inv n s)
    (hoff : s2.stats.stat_pkts_offset_dropped = s.stats.stat_pkts_offset_dropped)
    (hr : rv_handle_st22_pkt s mbuf s_port ctrl_thread = .ret code s2) :
    rv_bits_inv n s2 := by
  have hl := rv_slot_by_tmstamp_bits_inv n s (mbuf.tmstamp % U32) none h
  have ho := rv_slot_by_tmstamp_offset_dropped s (mbuf.tmstamp % U32) none
  unfold rv_handle_st22_pkt at hr
  simp only [] at hr
  split_ifs at hr
  · simp only [rv_result.ret.injEq] at hr
    rw [← hr.2]
    exact rv_bits_inv_kept _ _ _ (rv_kept_of_slots _ _ rfl rfl rfl rfl) h
  · simp only [rv_result.ret.injEq] at hr
    rw [← hr.2]
    exact rv_bits_inv_kept _ _ _ (rv_kept_of_slots _ _ rfl rfl rfl rfl) h
  · split at hr
    · simp only [rv_result.ret.injEq] at hr
      rw [← hr.2]
      exact rv_bits_inv_kept _ _ _ (rv_kept_of_slots _ _ rfl rfl rfl rfl) hl
    · rename_i i hi
      exact rv_handle_st22_pkt_slot_bits_inv n _ mbuf i code s2 hl (hoff.trans ho.symm) hr

theorem rv_handle_st22_pkts_offset_dropped (pkts : List (st22_mbuf × Nat × Bool)) :
    ∀ s : st_rx_video_session_impl,
      s.stats.stat_pkts_offset_dropped ≤
        (rv_handle_st22_pkts s pkts).2.stats.stat_pkts_offset_dropped := by
  induction pkts with
  | nil => intro s; exact Nat.le_refl _
  | cons p rest ih =>
    intro s
    have h1 := rv_handle_st22_pkt_offset_dropped s p.1 p.2.1 p.2.2
    unfold rv_handle_st22_pkts
    cases hr : rv_handle_st22_pkt s p.1 p.2.1 p.2.2 with
    | fault s1 =>
      rw [hr] at h1
      exact h1
    | ret code s1 =>
      rw [hr] at h1
      exact Nat.le_trans h1 (ih s1)

theorem rv_handle_st22_pkts_bits_inv (n : Nat) (pkts : List (st22_mbuf × Nat × Bool)) :
    ∀ s : st_rx_video_session_impl, rv_bits_inv n s →
      (rv_handle_st22_pkts s pkts).1.length = pkts.length →
      (rv_handle_st22_pkts s pkts).2.stats.stat_pkts_offset_dropped =
        s.stats.stat_pkts_offset_dropped →
      rv_bits_inv n (rv_handle_st22_pkts s pkts).2 := by
  induction pkts with
  | nil => intro s h _ _; exact h
  | cons p rest ih =>
    intro s h hlen hoff
    have h1 := rv_handle_st22_pkt_offset_dropped s p.1 p.2.1 p.2.2
    unfold rv_handle_st22_pkts at hlen hoff ⊢
    cases hr : rv_handle_st22_pkt s p.1 p.2.1 p.2.2 with
    | fault s1 =>
      rw [hr] at hlen
      simp at hlen
    | ret code s1 =>
      rw [hr] at hlen hoff h1
      simp only [List.length_cons, Nat.add_right_cancel_iff] at hlen
      simp only [] at hoff ⊢
      have h2 := rv_handle_st22_pkts_offset_dropped rest s1
      have e1 : s1.stats.stat_pkts_offset_dropped = s.stats.stat_pkts_offset_dropped := by
        have h1b : s.stats.stat_pkts_offset_dropped ≤ s1.stats.stat_pkts_offset_dropped := h1
        omega
      exact ih s1 (rv_handle_st22_pkt_bits_inv n s _ _ _ code s1 h e1 hr) hlen
        (hoff.trans e1.symm)

theorem rv_bits_inv_of_no_frame (s : st_rx_video_session_impl)
    (h : ∀ i, (s.slots i).frame_bitmap = [] ∧ (s.slots i).frame = none) :
    rv_bits_inv s.st20_frame_bitmap_size s :=
  ⟨rfl, fun i => slot_bits_inv_no_frame _ _ (by rw [(h i).1]; exact List.nodup_nil) (h i).2⟩

theorem rv_session_init_bits_inv (width height pg_size pg_coverage linesize num_port
    frames_cnt : Nat) (dma_dev : Option mtl_dma_lender_dev) :
    rv_bits_inv
      (rv_session_init width height pg_size pg_coverage linesize num_port frames_cnt
        dma_dev).st20_frame_bitmap_size
      (rv_session_init width height pg_size pg_coverage linesize num_port frames_cnt dma_dev) :=
  rv_bits_inv_of_no_frame _ (fun _ => ⟨rfl, rfl⟩)

theorem slot_bits_inv_count (n : Nat) (slot : st_rx_video_slot_impl)
    (h : slot_bits_inv n slot) (hfr : slot.frame ≠ none) :
    slot.frame_bitmap.Nodup ∧
    (slot.seq_id_got = false →
      slot.pkts_received = 0 ∧ window_bits n slot.frame_bitmap = 0) ∧
    window_bits n slot.frame_bitmap ≤ slot.pkts_received ∧
    slot.pkts_received ≤ window_bits n slot.frame_bitmap + 1 ∧
    ((∀ idx ∈ slot.frame_bitmap, 0 ≤ idx ∧ idx < (n : Int) * 8) →
      window_bits n slot.frame_bitmap = slot.pkts_received) := by
  obtain ⟨hnd, hb⟩ := h
  obtain ⟨hfirst, hk⟩ := hb hfr
  refine ⟨hnd, hfirst, ?_, ?_, ?_⟩
  · rcases hk with hk | ⟨hk, -⟩ <;> omega
  · rcases hk with hk | ⟨hk, -⟩ <;> omega
  · intro hall
    rcases hk with hk | ⟨-, idx, hidx, hout⟩
    · exact hk.symm
    · exact absurd (hall idx hidx) hout

/-- Claim C17, counterexample: (1) after the 1080p session has handled `mbuf_example` twice (the
packet and its duplicate), slot 0 holds a frame with one bit set, `pkts_received` 1 and
`pkts_redundant_received` 1: one set bit, but the sum of the counters is 2.  (2) The same
with the ST 2110-22 handler and packet 0 of the example frame.  (3) The ST 2110-22 handler
sets the bit of a packet before the offset test: packet 1 arriving first on a
session with frames of 150 bytes is dropped by that test, and slot 0 holds a
frame with bit 1 set and both counters 0.  (4) The first packet `mbuf_line_1079_600` of a
frame is counted although its index 8632 is outside the 6480 bits of the bitmap:
no bit inside the bitmap, `pkts_received` 1.  (5) When a frame completes the counters of
its slot are reset and the frame is handed over, but the bits stay until the
slot gets its next frame: three bits set, both counters 0. -/
theorem bitmap_bits_differ_from_counters :
    ((session_1080p_duplicate.slots 0).frame = some 0 ∧
      (session_1080p_duplicate.slots 0).frame_bitmap = [0] ∧
      (session_1080p_duplicate.slots 0).pkts_received = 1 ∧
      (session_1080p_duplicate.slots 0).pkts_redundant_received = 1) ∧
    ((session_st22_duplicate.slots 0).frame = some 0 ∧
      (session_st22_duplicate.slots 0).frame_bitmap = [0] ∧
      (session_st22_duplicate.slots 0).pkts_received = 1 ∧
      (session_st22_duplicate.slots 0).pkts_redundant_received = 1) ∧
    ((rv_handle_st22_pkt (session_st22 150) (st22_pkt_example 1) 0 true).code =
        some (- EIO_errno) ∧
      session_st22_offset_dropped.stats.stat_pkts_offset_dropped = 1 ∧
      (session_st22_offset_dropped.slots 0).frame = some 0 ∧
      (session_st22_offset_dropped.slots 0).frame_bitmap = [1] ∧
      (session_st22_offset_dropped.slots 0).pkts_received = 0 ∧
      (session_st22_offset_dropped.slots 0).pkts_redundant_received = 0) ∧
    (session_1080p.st20_frame_bitmap_size * 8 = 6480 ∧
      (session_1080p_first_past_bitmap.slots 0).frame = some 0 ∧
      (session_1080p_first_past_bitmap.slots 0).frame_bitmap = [8632] ∧
      window_bits session_1080p.st20_frame_bitmap_size
        (session_1080p_first_past_bitmap.slots 0).frame_bitmap = 0 ∧
      (session_1080p_first_past_bitmap.slots 0).pkts_received = 1 ∧
      (session_1080p_first_past_bitmap.slots 0).pkts_redundant_received = 0) ∧
    ((session_2x4_frame_done.slots 0).frame = none ∧
      (session_2x4_frame_done.slots 0).frame_bitmap = [2, 1, 0] ∧
      (session_2x4_frame_done.slots 0).pkts_received = 0 ∧
      (session_2x4_frame_done.slots 0).pkts_redundant_received = 0) := by
  refine ⟨⟨by decide, by decide, by decide, by decide⟩,
    ⟨by decide, by decide, by decide, by decide⟩,
    ⟨by decide, by decide, by decide, by decide, by decide, by decide⟩,
    ⟨by decide, by decide, by decide, by decide, by decide, by decide⟩,
    ⟨by decide, by decide, by decide, by decide⟩⟩

/-- Claim C17, amended: take a state reached from a session that satisfies the bitmap invariant
(a new session does) (1) by calls of `rv_handle_frame_pkt` that all returned, or (2) by calls of
`rv_handle_st22_pkt` that all returned and of which none was dropped by the offset test
(`stat_pkts_offset_dropped` is what it was).  For a slot that holds a frame, the bitmap
size is unchanged, no index is in the bitmap twice, before the first packet
of the frame no packet is counted and no bit inside the bitmap is set, and the
number of bits set inside the bitmap is `pkts_received` whenever every index written
to the bitmap lies inside it (the two differ by at most one when an index
outside the bitmap was written).  `pkts_redundant_received` is not part of the count. -/
theorem rv_handle_pkts_bitmap_count :
    (∀ (s0 : st_rx_video_session_impl) (pkts : List (rte_mbuf × Nat × Bool)) (i : Nat),
      rv_bits_inv s0.st20_frame_bitmap_size s0 →
      (rv_handle_frame_pkts s0 pkts).1.length = pkts.length →
      ((rv_handle_frame_pkts s0 pkts).2.slots i).frame ≠ none →
      (rv_handle_frame_pkts s0 pkts).2.st20_frame_bitmap_size = s0.st20_frame_bitmap_size ∧
      ((rv_handle_frame_pkts s0 pkts).2.slots i).frame_bitmap.Nodup ∧
      (((rv_handle_frame_pkts s0 pkts).2.slots i).seq_id_got = false →
        ((rv_handle_frame_pkts s0 pkts).2.slots i).pkts_received = 0 ∧
        window_bits s0.st20_frame_bitmap_size
          ((rv_handle_frame_pkts s0 pkts).2.slots i).frame_bitmap = 0) ∧
      window_bits s0.st20_frame_bitmap_size
          ((rv_handle_frame_pkts s0 pkts).2.slots i).frame_bitmap ≤
        ((rv_handle_frame_pkts s0 pkts).2.slots i).pkts_received ∧
      ((rv_handle_frame_pkts s0 pkts).2.slots i).pkts_received ≤
        window_bits s0.st20_frame_bitmap_size
          ((rv_handle_frame_pkts s0 pkts).2.slots i).frame_bitmap + 1 ∧
      ((∀ idx ∈ ((rv_handle_frame_pkts s0 pkts).2.slots i).frame_bitmap,
          0 ≤ idx ∧ idx < (s0.st20_frame_bitmap_size : Int) * 8) →
        window_bits s0.st20_frame_bitmap_size
            ((rv_handle_frame_pkts s0 pkts).2.slots i).frame_bitmap =
          ((rv_handle_frame_pkts s0 pkts).2.slots i).pkts_received)) ∧
    (∀ (s0 : st_rx_video_session_impl) (pkts : List (st22_mbuf × Nat × Bool)) (i : Nat),
      rv_bits_inv s0.st20_frame_bitmap_size s0 →
      (rv_handle_st22_pkts s0 pkts).1.length = pkts.length →
      (rv_handle_st22_pkts s0 pkts).2.stats.stat_pkts_offset_dropped =
        s0.stats.stat_pkts_offset_dropped →
      ((rv_handle_st22_pkts s0 pkts).2.slots i).frame ≠ none →
      (rv_handle_st22_pkts s0 pkts).2.st20_frame_bitmap_size = s0.st20_frame_bitmap_size ∧
      ((rv_handle_st22_pkts s0 pkts).2.slots i).frame_bitmap.Nodup ∧
      (((rv_handle_st22_pkts s0 pkts).2.slots i).seq_id_got = false →
        ((rv_handle_st22_pkts s0 pkts).2.slots i).pkts_received = 0 ∧
        window_bits s0.st20_frame_bitmap_size
          ((rv_handle_st22_pkts s0 pkts).2.slots i).frame_bitmap = 0) ∧
      window_bits s0.st20_frame_bitmap_size
          ((rv_handle_st22_pkts s0 pkts).2.slots i).frame_bitmap ≤
        ((rv_handle_st22_pkts s0 pkts).2.slots i).pkts_received ∧
      ((rv_handle_st22_pkts s0 pkts).2.slots i).pkts_received ≤
        window_bits s0.st20_frame_bitmap_size
          ((rv_handle_st22_pkts s0 pkts).2.slots i).frame_bitmap + 1 ∧
      ((∀ idx ∈ ((rv_handle_st22_pkts s0 pkts).2.slots i).frame_bitmap,
          0 ≤ idx ∧ idx < (s0.st20_frame_bitmap_size : Int) * 8) →
        window_bits s0.st20_frame_bitmap_size
            ((rv_handle_st22_pkts s0 pkts).2.slots i).frame_bitmap =
          ((rv_handle_st22_pkts s0 pkts).2.slots i).pkts_received)) := by
  refine ⟨fun s0 pkts i h0 hrun hheld => ?_, fun s0 pkts i h0 hrun hoff hheld => ?_⟩
  · have h := rv_handle_frame_pkts_bits_inv _ pkts s0 h0 hrun
    exact ⟨h.1, slot_bits_inv_count _ _ (h.2 i) hheld⟩
  · have h := rv_handle_st22_pkts_bits_inv _ pkts s0 h0 hrun hoff
    exact ⟨h.1, slot_bits_inv_count _ _ (h.2 i) hheld⟩

/-- Claim C17 at concrete inputs: (1) the 1080p session after `mbuf_example` and its duplicate: slot 0
holds a frame, its one bit is inside the bitmap, and `pkts_received` is 1; (2) the ST 2110-22
session after packets 0 and 1 of the example frame and a second copy of packet 1: no
packet was dropped by the offset test, slot 0 holds a frame, its two bits are
inside the bitmap, and `pkts_received` is 2. -/
theorem rv_handle_pkts_bitmap_count_witness :
    ((rv_handle_frame_pkts session_1080p
        [(mbuf_example, 0, true), (mbuf_example, 1, true)]).1.length = 2 ∧
      ((rv_handle_frame_pkts session_1080p
        [(mbuf_example, 0, true), (mbuf_example, 1, true)]).2.slots 0).frame ≠ none ∧
      (∀ idx ∈ ((rv_handle_frame_pkts session_1080p
          [(mbuf_example, 0, true), (mbuf_example, 1, true)]).2.slots 0).frame_bitmap,
        0 ≤ idx ∧ idx < (session_1080p.st20_frame_bitmap_size : Int) * 8) ∧
      ((rv_handle_frame_pkts session_1080p
        [(mbuf_example, 0, true), (mbuf_example, 1, true)]).2.slots 0).pkts_received = 1 ∧
      window_bits session_1080p.st20_frame_bitmap_size
          ((rv_handle_frame_pkts session_1080p
            [(mbuf_example, 0, true), (mbuf_example, 1, true)]).2.slots 0).frame_bitmap =
        ((rv_handle_frame_pkts session_1080p
          [(mbuf_example, 0, true), (mbuf_example, 1, true)]).2.slots 0).pkts_received) ∧
    ((rv_handle_st22_pkts (session_st22 100000)
        [(st22_pkt_example 0, 0, true), (st22_pkt_example 1, 0, true),
          (st22_pkt_example 1, 1, true)]).1.length = 3 ∧
      (rv_handle_st22_pkts (session_st22 100000)
        [(st22_pkt_example 0, 0, true), (st22_pkt_example 1, 0, true),
          (st22_pkt_example 1, 1, true)]).2.stats.stat_pkts_offset_dropped =
        (session_st22 100000).stats.stat_pkts_offset_dropped ∧
      ((rv_handle_st22_pkts (session_st22 100000)
        [(st22_pkt_example 0, 0, true), (st22_pkt_example 1, 0, true),
          (st22_pkt_example 1, 1, true)]).2.slots 0).frame ≠ none ∧
      (∀ idx ∈ ((rv_handle_st22_pkts (session_st22 100000)
          [(st22_pkt_example 0, 0, true), (st22_pkt_example 1, 0, true),
            (st22_pkt_example 1, 1, true)]).2.slots 0).frame_bitmap,
        0 ≤ idx ∧ idx < ((session_st22 100000).st20_frame_bitmap_size : Int) * 8) ∧
      ((rv_handle_st22_pkts (session_st22 100000)
        [(st22_pkt_example 0, 0, true), (st22_pkt_example 1, 0, true),
          (st22_pkt_example 1, 1, true)]).2.slots 0).pkts_received = 2 ∧
      window_bits (session_st22 100000).st20_frame_bitmap_size
          ((rv_handle_st22_pkts (session_st22 100000)
            [(st22_pkt_example 0, 0, true), (st22_pkt_example 1, 0, true),
              (st22_pkt_example 1, 1, true)]).2.slots 0).frame_bitmap =
        ((rv_handle_st22_pkts (session_st22 100000)
          [(st22_pkt_example 0, 0, true), (st22_pkt_example 1, 0, true),
            (st22_pkt_example 1, 1, true)]).2.slots 0).pkts_received) :=
  ⟨⟨by decide, by decide, by decide, by decide,
      (rv_handle_pkts_bitmap_count.1 session_1080p
        [(mbuf_example, 0, true), (mbuf_example, 1, true)] 0
        (rv_session_init_bits_inv 1920 1080 5 2 4800 1 2 none) (by decide)
        (by decide)).2.2.2.2.2 (by decide)⟩,
    ⟨by decide, by decide, by decide, by decide, by decide,
      (rv_handle_pkts_bitmap_count.2 (session_st22 100000)
        [(st22_pkt_example 0, 0, true), (st22_pkt_example 1, 0, true),
          (st22_pkt_example 1, 1, true)] 0
        (rv_bits_inv_of_no_frame _ (fun _ => ⟨rfl, rfl⟩)) (by decide) (by decide)
        (by decide)).2.2.2.2.2 (by decide)⟩⟩

end RxVideo
